import Mathlib

/-!
# comfyui2go: completion tracking over polling and over the event stream

A shallow embedding of the Go client (`client.go`, `options.go`, `types.go`,
`websocket.go`).  Go values become Lean data, `(T, error)` results become pairs of
options, goroutines become events of a step function, and closures become data
(`ExecutionCallback.waitWrapper`, `ErrorCallback.waitWrapper`) interpreted by `invoke`.
Results of library calls (HTTP round trips, `websocket.Dial`, `conn.Read`, `url.Parse`)
are supplied by the environment as arguments or events; `url.QueryEscape`,
`Values.Encode` and the number conversions of `encoding/json` and `strconv` are defined
here.

Conventions of the model:
* a frame is given as the JSON document its bytes spell (or as a syntax error); decoding
  into Go structs follows `encoding/json` (case-folded field names, `null` leaves a field
  alone, the first type error is reported); a number decoded into an `interface{}` is
  the float64 nearest to its literal, a literal beyond the float64 range is a type error,
  and an `int` field is read from the literal that `json.Marshal` writes for the float64;
* a callback supplied by the caller is opaque: calling it records the call and its
  arguments, nothing else;
* a method that runs under a mutex, and the set-up of a wait before its `select`, is one
  step; everything that can interleave with it is an `Event`;
* `ctx.Done()` of a caller context is observed through the list of cancelled contexts; a
  deadline of a caller context counts as a cancellation.
-/

namespace Comfyui2go

/-! ## Errors and contexts -/

/-- The two values `ctx.Err()` can take once `ctx.Done()` is closed. -/
inductive ContextErr
  | canceled
  | deadlineExceeded
  deriving DecidableEq, Repr

/-- Go `error` values seen by the client. -/
inductive GoError
  | context (e : ContextErr)
  | errorf (text : String)
  | transport (text : String)
  | jsonSyntax (text : String)
  | unmarshalType (value : String) (target : String)
  deriving DecidableEq, Repr

/-- The text of `err.Error()`. -/
def GoError.Error : GoError → String
  | .context .canceled => "context canceled"
  | .context .deadlineExceeded => "context deadline exceeded"
  | .errorf text => text
  | .transport text => text
  | .jsonSyntax text => text
  | .unmarshalType value target => "json: cannot unmarshal " ++ value ++ " into " ++ target

/-- A `context.Context` handed in by a caller: `context.Background()` or a context the
caller can cancel, named by a number. -/
inductive Context
  | background
  | cancellable (id : Nat)
  deriving DecidableEq, Repr

/-- Whether `ctx.Done()` is closed, given the ids of the contexts cancelled so far. -/
def Context.isDone (cancelled : List Nat) : Context → Bool
  | .background => false
  | .cancellable id => cancelled.contains id

/-! ## JSON documents and Go maps -/

/-- A JSON number.  In the text of a document it is a literal: an integer literal, kept by
its value, or any other literal, kept as written.  In an `interface{}` it is the float64
the literal was read as, of value `(-1)^negative * mant * 2^exp`. -/
inductive JSONNumber
  | int (i : Int)
  | frac (literal : String)
  | float (negative : Bool) (mant : Nat) (exp : Int)
  deriving DecidableEq, Repr

/-- A JSON document.  Object members are kept in document order. -/
inductive JSONValue
  | null
  | bool (b : Bool)
  | number (n : JSONNumber)
  | string (s : String)
  | array (items : List JSONValue)
  | object (members : List (String × JSONValue))
  deriving Repr

/-- The entries of a non-nil `map[string]interface{}`, sorted by key, one entry per key. -/
abbrev JSONMap := List (String × JSONValue)

/-- The Go type `JSON = map[string]interface{}`; `none` is the nil map. -/
abbrev JSON := Option JSONMap

/-- Byte-wise order of two strings, on their code points. -/
def keyLess : List Nat → List Nat → Bool
  | [], [] => false
  | [], _ :: _ => true
  | _ :: _, [] => false
  | a :: as, b :: bs => if a < b then true else if b < a then false else keyLess as bs

/-- The code points of a string. -/
def runes (s : String) : List Nat := s.toList.map Char.toNat

/-- Assignment `m[k] = v` on a map kept sorted by key. -/
def mapSet : JSONMap → String → JSONValue → JSONMap
  | [], k, v => [(k, v)]
  | (k', v') :: rest, k, v =>
      if k = k' then (k, v) :: rest
      else if keyLess (runes k) (runes k') then (k, v) :: (k', v') :: rest
      else (k', v') :: mapSet rest k v

/-- Decoding a JSON object into an existing map: members are assigned in document order,
so a repeated key keeps its last value. -/
def objectInto (m : JSONMap) (members : List (String × JSONValue)) : JSONMap :=
  members.foldl (fun acc kv => mapSet acc kv.1 kv.2) m

/-- The index expression `m[k]` with its `ok` flag. -/
def JSON.get (m : JSON) (k : String) : Option JSONValue :=
  match m with
  | none => none
  | some entries => entries.lookup k

/-! ## History records (`types.go`) -/

/-- The struct `HistoryStatus`. -/
structure HistoryStatus where
  StatusStr : String
  Completed : Bool
  Messages : Option (List JSONValue)
  Started : Option String
  Finished : Option String
  deriving Repr

/-- The struct `HistoryItem`; `Status` is a pointer, `Outputs` and `Raw` are maps. -/
structure HistoryItem where
  Status : Option HistoryStatus
  Outputs : JSON
  Raw : JSON
  deriving Repr

/-- The type `HistoryResponse = map[string]HistoryItem`, as its entries. -/
abbrev HistoryResponse := List (String × HistoryItem)

/-- The struct `WaitResult`. -/
structure WaitResult where
  PromptID : String
  Item : HistoryItem
  deriving Repr

/-- A Go result pair `(*WaitResult, error)`. -/
abbrev WaitReturn := Option WaitResult × Option GoError

/-- The test of `WaitForCompletion` at `client.go:140-145`:
`item.Status != nil && item.Status.Completed`, or `item.Outputs != nil`. -/
def endsPoll (item : HistoryItem) : Bool :=
  (match item.Status with
    | some st => st.Completed
    | none => false)
  || item.Outputs.isSome

/-- The completion predicate in the words of the specification: completed is true, or the
outputs mapping is non-empty. -/
def specTerminal (item : HistoryItem) : Bool :=
  (match item.Status with
    | some st => st.Completed
    | none => false)
  || (match item.Outputs with
    | some entries => !entries.isEmpty
    | none => false)

/-! ## HTTP round trips -/

/-- What a resty request hands back: a transport error, or a response with its status
code, its body text and the value decoded into the `SetResult` target. -/
inductive RestyResult (α : Type)
  | failed (err : GoError)
  | response (status : Nat) (body : String) (result : α)

/-- The method `r.IsSuccess()`: status code in 200..299. -/
def isSuccess (status : Nat) : Bool := 200 ≤ status && status ≤ 299

/-- The method `Client.GetHistory`, applied to the outcome of its GET request. -/
def GetHistory (promptID : String) (r : RestyResult HistoryResponse) :
    Option HistoryResponse × Option GoError :=
  let url := "/history/" ++ promptID
  match r with
  | .failed err => (none, some err)
  | .response status body out =>
      if !isSuccess status then
        (none, some (.errorf ("GET " ++ url ++ " failed: " ++ body)))
      else (some out, none)

/-! ## The polling waiter (`client.go:121-149`) -/

/-- One nanosecond count of `time.Second`. -/
def timeSecond : Int := 1000000000

/-- What the `select` of the polling loop receives in one iteration. -/
inductive PollEvent
  | done (err : ContextErr)
  | tick (reply : RestyResult HistoryResponse)

/-- The state of one call of `WaitForCompletion` after a run of select events. -/
structure PollRun where
  period : Int
  queries : List String
  ret : Option WaitReturn

/-- The `for { select { ... } }` loop of `WaitForCompletion`; `queries` are the history
queries issued so far, and `none` means the call is still blocked in `select`. -/
def pollLoop (promptID : String) : List PollEvent → List String → List String × Option WaitReturn
  | [], queries => (queries, none)
  | .done err :: _, queries => (queries, some (none, some (.context err)))
  | .tick reply :: rest, queries =>
      let queries := queries ++ [promptID]
      match GetHistory promptID reply with
      | (_, some err) => (queries, some (none, some err))
      | (h, none) =>
          match (h.getD []).lookup promptID with
          | some item =>
              if (match item.Status with
                  | some st => st.Completed
                  | none => false) then
                (queries, some (some { PromptID := promptID, Item := item }, none))
              else if item.Outputs.isSome then
                (queries, some (some { PromptID := promptID, Item := item }, none))
              else pollLoop promptID rest queries
          | none => pollLoop promptID rest queries

/-- The decoded response of a tick whose history query succeeded (no transport error,
status 2xx). -/
def PollEvent.response? : PollEvent → Option HistoryResponse
  | .tick (.response status _ h) => if isSuccess status then some h else none
  | _ => none

/-- The error of the first cancellation among the events, if any. -/
def firstDone : List PollEvent → Option ContextErr
  | [] => none
  | .done e :: _ => some e
  | .tick _ :: rest => firstDone rest

/-- The method `Client.WaitForCompletion`, run against the events its `select` receives. -/
def WaitForCompletion (promptID : String) (pollEvery : Int) (events : List PollEvent) : PollRun :=
  let pollEvery := if pollEvery ≤ 0 then timeSecond else pollEvery
  let r := pollLoop promptID events []
  { period := pollEvery, queries := r.1, ret := r.2 }

/-! ## Stream frames and their decoding (`types.go`, `encoding/json`) -/

/-- The struct `WSMessage`; the field `Type` is written `Type_`. -/
structure WSMessage where
  Type_ : String
  Data : JSON
  deriving Repr

/-- The struct `WSExecInfo`. -/
structure WSExecInfo where
  QueueRemaining : Int
  deriving DecidableEq, Repr

/-- The struct `WSStatusData`. -/
structure WSStatusData where
  ExecInfo : WSExecInfo
  deriving DecidableEq, Repr

/-- The struct `WSStatusMessage`. -/
structure WSStatusMessage where
  Status : WSStatusData
  deriving DecidableEq, Repr

/-- The struct `WSExecutionStartMessage`. -/
structure WSExecutionStartMessage where
  PromptID : String
  deriving DecidableEq, Repr

/-- The struct `WSExecutingMessage`; `Node` is a `*string`. -/
structure WSExecutingMessage where
  Node : Option String
  PromptID : String
  deriving DecidableEq, Repr

/-- The struct `WSProgressMessage`. -/
structure WSProgressMessage where
  Value : Int
  Max : Int
  deriving DecidableEq, Repr

/-- The struct `WSExecutionErrorMessage`. -/
structure WSExecutionErrorMessage where
  PromptID : String
  NodeID : String
  NodeType : String
  Exception : String
  deriving DecidableEq, Repr

/-- The bytes of one frame: either not a JSON text (`json.Unmarshal` reports a syntax
error with the given text before decoding anything), or the text of a document. -/
inductive FrameBytes
  | invalid (syntaxError : String)
  | json (doc : JSONValue)

/-- Name folding of `encoding/json` on one code point: ASCII letters to upper case, the
Kelvin sign to K and the long s to S.  Other code points fold to non-ASCII code points,
which no field name of this package contains, so they are left as they are. -/
def foldRune (r : Nat) : Nat :=
  if 97 ≤ r ∧ r ≤ 122 then r - 32
  else if r = 0x212A then 75
  else if r = 0x17F then 83
  else r

/-- The folded form of a member name. -/
def foldName (s : String) : List Nat := (runes s).map foldRune

/-- Whether the object key `key` selects the struct field tagged `name` (exact or
case-folded match; the field names of one struct here have distinct folds). -/
def matchesField (key name : String) : Bool := foldName key == foldName name

/-- How `encoding/json` names the kind of a value in a type error. -/
def JSONValue.kind : JSONValue → String
  | .null => "null"
  | .bool _ => "bool"
  | .number _ => "number"
  | .string _ => "string"
  | .array _ => "array"
  | .object _ => "object"

/-- The first error met while decoding is the one reported (`d.saveError`). -/
def saveError (saved new : Option GoError) : Option GoError :=
  match saved with
  | some e => some e
  | none => new

/-- Decoding a value into a `string` field that currently holds `cur`. -/
def decodeString (target : String) (cur : String) : JSONValue → String × Option GoError
  | .string s => (s, none)
  | .null => (cur, none)
  | other => (cur, some (.unmarshalType other.kind target))

/-- Decoding a value into a `*string` field that currently holds `cur`. -/
def decodeStringPtr (target : String) (cur : Option String) : JSONValue → Option String × Option GoError
  | .string s => (some s, none)
  | .null => (none, none)
  | other => (cur, some (.unmarshalType other.kind target))

/-- A decimal number `(-1)^negative * digits * 10^exp10`. -/
structure Decimal where
  negative : Bool
  digits : Nat
  exp10 : Int
  deriving DecidableEq, Repr

/-- The leading decimal digits of a text, and the rest of it. -/
def takeDigits : List Char → List Nat × List Char
  | [] => ([], [])
  | c :: cs =>
      if c.isDigit then
        let r := takeDigits cs
        ((c.toNat - 48) :: r.1, r.2)
      else ([], c :: cs)

/-- The number a list of decimal digits spells. -/
def digitsValue (ds : List Nat) : Nat := ds.foldl (fun acc d => 10 * acc + d) 0

/-- The exponent part of a number literal (`e` or `E`, an optional sign, digits), read
from what follows the integer and fraction parts; an empty rest is the exponent 0. -/
def readExponent : List Char → Option Int
  | [] => some 0
  | c :: rest =>
      if c = 'e' ∨ c = 'E' then
        let signed : Bool × List Char :=
          match rest with
          | '-' :: t => (true, t)
          | '+' :: t => (false, t)
          | t => (false, t)
        let r := takeDigits signed.2
        if r.1 = [] ∨ r.2 ≠ [] then none
        else if signed.1 then some (-(digitsValue r.1 : Int)) else some (digitsValue r.1 : Int)
      else none

/-- The value of a literal of the JSON number grammar (an optional minus sign, an integer
part without a leading zero, an optional fraction, an optional exponent); `none` for a
text outside the grammar. -/
def readNumberLiteral (s : String) : Option Decimal :=
  let signed : Bool × List Char :=
    match s.toList with
    | '-' :: t => (true, t)
    | t => (false, t)
  let ip := takeDigits signed.2
  if ip.1 = [] ∨ (1 < ip.1.length ∧ ip.1.head? = some 0) then none
  else
    let fp : Option (List Nat × List Char) :=
      match ip.2 with
      | '.' :: t =>
          let r := takeDigits t
          if r.1 = [] then none else some r
      | t => some ([], t)
    match fp with
    | none => none
    | some (fd, rest) =>
        match readExponent rest with
        | none => none
        | some e =>
            some { negative := signed.1, digits := digitsValue (ip.1 ++ fd), exp10 := e - fd.length }

/-- The literal of a number as it stands in the text of a document. -/
def JSONNumber.literal : JSONNumber → String
  | .int i => toString i
  | .frac s => s
  | .float _ _ _ => ""

/-- The least `j' ≥ j` with `n < 2^(2^j')`, found by doubling (`fuel` bounds the number of
doublings; `n` itself is enough). -/
def log2Bound : Nat → Nat → Nat → Nat
  | 0, j, _ => j
  | fuel + 1, j, n => if n < 2 ^ (2 ^ j) then j else log2Bound fuel (j + 1) n

/-- Bisection: for `2^acc ≤ n < 2^(acc + 2^j)`, the `e` with `2^e ≤ n < 2^(e+1)`. -/
def log2Search : Nat → Nat → Nat → Nat
  | 0, acc, _ => acc
  | j + 1, acc, n =>
      if 2 ^ (acc + 2 ^ j) ≤ n then log2Search j (acc + 2 ^ j) n else log2Search j acc n

/-- The integer `e` with `2^e ≤ n < 2^(e+1)`, for positive `n`. -/
def floorLog2 (n : Nat) : Nat := log2Search (log2Bound n 0 n) 0 n

/-- The quotient `a / b` rounded to the nearest integer, a tie to the even one. -/
def roundHalfEven (a b : Nat) : Nat :=
  let q := a / b
  let r := a % b
  if 2 * r < b then q
  else if b < 2 * r then q + 1
  else if q % 2 = 0 then q else q + 1

/-- The integer `e` with `2^e ≤ n / d < 2^(e+1)`, for positive `n` and `d`. -/
def binaryExponent (n d : Nat) : Int :=
  let e : Int := (floorLog2 n : Int) - (floorLog2 d : Int)
  if d * 2 ^ e.toNat ≤ n * 2 ^ (-e).toNat then e else e - 1

/-- The float64 nearest to the non-negative quotient `n / d` (a tie goes to the even
mantissa), as `mant * 2^exp`: a normal number has `2^52 ≤ mant < 2^53`, a subnormal one
has `exp = -1074`, zero is `(0, 0)`; `none` when the rounded value is beyond the largest
float64 (`strconv.ParseFloat` reports a range error). -/
def roundFloat64 (n d : Nat) : Option (Nat × Int) :=
  if n = 0 then some (0, 0)
  else
    let e := binaryExponent n d
    let q : Int := max (e - 52) (-1074)
    let mant := roundHalfEven (n * 2 ^ (-q).toNat) (d * 2 ^ q.toNat)
    let r : Nat × Int :=
      if mant = 2 ^ 53 then (2 ^ 52, q + 1)
      else if mant = 0 then (0, 0)
      else (mant, q)
    if 971 < r.2 then none else some r

/-- The number of decimal digits of a positive number. -/
def decimalLength (n : Nat) : Nat := (Nat.toDigits 10 n).length

/-- The call `strconv.ParseFloat(s, 64)` on the value of a literal: the nearest float64,
or `none` on overflow.  As in `strconv`, a value of more than 310 integer digits
overflows and a value below `10^-330` is zero, without further arithmetic. -/
def Decimal.toFloat64 (d : Decimal) : Option JSONNumber :=
  if d.digits = 0 then some (.float d.negative 0 0)
  else
    let dp : Int := (decimalLength d.digits : Int) + d.exp10
    if 310 < dp then none
    else if dp < -330 then some (.float d.negative 0 0)
    else
      match roundFloat64 (d.digits * 10 ^ d.exp10.toNat) (10 ^ (-d.exp10).toNat) with
      | none => none
      | some (mant, exp) => some (.float d.negative mant exp)

/-- The float64 a number is stored as in an `interface{}` (`convertNumber`): `none` when
`strconv.ParseFloat` fails on its literal. -/
def JSONNumber.toFloat64 : JSONNumber → Option JSONNumber
  | .int i => Decimal.toFloat64 { negative := decide (i < 0), digits := i.natAbs, exp10 := 0 }
  | .frac s =>
      match readNumberLiteral s with
      | none => none
      | some d => d.toFloat64
  | .float negative mant exp => some (.float negative mant exp)

/-- Whether `strconv.ParseFloat` reads the integer `c` as the float64 that it reads the
integer `v` as. -/
def readsBack (c v : Nat) : Bool :=
  match roundFloat64 c 1, roundFloat64 v 1 with
  | some (m1, e1), some (m2, e2) => m1 == m2 && e1 == e2
  | _, _ => false

/-- The multiple of `10^k` nearest to the integer `v` among those (the one below, the one
above) that read back as the float64 `v`; a tie goes to the even digit. -/
def shortestAt (v k : Nat) : Option Nat :=
  let unit := 10 ^ k
  let lo := v / unit * unit
  let hi := lo + unit
  if readsBack lo v && readsBack hi v then
    if 2 * (v - lo) < unit then some lo
    else if unit < 2 * (v - lo) then some hi
    else if (lo / unit) % 2 = 0 then some lo else some hi
  else if readsBack lo v then some lo
  else if readsBack hi v then some hi
  else none

/-- The value of `shortestAt v k` for the largest `k` up to the given one that has a
value; `v` itself when there is none. -/
def shortestUpTo (v : Nat) : Nat → Nat
  | 0 => (shortestAt v 0).getD v
  | k + 1 => (shortestAt v (k + 1)).getD (shortestUpTo v k)

/-- The integer that `strconv.FormatFloat(v, 'f', -1, 64)` prints for an integer-valued
float64 `v` below `10^21`: an integer below `2^53` as it is, a larger one as the decimal
of fewest significant digits that reads back as `v`, filled up with zeros. -/
def shortestInteger (v : Nat) : Nat :=
  if v < 2 ^ 53 then v else shortestUpTo v 21

/-- The integer value of the float64 `mant * 2^exp`, if it has one. -/
def integerValue (mant : Nat) (exp : Int) : Option Nat :=
  if 0 ≤ exp then some (mant * 2 ^ exp.toNat)
  else if mant % 2 ^ (-exp).toNat = 0 then some (mant / 2 ^ (-exp).toNat)
  else none

/-- The call `strconv.ParseInt(s, 10, 64)` on the literal that `json.Marshal` writes for
a number: a float64 is written in the shortest form that reads back, with an exponent
from `1e21` on and with a fraction when it has one, and an integer literal is read when
it fits 64 bits. -/
def JSONNumber.toInt64 : JSONNumber → Option Int
  | .int i => if -9223372036854775808 ≤ i ∧ i ≤ 9223372036854775807 then some i else none
  | .frac _ => none
  | .float negative mant exp =>
      match integerValue mant exp with
      | none => none
      | some v =>
          if 10 ^ 21 ≤ v then none
          else
            let i : Int := if negative then -(shortestInteger v : Int) else (shortestInteger v : Int)
            if -9223372036854775808 ≤ i ∧ i ≤ 9223372036854775807 then some i else none

/-- Decoding a value into an `int` field (64 bits) that currently holds `cur`.  The error
names a number by its kind only; the handlers discard the error of a payload without
reading it. -/
def decodeInt (target : String) (cur : Int) : JSONValue → Int × Option GoError
  | .number n =>
      match n.toInt64 with
      | some i => (i, none)
      | none => (cur, some (.unmarshalType "number" target))
  | .null => (cur, none)
  | other => (cur, some (.unmarshalType other.kind target))

/-- Decoding the members of an object into a struct, member by member. -/
def decodeMembers {α : Type} (setField : α → String → JSONValue → α × Option GoError)
    (cur : α) (members : List (String × JSONValue)) : α × Option GoError :=
  members.foldl
    (fun acc kv =>
      let r := setField acc.1 kv.1 kv.2
      (r.1, saveError acc.2 r.2))
    (cur, none)

/-- The call `json.Unmarshal` into a struct that currently holds `cur`: `null` leaves it
alone, an object is decoded member by member, anything else is a type error. -/
def unmarshalStruct {α : Type} (target : String)
    (setField : α → String → JSONValue → α × Option GoError) (cur : α) :
    JSONValue → α × Option GoError
  | .null => (cur, none)
  | .object members => decodeMembers setField cur members
  | other => (cur, some (.unmarshalType other.kind target))

mutual
/-- Decoding a value into an `interface{}` (`d.valueInterface`): a number becomes a
float64, and one that `strconv.ParseFloat` rejects becomes nil with a type error; an
object becomes a map, one entry per key; the first error met is the one kept. -/
def valueInterface (target : String) : JSONValue → JSONValue × Option GoError
  | .number n =>
      match n.toFloat64 with
      | some f => (.number f, none)
      | none => (.null, some (.unmarshalType ("number " ++ n.literal) target))
  | .array items =>
      let r := itemsInterface target items
      (.array r.1, r.2)
  | .object members =>
      let r := membersInterface target members
      (.object (objectInto [] r.1), r.2)
  | other => (other, none)
/-- Decoding the items of an array into `interface{}` values. -/
def itemsInterface (target : String) : List JSONValue → List JSONValue × Option GoError
  | [] => ([], none)
  | v :: vs =>
      let a := valueInterface target v
      let b := itemsInterface target vs
      (a.1 :: b.1, saveError a.2 b.2)
/-- Decoding the member values of an object into `interface{}` values. -/
def membersInterface (target : String) :
    List (String × JSONValue) → List (String × JSONValue) × Option GoError
  | [] => ([], none)
  | (k, v) :: ms =>
      let a := valueInterface target v
      let b := membersInterface target ms
      ((k, a.1) :: b.1, saveError a.2 b.2)
end

/-- A value as it reads after `json.Marshal` of the `interface{}` it was decoded into:
an object has one member per key, sorted by key. -/
def reencode : JSONValue → JSONValue
  | .object members => .object (objectInto [] members)
  | other => other

/-- The call `json.Marshal(data)` on a `JSON` map: `null` for the nil map, otherwise the
object of its entries in key order.  It does not fail on decoded JSON. -/
def jsonMarshal (data : JSON) : JSONValue × Option GoError :=
  match data with
  | none => (.null, none)
  | some entries => (.object entries, none)

/-- Field assignment for `WSMessage` (`type`, `data`). -/
def WSMessage.setField (msg : WSMessage) (key : String) (v : JSONValue) : WSMessage × Option GoError :=
  if matchesField key "type" then
    let r := decodeString "Go struct field WSMessage.type of type string" msg.Type_ v
    ({ msg with Type_ := r.1 }, r.2)
  else if matchesField key "data" then
    match v with
    | .null => ({ msg with Data := none }, none)
    | .object members =>
        let r := membersInterface "Go struct field WSMessage.data of type float64" members
        ({ msg with Data := some (objectInto (msg.Data.getD []) r.1) }, r.2)
    | other =>
        (msg, some (.unmarshalType other.kind
          "Go struct field WSMessage.data of type map[string]interface {}"))
  else (msg, none)

/-- The call `json.Unmarshal(data, &msg)` of `handleMessage`. -/
def unmarshalWSMessage : FrameBytes → WSMessage × Option GoError
  | .invalid text => ({ Type_ := "", Data := none }, some (.jsonSyntax text))
  | .json doc =>
      unmarshalStruct "Go value of type comfyui2go.WSMessage" WSMessage.setField
        { Type_ := "", Data := none } doc

/-- Field assignment for `WSExecInfo` (`queue_remaining`). -/
def WSExecInfo.setField (m : WSExecInfo) (key : String) (v : JSONValue) : WSExecInfo × Option GoError :=
  if matchesField key "queue_remaining" then
    let r := decodeInt "Go struct field WSStatusMessage.status.exec_info.queue_remaining of type int"
      m.QueueRemaining v
    ({ m with QueueRemaining := r.1 }, r.2)
  else (m, none)

/-- Field assignment for `WSStatusData` (`exec_info`). -/
def WSStatusData.setField (m : WSStatusData) (key : String) (v : JSONValue) : WSStatusData × Option GoError :=
  if matchesField key "exec_info" then
    let r := unmarshalStruct "Go struct field WSStatusMessage.status.exec_info of type comfyui2go.WSExecInfo"
      WSExecInfo.setField m.ExecInfo (reencode v)
    ({ m with ExecInfo := r.1 }, r.2)
  else (m, none)

/-- Field assignment for `WSStatusMessage` (`status`). -/
def WSStatusMessage.setField (m : WSStatusMessage) (key : String) (v : JSONValue) :
    WSStatusMessage × Option GoError :=
  if matchesField key "status" then
    let r := unmarshalStruct "Go struct field WSStatusMessage.status of type comfyui2go.WSStatusData"
      WSStatusData.setField m.Status (reencode v)
    ({ m with Status := r.1 }, r.2)
  else (m, none)

/-- Field assignment for `WSExecutionStartMessage` (`prompt_id`). -/
def WSExecutionStartMessage.setField (m : WSExecutionStartMessage) (key : String) (v : JSONValue) :
    WSExecutionStartMessage × Option GoError :=
  if matchesField key "prompt_id" then
    let r := decodeString "Go struct field WSExecutionStartMessage.prompt_id of type string" m.PromptID v
    ({ m with PromptID := r.1 }, r.2)
  else (m, none)

/-- Field assignment for `WSExecutingMessage` (`node`, `prompt_id`). -/
def WSExecutingMessage.setField (m : WSExecutingMessage) (key : String) (v : JSONValue) :
    WSExecutingMessage × Option GoError :=
  if matchesField key "node" then
    let r := decodeStringPtr "Go struct field WSExecutingMessage.node of type string" m.Node v
    ({ m with Node := r.1 }, r.2)
  else if matchesField key "prompt_id" then
    let r := decodeString "Go struct field WSExecutingMessage.prompt_id of type string" m.PromptID v
    ({ m with PromptID := r.1 }, r.2)
  else (m, none)

/-- Field assignment for `WSProgressMessage` (`value`, `max`). -/
def WSProgressMessage.setField (m : WSProgressMessage) (key : String) (v : JSONValue) :
    WSProgressMessage × Option GoError :=
  if matchesField key "value" then
    let r := decodeInt "Go struct field WSProgressMessage.value of type int" m.Value v
    ({ m with Value := r.1 }, r.2)
  else if matchesField key "max" then
    let r := decodeInt "Go struct field WSProgressMessage.max of type int" m.Max v
    ({ m with Max := r.1 }, r.2)
  else (m, none)

/-- Field assignment for `WSExecutionErrorMessage`. -/
def WSExecutionErrorMessage.setField (m : WSExecutionErrorMessage) (key : String) (v : JSONValue) :
    WSExecutionErrorMessage × Option GoError :=
  if matchesField key "prompt_id" then
    let r := decodeString "Go struct field WSExecutionErrorMessage.prompt_id of type string" m.PromptID v
    ({ m with PromptID := r.1 }, r.2)
  else if matchesField key "node_id" then
    let r := decodeString "Go struct field WSExecutionErrorMessage.node_id of type string" m.NodeID v
    ({ m with NodeID := r.1 }, r.2)
  else if matchesField key "node_type" then
    let r := decodeString "Go struct field WSExecutionErrorMessage.node_type of type string" m.NodeType v
    ({ m with NodeType := r.1 }, r.2)
  else if matchesField key "exception_message" then
    let r := decodeString "Go struct field WSExecutionErrorMessage.exception_message of type string"
      m.Exception v
    ({ m with Exception := r.1 }, r.2)
  else (m, none)

/-! ## Callbacks, channels and the shared state -/

/-- A value of type `ProgressCallback`: nil or a function supplied by the caller. -/
inductive ProgressCallback
  | nil
  | user (id : Nat)
  deriving DecidableEq, Repr

/-- A value of type `StatusCallback`: nil or a function supplied by the caller. -/
inductive StatusCallback
  | nil
  | user (id : Nat)
  deriving DecidableEq, Repr

/-- A value of type `ExecutionCallback`: nil, a function supplied by the caller, or the
closure built at `websocket.go:334` by the wait numbered `wait`, which captured
`originalOnExecution` and `promptID`. -/
inductive ExecutionCallback
  | nil
  | user (id : Nat)
  | waitWrapper (original : ExecutionCallback) (promptID : String) (wait : Nat)
  deriving DecidableEq, Repr

/-- A value of type `ErrorCallback`: nil, a function supplied by the caller, or the
closure built at `websocket.go:365` by the wait numbered `wait`, which captured
`originalOnError` and `promptID`. -/
inductive ErrorCallback
  | nil
  | user (id : Nat)
  | waitWrapper (original : ErrorCallback) (promptID : String) (wait : Nat)
  deriving DecidableEq, Repr

/-- One invocation of a caller-supplied callback, with its arguments. -/
inductive Call
  | progress (cb : Nat) (promptID : String) (progress : WSProgressMessage)
  | status (cb : Nat) (promptID : String) (status : String)
  | execution (cb : Nat) (promptID : String) (nodeID : Option String)
  | error (cb : Nat) (promptID : String) (err : GoError)
  deriving DecidableEq, Repr

/-- One call made by the stream client through one of its four handler slots, with the
arguments passed, whatever callback the slot holds. -/
inductive Dispatch
  | progress (promptID : String) (progress : WSProgressMessage)
  | status (promptID : String) (status : String)
  | execution (promptID : String) (nodeID : Option String)
  | error (promptID : String) (err : GoError)
  deriving DecidableEq, Repr

/-- A channel made with capacity 1: the values buffered, and the values of senders that
found the buffer full and are blocked. -/
structure Chan (α : Type) where
  buffer : List α
  blocked : List α
  deriving Repr

/-- The statement `make(chan T, 1)`. -/
def Chan.make {α : Type} : Chan α := { buffer := [], blocked := [] }

/-- The statement `ch <- v`. -/
def Chan.send {α : Type} (ch : Chan α) (v : α) : Chan α :=
  if ch.buffer.length < 1 then { ch with buffer := ch.buffer ++ [v] }
  else { ch with blocked := ch.blocked ++ [v] }

/-- The receive `<-ch` when a value is buffered: the value, and the channel afterwards
(a blocked sender, if any, moves into the freed slot). -/
def Chan.recv {α : Type} (ch : Chan α) : Option (α × Chan α) :=
  match ch.buffer with
  | [] => none
  | v :: rest => some (v, { buffer := rest ++ ch.blocked.take 1, blocked := ch.blocked.drop 1 })

/-- Where the goroutine running `messageLoop` stands. -/
inductive LoopPC
  | notStarted
  | atSelect
  | inRead
  | returned
  deriving DecidableEq, Repr

/-- The struct `WSClient`.  `ctx` is the context handed to `Connect`, from which `ws.ctx`
is derived by `context.WithCancel` (`none` before `Connect`); `cancelCalled` records a
call of `ws.cancel`; `loop` is the position of the receive goroutine. -/
structure WSClient where
  conn : Option Nat
  baseURL : String
  clientID : String
  username : String
  password : String
  onProgress : ProgressCallback
  onStatus : StatusCallback
  onExecution : ExecutionCallback
  onError : ErrorCallback
  running : Bool
  ctx : Option Context
  cancelCalled : Bool
  loop : LoopPC
  deriving DecidableEq, Repr

/-- The struct `WSConfig`. -/
structure WSConfig where
  BaseURL : String
  ClientID : String
  Username : String
  Password : String
  OnProgress : ProgressCallback
  OnStatus : StatusCallback
  OnExecution : ExecutionCallback
  OnError : ErrorCallback

/-- The struct `Client`; `wsClient` is the address of the stream client, if any. -/
structure Client where
  clientID : String
  baseURL : String
  username : String
  password : String
  wsClient : Option Nat
  wsEnabled : Bool
  onProgress : ProgressCallback
  onStatus : StatusCallback
  onExecution : ExecutionCallback
  onError : ErrorCallback
  deriving DecidableEq, Repr

/-- The local variables of one call of `waitForCompletionWithExistingWS`. -/
structure WaitFrame where
  ctx : Context
  promptID : String
  timeout : Int
  wsClient : Nat
  resultChan : Chan WaitResult
  errorChan : Chan GoError
  completed : Bool
  originalOnExecution : ExecutionCallback
  originalOnError : ErrorCallback
  followUpsStarted : Nat
  followUpsFinished : Nat
  deadlinePassed : Bool
  ret : Option WaitReturn

/-- The client, the stream clients it has allocated, the waits begun so far, the caller
contexts cancelled so far, and what has been observed: calls made through the handler
slots, invocations of caller callbacks, dial attempts (address and basic-auth
credentials) and follow-up history queries. -/
structure World where
  client : Client
  heap : List WSClient
  waits : List WaitFrame
  cancelled : List Nat
  dispatched : List Dispatch
  calls : List Call
  dials : List (String × Option String)
  historyQueries : List String

/-- Record of a call made through a handler slot. -/
def World.note (w : World) (d : Dispatch) : World :=
  { w with dispatched := w.dispatched ++ [d] }

/-- Update of the wait numbered `i`. -/
def World.modifyWait (w : World) (i : Nat) (f : WaitFrame → WaitFrame) : World :=
  match w.waits[i]? with
  | some frame => { w with waits := w.waits.set i (f frame) }
  | none => w

/-- Update of the stream client at address `a`. -/
def World.modifyWS (w : World) (a : Nat) (f : WSClient → WSClient) : World :=
  match w.heap[a]? with
  | some ws => { w with heap := w.heap.set a (f ws) }
  | none => w

/-- A call of a `ProgressCallback`. -/
def ProgressCallback.invoke : ProgressCallback → String → WSProgressMessage → World → World
  | .nil, _, _, w => w
  | .user id, promptID, progress, w => { w with calls := w.calls ++ [.progress id promptID progress] }

/-- A call of a `StatusCallback`. -/
def StatusCallback.invoke : StatusCallback → String → String → World → World
  | .nil, _, _, w => w
  | .user id, promptID, status, w => { w with calls := w.calls ++ [.status id promptID status] }

/-- A call of an `ExecutionCallback`.  The wrapper is the closure of
`websocket.go:334-363`: the original callback first, then, for the awaited id with a
nil node and `completed` still false, the flag is set and the follow-up goroutine is
started. -/
def ExecutionCallback.invoke : ExecutionCallback → String → Option String → World → World
  | .nil, _, _, w => w
  | .user id, msgPromptID, nodeID, w =>
      { w with calls := w.calls ++ [.execution id msgPromptID nodeID] }
  | .waitWrapper original promptID wait, msgPromptID, nodeID, w =>
      let w := if original ≠ .nil then original.invoke msgPromptID nodeID w else w
      if msgPromptID = promptID ∧ nodeID = none then
        w.modifyWait wait (fun frame =>
          if !frame.completed then
            { frame with completed := true, followUpsStarted := frame.followUpsStarted + 1 }
          else frame)
      else w

/-- A call of an `ErrorCallback`.  The wrapper is the closure of `websocket.go:365-380`:
the original callback first, then, for the awaited id with `completed` still false, the
flag is set and the error is sent on `errorChan`. -/
def ErrorCallback.invoke : ErrorCallback → String → GoError → World → World
  | .nil, _, _, w => w
  | .user id, msgPromptID, err, w => { w with calls := w.calls ++ [.error id msgPromptID err] }
  | .waitWrapper original promptID wait, msgPromptID, err, w =>
      let w := if original ≠ .nil then original.invoke msgPromptID err w else w
      if msgPromptID = promptID then
        w.modifyWait wait (fun frame =>
          if !frame.completed then
            { frame with completed := true, errorChan := frame.errorChan.send err }
          else frame)
      else w

/-! ## The stream client (`websocket.go:49-305`) -/

/-- The function `NewWSClient`. -/
def NewWSClient (config : WSConfig) : WSClient :=
  { conn := none
    baseURL := config.BaseURL
    clientID := config.ClientID
    username := config.Username
    password := config.Password
    onProgress := config.OnProgress
    onStatus := config.OnStatus
    onExecution := config.OnExecution
    onError := config.OnError
    running := false
    ctx := none
    cancelCalled := false
    loop := .notStarted }

/-- A parsed `url.URL`, as far as `buildWebSocketURL` uses it: `RawQuery` is the field it
reads and assigns; `front` is what `u.String()` writes before the query (scheme,
authority and path) and `fragment` what it writes after it (`#` and the escaped fragment,
or nothing). -/
structure URL where
  front : String
  ForceQuery : Bool
  RawQuery : String
  fragment : String
  deriving DecidableEq, Repr

/-- The parsed form of an address that has neither query nor fragment. -/
def URL.plain (address : String) : URL :=
  { front := address, ForceQuery := false, RawQuery := "", fragment := "" }

/-- The type `url.Values` (`map[string][]string`), one entry per key. -/
structure Values where
  entries : List (String × List String)
  deriving DecidableEq, Repr

/-- The library behaviour a `Connect` depends on: `parse wsURL` is the result of
`url.Parse`, `parseQuery raw` what `url.ParseQuery` collects from a query that is not
empty, and `dial wsURL auth` the result of `websocket.Dial` (a connection number or an
error). -/
structure NetEnv where
  parse : String → Except GoError URL
  parseQuery : String → Values
  dial : String → Option String → Except GoError Nat

/-- The method `URL.Query`: the values of `RawQuery`; the loop of `url.ParseQuery` does
not run on an empty query and leaves the map empty. -/
def URL.Query (u : URL) (net : NetEnv) : Values :=
  if u.RawQuery = "" then { entries := [] } else net.parseQuery u.RawQuery

/-- Assignment `m[key] = []string\x7bvalue\x7d` on the entries of a `url.Values`. -/
def setEntry : List (String × List String) → String → String → List (String × List String)
  | [], key, value => [(key, [value])]
  | (k, vs) :: rest, key, value =>
      if key = k then (key, [value]) :: rest else (k, vs) :: setEntry rest key value

/-- The method `Values.Set`. -/
def Values.Set (v : Values) (key value : String) : Values :=
  { entries := setEntry v.entries key value }

/-- The UTF-8 bytes of a code point. -/
def utf8Bytes (c : Nat) : List Nat :=
  if c < 0x80 then [c]
  else if c < 0x800 then [0xC0 + c / 64, 0x80 + c % 64]
  else if c < 0x10000 then [0xE0 + c / 4096, 0x80 + c / 64 % 64, 0x80 + c % 64]
  else [0xF0 + c / 262144, 0x80 + c / 4096 % 64, 0x80 + c / 64 % 64, 0x80 + c % 64]

/-- Whether `url.QueryEscape` escapes a byte: every byte but the ASCII letters and digits
and `-`, `_`, `.`, `~` (`shouldEscape` in the mode `encodeQueryComponent`). -/
def shouldEscape (b : Nat) : Bool :=
  !((97 ≤ b && b ≤ 122) || (65 ≤ b && b ≤ 90) || (48 ≤ b && b ≤ 57) ||
    b == 45 || b == 95 || b == 46 || b == 126)

/-- The upper-case hexadecimal digit of a number below 16. -/
def upperHex (n : Nat) : Char := "0123456789ABCDEF".toList.getD n '0'

/-- What `url.QueryEscape` writes for one byte: the byte itself, `+` for a space, or `%`
and two hexadecimal digits. -/
def escapeByte (b : Nat) : List Char :=
  if shouldEscape b then
    if b = 32 then ['+'] else ['%', upperHex (b / 16), upperHex (b % 16)]
  else [Char.ofNat b]

/-- The function `url.QueryEscape`. -/
def QueryEscape (s : String) : String :=
  String.mk (((runes s).map (fun c => ((utf8Bytes c).map escapeByte).flatten)).flatten)

/-- Insertion of an entry into entries sorted by key. -/
def insertEntry (e : String × List String) :
    List (String × List String) → List (String × List String)
  | [] => [e]
  | x :: rest =>
      if keyLess (runes x.1) (runes e.1) then x :: insertEntry e rest else e :: x :: rest

/-- The method `Values.Encode`: for every key in sorted order and every value of it,
the escaped key, `=` and the escaped value; the pairs are joined by `&`. -/
def Values.Encode (v : Values) : String :=
  String.intercalate "&"
    (((v.entries.foldr insertEntry []).map
      (fun e => e.2.map (fun value => QueryEscape e.1 ++ "=" ++ QueryEscape value))).flatten)

/-- The method `URL.String`, as far as the query is concerned: the query follows a `?`
when it is not empty or `ForceQuery` is set. -/
def URL.String (u : URL) : String :=
  u.front ++ (if u.ForceQuery || u.RawQuery ≠ "" then "?" ++ u.RawQuery else "") ++ u.fragment

/-- The call `strings.HasPrefix(s, p)`. -/
def startsWith (s p : String) : Bool := p.toList.isPrefixOf s.toList

/-- The call `strings.TrimSuffix(s, suffix)`. -/
def trimSuffix (s suffix : String) : String :=
  if suffix.toList.isSuffixOf s.toList then
    String.mk (s.toList.take (s.toList.length - suffix.toList.length))
  else s

/-- The call `strings.Replace(s, old, new, 1)` for an `s` that starts with `old`. -/
def replaceLeading (s old new : String) : String :=
  new ++ String.mk (s.toList.drop old.toList.length)

/-- The method `WSClient.buildWebSocketURL`. -/
def WSClient.buildWebSocketURL (ws : WSClient) (net : NetEnv) : String × Option GoError :=
  let baseURL := trimSuffix ws.baseURL "/"
  let baseURL :=
    if startsWith baseURL "http://" then replaceLeading baseURL "http://" "ws://"
    else if startsWith baseURL "https://" then replaceLeading baseURL "https://" "wss://"
    else if !startsWith baseURL "ws://" && !startsWith baseURL "wss://" then "ws://" ++ baseURL
    else baseURL
  let wsURL := baseURL ++ "/ws"
  if ws.clientID ≠ "" then
    match net.parse wsURL with
    | .error err => ("", some err)
    | .ok u =>
        let q := u.Query net
        let q := q.Set "clientId" ws.clientID
        let u := { u with RawQuery := q.Encode }
        (u.String, none)
  else (wsURL, none)

/-- The method `WSClient.IsConnected`. -/
def WSClient.IsConnected (ws : WSClient) : Bool := ws.running && ws.conn.isSome

/-- Whether `ws.ctx.Done()` is closed: `ws.cancel` was called, or the context handed to
`Connect` is done. -/
def WSClient.ctxDone (ws : WSClient) (cancelled : List Nat) : Bool :=
  ws.cancelCalled ||
    (match ws.ctx with
      | some ctx => ctx.isDone cancelled
      | none => false)

/-- The method `WSClient.Connect` on the stream client at address `a`; a successful dial
leaves the receive goroutine in front of its `select`. -/
def WSClient.Connect (a : Nat) (ctx : Context) (net : NetEnv) (w : World) : World × Option GoError :=
  match w.heap[a]? with
  | none => (w, none)
  | some ws =>
      if ws.running then (w, some (.errorf "WebSocket客户端已经在运行"))
      else
        match ws.buildWebSocketURL net with
        | (_, some err) => (w, some (.errorf ("构建WebSocket URL失败: " ++ err.Error)))
        | (wsURL, none) =>
            let auth :=
              if ws.username ≠ "" ∧ ws.password ≠ "" then some (ws.username ++ ":" ++ ws.password)
              else none
            let w := { w with dials := w.dials ++ [(wsURL, auth)] }
            match net.dial wsURL auth with
            | .error err => (w, some (.errorf ("连接WebSocket失败: " ++ err.Error)))
            | .ok conn =>
                (w.modifyWS a (fun ws =>
                  { ws with conn := some conn, ctx := some ctx, cancelCalled := false,
                            running := true, loop := .atSelect }), none)

/-- The method `WSClient.Close` on the stream client at address `a`; `closeErr` is what
`conn.Close` returns. -/
def WSClient.Close (a : Nat) (closeErr : Option GoError) (w : World) : World × Option GoError :=
  match w.heap[a]? with
  | none => (w, none)
  | some ws =>
      if !ws.running then (w, none)
      else
        let w := w.modifyWS a (fun ws => { ws with running := false })
        let w := if ws.ctx.isSome then w.modifyWS a (fun ws => { ws with cancelCalled := true }) else w
        if ws.conn.isSome then (w, closeErr) else (w, none)

/-- The method `WSClient.handleStatusMessage`. -/
def WSClient.handleStatusMessage (ws : WSClient) (data : JSON) (w : World) : World :=
  if ws.onStatus = .nil then w
  else
    match jsonMarshal data with
    | (dataBytes, none) =>
        match unmarshalStruct "Go value of type comfyui2go.WSStatusMessage" WSStatusMessage.setField
            { Status := { ExecInfo := { QueueRemaining := 0 } } } dataBytes with
        | (statusMsg, none) =>
            let status := "队列剩余: " ++ toString statusMsg.Status.ExecInfo.QueueRemaining
            ws.onStatus.invoke "" status (w.note (.status "" status))
        | (_, some _) => w
    | (_, some _) => w

/-- The method `WSClient.handleExecutionStartMessage`. -/
def WSClient.handleExecutionStartMessage (ws : WSClient) (data : JSON) (w : World) : World :=
  if ws.onExecution = .nil then w
  else
    match jsonMarshal data with
    | (dataBytes, none) =>
        match unmarshalStruct "Go value of type comfyui2go.WSExecutionStartMessage"
            WSExecutionStartMessage.setField { PromptID := "" } dataBytes with
        | (execMsg, none) =>
            ws.onExecution.invoke execMsg.PromptID none (w.note (.execution execMsg.PromptID none))
        | (_, some _) => w
    | (_, some _) => w

/-- The method `WSClient.handleExecutingMessage`. -/
def WSClient.handleExecutingMessage (ws : WSClient) (data : JSON) (w : World) : World :=
  if ws.onExecution = .nil then w
  else
    match jsonMarshal data with
    | (dataBytes, none) =>
        match unmarshalStruct "Go value of type comfyui2go.WSExecutingMessage"
            WSExecutingMessage.setField { Node := none, PromptID := "" } dataBytes with
        | (execMsg, none) =>
            ws.onExecution.invoke execMsg.PromptID execMsg.Node
              (w.note (.execution execMsg.PromptID execMsg.Node))
        | (_, some _) => w
    | (_, some _) => w

/-- The method `WSClient.handleProgressMessage`. -/
def WSClient.handleProgressMessage (ws : WSClient) (data : JSON) (w : World) : World :=
  if ws.onProgress = .nil then w
  else
    match jsonMarshal data with
    | (dataBytes, none) =>
        match unmarshalStruct "Go value of type comfyui2go.WSProgressMessage"
            WSProgressMessage.setField { Value := 0, Max := 0 } dataBytes with
        | (progMsg, none) => ws.onProgress.invoke "" progMsg (w.note (.progress "" progMsg))
        | (_, some _) => w
    | (_, some _) => w

/-- The method `WSClient.handleExecutionErrorMessage`. -/
def WSClient.handleExecutionErrorMessage (ws : WSClient) (data : JSON) (w : World) : World :=
  if ws.onError = .nil then w
  else
    match jsonMarshal data with
    | (dataBytes, none) =>
        match unmarshalStruct "Go value of type comfyui2go.WSExecutionErrorMessage"
            WSExecutionErrorMessage.setField
            { PromptID := "", NodeID := "", NodeType := "", Exception := "" } dataBytes with
        | (errMsg, none) =>
            let err := GoError.errorf ("节点 " ++ errMsg.NodeID ++ " (" ++ errMsg.NodeType ++ ") 执行错误: "
              ++ errMsg.Exception)
            ws.onError.invoke errMsg.PromptID err (w.note (.error errMsg.PromptID err))
        | (_, some _) => w
    | (_, some _) => w

/-- The method `WSClient.handleExecutionInterruptedMessage`. -/
def WSClient.handleExecutionInterruptedMessage (ws : WSClient) (data : JSON) (w : World) : World :=
  if ws.onError = .nil then w
  else
    match data.get "prompt_id" with
    | some (.string promptID) =>
        ws.onError.invoke promptID (.errorf "任务执行被中断")
          (w.note (.error promptID (.errorf "任务执行被中断")))
    | _ => w

/-- The method `WSClient.handleMessage`. -/
def WSClient.handleMessage (ws : WSClient) (data : FrameBytes) (w : World) : World :=
  match unmarshalWSMessage data with
  | (_, some err) =>
      if ws.onError ≠ .nil then
        let e := GoError.errorf ("解析WebSocket消息失败: " ++ err.Error)
        ws.onError.invoke "" e (w.note (.error "" e))
      else w
  | (msg, none) =>
      if msg.Type_ = "status" then ws.handleStatusMessage msg.Data w
      else if msg.Type_ = "execution_start" then ws.handleExecutionStartMessage msg.Data w
      else if msg.Type_ = "executing" then ws.handleExecutingMessage msg.Data w
      else if msg.Type_ = "progress" then ws.handleProgressMessage msg.Data w
      else if msg.Type_ = "execution_error" then ws.handleExecutionErrorMessage msg.Data w
      else if msg.Type_ = "execution_interrupted" then ws.handleExecutionInterruptedMessage msg.Data w
      else w

/-- One pass of the receive goroutine of the stream client at `a` through the `select`
of `messageLoop`: with `ws.ctx` done it returns (the deferred function clears `running`),
otherwise it enters `conn.Read`. -/
def WSClient.loopSelect (a : Nat) (w : World) : World :=
  match w.heap[a]? with
  | none => w
  | some ws =>
      if ws.loop = .atSelect then
        if ws.ctxDone w.cancelled then
          w.modifyWS a (fun ws => { ws with loop := .returned, running := false })
        else w.modifyWS a (fun ws => { ws with loop := .inRead })
      else w

/-- The pending `conn.Read` of the receive goroutine of the stream client at `a` returns
`r`: an error is reported to the error handler and ends the loop (the deferred function
clears `running`); a frame goes to `handleMessage` and the loop iterates. -/
def WSClient.loopRead (a : Nat) (r : Except GoError FrameBytes) (w : World) : World :=
  match w.heap[a]? with
  | none => w
  | some ws =>
      if ws.loop = .inRead then
        match r with
        | .error err =>
            let w :=
              if ws.onError ≠ .nil then
                let e := GoError.errorf ("读取WebSocket消息失败: " ++ err.Error)
                ws.onError.invoke "" e (w.note (.error "" e))
              else w
            w.modifyWS a (fun ws => { ws with loop := .returned, running := false })
        | .ok messageData =>
            let w := ws.handleMessage messageData w
            w.modifyWS a (fun ws => { ws with loop := .atSelect })
      else w

/-! ## Construction and options (`client.go:33-53`, `options.go`) -/

/-- The type `Option` of `options.go`. -/
abbrev ClientOption := Client → Client

/-- The struct `WSCallbackConfig`. -/
structure WSCallbackConfig where
  OnProgress : ProgressCallback
  OnStatus : StatusCallback
  OnExecution : ExecutionCallback
  OnError : ErrorCallback

/-- The function `NewClient`. -/
def NewClient (clientID baseURL : String) : Client :=
  { clientID := clientID
    baseURL := baseURL
    username := ""
    password := ""
    wsClient := none
    wsEnabled := true
    onProgress := .nil
    onStatus := .nil
    onExecution := .nil
    onError := .nil }

/-- The function `NewClientWithOptions`. -/
def NewClientWithOptions (clientID baseURL : String) (opts : List ClientOption) : Client :=
  opts.foldl (fun c o => o c) (NewClient clientID baseURL)

/-- The option `WithClientID`. -/
def WithClientID (id : String) : ClientOption := fun c => { c with clientID := id }

/-- The option `WithBaseURL`. -/
def WithBaseURL (url : String) : ClientOption := fun c => { c with baseURL := url }

/-- The option `WithBasicAuth`. -/
def WithBasicAuth (user pass : String) : ClientOption :=
  fun c => { c with username := user, password := pass }

/-- The option `WithProgressCallback`. -/
def WithProgressCallback (callback : ProgressCallback) : ClientOption :=
  fun c => { c with onProgress := callback }

/-- The option `WithStatusCallback`. -/
def WithStatusCallback (callback : StatusCallback) : ClientOption :=
  fun c => { c with onStatus := callback }

/-- The option `WithExecutionCallback`. -/
def WithExecutionCallback (callback : ExecutionCallback) : ClientOption :=
  fun c => { c with onExecution := callback }

/-- The option `WithErrorCallback`. -/
def WithErrorCallback (callback : ErrorCallback) : ClientOption :=
  fun c => { c with onError := callback }

/-- The option `WithWebSocketCallbacks`. -/
def WithWebSocketCallbacks (config : WSCallbackConfig) : ClientOption := fun c =>
  let c := if config.OnProgress ≠ .nil then { c with onProgress := config.OnProgress } else c
  let c := if config.OnStatus ≠ .nil then { c with onStatus := config.OnStatus } else c
  let c := if config.OnExecution ≠ .nil then { c with onExecution := config.OnExecution } else c
  if config.OnError ≠ .nil then { c with onError := config.OnError } else c

/-- The option `WithWebSocketEnabled`. -/
def WithWebSocketEnabled (enabled : Bool) : ClientOption := fun c => { c with wsEnabled := enabled }

/-- The option `WithoutWebSocket`. -/
def WithoutWebSocket : ClientOption := fun c => { c with wsEnabled := false }

/-- The state in which a client has just been built: nothing allocated, nothing observed. -/
def World.new (c : Client) : World :=
  { client := c, heap := [], waits := [], cancelled := [], dispatched := [], calls := [],
    dials := [], historyQueries := [] }

/-! ## Connection lifecycle (`client.go:195-269`, `websocket.go:402-418`) -/

/-- The method `Client.getBaseURL`. -/
def Client.getBaseURL (c : Client) : String :=
  if c.baseURL ≠ "" then c.baseURL else "http://localhost:8188"

/-- The method `Client.getUsername`. -/
def Client.getUsername (c : Client) : String := c.username

/-- The method `Client.getPassword`. -/
def Client.getPassword (c : Client) : String := c.password

/-- The method `Client.IsWebSocketConnected`:
`c.wsClient != nil && c.wsClient.IsConnected()`. -/
def Client.IsWebSocketConnected (w : World) : Bool :=
  match w.client.wsClient with
  | none => false
  | some a =>
      match w.heap[a]? with
      | some ws => ws.IsConnected
      | none => false

/-- The method `Client.IsWebSocketEnabled`. -/
def Client.IsWebSocketEnabled (w : World) : Bool := w.client.wsEnabled

/-- The method `Client.ensureWebSocketConnected`; it runs under `wsMu`, in one step. -/
def Client.ensureWebSocketConnected (ctx : Context) (net : NetEnv) (w : World) : World × Option GoError :=
  if !w.client.wsEnabled then
    (w, some (.errorf "WebSocket未启用，请使用 WithWebSocketEnabled(true) 或移除 WithoutWebSocket() 选项"))
  else if Client.IsWebSocketConnected w then (w, none)
  else
    let a := w.heap.length
    let ws := NewWSClient
      { BaseURL := w.client.getBaseURL
        ClientID := w.client.clientID
        Username := w.client.getUsername
        Password := w.client.getPassword
        OnProgress := w.client.onProgress
        OnStatus := w.client.onStatus
        OnExecution := w.client.onExecution
        OnError := w.client.onError }
    let w := { w with heap := w.heap ++ [ws], client := { w.client with wsClient := some a } }
    WSClient.Connect a ctx net w

/-- The method `Client.GetWebSocketClient`; the stream client is returned as its address. -/
def Client.GetWebSocketClient (ctx : Context) (net : NetEnv) (w : World) :
    World × Option Nat × Option GoError :=
  match Client.ensureWebSocketConnected ctx net w with
  | (w, some err) => (w, none, some err)
  | (w, none) => (w, w.client.wsClient, none)

/-- The method `Client.GetWebSocketStatus`. -/
def Client.GetWebSocketStatus (ctx : Context) (net : NetEnv) (w : World) :
    World × Bool × Option GoError :=
  match Client.ensureWebSocketConnected ctx net w with
  | (w, some err) => (w, false, some err)
  | (w, none) => (w, Client.IsWebSocketConnected w, none)

/-- The method `Client.CloseWebSocket`; `closeErr` is what `conn.Close` returns. -/
def Client.CloseWebSocket (closeErr : Option GoError) (w : World) : World × Option GoError :=
  match w.client.wsClient with
  | some a =>
      let r := WSClient.Close a closeErr w
      ({ r.1 with client := { r.1.client with wsClient := none } }, r.2)
  | none => (w, none)

/-! ## The event-driven waiter (`websocket.go:307-400`) -/

/-- The nanosecond count of `time.Minute`. -/
def timeMinute : Int := 60 * timeSecond

/-- The three cases of the `select` at `websocket.go:392-399`. -/
inductive SelectCase
  | resultChan
  | errorChan
  | timeoutDone
  deriving DecidableEq, Repr

/-- The function `waitForCompletionWithExistingWS` up to its `select`
(`websocket.go:324-390`): the channels and the flag are created, the two handlers are
saved and the wrappers installed.  The call gets the next wait number. -/
def Client.waitForCompletionWithExistingWS (ctx : Context) (promptID : String) (timeout : Int)
    (wsClient : Nat) (w : World) : World :=
  match w.heap[wsClient]? with
  | none => w
  | some ws =>
      let wait := w.waits.length
      let frame : WaitFrame :=
        { ctx := ctx
          promptID := promptID
          timeout := timeout
          wsClient := wsClient
          resultChan := Chan.make
          errorChan := Chan.make
          completed := false
          originalOnExecution := ws.onExecution
          originalOnError := ws.onError
          followUpsStarted := 0
          followUpsFinished := 0
          deadlinePassed := false
          ret := none }
      let w := { w with waits := w.waits ++ [frame] }
      w.modifyWS wsClient (fun ws =>
        { ws with onExecution := .waitWrapper frame.originalOnExecution promptID wait,
                  onError := .waitWrapper frame.originalOnError promptID wait })

/-- The return of the wait numbered `wait` with the value `ret`, followed by its deferred
function (`websocket.go:383-386`), which puts the saved handlers back. -/
def Client.waitReturn (wait : Nat) (ret : WaitReturn) (w : World) : World :=
  match w.waits[wait]? with
  | none => w
  | some frame =>
      let w := w.modifyWait wait (fun f => { f with ret := some ret })
      w.modifyWS frame.wsClient (fun ws =>
        { ws with onExecution := frame.originalOnExecution, onError := frame.originalOnError })

/-- The `select` of the wait numbered `wait` proceeds with the case `pick`, if that case
is ready and the wait has not returned yet (`websocket.go:392-399`).  The case
`timeoutDone` is ready once the timeout has elapsed or the caller context is done. -/
def Client.waitSelect (wait : Nat) (pick : SelectCase) (w : World) : World :=
  match w.waits[wait]? with
  | none => w
  | some frame =>
      if frame.ret.isSome then w
      else
        match pick with
        | .resultChan =>
            match frame.resultChan.recv with
            | some (result, ch) =>
                Client.waitReturn wait (some result, none)
                  (w.modifyWait wait (fun f => { f with resultChan := ch }))
            | none => w
        | .errorChan =>
            match frame.errorChan.recv with
            | some (err, ch) =>
                Client.waitReturn wait (none, some err)
                  (w.modifyWait wait (fun f => { f with errorChan := ch }))
            | none => w
        | .timeoutDone =>
            if frame.deadlinePassed || frame.ctx.isDone w.cancelled then
              Client.waitReturn wait (none, some (.errorf "等待任务完成超时")) w
            else w

/-- The timer of `timeoutCtx` of the wait numbered `wait` fires. -/
def Client.waitDeadline (wait : Nat) (w : World) : World :=
  w.modifyWait wait (fun f => { f with deadlinePassed := true })

/-- A follow-up goroutine of the wait numbered `wait` (`websocket.go:346-359`) has slept,
its history query comes back with `reply`, and it sends on one of the two channels. -/
def Client.followUp (wait : Nat) (reply : RestyResult HistoryResponse) (w : World) : World :=
  match w.waits[wait]? with
  | none => w
  | some frame =>
      if frame.followUpsFinished < frame.followUpsStarted then
        let promptID := frame.promptID
        let w := { w with historyQueries := w.historyQueries ++ [promptID] }
        let w := w.modifyWait wait (fun f => { f with followUpsFinished := f.followUpsFinished + 1 })
        match GetHistory promptID reply with
        | (_, some err) => w.modifyWait wait (fun f => { f with errorChan := f.errorChan.send err })
        | (history, none) =>
            match (history.getD []).lookup promptID with
            | some item =>
                w.modifyWait wait (fun f =>
                  { f with resultChan := f.resultChan.send { PromptID := promptID, Item := item } })
            | none =>
                w.modifyWait wait (fun f =>
                  { f with errorChan :=
                      f.errorChan.send (.errorf ("历史记录中未找到 prompt_id: " ++ promptID)) })
      else w

/-- The method `Client.WaitForCompletionWithWS` up to the point where it returns at once
(`some` of its result) or blocks in the `select` (`none`; the result then appears in the
field `ret` of the new wait). -/
def Client.WaitForCompletionWithWS (ctx : Context) (promptID : String) (timeout : Int)
    (net : NetEnv) (w : World) : World × Option WaitReturn :=
  let timeout := if timeout ≤ 0 then 5 * timeMinute else timeout
  match Client.GetWebSocketClient ctx net w with
  | (w, _, some err) => (w, some (none, some (.errorf ("获取WebSocket连接失败: " ++ err.Error))))
  | (w, some wsClient, none) =>
      (Client.waitForCompletionWithExistingWS ctx promptID timeout wsClient w, none)
  | (w, none, none) => (w, none)

/-! ## Interleavings -/

/-- What can happen next: a caller invokes a method of the client, a caller cancels a
context, the receive goroutine of a stream client moves, a follow-up goroutine finishes,
a timeout elapses, or the `select` of a wait proceeds. -/
inductive Event
  | getWebSocketStatus (ctx : Context) (net : NetEnv)
  | getWebSocketClient (ctx : Context) (net : NetEnv)
  | waitForCompletionWithWS (ctx : Context) (promptID : String) (timeout : Int) (net : NetEnv)
  | closeWebSocket (closeErr : Option GoError)
  | cancel (id : Nat)
  | loopSelect (a : Nat)
  | loopRead (a : Nat) (r : Except GoError FrameBytes)
  | followUp (wait : Nat) (reply : RestyResult HistoryResponse)
  | deadline (wait : Nat)
  | waitSelect (wait : Nat) (pick : SelectCase)

/-- The effect of one event. -/
def step (w : World) : Event → World
  | .getWebSocketStatus ctx net => (Client.GetWebSocketStatus ctx net w).1
  | .getWebSocketClient ctx net => (Client.GetWebSocketClient ctx net w).1
  | .waitForCompletionWithWS ctx promptID timeout net =>
      (Client.WaitForCompletionWithWS ctx promptID timeout net w).1
  | .closeWebSocket closeErr => (Client.CloseWebSocket closeErr w).1
  | .cancel id => { w with cancelled := id :: w.cancelled }
  | .loopSelect a => WSClient.loopSelect a w
  | .loopRead a r => WSClient.loopRead a r w
  | .followUp wait reply => Client.followUp wait reply w
  | .deadline wait => Client.waitDeadline wait w
  | .waitSelect wait pick => Client.waitSelect wait pick w

/-- The effect of a sequence of events. -/
def run (w : World) (events : List Event) : World := events.foldl step w

/-- The value returned so far by the wait numbered `wait`, if it has returned. -/
def World.returned (w : World) (wait : Nat) : Option WaitReturn :=
  match w.waits[wait]? with
  | some frame => frame.ret
  | none => none

/-- The handlers in the execution and error slots of the stream client at `a`. -/
def World.slots (w : World) (a : Nat) : Option (ExecutionCallback × ErrorCallback) :=
  match w.heap[a]? with
  | some ws => some (ws.onExecution, ws.onError)
  | none => none

/-! ## Example records and invariants -/

/-- A record with `completed = false` and an `outputs` object that has no keys. -/
def emptyOutputsItem : HistoryItem :=
  { Status := some { StatusStr := "", Completed := false, Messages := none, Started := none, Finished := none },
    Outputs := some [], Raw := none }

/-- A record with `completed = false` and no `outputs` member. -/
def pendingItem : HistoryItem :=
  { Status := some { StatusStr := "", Completed := false, Messages := none, Started := none, Finished := none },
    Outputs := none, Raw := none }

/-- A record with `completed = true` and one output. -/
def completedItem : HistoryItem :=
  { Status := some { StatusStr := "success", Completed := true, Messages := none, Started := none, Finished := none },
    Outputs := some [("9", .object [("images", .array [])])], Raw := none }

/-- What a handler call leaves alone in a wait: everything but the flag, the count of
follow-ups started and the error channel. -/
def HandlerTouched (f g : WaitFrame) : Prop :=
  g.ctx = f.ctx ∧ g.promptID = f.promptID ∧ g.timeout = f.timeout ∧ g.wsClient = f.wsClient ∧
  g.resultChan = f.resultChan ∧ g.originalOnExecution = f.originalOnExecution ∧
  g.originalOnError = f.originalOnError ∧ g.followUpsFinished = f.followUpsFinished ∧
  g.deadlinePassed = f.deadlinePassed ∧ g.ret = f.ret

/-- What a handler call leaves alone in the world: the client, the stream clients, the
cancelled contexts, the dials, the history queries, the number of waits, and in each wait
what `HandlerTouched` lists. -/
def Handled (w w' : World) : Prop :=
  w'.client = w.client ∧ w'.heap = w.heap ∧ w'.cancelled = w.cancelled ∧ w'.dials = w.dials ∧
  w'.historyQueries = w.historyQueries ∧ w'.waits.length = w.waits.length ∧
  ∀ (i : Nat) (f g : WaitFrame), w.waits[i]? = some f → w'.waits[i]? = some g → HandlerTouched f g

/-- What every event leaves alone: the stream clients and the waits allocated so far stay
allocated, and each wait keeps the id it awaits, its stream client and the two handlers
it saved. -/
def Grows (w w' : World) : Prop :=
  (∀ (a : Nat) (ws : WSClient), w.heap[a]? = some ws → ∃ ws', w'.heap[a]? = some ws') ∧
  (∀ (i : Nat) (f : WaitFrame), w.waits[i]? = some f → ∃ g, w'.waits[i]? = some g ∧
    g.promptID = f.promptID ∧ g.wsClient = f.wsClient ∧
    g.originalOnExecution = f.originalOnExecution ∧ g.originalOnError = f.originalOnError)

/-- One wait of a sequence: its arguments, the events that occur while it is blocked, and
the case with which its `select` then proceeds. -/
structure WaitScript where
  ctx : Context
  promptID : String
  timeout : Int
  events : List Event
  pick : SelectCase

/-- Waits issued one after the other on the stream client at `a`: each one begins, the
events of its script occur while it is blocked, and its `select` proceeds with the case of
the script; the next wait begins once this one has returned.  The result is `none` when a
wait has not returned at that point, had already returned during its events, or was given
an address at which no stream client is allocated. -/
def sequentialWaits (a : Nat) : List WaitScript → World → Option World
  | [], w => some w
  | s :: rest, w =>
      let wait := w.waits.length
      let w1 := run (Client.waitForCompletionWithExistingWS s.ctx s.promptID s.timeout a w) s.events
      let w2 := Client.waitSelect wait s.pick w1
      if (w.slots a).isSome && (w1.returned wait).isNone && (w2.returned wait).isSome then
        sequentialWaits a rest w2
      else none

/-- An environment in which `url.Parse` finds neither query nor fragment in an address
and every dial succeeds with connection number 1. -/
def demoNet : NetEnv :=
  { parse := fun wsURL => .ok (URL.plain wsURL)
    parseQuery := fun _ => { entries := [] }
    dial := fun _ _ => .ok 1 }

/-- The frame with type `executing`, a null node and the given prompt id. -/
def executingDone (p : String) : FrameBytes :=
  .json (.object [("type", .string "executing"),
    ("data", .object [("node", .null), ("prompt_id", .string p)])])

/-- A frame with type `execution_error` for the given prompt id. -/
def executionErrorFrame (p : String) : FrameBytes :=
  .json (.object [("type", .string "execution_error"),
    ("data", .object [("prompt_id", .string p), ("node_id", .string "7"),
      ("node_type", .string "KSampler"), ("exception_message", .string "out of memory")])])

/-- A client with an execution callback and an error callback, connected, with its
receive goroutine blocked in `conn.Read`. -/
def demoWorld : World :=
  run (World.new (NewClientWithOptions "demo" "http://127.0.0.1:8812/"
        [WithExecutionCallback (.user 1), WithErrorCallback (.user 2)]))
    [.getWebSocketClient .background demoNet, .loopSelect 0]

/-- Four waits in a row, ending with a result, with a notified error, by timeout and by
cancellation of the caller context. -/
def demoScripts : List WaitScript :=
  [ { ctx := .background, promptID := "a1", timeout := 0,
      events := [.loopRead 0 (.ok (executingDone "a1")), .loopSelect 0,
                 .followUp 0 (.response 200 "" [("a1", completedItem)])],
      pick := .resultChan },
    { ctx := .background, promptID := "a2", timeout := 0,
      events := [.loopRead 0 (.ok (executionErrorFrame "a2")), .loopSelect 0],
      pick := .errorChan },
    { ctx := .background, promptID := "a3", timeout := timeSecond,
      events := [.deadline 2], pick := .timeoutDone },
    { ctx := .cancellable 5, promptID := "a4", timeout := timeSecond,
      events := [.cancel 5], pick := .timeoutDone } ]

/-- The frame types that `handleMessage` dispatches. -/
def recognizedTypes : List String :=
  ["status", "execution_start", "executing", "progress", "execution_error", "execution_interrupted"]

/-- A frame with a type that `handleMessage` does not know. -/
def unknownFrame : FrameBytes :=
  .json (.object [("type", .string "crystools.monitor"), ("data", .object [("cpu", .number (.int 12))])])

/-- The stream client of `demoWorld`. -/
def demoStream : WSClient :=
  { conn := some 1, baseURL := "http://127.0.0.1:8812/", clientID := "demo", username := "",
    password := "", onProgress := .nil, onStatus := .nil, onExecution := .user 1,
    onError := .user 2, running := true, ctx := some .background, cancelCalled := false,
    loop := .inRead }

/-- The stored stream client is the same one and is connected exactly as before. -/
def KeepsConn (w w' : World) : Prop :=
  w'.client.wsClient = w.client.wsClient ∧
  ∀ a : Nat, w.client.wsClient = some a →
    (w'.heap[a]?).map WSClient.IsConnected = (w.heap[a]?).map WSClient.IsConnected

/-- A client just built, with streaming enabled and nothing connected. -/
def freshWorld : World := World.new (NewClient "demo" "http://127.0.0.1:8812/")

/-- The result `v` carries the awaited id `p` and the entry for `p` of the reply to a
follow-up history query of the wait numbered `n` among `events`. -/
def FromFollowUp (p : String) (n : Nat) (events : List Event) (v : WaitResult) : Prop :=
  v.PromptID = p ∧ ∃ reply h, Event.followUp n reply ∈ events ∧
    GetHistory p reply = (some h, none) ∧ h.lookup p = some v.Item

/-- The wait awaits `p`, and every result in its result channel or returned by it comes
from a follow-up reply among `events`; a returned result comes with a nil error. -/
def GoodFrame (p : String) (n : Nat) (events : List Event) (F : WaitFrame) : Prop :=
  F.promptID = p ∧
  (∀ v ∈ F.resultChan.buffer, FromFollowUp p n events v) ∧
  (∀ v ∈ F.resultChan.blocked, FromFollowUp p n events v) ∧
  ∀ r e, F.ret = some (some r, e) → e = none ∧ FromFollowUp p n events r

/-- The wait numbered `n` exists and is a `GoodFrame`. -/
def ResultsTraced (p : String) (n : Nat) (events : List Event) (w : World) : Prop :=
  ∃ F, w.waits[n]? = some F ∧ GoodFrame p n events F

/-- An `executing` frame whose `prompt_id` is a number. -/
def executingBadFrame : FrameBytes :=
  .json (.object [("type", .string "executing"),
    ("data", .object [("node", .string "5"), ("prompt_id", .number (.int 17))])])

/-- A frame whose `data` member is a string instead of an object. -/
def dataStringFrame : FrameBytes :=
  .json (.object [("type", .string "progress"), ("data", .string "oops")])

/-- The error, if any, of the `json.Unmarshal` into the typed payload that the handler of
each of the five frame types with a typed payload applies to the data of the frame
(`websocket.go:229-231`, `244-246`, `258-260`, `272-274`, `286-288`). -/
def payloadError (msg : WSMessage) : Option GoError :=
  if msg.Type_ = "status" then
    (unmarshalStruct "Go value of type comfyui2go.WSStatusMessage" WSStatusMessage.setField
      { Status := { ExecInfo := { QueueRemaining := 0 } } } (jsonMarshal msg.Data).1).2
  else if msg.Type_ = "execution_start" then
    (unmarshalStruct "Go value of type comfyui2go.WSExecutionStartMessage"
      WSExecutionStartMessage.setField { PromptID := "" } (jsonMarshal msg.Data).1).2
  else if msg.Type_ = "executing" then
    (unmarshalStruct "Go value of type comfyui2go.WSExecutingMessage"
      WSExecutingMessage.setField { Node := none, PromptID := "" } (jsonMarshal msg.Data).1).2
  else if msg.Type_ = "progress" then
    (unmarshalStruct "Go value of type comfyui2go.WSProgressMessage"
      WSProgressMessage.setField { Value := 0, Max := 0 } (jsonMarshal msg.Data).1).2
  else if msg.Type_ = "execution_error" then
    (unmarshalStruct "Go value of type comfyui2go.WSExecutionErrorMessage"
      WSExecutionErrorMessage.setField
      { PromptID := "", NodeID := "", NodeType := "", Exception := "" } (jsonMarshal msg.Data).1).2
  else none

/-- The envelope that `executingBadFrame` decodes to. -/
def executingBadMessage : WSMessage :=
  { Type_ := "executing",
    Data := some [("node", .string "5"), ("prompt_id", .number (.float false 4785074604081152 (-48)))] }

/-- What the wrapper handlers of a wait may do to its frame: nothing, or, with the flag
`completed` still false, set the flag and either start one follow-up goroutine or send one
error on `errorChan`. -/
def ActsOnce (F G : WaitFrame) : Prop :=
  G = F ∨ (F.completed = false ∧
    (G = { F with completed := true, followUpsStarted := F.followUpsStarted + 1 } ∨
     ∃ e, G = { F with completed := true, errorChan := F.errorChan.send e }))

/-- The frame of the wait numbered `n`, if there is one, is still there and changed as
`ActsOnce` says. -/
def WaitActs (n : Nat) (w w' : World) : Prop :=
  ∀ F, w.waits[n]? = some F → ∃ G, w'.waits[n]? = some G ∧ ActsOnce F G

/-- The events of the receive goroutines. -/
def Event.isLoop : Event → Bool
  | .loopSelect _ => true
  | .loopRead _ _ => true
  | _ => false

/-- Two end signals, an error frame and a failed read for the wait on `abc123`. -/
def repeatedSignals : List Event :=
  [.loopRead 0 (.ok (executingDone "abc123")), .loopSelect 0,
   .loopRead 0 (.ok (executingDone "abc123")), .loopSelect 0,
   .loopRead 0 (.ok (executionErrorFrame "abc123")), .loopSelect 0,
   .loopRead 0 (.error (.transport "EOF"))]

/-- The error that `handleExecutionErrorMessage` builds from a decoded payload
(`websocket.go:289-290`). -/
def executionErrorOf (errMsg : WSExecutionErrorMessage) : GoError :=
  .errorf ("节点 " ++ errMsg.NodeID ++ " (" ++ errMsg.NodeType ++ ") 执行错误: " ++ errMsg.Exception)

/-- An environment in which `url.Parse` finds neither query nor fragment in an address
and every dial is refused. -/
def refusingNet : NetEnv :=
  { parse := fun wsURL => .ok (URL.plain wsURL)
    parseQuery := fun _ => { entries := [] }
    dial := fun _ _ => .error (.transport "connection refused") }

/-- The calls that go through `ensureWebSocketConnected` and nothing else. -/
def Event.isEnsure : Event → Bool
  | .getWebSocketStatus _ _ => true
  | .getWebSocketClient _ _ => true
  | _ => false

/-- What of a stream client decides whether it is connected and whether its context is
done: the connection, the `running` flag, the context and whether `cancel` was called. -/
def WSClient.core (ws : WSClient) : Option Nat × Bool × Option Context × Bool :=
  (ws.conn, ws.running, ws.ctx, ws.cancelCalled)

/-- The events other than those that end the connection of the stream client at `a`
connected under the context `ctx`: a `CloseWebSocket`, a failed read on `a`, and the
cancellation of `ctx`. -/
def Event.keepsAlive (a : Nat) (ctx : Option Context) : Event → Bool
  | .closeWebSocket _ => false
  | .loopRead b (.error _) => b != a
  | .cancel id => ctx != some (.cancellable id)
  | _ => true

/-- The client, the dials, the cancelled contexts and the core of the stream client at
`a` are the same in both states. -/
def Steady (a : Nat) (w w' : World) : Prop :=
  w'.client = w.client ∧ w'.dials = w.dials ∧ w'.cancelled = w.cancelled ∧
  (w'.heap[a]?).map WSClient.core = (w.heap[a]?).map WSClient.core

/-- Streaming is enabled, the client holds the stream client at `a`, which is connected
under the context `ctx`, not done; and the dials so far are `dials`. -/
def Alive (a : Nat) (ctx : Option Context) (dials : List (String × Option String)) (w : World) : Prop :=
  w.client.wsEnabled = true ∧ w.client.wsClient = some a ∧ w.dials = dials ∧
  ∃ ws, w.heap[a]? = some ws ∧ ws.IsConnected = true ∧ ws.ctx = ctx ∧
    ws.ctxDone w.cancelled = false

/-- Events around a connected client that neither close it, nor fail a read on it, nor
cancel its context: further callers, a pass of the loop, an unknown frame, a cancelled
context of another caller, a wait and its end signal. -/
def quietEvents : List Event :=
  [.getWebSocketClient .background refusingNet, .loopRead 0 (.ok unknownFrame), .loopSelect 0,
   .getWebSocketStatus (.cancellable 4) refusingNet, .cancel 4,
   .waitForCompletionWithWS (.cancellable 4) "abc123" 0 refusingNet,
   .loopRead 0 (.ok (executingDone "abc123")), .loopSelect 0, .waitSelect 0 .timeoutDone,
   .loopRead 1 (.error (.transport "EOF")), .getWebSocketClient .background refusingNet]

/-- Whether every wait wrapper inside an execution callback belongs to a wait among
`waits` that awaits the id the wrapper compares with (the closure of
`websocket.go:337-362` captures `promptID` and the variables of its own call). -/
def ExecutionCallback.wf (waits : List WaitFrame) : ExecutionCallback → Bool
  | .nil => true
  | .user _ => true
  | .waitWrapper original promptID wait =>
      original.wf waits &&
        (match waits[wait]? with
          | some F => F.promptID == promptID
          | none => false)

/-- Whether the execution callbacks held by the client, by the stream clients and by the
waits are all well formed in the sense of `ExecutionCallback.wf`. -/
def World.wellFormed (w : World) : Bool :=
  w.client.onExecution.wf w.waits && w.heap.all (fun ws => ws.onExecution.wf w.waits) &&
    w.waits.all (fun F => F.originalOnExecution.wf w.waits)

/-- Every wait of the first list is in the second at the same number, awaiting the same
id. -/
def SameIds (waits waits' : List WaitFrame) : Prop :=
  ∀ (i : Nat) (F : WaitFrame), waits[i]? = some F →
    ∃ G, waits'[i]? = some G ∧ G.promptID = F.promptID

/-- What a frame handled by `handleMessage`, with the calls `ds` made through the handler
slots, may do to the frame of a wait as far as its result goes: the awaited id, the result
channel and the returned value stay, and the count of follow-ups started does not go down
and stays unless the end signal for the awaited id is among `ds`. -/
def SignalStep (ds : List Dispatch) (F G : WaitFrame) : Prop :=
  G.promptID = F.promptID ∧ G.resultChan = F.resultChan ∧ G.ret = F.ret ∧
  F.followUpsStarted ≤ G.followUpsStarted ∧
  (G.followUpsStarted = F.followUpsStarted ∨ Dispatch.execution F.promptID none ∈ ds)

/-- The frame awaits `p`; with a follow-up started, the end signal for `p` is among the
calls `ds`; a result in the result channel or returned comes with a follow-up started;
and a nil result is returned with a non-nil error. -/
def SignalSeen (p : String) (ds : List Dispatch) (F : WaitFrame) : Prop :=
  F.promptID = p ∧
  (1 ≤ F.followUpsStarted → Dispatch.execution p none ∈ ds) ∧
  (∀ v, (v ∈ F.resultChan.buffer ∨ v ∈ F.resultChan.blocked ∨ ∃ e, F.ret = some (some v, e)) →
    1 ≤ F.followUpsStarted) ∧
  (∀ e, F.ret = some (none, e) → e ≠ none)

/-- The wait numbered `n` exists, the calls made through the handler slots are `base`
followed by some `ds`, and the frame of the wait is as `SignalSeen` says for `ds`. -/
def Signalled (p : String) (n : Nat) (base : List Dispatch) (w : World) : Prop :=
  ∃ F ds, w.waits[n]? = some F ∧ w.dispatched = base ++ ds ∧ SignalSeen p ds F

/-- The end signal for `abc123` arrives and the follow-up query succeeds with an entry for
it, but the timeout elapses before the `select` of the wait proceeds, and the `select`
takes the timeout case. -/
def lateSelect : List Event :=
  [.loopRead 0 (.ok (executingDone "abc123")),
   .followUp 0 (.response 200 "" [("abc123", completedItem)]),
   .deadline 0, .waitSelect 0 .timeoutDone]

/-- The end signal for `abc123` arrives shortly before the timeout; the wait returns on
the timeout while the follow-up goroutine is still sleeping, and the follow-up query then
succeeds with an entry for `abc123`. -/
def lateFollowUp : List Event :=
  [.loopRead 0 (.ok (executingDone "abc123")), .deadline 0, .waitSelect 0 .timeoutDone,
   .followUp 0 (.response 200 "" [("abc123", completedItem)])]

/-- The struct `PromptResponse` (`types.go:22-26`). -/
structure PromptResponse where
  PromptID : String
  Number : Int
  NodeErrors : JSON

/-- The request body that `Prompt` builds: the map literal with the members `prompt` and
`client_id`, listed in key order. -/
def Client.promptBody (c : Client) (prompt : JSON) : JSONMap :=
  [("client_id", .string c.clientID), ("prompt", (jsonMarshal prompt).1)]

/-- The method `Client.Prompt`; `post path body` is the outcome of the resty request
`Post(path)` with that body, its `SetResult` target decoded into a `PromptResponse`. -/
def Client.Prompt (c : Client) (prompt : JSON)
    (post : String → JSONMap → RestyResult PromptResponse) : String × Option GoError :=
  match post "/prompt" (c.promptBody prompt) with
  | .failed err => ("", some err)
  | .response status body resp =>
      if !isSuccess status then ("", some (.errorf ("/prompt failed: " ++ body)))
      else if resp.PromptID = "" then ("", some (.errorf "missing prompt_id in response"))
      else (resp.PromptID, none)

/-- A server that queues every prompt under the id `abc123`. -/
def acceptingPost : String → JSONMap → RestyResult PromptResponse :=
  fun _ _ => .response 200 "" { PromptID := "abc123", Number := 1, NodeErrors := none }

/-- The option `WithDebug`: it acts on the resty client, which is outside this model, and
leaves every field of `Client` kept here as it is. -/
def WithDebug (_ : Bool) : ClientOption := fun c => c

/-- The option `WithHTTP`; the resty client is given as a number.  It replaces the resty
client and leaves every field of `Client` kept here as it is. -/
def WithHTTP (_ : Nat) : ClientOption := fun c => c

/-- The option `WithTimeout`: it acts on the resty client and leaves every field of
`Client` kept here as it is. -/
def WithTimeout (_ : Int) : ClientOption := fun c => c

/-- An option built by one of the constructors of `options.go`. -/
inductive OptionCall
  | withDebug (enable : Bool)
  | withClientID (id : String)
  | withHTTP (rc : Nat)
  | withTimeout (d : Int)
  | withBaseURL (url : String)
  | withBasicAuth (user pass : String)
  | withProgressCallback (callback : ProgressCallback)
  | withStatusCallback (callback : StatusCallback)
  | withExecutionCallback (callback : ExecutionCallback)
  | withErrorCallback (callback : ErrorCallback)
  | withWebSocketCallbacks (config : WSCallbackConfig)
  | withWebSocketEnabled (enabled : Bool)
  | withoutWebSocket

/-- The function on clients that an option is. -/
def OptionCall.option : OptionCall → ClientOption
  | .withDebug enable => WithDebug enable
  | .withClientID id => WithClientID id
  | .withHTTP rc => WithHTTP rc
  | .withTimeout d => WithTimeout d
  | .withBaseURL url => WithBaseURL url
  | .withBasicAuth user pass => WithBasicAuth user pass
  | .withProgressCallback callback => WithProgressCallback callback
  | .withStatusCallback callback => WithStatusCallback callback
  | .withExecutionCallback callback => WithExecutionCallback callback
  | .withErrorCallback callback => WithErrorCallback callback
  | .withWebSocketCallbacks config => WithWebSocketCallbacks config
  | .withWebSocketEnabled enabled => WithWebSocketEnabled enabled
  | .withoutWebSocket => WithoutWebSocket

/-- The value an option sets for streaming, in the words of the claim:
`WithWebSocketEnabled(b)` sets `b`, `WithoutWebSocket()` sets false, the others set
nothing. -/
def OptionCall.wsSetting : OptionCall → Option Bool
  | .withWebSocketEnabled enabled => some enabled
  | .withoutWebSocket => some false
  | _ => none

/-- The value set by the last option of the list that sets one, and true when none
does. -/
def lastWebSocketSetting (opts : List OptionCall) : Bool :=
  ((opts.filterMap OptionCall.wsSetting).getLast?).getD true

/-- The frame with type `execution_interrupted` and the given data. -/
def interruptedFrame (data : JSONValue) : FrameBytes :=
  .json (.object [("type", .string "execution_interrupted"), ("data", data)])

/-- The frame with type `execution_start` and the given prompt id. -/
def executionStartFrame (p : String) : FrameBytes :=
  .json (.object [("type", .string "execution_start"),
    ("data", .object [("prompt_id", .string p), ("timestamp", .number (.int 1700000000000))])])

/-- A member of the data of an `executing` frame as the server sends it: `node` holding
null or a string, `prompt_id` holding null or a string, or a member whose name folds to
neither of the two. -/
def ExecutingMember (kv : String × JSONValue) : Prop :=
  (kv.1 = "node" ∧ (kv.2 = .null ∨ ∃ s, kv.2 = .string s)) ∨
  (kv.1 = "prompt_id" ∧ (kv.2 = .null ∨ ∃ s, kv.2 = .string s)) ∨
  (matchesField kv.1 "node" = false ∧ matchesField kv.1 "prompt_id" = false)

/-- The node of an `executing` frame, in the words of the claim: the string under `node`,
and nil when `node` is null or absent. -/
def frameNode (entries : JSONMap) : Option String :=
  match entries.lookup "node" with
  | some (.string s) => some s
  | _ => none

/-- The prompt id of a frame: the string under `prompt_id`, empty when there is none. -/
def framePromptID (entries : JSONMap) : String :=
  match entries.lookup "prompt_id" with
  | some (.string p) => p
  | _ => ""

/-- An `executing` frame for node 5 of `abc123`, with a member the struct does not know. -/
def executingNodeFrame : FrameBytes :=
  .json (.object [("type", .string "executing"),
    ("data", .object [("node", .string "5"), ("display_node", .string "5"),
      ("prompt_id", .string "abc123")])])

/-- The number of values waiting in the two channels of a wait: those buffered and those
of blocked senders. -/
def WaitFrame.queued (F : WaitFrame) : Nat :=
  F.resultChan.buffer.length + F.resultChan.blocked.length +
    F.errorChan.buffer.length + F.errorChan.blocked.length

/-- The number of sends still to come on the channels of a wait: one while the flag
`completed` is not set, and afterwards one for each follow-up started and not finished. -/
def WaitFrame.pending (F : WaitFrame) : Nat :=
  if F.completed then F.followUpsStarted - F.followUpsFinished else 1

/-- The values waiting in the channels of the wait numbered `n`. -/
def World.queued (w : World) (n : Nat) : Nat :=
  match w.waits[n]? with
  | some F => F.queued
  | none => 0

/-- The number of values sent on the channels of the wait numbered `n` during the events:
a step sends as many values as it adds to the two channels (the one step that takes a
value out, the `select` of the wait, sends none). -/
def sendsDuring (n : Nat) : World → List Event → Nat
  | _, [] => 0
  | w, e :: rest => ((step w e).queued n - w.queued n) + sendsDuring n (step w e) rest

/-- The channels of the wait hold, together with the sends still to come, at most one
value, and no sender is blocked. -/
def Budget (F : WaitFrame) : Prop :=
  F.queued + F.pending ≤ 1 ∧ F.resultChan.blocked = [] ∧ F.errorChan.blocked = [] ∧
  F.followUpsFinished ≤ F.followUpsStarted ∧ (F.completed = false → F.followUpsStarted = 0)

/-- From a frame within its budget to a frame within its budget, each value added to the
channels being taken off the sends still to come. -/
def Spends (F G : WaitFrame) : Prop :=
  Budget F → Budget G ∧ (G.queued - F.queued) + G.pending ≤ F.pending

/-- The frame of the wait numbered `n`, if there is one, is still there and changed as
`Spends` says. -/
def Thrifty (n : Nat) (w w' : World) : Prop :=
  ∀ F, w.waits[n]? = some F → ∃ G, w'.waits[n]? = some G ∧ Spends F G

/-- The end signal, an error frame, a failed follow-up, the timeout, and a second end
signal after the wait has returned. -/
def crowdedWait : List Event :=
  [.loopRead 0 (.ok (executingDone "abc123")), .loopSelect 0,
   .loopRead 0 (.ok (executionErrorFrame "abc123")), .loopSelect 0,
   .deadline 0, .waitSelect 0 .timeoutDone,
   .followUp 0 (.failed (.transport "connection reset")),
   .followUp 0 (.response 200 "" [("abc123", completedItem)]),
   .loopRead 0 (.ok (executingDone "abc123"))]

/-- A client with an execution callback and an error callback, connected under the caller
context numbered 1, with its receive goroutine blocked in `conn.Read`. -/
def cancellableWorld : World :=
  run (World.new (NewClientWithOptions "demo" "http://127.0.0.1:8812/"
        [WithExecutionCallback (.user 1), WithErrorCallback (.user 2)]))
    [.getWebSocketClient (.cancellable 1) demoNet, .loopSelect 0]

/-- An `execution_interrupted` frame whose data is a string instead of an object. -/
def interruptedStringFrame : FrameBytes := interruptedFrame (.string "stop")

/-- An `execution_interrupted` frame for `abc123` whose data also holds a number beyond
the float64 range. -/
def interruptedHugeFrame : FrameBytes :=
  interruptedFrame (.object [("prompt_id", .string "abc123"), ("eta", .number (.frac "1e400"))])

/-- An `executing` frame for `abc123` whose node stands under the key `Node`. -/
def executingCapitalFrame : FrameBytes :=
  .json (.object [("type", .string "executing"),
    ("data", .object [("Node", .string "7"), ("prompt_id", .string "abc123")])])

/-- An `executing` frame for `abc123` whose node is a number. -/
def executingNumberFrame : FrameBytes :=
  .json (.object [("type", .string "executing"),
    ("data", .object [("node", .number (.int 7)), ("prompt_id", .string "abc123")])])

/-- An `executing` frame for `abc123` whose data also holds a number beyond the float64
range. -/
def executingHugeFrame : FrameBytes :=
  .json (.object [("type", .string "executing"),
    ("data", .object [("node", .null), ("prompt_id", .string "abc123"),
      ("eta", .number (.frac "1e400"))])])

/-- The state of a client on which streaming is disabled and nothing has been allocated:
no stream client, no dial, no wait. -/
def Idle (w : World) : Prop :=
  w.client.wsEnabled = false ∧ w.client.wsClient = none ∧ w.heap = [] ∧ w.dials = [] ∧
  w.waits = []

/-- A client built with streaming disabled, as in `TestWebSocketOptionalFeature`, with an
option after the disabling one. -/
def disabledWorld : World :=
  World.new (NewClientWithOptions "test-disabled" "http://localhost:8188"
    ([OptionCall.withBasicAuth "admin" "admin123456", .withoutWebSocket,
      .withTimeout (30 * timeSecond)].map OptionCall.option))

/-- What an event beside a wait leaves alone in the frame of the wait: the id awaited, the
result channel, the value returned and the count of finished follow-ups; and once the
flag `completed` is set also the flag, the count of follow-ups started and the error
channel. -/
def Bystander (F G : WaitFrame) : Prop :=
  G.promptID = F.promptID ∧ G.resultChan = F.resultChan ∧ G.ret = F.ret ∧
  G.followUpsFinished = F.followUpsFinished ∧
  (F.completed = true → G.completed = true ∧ G.followUpsStarted = F.followUpsStarted ∧
    G.errorChan = F.errorChan)

/-- The events beside the wait numbered `n`: every event but a step of its own `select`
and the reply to a follow-up query of any wait. -/
def Event.beside (n : Nat) : Event → Bool
  | .waitSelect j _ => j != n
  | .followUp _ _ => false
  | _ => true

/-- The events beside the wait numbered `n`, and replies addressed to its follow-ups. -/
def Event.besideOrReply (n : Nat) : Event → Bool
  | .waitSelect j _ => j != n
  | .followUp j _ => j == n
  | _ => true

/-- Whether the handler stands directly around nil or a caller callback and was built
by the wait numbered `n`, which awaits `p`. -/
def ExecutionCallback.wraps (p : String) (n : Nat) : ExecutionCallback → Bool
  | .waitWrapper .nil q m => q == p && m == n
  | .waitWrapper (.user _) q m => q == p && m == n
  | _ => false

/-- Whether the handler stands directly around nil or a caller callback and was built
by the wait numbered `n`, which awaits `p`. -/
def ErrorCallback.wraps (p : String) (n : Nat) : ErrorCallback → Bool
  | .waitWrapper .nil q m => q == p && m == n
  | .waitWrapper (.user _) q m => q == p && m == n
  | _ => false

/-- The wait numbered `n` awaits `p` on the stream client at `a` and nothing has happened
to it yet: it has not returned, its flag `completed` is unset, its channels are empty, no
follow-up has been started, its two wrappers stand in the handler slots of the stream
client, around nil or a caller callback, and the receive loop is reading. -/
def Armed (a n : Nat) (p : String) (v : World) : Bool :=
  match v.waits[n]?, v.heap[a]? with
  | some F, some ws =>
      F.promptID == p && !F.completed && F.ret.isNone &&
      F.resultChan.buffer.isEmpty && F.resultChan.blocked.isEmpty &&
      F.errorChan.buffer.isEmpty && F.errorChan.blocked.isEmpty &&
      F.followUpsStarted == 0 && F.followUpsFinished == 0 &&
      ws.loop == .inRead && ws.onExecution.wraps p n && ws.onError.wraps p n
  | _, _ => false

/-- A network in which `url.Parse` accepts every address and every dial is refused. -/
def NetEnv.refuses (net : NetEnv) : Prop :=
  (∀ address, ∃ u, net.parse address = .ok u) ∧ (∀ wsURL auth, ∃ e, net.dial wsURL auth = .error e)

/-- A call of `GetWebSocketStatus` or `GetWebSocketClient` on a network that refuses
every dial. -/
def Event.isRefused (e : Event) : Prop :=
  ∃ ctx net, (e = .getWebSocketStatus ctx net ∨ e = .getWebSocketClient ctx net) ∧ net.refuses

/-- A `progress` frame whose value is the largest 64-bit integer, which float64 cannot
hold. -/
def progressHugeFrame : FrameBytes :=
  .json (.object [("type", .string "progress"),
    ("data", .object [("value", .number (.int 9223372036854775807)), ("max", .number (.int 20))])])

/-! ## Theorems: the polling waiter -/

theorem pollLoop_ok_cons (promptID : String) (ev : PollEvent) (rest : List PollEvent)
    (queries : List String) (hist : HistoryResponse) (h : ev.response? = some hist) :
    pollLoop promptID (ev :: rest) queries =
      match hist.lookup promptID with
      | some item =>
          if endsPoll item then
            (queries ++ [promptID], some (some { PromptID := promptID, Item := item }, none))
          else pollLoop promptID rest (queries ++ [promptID])
      | none => pollLoop promptID rest (queries ++ [promptID]) := by
  cases ev with
  | done e => simp [PollEvent.response?] at h
  | tick reply =>
    cases reply with
    | failed err => simp [PollEvent.response?] at h
    | response status body out =>
      simp only [PollEvent.response?] at h
      split at h
      · rename_i hs
        cases h
        simp only [pollLoop, GetHistory, hs, Bool.not_true, Bool.false_eq_true, if_false, Option.getD_some]
        cases hl : List.lookup promptID hist with
        | none => rfl
        | some item =>
          rcases item with ⟨_ | st, outs, raw⟩
          · simp [endsPoll]
          · cases hc : st.Completed <;> simp [endsPoll, hc]
      · cases h

theorem pollLoop_quiet (promptID : String) (events : List PollEvent)
    (hquiet : ∀ ev ∈ events, ∃ h, ev.response? = some h ∧
      ∀ item, h.lookup promptID = some item → endsPoll item = false) :
    ∀ queries, pollLoop promptID events queries =
      (queries ++ List.replicate events.length promptID, none) := by
  induction events with
  | nil => intro queries; simp [pollLoop]
  | cons ev rest ih =>
    intro queries
    obtain ⟨h, hresp, hitem⟩ := hquiet ev (List.mem_cons_self _ _)
    have ihr := ih (fun e he => hquiet e (List.mem_cons_of_mem _ he)) (queries ++ [promptID])
    rw [pollLoop_ok_cons promptID ev rest queries h hresp]
    cases hl : List.lookup promptID h with
    | none => simp [ihr, List.replicate_succ]
    | some item => simp [hitem item hl, ihr, List.replicate_succ]

theorem pollLoop_success_origin (promptID : String) (events : List PollEvent)
    (hok : ∀ ev ∈ events, ev.response?.isSome = true) :
    ∀ queries result err, (pollLoop promptID events queries).2 = some (some result, err) →
      err = none ∧ ∃ ev ∈ events, ∃ h item, ev.response? = some h ∧
        h.lookup promptID = some item ∧ endsPoll item = true ∧
        result = { PromptID := promptID, Item := item } := by
  induction events with
  | nil => intro queries result err hret; simp [pollLoop] at hret
  | cons ev rest ih =>
    intro queries result err hret
    have hsome := hok ev (List.mem_cons_self _ _)
    obtain ⟨h, hresp⟩ := Option.isSome_iff_exists.mp hsome
    have ihr := ih (fun e he => hok e (List.mem_cons_of_mem _ he)) (queries ++ [promptID]) result err
    rw [pollLoop_ok_cons promptID ev rest queries h hresp] at hret
    cases hl : List.lookup promptID h with
    | none =>
      rw [hl] at hret
      obtain ⟨he, ev', hmem, rest'⟩ := ihr hret
      exact ⟨he, ev', List.mem_cons_of_mem _ hmem, rest'⟩
    | some item =>
      rw [hl] at hret
      cases hend : endsPoll item with
      | false =>
        simp only [hend, Bool.false_eq_true, if_false] at hret
        obtain ⟨he, ev', hmem, rest'⟩ := ihr hret
        exact ⟨he, ev', List.mem_cons_of_mem _ hmem, rest'⟩
      | true =>
        simp only [hend, if_true, Option.some.injEq, Prod.mk.injEq] at hret
        obtain ⟨hres, herr⟩ := hret
        exact ⟨herr.symm, ev, List.mem_cons_self _ _, h, item, hresp, hl, hend, hres.symm⟩

/-- C1 (as amended): for every sequence of successful history responses, `WaitForCompletion`
returns a success result only on a response whose entry for the awaited id has a non-nil
`Status` with `Completed = true` or an `Outputs` map that is present (non-nil, with or
without keys), and then with a nil error and that entry as `Item`; when every entry for the
awaited id has no completed status and a nil `Outputs`, the wait does not end. -/
theorem poll_success_needs_completed_or_outputs_present
    (promptID : String) (pollEvery : Int) (events : List PollEvent)
    (hok : ∀ ev ∈ events, ev.response?.isSome = true) :
    (∀ result err, (WaitForCompletion promptID pollEvery events).ret = some (some result, err) →
      err = none ∧ ∃ ev ∈ events, ∃ h item, ev.response? = some h ∧
        h.lookup promptID = some item ∧ endsPoll item = true ∧
        result = { PromptID := promptID, Item := item }) ∧
    ((∀ ev ∈ events, ∀ h item, ev.response? = some h → h.lookup promptID = some item →
        endsPoll item = false) →
      (WaitForCompletion promptID pollEvery events).ret = none) := by
  refine ⟨fun result err hret => ?_, fun hquiet => ?_⟩
  · exact pollLoop_success_origin promptID events hok [] result err hret
  · have hq : ∀ ev ∈ events, ∃ h, ev.response? = some h ∧
        ∀ item, h.lookup promptID = some item → endsPoll item = false := by
      intro ev hev
      obtain ⟨h, hresp⟩ := Option.isSome_iff_exists.mp (hok ev hev)
      exact ⟨h, hresp, fun item hl => hquiet ev hev h item hresp hl⟩
    simp [WaitForCompletion, pollLoop_quiet promptID events hq]

/-- Witness for C1: two successful ticks, the first with a record that has no completed status
and nil outputs, the second without a record, leave the wait blocked. -/
theorem poll_success_needs_completed_or_outputs_present_witness :
    (WaitForCompletion "p" timeSecond
      [.tick (.response 200 "" [("p", pendingItem)]), .tick (.response 200 "" [])]).ret = none :=
  (poll_success_needs_completed_or_outputs_present "p" timeSecond
      [.tick (.response 200 "" [("p", pendingItem)]), .tick (.response 200 "" [])]
      (by decide)).2 (by
        intro ev hev h item hresp hl
        simp only [List.mem_cons, List.mem_singleton, List.not_mem_nil, or_false] at hev
        rcases hev with rfl | rfl
        · simp only [PollEvent.response?, isSuccess] at hresp
          cases hresp
          simp at hl
          cases hl
          rfl
        · simp only [PollEvent.response?, isSuccess] at hresp
          cases hresp
          simp at hl)

/-- Counterexample to C1 as stated: a record with `completed = false` and an `outputs` object
that has no keys is not terminal in the words of the specification, yet it ends the wait
with a success result. -/
theorem poll_ends_on_outputs_object_without_keys :
    specTerminal emptyOutputsItem = false ∧
    (WaitForCompletion "p" timeSecond [.tick (.response 200 "" [("p", emptyOutputsItem)])]).ret
      = some (some { PromptID := "p", Item := emptyOutputsItem }, none) := by
  exact ⟨rfl, rfl⟩

theorem pollLoop_absent (promptID : String) (events : List PollEvent)
    (habsent : ∀ ev ∈ events, (∃ e, ev = .done e) ∨
      ∃ h, ev.response? = some h ∧ h.lookup promptID = none) :
    ∀ queries, (pollLoop promptID events queries).2 =
      (firstDone events).map (fun e => (none, some (GoError.context e))) := by
  induction events with
  | nil => intro queries; rfl
  | cons ev rest ih =>
    intro queries
    have ihr := ih (fun e he => habsent e (List.mem_cons_of_mem _ he)) (queries ++ [promptID])
    rcases habsent ev (List.mem_cons_self _ _) with ⟨e, rfl⟩ | ⟨h, hresp, hl⟩
    · rfl
    · rw [pollLoop_ok_cons promptID ev rest queries h hresp, hl]
      cases ev with
      | done e => simp [PollEvent.response?] at hresp
      | tick reply => simpa [firstDone] using ihr

/-- C6: when every history query succeeds and no response has an entry for the awaited id
(entries under other ids are unconstrained), `WaitForCompletion` returns exactly when the
caller context is done, with a nil result and the error of the context; until then it stays
blocked, and it never returns a success result. -/
theorem poll_missing_id_returns_only_on_cancellation
    (promptID : String) (pollEvery : Int) (events : List PollEvent)
    (habsent : ∀ ev ∈ events, (∃ e, ev = .done e) ∨
      ∃ h, ev.response? = some h ∧ h.lookup promptID = none) :
    (WaitForCompletion promptID pollEvery events).ret =
      (firstDone events).map (fun e => (none, some (GoError.context e))) ∧
    ∀ result err, (WaitForCompletion promptID pollEvery events).ret ≠ some (some result, err) := by
  have hret : (WaitForCompletion promptID pollEvery events).ret =
      (firstDone events).map (fun e => (none, some (GoError.context e))) := by
    simp only [WaitForCompletion]
    exact pollLoop_absent promptID events habsent []
  refine ⟨hret, fun result err hsucc => ?_⟩
  rw [hret] at hsucc
  cases hfd : firstDone events with
  | none => simp [hfd] at hsucc
  | some e => simp [hfd] at hsucc

/-- Witness for C6: a terminal record under another id and an empty response do not end the
wait for the id missing-id; the cancellation does, with the error of the context. -/
theorem poll_missing_id_returns_only_on_cancellation_witness :
    (WaitForCompletion "missing-id" timeSecond
      [.tick (.response 200 "" [("other-id", completedItem)]), .tick (.response 200 "" []),
       .done .canceled]).ret = some (none, some (.context .canceled)) :=
  (poll_missing_id_returns_only_on_cancellation "missing-id" timeSecond
      [.tick (.response 200 "" [("other-id", completedItem)]), .tick (.response 200 "" []),
       .done .canceled]
      (by
        intro ev hev
        simp only [List.mem_cons, List.mem_singleton, List.not_mem_nil, or_false] at hev
        rcases hev with rfl | rfl | rfl
        · exact Or.inr ⟨[("other-id", completedItem)], rfl, rfl⟩
        · exact Or.inr ⟨[], rfl, rfl⟩
        · exact Or.inl ⟨_, rfl⟩)).1

/-- C7 (as amended): when the first `k - 1` history queries return, for the awaited id, records
with no completed status and a nil `Outputs`, and the `k`-th returns a record with
`Completed = true` or `Outputs` present, `WaitForCompletion` issues exactly `k` queries, all
for the awaited id, one per tick and none before the first tick, returns the `k`-th record
under the awaited id with a nil error, and has not returned after any smaller number of
ticks. -/
theorem poll_returns_at_first_ending_tick
    (promptID : String) (pollEvery : Int) (before : List PollEvent) (last : PollEvent)
    (hist : HistoryResponse) (item : HistoryItem)
    (hbefore : ∀ ev ∈ before, ∃ h it, ev.response? = some h ∧ h.lookup promptID = some it ∧
      endsPoll it = false)
    (hlast : last.response? = some hist) (hitem : hist.lookup promptID = some item)
    (hend : endsPoll item = true) :
    (WaitForCompletion promptID pollEvery (before ++ [last])).ret =
        some (some { PromptID := promptID, Item := item }, none) ∧
    (WaitForCompletion promptID pollEvery (before ++ [last])).queries =
        List.replicate (before.length + 1) promptID ∧
    ∀ n, n ≤ before.length →
      (WaitForCompletion promptID pollEvery ((before ++ [last]).take n)).ret = none ∧
      (WaitForCompletion promptID pollEvery ((before ++ [last]).take n)).queries =
        List.replicate n promptID := by
  have hq : ∀ evs : List PollEvent, (∀ ev ∈ evs, ev ∈ before) → ∀ ev ∈ evs, ∃ h, ev.response? = some h ∧
      ∀ it, h.lookup promptID = some it → endsPoll it = false := by
    intro evs hsub ev hev
    obtain ⟨h, it, hresp, hl, hne⟩ := hbefore ev (hsub ev hev)
    refine ⟨h, hresp, fun it' hl' => ?_⟩
    rw [hl] at hl'
    cases hl'
    exact hne
  have hloop : ∀ queries, pollLoop promptID (before ++ [last]) queries =
      (queries ++ List.replicate (before.length + 1) promptID,
        some (some { PromptID := promptID, Item := item }, none)) := by
    have hsub : ∀ evs : List PollEvent, (∀ ev ∈ evs, ev ∈ before) → ∀ queries,
        pollLoop promptID (evs ++ [last]) queries =
          (queries ++ List.replicate (evs.length + 1) promptID,
            some (some { PromptID := promptID, Item := item }, none)) := by
      intro evs
      induction evs with
      | nil =>
        intro _ queries
        rw [List.nil_append, pollLoop_ok_cons promptID last [] queries hist hlast, hitem]
        simp [hend]
      | cons ev rest ih =>
        intro hmem queries
        obtain ⟨h, it, hresp, hl, hne⟩ := hbefore ev (hmem ev (List.mem_cons_self _ _))
        rw [List.cons_append, pollLoop_ok_cons promptID ev _ queries h hresp, hl]
        simp only [hne, Bool.false_eq_true, if_false]
        rw [ih (fun e he => hmem e (List.mem_cons_of_mem _ he))]
        simp [List.replicate_succ]
    exact hsub before (fun _ h => h)
  refine ⟨?_, ?_, ?_⟩
  · simp [WaitForCompletion, hloop]
  · simp [WaitForCompletion, hloop]
  · intro n hn
    have htake : (before ++ [last]).take n = before.take n := by
      rw [List.take_append_of_le_length hn]
    have hlen : (before.take n).length = n := by
      rw [List.length_take]; omega
    have := pollLoop_quiet promptID (before.take n)
      (hq (before.take n) (fun ev hev => List.mem_of_mem_take hev)) []
    rw [htake]
    simp [WaitForCompletion, this, hlen]

/-- Witness for C7 with `k = 3`: three queries are issued. -/
theorem poll_returns_at_first_ending_tick_witness :
    (WaitForCompletion "p" timeSecond
      ([.tick (.response 200 "" [("p", pendingItem)]), .tick (.response 200 "" [("p", pendingItem)])]
        ++ [.tick (.response 200 "" [("p", completedItem)])])).queries = ["p", "p", "p"] :=
  (poll_returns_at_first_ending_tick "p" timeSecond
      [.tick (.response 200 "" [("p", pendingItem)]), .tick (.response 200 "" [("p", pendingItem)])]
      (.tick (.response 200 "" [("p", completedItem)]))
      [("p", completedItem)] completedItem
      (by
        intro ev hev
        simp only [List.mem_cons, List.mem_singleton, List.not_mem_nil, or_false] at hev
        rcases hev with rfl | rfl
        · exact ⟨[("p", pendingItem)], pendingItem, rfl, rfl, rfl⟩
        · exact ⟨[("p", pendingItem)], pendingItem, rfl, rfl, rfl⟩)
      rfl rfl rfl).2.1

/-- Counterexample to C7 as stated, with `k = 2`: the first record is not terminal in the words
of the specification (completed false, outputs without keys), the second is, and the wait
returns the first record after one query. -/
theorem poll_returns_before_first_terminal_record :
    specTerminal emptyOutputsItem = false ∧ specTerminal completedItem = true ∧
    (WaitForCompletion "p" timeSecond
      [.tick (.response 200 "" [("p", emptyOutputsItem)]),
       .tick (.response 200 "" [("p", completedItem)])]).ret
      = some (some { PromptID := "p", Item := emptyOutputsItem }, none) ∧
    (WaitForCompletion "p" timeSecond
      [.tick (.response 200 "" [("p", emptyOutputsItem)]),
       .tick (.response 200 "" [("p", completedItem)])]).queries = ["p"] := by
  exact ⟨rfl, rfl, rfl, rfl⟩

/-! ## Theorems: what handler calls and events leave alone -/

theorem World.waits_modifyWait (w : World) (i : Nat) (f : WaitFrame → WaitFrame) (j : Nat) :
    (w.modifyWait i f).waits[j]? = if i = j then (w.waits[j]?).map f else w.waits[j]? := by
  unfold World.modifyWait
  cases h : w.waits[i]? with
  | none =>
    by_cases hij : i = j
    · subst hij; simp [h]
    · simp [hij]
  | some frame =>
    by_cases hij : i = j
    · subst hij
      have hlt : i < w.waits.length := by
        by_contra hge
        rw [List.getElem?_eq_none (by omega)] at h
        cases h
      simp [h, List.getElem?_set_self hlt]
    · simp [hij, List.getElem?_set_ne hij]

theorem World.heap_modifyWS (w : World) (a : Nat) (f : WSClient → WSClient) (b : Nat) :
    (w.modifyWS a f).heap[b]? = if a = b then (w.heap[b]?).map f else w.heap[b]? := by
  unfold World.modifyWS
  cases h : w.heap[a]? with
  | none =>
    by_cases hab : a = b
    · subst hab; simp [h]
    · simp [hab]
  | some ws =>
    by_cases hab : a = b
    · subst hab
      have hlt : a < w.heap.length := by
        by_contra hge
        rw [List.getElem?_eq_none (by omega)] at h
        cases h
      simp [h, List.getElem?_set_self hlt]
    · simp [hab, List.getElem?_set_ne hab]

theorem World.modifyWait_fields (w : World) (i : Nat) (f : WaitFrame → WaitFrame) :
    (w.modifyWait i f).client = w.client ∧ (w.modifyWait i f).heap = w.heap ∧
    (w.modifyWait i f).cancelled = w.cancelled ∧ (w.modifyWait i f).dispatched = w.dispatched ∧
    (w.modifyWait i f).calls = w.calls ∧ (w.modifyWait i f).dials = w.dials ∧
    (w.modifyWait i f).historyQueries = w.historyQueries ∧
    (w.modifyWait i f).waits.length = w.waits.length := by
  unfold World.modifyWait
  split <;> simp

theorem World.modifyWS_fields (w : World) (a : Nat) (f : WSClient → WSClient) :
    (w.modifyWS a f).client = w.client ∧ (w.modifyWS a f).waits = w.waits ∧
    (w.modifyWS a f).cancelled = w.cancelled ∧ (w.modifyWS a f).dispatched = w.dispatched ∧
    (w.modifyWS a f).calls = w.calls ∧ (w.modifyWS a f).dials = w.dials ∧
    (w.modifyWS a f).historyQueries = w.historyQueries ∧
    (w.modifyWS a f).heap.length = w.heap.length := by
  unfold World.modifyWS
  split <;> simp

theorem HandlerTouched.touched_refl (f : WaitFrame) : HandlerTouched f f :=
  ⟨rfl, rfl, rfl, rfl, rfl, rfl, rfl, rfl, rfl, rfl⟩

theorem HandlerTouched.touched_trans {f g h : WaitFrame} (a : HandlerTouched f g) (b : HandlerTouched g h) :
    HandlerTouched f h := by
  obtain ⟨a1, a2, a3, a4, a5, a6, a7, a8, a9, a10⟩ := a
  obtain ⟨b1, b2, b3, b4, b5, b6, b7, b8, b9, b10⟩ := b
  exact ⟨b1.trans a1, b2.trans a2, b3.trans a3, b4.trans a4, b5.trans a5, b6.trans a6,
    b7.trans a7, b8.trans a8, b9.trans a9, b10.trans a10⟩

theorem Handled.handled_refl (w : World) : Handled w w := by
  refine ⟨rfl, rfl, rfl, rfl, rfl, rfl, fun i f g hf hg => ?_⟩
  rw [hf] at hg
  cases hg
  exact HandlerTouched.touched_refl f

theorem Handled.handled_trans {w₁ w₂ w₃ : World} (h₁ : Handled w₁ w₂) (h₂ : Handled w₂ w₃) :
    Handled w₁ w₃ := by
  obtain ⟨c1, hp1, k1, d1, q1, l1, t1⟩ := h₁
  obtain ⟨c2, hp2, k2, d2, q2, l2, t2⟩ := h₂
  refine ⟨c2.trans c1, hp2.trans hp1, k2.trans k1, d2.trans d1, q2.trans q1, l2.trans l1,
    fun i f h hf hh => ?_⟩
  have hlt : i < w₂.waits.length := by
    rw [l1]
    by_contra hge
    rw [List.getElem?_eq_none (by omega)] at hf
    cases hf
  have hg : w₂.waits[i]? = some (w₂.waits[i]) := List.getElem?_eq_getElem hlt
  exact (t1 i f _ hf hg).touched_trans (t2 i _ h hg hh)

theorem Handled.handled_modifyWait (w : World) (i : Nat) (touch : WaitFrame → WaitFrame)
    (htouch : ∀ f, HandlerTouched f (touch f)) : Handled w (w.modifyWait i touch) := by
  obtain ⟨c, hp, k, _, _, d, q, l⟩ := World.modifyWait_fields w i touch
  refine ⟨c, hp, k, d, q, l, fun j f g hf hg => ?_⟩
  rw [World.waits_modifyWait, hf] at hg
  by_cases hij : i = j
  · simp only [hij, if_true, Option.map_some', Option.some.injEq] at hg
    rw [← hg]
    exact htouch f
  · simp only [hij, if_false, Option.some.injEq] at hg
    rw [← hg]
    exact HandlerTouched.touched_refl f

theorem Handled.note (w : World) (d : Dispatch) : Handled w (w.note d) := by
  refine ⟨rfl, rfl, rfl, rfl, rfl, rfl, fun i f g hf hg => ?_⟩
  simp only [World.note] at hg
  rw [hf] at hg
  cases hg
  exact HandlerTouched.touched_refl f

theorem ExecutionCallback.execution_invoke_handled (cb : ExecutionCallback) (p : String) (n : Option String) :
    ∀ w, Handled w (cb.invoke p n w) := by
  induction cb with
  | nil => intro w; exact Handled.handled_refl w
  | user id =>
    intro w
    refine ⟨rfl, rfl, rfl, rfl, rfl, rfl, fun i f g hf hg => ?_⟩
    simp only [ExecutionCallback.invoke] at hg
    rw [hf] at hg
    cases hg
    exact HandlerTouched.touched_refl f
  | waitWrapper original promptID wait ih =>
    intro w
    simp only [ExecutionCallback.invoke]
    have h1 : Handled w (if original ≠ .nil then original.invoke p n w else w) := by
      split
      · exact ih w
      · exact Handled.handled_refl w
    split
    · refine h1.handled_trans (Handled.handled_modifyWait _ _ _ (fun f => ?_))
      split
      · exact ⟨rfl, rfl, rfl, rfl, rfl, rfl, rfl, rfl, rfl, rfl⟩
      · exact HandlerTouched.touched_refl f
    · exact h1

theorem ErrorCallback.error_invoke_handled (cb : ErrorCallback) (p : String) (e : GoError) :
    ∀ w, Handled w (cb.invoke p e w) := by
  induction cb with
  | nil => intro w; exact Handled.handled_refl w
  | user id =>
    intro w
    refine ⟨rfl, rfl, rfl, rfl, rfl, rfl, fun i f g hf hg => ?_⟩
    simp only [ErrorCallback.invoke] at hg
    rw [hf] at hg
    cases hg
    exact HandlerTouched.touched_refl f
  | waitWrapper original promptID wait ih =>
    intro w
    simp only [ErrorCallback.invoke]
    have h1 : Handled w (if original ≠ .nil then original.invoke p e w else w) := by
      split
      · exact ih w
      · exact Handled.handled_refl w
    split
    · refine h1.handled_trans (Handled.handled_modifyWait _ _ _ (fun f => ?_))
      split
      · exact ⟨rfl, rfl, rfl, rfl, rfl, rfl, rfl, rfl, rfl, rfl⟩
      · exact HandlerTouched.touched_refl f
    · exact h1

theorem ProgressCallback.progress_invoke_handled (cb : ProgressCallback) (p : String) (m : WSProgressMessage)
    (w : World) : Handled w (cb.invoke p m w) := by
  cases cb with
  | nil => exact Handled.handled_refl w
  | user id =>
    refine ⟨rfl, rfl, rfl, rfl, rfl, rfl, fun i f g hf hg => ?_⟩
    simp only [ProgressCallback.invoke] at hg
    rw [hf] at hg
    cases hg
    exact HandlerTouched.touched_refl f

theorem StatusCallback.status_invoke_handled (cb : StatusCallback) (p : String) (s : String)
    (w : World) : Handled w (cb.invoke p s w) := by
  cases cb with
  | nil => exact Handled.handled_refl w
  | user id =>
    refine ⟨rfl, rfl, rfl, rfl, rfl, rfl, fun i f g hf hg => ?_⟩
    simp only [StatusCallback.invoke] at hg
    rw [hf] at hg
    cases hg
    exact HandlerTouched.touched_refl f

theorem WSClient.handleMessage_handled (ws : WSClient) (data : FrameBytes) (w : World) :
    Handled w (ws.handleMessage data w) := by
  unfold WSClient.handleMessage
  split
  · split
    · exact (Handled.note _ _).handled_trans (ErrorCallback.error_invoke_handled _ _ _ _)
    · exact Handled.handled_refl w
  · split_ifs
    · unfold WSClient.handleStatusMessage
      split_ifs
      · exact Handled.handled_refl w
      · split
        · split
          · exact (Handled.note _ _).handled_trans (StatusCallback.status_invoke_handled _ _ _ _)
          · exact Handled.handled_refl w
        · exact Handled.handled_refl w
    · unfold WSClient.handleExecutionStartMessage
      split_ifs
      · exact Handled.handled_refl w
      · split
        · split
          · exact (Handled.note _ _).handled_trans (ExecutionCallback.execution_invoke_handled _ _ _ _)
          · exact Handled.handled_refl w
        · exact Handled.handled_refl w
    · unfold WSClient.handleExecutingMessage
      split_ifs
      · exact Handled.handled_refl w
      · split
        · split
          · exact (Handled.note _ _).handled_trans (ExecutionCallback.execution_invoke_handled _ _ _ _)
          · exact Handled.handled_refl w
        · exact Handled.handled_refl w
    · unfold WSClient.handleProgressMessage
      split_ifs
      · exact Handled.handled_refl w
      · split
        · split
          · exact (Handled.note _ _).handled_trans (ProgressCallback.progress_invoke_handled _ _ _ _)
          · exact Handled.handled_refl w
        · exact Handled.handled_refl w
    · unfold WSClient.handleExecutionErrorMessage
      split_ifs
      · exact Handled.handled_refl w
      · split
        · split
          · exact (Handled.note _ _).handled_trans (ErrorCallback.error_invoke_handled _ _ _ _)
          · exact Handled.handled_refl w
        · exact Handled.handled_refl w
    · unfold WSClient.handleExecutionInterruptedMessage
      split_ifs
      · exact Handled.handled_refl w
      · split
        · exact (Handled.note _ _).handled_trans (ErrorCallback.error_invoke_handled _ _ _ _)
        · exact Handled.handled_refl w
    · exact Handled.handled_refl w

theorem Grows.grows_refl (w : World) : Grows w w :=
  ⟨fun _ ws h => ⟨ws, h⟩, fun _ f h => ⟨f, h, rfl, rfl, rfl, rfl⟩⟩

theorem Grows.grows_trans {w₁ w₂ w₃ : World} (h₁ : Grows w₁ w₂) (h₂ : Grows w₂ w₃) : Grows w₁ w₃ := by
  refine ⟨fun a ws h => ?_, fun i f h => ?_⟩
  · obtain ⟨ws', h'⟩ := h₁.1 a ws h
    exact h₂.1 a ws' h'
  · obtain ⟨g, hg, a1, a2, a3, a4⟩ := h₁.2 i f h
    obtain ⟨k, hk, b1, b2, b3, b4⟩ := h₂.2 i g hg
    exact ⟨k, hk, b1.trans a1, b2.trans a2, b3.trans a3, b4.trans a4⟩

theorem Grows.grows_of_eq {w w' : World} (hh : w'.heap = w.heap) (hw : w'.waits = w.waits) :
    Grows w w' := by
  refine ⟨fun a ws h => ⟨ws, by rw [hh]; exact h⟩, fun i f h => ⟨f, by rw [hw]; exact h, rfl, rfl, rfl, rfl⟩⟩

theorem Handled.grows {w w' : World} (h : Handled w w') : Grows w w' := by
  obtain ⟨_, hp, _, _, _, l, t⟩ := h
  refine ⟨fun a ws h => ⟨ws, by rw [hp]; exact h⟩, fun i f hf => ?_⟩
  have hlt : i < w'.waits.length := by
    rw [l]
    by_contra hge
    rw [List.getElem?_eq_none (by omega)] at hf
    cases hf
  have hg : w'.waits[i]? = some (w'.waits[i]) := List.getElem?_eq_getElem hlt
  obtain ⟨_, a2, _, a4, _, a6, a7, _, _, _⟩ := t i f _ hf hg
  exact ⟨_, hg, a2, a4, a6, a7⟩

theorem Grows.modifyWS (w : World) (a : Nat) (f : WSClient → WSClient) : Grows w (w.modifyWS a f) := by
  refine ⟨fun b ws h => ?_, fun i g h => ⟨g, ?_, rfl, rfl, rfl, rfl⟩⟩
  · rw [World.heap_modifyWS, h]
    split
    · exact ⟨f ws, rfl⟩
    · exact ⟨ws, rfl⟩
  · rw [(World.modifyWS_fields w a f).2.1]
    exact h

theorem Grows.grows_modifyWait (w : World) (i : Nat) (f : WaitFrame → WaitFrame)
    (hf : ∀ g, (f g).promptID = g.promptID ∧ (f g).wsClient = g.wsClient ∧
      (f g).originalOnExecution = g.originalOnExecution ∧
      (f g).originalOnError = g.originalOnError) : Grows w (w.modifyWait i f) := by
  refine ⟨fun b ws h => ⟨ws, ?_⟩, fun j g h => ?_⟩
  · rw [(World.modifyWait_fields w i f).2.1]
    exact h
  · rw [World.waits_modifyWait, h]
    split
    · exact ⟨f g, rfl, hf g⟩
    · exact ⟨g, rfl, rfl, rfl, rfl, rfl⟩

theorem Grows.append {w w' : World} (hh : ∃ l, w'.heap = w.heap ++ l) (hw : ∃ l, w'.waits = w.waits ++ l) :
    Grows w w' := by
  obtain ⟨l1, h1⟩ := hh
  obtain ⟨l2, h2⟩ := hw
  refine ⟨fun a ws h => ⟨ws, ?_⟩, fun i f h => ⟨f, ?_, rfl, rfl, rfl, rfl⟩⟩
  · have hlt : a < w.heap.length := by
      by_contra hge
      rw [List.getElem?_eq_none (by omega)] at h
      cases h
    rw [h1, List.getElem?_append_left hlt]
    exact h
  · have hlt : i < w.waits.length := by
      by_contra hge
      rw [List.getElem?_eq_none (by omega)] at h
      cases h
    rw [h2, List.getElem?_append_left hlt]
    exact h

theorem WSClient.Connect_grows (a : Nat) (ctx : Context) (net : NetEnv) (w : World) :
    Grows w (WSClient.Connect a ctx net w).1 := by
  unfold WSClient.Connect
  split
  · exact Grows.grows_refl w
  · split
    · exact Grows.grows_refl w
    · split
      · exact Grows.grows_refl w
      · dsimp only
        split
        · exact Grows.grows_of_eq rfl rfl
        · refine Grows.grows_trans ?_ (Grows.modifyWS _ _ _)
          exact Grows.grows_of_eq rfl rfl

theorem WSClient.Close_grows (a : Nat) (e : Option GoError) (w : World) :
    Grows w (WSClient.Close a e w).1 := by
  unfold WSClient.Close
  split
  · exact Grows.grows_refl w
  · split
    · exact Grows.grows_refl w
    · have h1 : Grows w (w.modifyWS a (fun ws => { ws with running := false })) := Grows.modifyWS _ _ _
      split <;> split <;> first
        | exact h1
        | exact h1.grows_trans (Grows.modifyWS _ _ _)

theorem Client.ensureWebSocketConnected_grows (ctx : Context) (net : NetEnv) (w : World) :
    Grows w (Client.ensureWebSocketConnected ctx net w).1 := by
  unfold Client.ensureWebSocketConnected
  split
  · exact Grows.grows_refl w
  · split
    · exact Grows.grows_refl w
    · exact (Grows.append (w := w) ⟨_, rfl⟩ ⟨[], by simp⟩).grows_trans (WSClient.Connect_grows _ _ _ _)

theorem Client.GetWebSocketClient_world (ctx : Context) (net : NetEnv) (w : World) :
    (Client.GetWebSocketClient ctx net w).1 = (Client.ensureWebSocketConnected ctx net w).1 := by
  unfold Client.GetWebSocketClient
  split <;> simp_all

theorem Client.GetWebSocketStatus_world (ctx : Context) (net : NetEnv) (w : World) :
    (Client.GetWebSocketStatus ctx net w).1 = (Client.ensureWebSocketConnected ctx net w).1 := by
  unfold Client.GetWebSocketStatus
  split <;> simp_all

theorem Client.waitForCompletionWithExistingWS_grows (ctx : Context) (promptID : String)
    (timeout : Int) (a : Nat) (w : World) :
    Grows w (Client.waitForCompletionWithExistingWS ctx promptID timeout a w) := by
  unfold Client.waitForCompletionWithExistingWS
  split
  · exact Grows.grows_refl w
  · exact (Grows.append (w := w) ⟨[], by simp⟩ ⟨_, rfl⟩).grows_trans (Grows.modifyWS _ _ _)

theorem Client.WaitForCompletionWithWS_grows (ctx : Context) (promptID : String)
    (timeout : Int) (net : NetEnv) (w : World) :
    Grows w (Client.WaitForCompletionWithWS ctx promptID timeout net w).1 := by
  have h := Client.ensureWebSocketConnected_grows ctx net w
  rw [← Client.GetWebSocketClient_world] at h
  unfold Client.WaitForCompletionWithWS
  dsimp only
  generalize (if timeout ≤ 0 then 5 * timeMinute else timeout) = t
  split
  · rename_i heq; rw [heq] at h; exact h
  · rename_i heq; rw [heq] at h
    exact h.grows_trans (Client.waitForCompletionWithExistingWS_grows _ _ _ _ _)
  · rename_i heq; rw [heq] at h; exact h

theorem Grows.grows_of_modifyWS {w₀ w : World} (a : Nat) (f : WSClient → WSClient) (h : Grows w₀ w) :
    Grows w₀ (w.modifyWS a f) :=
  h.grows_trans (Grows.modifyWS w a f)

theorem Grows.grows_of_modifyWait {w₀ w : World} (i : Nat) (f : WaitFrame → WaitFrame)
    (hf : ∀ g, (f g).promptID = g.promptID ∧ (f g).wsClient = g.wsClient ∧
      (f g).originalOnExecution = g.originalOnExecution ∧
      (f g).originalOnError = g.originalOnError)
    (h : Grows w₀ w) : Grows w₀ (w.modifyWait i f) :=
  h.grows_trans (Grows.grows_modifyWait w i f hf)

theorem Client.waitReturn_grows (i : Nat) (ret : WaitReturn) (w : World) :
    Grows w (Client.waitReturn i ret w) := by
  unfold Client.waitReturn
  split
  · exact Grows.grows_refl w
  · dsimp only
    apply Grows.grows_of_modifyWS
    apply Grows.grows_of_modifyWait
    · intro g; exact ⟨rfl, rfl, rfl, rfl⟩
    · exact Grows.grows_refl w

theorem Grows.of_waitReturn {w₀ w : World} (i : Nat) (ret : WaitReturn) (h : Grows w₀ w) :
    Grows w₀ (Client.waitReturn i ret w) :=
  h.grows_trans (Client.waitReturn_grows i ret w)

theorem Client.waitSelect_grows (i : Nat) (pick : SelectCase) (w : World) :
    Grows w (Client.waitSelect i pick w) := by
  unfold Client.waitSelect
  split
  · exact Grows.grows_refl w
  · split
    · exact Grows.grows_refl w
    · split
      · split
        · apply Grows.of_waitReturn
          apply Grows.grows_of_modifyWait
          · intro g; exact ⟨rfl, rfl, rfl, rfl⟩
          · exact Grows.grows_refl w
        · exact Grows.grows_refl w
      · split
        · apply Grows.of_waitReturn
          apply Grows.grows_of_modifyWait
          · intro g; exact ⟨rfl, rfl, rfl, rfl⟩
          · exact Grows.grows_refl w
        · exact Grows.grows_refl w
      · split
        · exact Client.waitReturn_grows _ _ _
        · exact Grows.grows_refl w

theorem Client.followUp_grows (i : Nat) (reply : RestyResult HistoryResponse) (w : World) :
    Grows w (Client.followUp i reply w) := by
  unfold Client.followUp
  split
  · exact Grows.grows_refl w
  · split
    · dsimp only
      have h1 : ∀ q : List String, Grows w ({ w with historyQueries := q } : World) :=
        fun q => Grows.grows_of_eq rfl rfl
      split
      · apply Grows.grows_of_modifyWait
        · intro g; exact ⟨rfl, rfl, rfl, rfl⟩
        · apply Grows.grows_of_modifyWait
          · intro g; exact ⟨rfl, rfl, rfl, rfl⟩
          · exact h1 _
      · split
        · apply Grows.grows_of_modifyWait
          · intro g; exact ⟨rfl, rfl, rfl, rfl⟩
          · apply Grows.grows_of_modifyWait
            · intro g; exact ⟨rfl, rfl, rfl, rfl⟩
            · exact h1 _
        · apply Grows.grows_of_modifyWait
          · intro g; exact ⟨rfl, rfl, rfl, rfl⟩
          · apply Grows.grows_of_modifyWait
            · intro g; exact ⟨rfl, rfl, rfl, rfl⟩
            · exact h1 _
    · exact Grows.grows_refl w

theorem WSClient.loopSelect_grows (a : Nat) (w : World) : Grows w (WSClient.loopSelect a w) := by
  unfold WSClient.loopSelect
  split
  · exact Grows.grows_refl w
  · split
    · split <;> exact Grows.modifyWS _ _ _
    · exact Grows.grows_refl w

theorem WSClient.loopRead_grows (a : Nat) (r : Except GoError FrameBytes) (w : World) :
    Grows w (WSClient.loopRead a r w) := by
  unfold WSClient.loopRead
  split
  · exact Grows.grows_refl w
  · split
    · split
      · refine Grows.grows_trans ?_ (Grows.modifyWS _ _ _)
        split
        · exact ((Handled.note _ _).handled_trans (ErrorCallback.error_invoke_handled _ _ _ _)).grows
        · exact Grows.grows_refl w
      · exact (WSClient.handleMessage_handled _ _ _).grows.grows_trans (Grows.modifyWS _ _ _)
    · exact Grows.grows_refl w

theorem step_grows (w : World) (e : Event) : Grows w (step w e) := by
  cases e with
  | getWebSocketStatus ctx net =>
    simp only [step, Client.GetWebSocketStatus_world]
    exact Client.ensureWebSocketConnected_grows _ _ _
  | getWebSocketClient ctx net =>
    simp only [step, Client.GetWebSocketClient_world]
    exact Client.ensureWebSocketConnected_grows _ _ _
  | waitForCompletionWithWS ctx promptID timeout net => exact Client.WaitForCompletionWithWS_grows _ _ _ _ _
  | closeWebSocket closeErr =>
    simp only [step, Client.CloseWebSocket]
    split
    · exact (WSClient.Close_grows _ _ _).grows_trans (Grows.grows_of_eq rfl rfl)
    · exact Grows.grows_refl w
  | cancel id => exact Grows.grows_of_eq rfl rfl
  | loopSelect a => exact WSClient.loopSelect_grows _ _
  | loopRead a r => exact WSClient.loopRead_grows _ _ _
  | followUp wait reply => exact Client.followUp_grows _ _ _
  | deadline wait => exact Grows.grows_modifyWait _ _ _ (fun g => ⟨rfl, rfl, rfl, rfl⟩)
  | waitSelect wait pick => exact Client.waitSelect_grows _ _ _

theorem run_grows (events : List Event) : ∀ w, Grows w (run w events) := by
  induction events with
  | nil => intro w; exact Grows.grows_refl w
  | cons e rest ih =>
    intro w
    exact (step_grows w e).grows_trans (ih (step w e))

/-! ## Theorems: restoration of the handlers -/

theorem Client.waitReturn_slots (i : Nat) (ret : WaitReturn) (w : World) (f : WaitFrame)
    (ws : WSClient) (hf : w.waits[i]? = some f) (hws : w.heap[f.wsClient]? = some ws) :
    (Client.waitReturn i ret w).slots f.wsClient =
      some (f.originalOnExecution, f.originalOnError) := by
  unfold Client.waitReturn World.slots
  rw [hf]
  dsimp only
  rw [World.heap_modifyWS, (World.modifyWait_fields w i _).2.1, hws]
  simp

theorem Client.waitSelect_slots (i : Nat) (pick : SelectCase) (w : World) (f : WaitFrame)
    (ws : WSClient) (hf : w.waits[i]? = some f) (hws : w.heap[f.wsClient]? = some ws)
    (hbefore : (w.returned i).isNone = true)
    (hafter : ((Client.waitSelect i pick w).returned i).isSome = true) :
    (Client.waitSelect i pick w).slots f.wsClient =
      some (f.originalOnExecution, f.originalOnError) := by
  have hret : f.ret.isSome = false := by
    simp only [World.returned, hf] at hbefore
    cases h : f.ret <;> simp_all
  have hstuck : (w.returned i).isSome = false := by
    cases h : w.returned i <;> simp_all
  unfold Client.waitSelect at hafter ⊢
  rw [hf] at hafter ⊢
  simp only [hret, Bool.false_eq_true, if_false] at hafter ⊢
  cases pick with
  | resultChan =>
    dsimp only at hafter ⊢
    cases hr : f.resultChan.recv with
    | none => rw [hr] at hafter; simp only [hstuck] at hafter; cases hafter
    | some p =>
      obtain ⟨result, ch⟩ := p
      dsimp only
      have hf' : (w.modifyWait i (fun f => { f with resultChan := ch })).waits[i]? =
          some { f with resultChan := ch } := by
        rw [World.waits_modifyWait, hf]; simp
      have hws' : (w.modifyWait i (fun f => { f with resultChan := ch })).heap[f.wsClient]? =
          some ws := by
        rw [(World.modifyWait_fields w i _).2.1]; exact hws
      exact Client.waitReturn_slots i _ _ { f with resultChan := ch } ws hf' hws'
  | errorChan =>
    dsimp only at hafter ⊢
    cases hr : f.errorChan.recv with
    | none => rw [hr] at hafter; simp only [hstuck] at hafter; cases hafter
    | some p =>
      obtain ⟨err, ch⟩ := p
      dsimp only
      have hf' : (w.modifyWait i (fun f => { f with errorChan := ch })).waits[i]? =
          some { f with errorChan := ch } := by
        rw [World.waits_modifyWait, hf]; simp
      have hws' : (w.modifyWait i (fun f => { f with errorChan := ch })).heap[f.wsClient]? =
          some ws := by
        rw [(World.modifyWait_fields w i _).2.1]; exact hws
      exact Client.waitReturn_slots i _ _ { f with errorChan := ch } ws hf' hws'
  | timeoutDone =>
    dsimp only at hafter ⊢
    split
    · exact Client.waitReturn_slots i _ _ f ws hf hws
    · rename_i hn
      rw [if_neg hn, hstuck] at hafter
      cases hafter

theorem Client.waitForCompletionWithExistingWS_frame (ctx : Context) (promptID : String)
    (timeout : Int) (a : Nat) (w : World) (ws : WSClient) (hws : w.heap[a]? = some ws) :
    ∃ f, (Client.waitForCompletionWithExistingWS ctx promptID timeout a w).waits[w.waits.length]?
        = some f ∧
      f.promptID = promptID ∧ f.wsClient = a ∧ f.originalOnExecution = ws.onExecution ∧
      f.originalOnError = ws.onError := by
  unfold Client.waitForCompletionWithExistingWS
  rw [hws]
  dsimp only
  rw [(World.modifyWS_fields _ a _).2.1]
  simp

/-- C3: after any number of waits issued one after the other on the same stream client, each
returning through any case of its `select` (result, error, or timeout and cancellation) after
any events, the execution and error slots of the stream client hold the handlers that were
installed before the first of them; one wait is the case of a single script. -/
theorem sequential_waits_restore_handlers (a : Nat) (scripts : List WaitScript) :
    ∀ (w w' : World), sequentialWaits a scripts w = some w' → w'.slots a = w.slots a := by
  induction scripts with
  | nil =>
    intro w w' h
    simp only [sequentialWaits, Option.some.injEq] at h
    rw [h]
  | cons s rest ih =>
    intro w w' h
    simp only [sequentialWaits] at h
    split at h
    · rename_i hcond
      simp only [Bool.and_eq_true] at hcond
      obtain ⟨⟨halloc, hbefore⟩, hafter⟩ := hcond
      rw [ih _ w' h]
      cases hws : w.heap[a]? with
      | none => simp [World.slots, hws] at halloc
      | some ws =>
        obtain ⟨f, hf, _, hfa, hfe, hfr⟩ :=
          Client.waitForCompletionWithExistingWS_frame s.ctx s.promptID s.timeout a w ws hws
        have hgrow := run_grows s.events
          (Client.waitForCompletionWithExistingWS s.ctx s.promptID s.timeout a w)
        obtain ⟨g, hg, _, hga, hge, hgr⟩ := hgrow.2 _ f hf
        have hbeginGrows := Client.waitForCompletionWithExistingWS_grows s.ctx s.promptID s.timeout a w
        obtain ⟨ws1, hws1⟩ := hbeginGrows.1 a ws hws
        obtain ⟨ws2, hws2⟩ := hgrow.1 a ws1 hws1
        have hga' : g.wsClient = a := hga.trans hfa
        have := Client.waitSelect_slots w.waits.length s.pick _ g ws2 hg (by rw [hga']; exact hws2)
          hbefore hafter
        rw [hga'] at this
        rw [this, hge, hgr, hfe, hfr]
        simp [World.slots, hws]
    · cases h

/-- Witness for C3: four waits in a row, ending with a result, an error, a timeout and a
cancellation, all return and leave the two caller callbacks in the slots. -/
theorem sequential_waits_restore_handlers_witness :
    demoWorld.slots 0 = some (.user 1, .user 2) ∧
    ∃ w', sequentialWaits 0 demoScripts demoWorld = some w' ∧ w'.slots 0 = demoWorld.slots 0 := by
  refine ⟨rfl, ?_⟩
  obtain ⟨w', h⟩ := Option.isSome_iff_exists.mp
    (show (sequentialWaits 0 demoScripts demoWorld).isSome = true from rfl)
  exact ⟨w', h, sequential_waits_restore_handlers 0 demoScripts demoWorld w' h⟩

/-! ## Theorems: streaming disabled; cancellation of a stream wait -/

/-- C8 (the code at the failing input): a `WaitForCompletionWithWS` that is blocked, with no
signal delivered and its timeout not elapsed, returns on cancellation of the caller context
the error with the text 等待任务完成超时, the very error it returns when the timeout elapses, and not the
error of the context. -/
theorem stream_wait_cancellation_returns_timeout_error :
    (Client.WaitForCompletionWithWS (.cancellable 9) "abc123" (30 * timeSecond) demoNet demoWorld).2
      = none ∧
    (run (Client.WaitForCompletionWithWS (.cancellable 9) "abc123" (30 * timeSecond) demoNet
        demoWorld).1 [.cancel 9, .waitSelect 0 .timeoutDone]).returned 0
      = some (none, some (.errorf "等待任务完成超时")) ∧
    (run (Client.WaitForCompletionWithWS (.cancellable 9) "abc123" (30 * timeSecond) demoNet
        demoWorld).1 [.deadline 0, .waitSelect 0 .timeoutDone]).returned 0
      = some (none, some (.errorf "等待任务完成超时")) ∧
    (run (Client.WaitForCompletionWithWS (.cancellable 9) "abc123" (30 * timeSecond) demoNet
        demoWorld).1 [.cancel 9, .waitSelect 0 .timeoutDone]).returned 0
      ≠ some (none, some (.context .canceled)) := by
  refine ⟨rfl, rfl, rfl, ?_⟩
  intro h
  have h2 : (some (none, some (GoError.errorf "等待任务完成超时")) : Option WaitReturn)
      = some (none, some (.context .canceled)) := h
  simp at h2

/-! ## Theorems: unknown frames -/

theorem List.set_of_getElem? {α : Type} : ∀ (l : List α) (a : Nat) (x : α), l[a]? = some x → l.set a x = l := by
  intro l
  induction l with
  | nil => intro a x h; simp at h
  | cons y ys ih =>
    intro a x h
    cases a with
    | zero =>
      simp only [List.getElem?_cons_zero, Option.some.injEq] at h
      simp [h]
    | succ n =>
      simp only [List.getElem?_cons_succ] at h
      simp [ih n x h]

theorem World.modifyWS_twice (w : World) (a : Nat) (f g : WSClient → WSClient) :
    (w.modifyWS a f).modifyWS a g = w.modifyWS a (g ∘ f) := by
  unfold World.modifyWS
  cases h : w.heap[a]? with
  | none => simp [h]
  | some ws =>
    have hlt : a < w.heap.length := by
      by_contra hge
      rw [List.getElem?_eq_none (by omega)] at h
      cases h
    simp [List.getElem?_set_self hlt, List.set_set]

theorem World.modifyWS_fixed (w : World) (a : Nat) (f : WSClient → WSClient) (ws : WSClient)
    (h : w.heap[a]? = some ws) (hf : f ws = ws) : w.modifyWS a f = w := by
  unfold World.modifyWS
  rw [h]
  simp only [hf]
  rw [List.set_of_getElem? _ _ _ h]

theorem WSClient.handleMessage_unknown (ws : WSClient) (data : FrameBytes) (msg : WSMessage)
    (w : World) (hdec : unmarshalWSMessage data = (msg, none))
    (hunk : msg.Type_ ∉ recognizedTypes) : ws.handleMessage data w = w := by
  simp only [recognizedTypes, List.mem_cons, List.mem_singleton, List.not_mem_nil, or_false,
    not_or] at hunk
  obtain ⟨h1, h2, h3, h4, h5, h6⟩ := hunk
  unfold WSClient.handleMessage
  rw [hdec]
  simp only [h1, h2, h3, h4, h5, h6, if_false]

/-- C10: for every well-formed frame, that is one for which `json.Unmarshal` into
`WSMessage` returns nil, with a type other than the six recognized ones, `handleMessage`
leaves the whole state as it was, so no call is made through any
handler slot; and when the receive loop reads such a frame (its context not done), nothing
is dispatched and, after its next pass through `select`, the loop is reading again in the
same state, so whatever follows, a recognized frame included, is handled as if the unknown
frame had not arrived. -/
theorem unknown_frame_invokes_no_handler_and_loop_continues
    (ws : WSClient) (data : FrameBytes) (msg : WSMessage) (w : World)
    (hdec : unmarshalWSMessage data = (msg, none)) (hunk : msg.Type_ ∉ recognizedTypes) :
    ws.handleMessage data w = w ∧
    ∀ (a : Nat) (rest : List Event), w.heap[a]? = some ws → ws.loop = .inRead →
      ws.ctxDone w.cancelled = false →
      (step w (.loopRead a (.ok data))).dispatched = w.dispatched ∧
      (step w (.loopRead a (.ok data))).calls = w.calls ∧
      (step w (.loopRead a (.ok data))).waits = w.waits ∧
      run w (.loopRead a (.ok data) :: .loopSelect a :: rest) = run w rest := by
  have hh := WSClient.handleMessage_unknown ws data msg w hdec hunk
  refine ⟨hh, fun a rest hws hloop hctx => ?_⟩
  have hstep : step w (.loopRead a (.ok data)) = w.modifyWS a (fun ws => { ws with loop := .atSelect }) := by
    simp only [step, WSClient.loopRead, hws, hloop, if_true, hh]
  have hsel : step (step w (.loopRead a (.ok data))) (.loopSelect a) = w := by
    rw [hstep]
    simp only [step, WSClient.loopSelect]
    rw [World.heap_modifyWS, hws]
    simp only [if_true, Option.map_some']
    have hc : WSClient.ctxDone { ws with loop := LoopPC.atSelect }
        (w.modifyWS a (fun ws => { ws with loop := .atSelect })).cancelled = false := by
      rw [(World.modifyWS_fields w a _).2.2.1]
      exact hctx
    simp only [hc, Bool.false_eq_true, if_false]
    rw [World.modifyWS_twice]
    refine World.modifyWS_fixed w a _ ws hws ?_
    simp only [Function.comp]
    rw [← hloop]
  refine ⟨?_, ?_, ?_, ?_⟩
  · rw [hstep]; exact (World.modifyWS_fields w a _).2.2.2.1
  · rw [hstep]; exact (World.modifyWS_fields w a _).2.2.2.2.1
  · rw [hstep]; exact (World.modifyWS_fields w a _).2.1
  · simp only [run, List.foldl_cons]
    rw [hsel]

/-- Witness for C10: an unknown frame followed by an `executing` frame; only the second is
dispatched. -/
theorem unknown_frame_invokes_no_handler_and_loop_continues_witness :
    run demoWorld [.loopRead 0 (.ok unknownFrame), .loopSelect 0, .loopRead 0 (.ok (executingDone "abc123"))]
      = run demoWorld [.loopRead 0 (.ok (executingDone "abc123"))] ∧
    (run demoWorld [.loopRead 0 (.ok unknownFrame), .loopSelect 0,
      .loopRead 0 (.ok (executingDone "abc123"))]).dispatched = [.execution "abc123" none] := by
  have h := (unknown_frame_invokes_no_handler_and_loop_continues
    demoStream unknownFrame
    { Type_ := "crystools.monitor",
      Data := some [("cpu", .number (.float false 6755399441055744 (-49)))] }
    demoWorld rfl (by decide)).2 0 [.loopRead 0 (.ok (executingDone "abc123"))] rfl rfl rfl
  exact ⟨h.2.2.2, by rw [h.2.2.2]; rfl⟩

/-! ## Theorems: the end signal and the follow-up query -/

theorem unmarshalWSMessage_executingDone (p : String) :
    unmarshalWSMessage (executingDone p) =
      ({ Type_ := "executing", Data := some [("node", .null), ("prompt_id", .string p)] }, none) := rfl

theorem WSClient.handleMessage_executingDone (ws : WSClient) (p : String) (w : World)
    (hcb : ws.onExecution ≠ .nil) :
    ws.handleMessage (executingDone p) w =
      ws.onExecution.invoke p none (w.note (.execution p none)) := by
  unfold WSClient.handleMessage
  rw [unmarshalWSMessage_executingDone]
  have h1 : ¬ ("executing" = "status") := by decide
  have h2 : ¬ ("executing" = "execution_start") := by decide
  simp only [h1, h2, if_false, if_true]
  unfold WSClient.handleExecutingMessage
  rw [if_neg hcb]
  rfl

theorem Client.ensureWebSocketConnected_connected (ctx : Context) (net : NetEnv) (w : World)
    (hen : w.client.wsEnabled = true) (hconn : Client.IsWebSocketConnected w = true) :
    Client.ensureWebSocketConnected ctx net w = (w, none) := by
  simp [Client.ensureWebSocketConnected, hen, hconn]

theorem Client.followUp_result (n : Nat) (reply : RestyResult HistoryResponse) (w : World)
    (F : WaitFrame) (h : HistoryResponse) (item : HistoryItem)
    (hF : w.waits[n]? = some F) (hpending : F.followUpsFinished < F.followUpsStarted)
    (hreply : GetHistory F.promptID reply = (some h, none))
    (hitem : h.lookup F.promptID = some item) :
    (Client.followUp n reply w).waits[n]? =
      some { F with followUpsFinished := F.followUpsFinished + 1,
                    resultChan := F.resultChan.send { PromptID := F.promptID, Item := item } } ∧
    (Client.followUp n reply w).historyQueries = w.historyQueries ++ [F.promptID] ∧
    (Client.followUp n reply w).dials = w.dials := by
  unfold Client.followUp
  rw [hF]
  simp only [hpending, if_true, hreply, Option.getD_some, hitem]
  refine ⟨?_, ?_, ?_⟩
  · rw [World.waits_modifyWait, World.waits_modifyWait]
    simp [hF]
  · rw [(World.modifyWait_fields _ n _).2.2.2.2.2.2.1, (World.modifyWait_fields _ n _).2.2.2.2.2.2.1]
  · rw [(World.modifyWait_fields _ n _).2.2.2.2.2.1, (World.modifyWait_fields _ n _).2.2.2.2.2.1]

theorem Client.waitSelect_result (n : Nat) (w : World) (F : WaitFrame) (r : WaitResult)
    (ch : Chan WaitResult) (hF : w.waits[n]? = some F) (hret : F.ret = none)
    (hrecv : F.resultChan.recv = some (r, ch)) :
    (Client.waitSelect n .resultChan w).returned n = some (some r, none) ∧
    (Client.waitSelect n .resultChan w).historyQueries = w.historyQueries ∧
    (Client.waitSelect n .resultChan w).dials = w.dials := by
  unfold Client.waitSelect
  rw [hF]
  simp only [hret, Option.isSome_none, Bool.false_eq_true, if_false, hrecv]
  unfold Client.waitReturn
  have hF' : (w.modifyWait n (fun f => { f with resultChan := ch })).waits[n]? =
      some { F with resultChan := ch } := by
    rw [World.waits_modifyWait, hF]; simp
  rw [hF']
  dsimp only
  refine ⟨?_, ?_, ?_⟩
  · unfold World.returned
    rw [(World.modifyWS_fields _ _ _).2.1, World.waits_modifyWait, hF']
    simp
  · rw [(World.modifyWS_fields _ _ _).2.2.2.2.2.2.1, (World.modifyWait_fields _ n _).2.2.2.2.2.2.1,
      (World.modifyWait_fields _ n _).2.2.2.2.2.2.1]
  · rw [(World.modifyWS_fields _ _ _).2.2.2.2.2.1, (World.modifyWait_fields _ n _).2.2.2.2.2.1,
      (World.modifyWait_fields _ n _).2.2.2.2.2.1]

theorem WSClient.loopRead_executingDone (a n : Nat) (p : String) (w : World) (ws : WSClient)
    (orig : ExecutionCallback) (F : WaitFrame)
    (hws : w.heap[a]? = some ws) (hloop : ws.loop = .inRead)
    (hcb : ws.onExecution = .waitWrapper orig p n)
    (horig : orig = .nil ∨ ∃ id, orig = .user id)
    (hF : w.waits[n]? = some F) (hfresh : F.completed = false) :
    (WSClient.loopRead a (.ok (executingDone p)) w).waits[n]? =
      some { F with completed := true, followUpsStarted := F.followUpsStarted + 1 } ∧
    (WSClient.loopRead a (.ok (executingDone p)) w).historyQueries = w.historyQueries ∧
    (WSClient.loopRead a (.ok (executingDone p)) w).dials = w.dials := by
  unfold WSClient.loopRead
  rw [hws]
  simp only [hloop, if_true]
  rw [WSClient.handleMessage_executingDone ws p w (by rw [hcb]; simp), hcb]
  simp only [ExecutionCallback.invoke, true_and, if_true]
  have hinner : ∀ w₀ : World, (if orig ≠ .nil then orig.invoke p none w₀ else w₀).waits = w₀.waits ∧
      (if orig ≠ .nil then orig.invoke p none w₀ else w₀).historyQueries = w₀.historyQueries ∧
      (if orig ≠ .nil then orig.invoke p none w₀ else w₀).dials = w₀.dials := by
    intro w₀
    rcases horig with rfl | ⟨id, rfl⟩
    · simp
    · simp [ExecutionCallback.invoke]
  obtain ⟨hw, hq, hd⟩ := hinner (w.note (.execution p none))
  refine ⟨?_, ?_, ?_⟩
  · rw [(World.modifyWS_fields _ _ _).2.1, World.waits_modifyWait, hw]
    simp [World.note, hF, hfresh]
  · rw [(World.modifyWS_fields _ _ _).2.2.2.2.2.2.1, (World.modifyWait_fields _ n _).2.2.2.2.2.2.1, hq]
    rfl
  · rw [(World.modifyWS_fields _ _ _).2.2.2.2.2.1, (World.modifyWait_fields _ n _).2.2.2.2.2.1, hd]
    rfl

/-! ## Theorems: what ends the connection -/

theorem KeepsConn.keeps_refl (w : World) : KeepsConn w w := ⟨rfl, fun _ _ => rfl⟩

theorem KeepsConn.keeps_trans {w₁ w₂ w₃ : World} (h₁ : KeepsConn w₁ w₂) (h₂ : KeepsConn w₂ w₃) :
    KeepsConn w₁ w₃ :=
  ⟨h₂.1.trans h₁.1, fun a ha => (h₂.2 a (h₁.1.trans ha)).trans (h₁.2 a ha)⟩

theorem KeepsConn.connected {w w' : World} (h : KeepsConn w w') :
    Client.IsWebSocketConnected w' = Client.IsWebSocketConnected w := by
  unfold Client.IsWebSocketConnected
  rw [h.1]
  cases hc : w.client.wsClient with
  | none => rfl
  | some a =>
    have := h.2 a hc
    dsimp only
    cases h1 : w'.heap[a]? <;> cases h2 : w.heap[a]? <;> simp_all

theorem KeepsConn.keeps_of_eq {w w' : World} (hc : w'.client = w.client) (hh : w'.heap = w.heap) :
    KeepsConn w w' := ⟨by rw [hc], fun a _ => by rw [hh]⟩

theorem Handled.keepsConn {w w' : World} (h : Handled w w') : KeepsConn w w' :=
  KeepsConn.keeps_of_eq h.1 h.2.1

theorem KeepsConn.keeps_of_modifyWait {w₀ w : World} (i : Nat) (f : WaitFrame → WaitFrame)
    (h : KeepsConn w₀ w) : KeepsConn w₀ (w.modifyWait i f) :=
  h.keeps_trans (KeepsConn.keeps_of_eq (World.modifyWait_fields w i f).1 (World.modifyWait_fields w i f).2.1)

theorem KeepsConn.keeps_of_modifyWS {w₀ w : World} (a : Nat) (f : WSClient → WSClient)
    (hf : ∀ ws, (f ws).IsConnected = ws.IsConnected) (h : KeepsConn w₀ w) :
    KeepsConn w₀ (w.modifyWS a f) := by
  refine h.keeps_trans ⟨by rw [(World.modifyWS_fields w a f).1], fun b _ => ?_⟩
  rw [World.heap_modifyWS]
  split
  · cases w.heap[b]? <;> simp [hf]
  · rfl

theorem KeepsConn.keeps_of_modifyWS_other {w₀ w : World} (a : Nat) (f : WSClient → WSClient)
    (ha : w.client.wsClient ≠ some a) (h : KeepsConn w₀ w) :
    KeepsConn w₀ (w.modifyWS a f) := by
  refine h.keeps_trans ⟨by rw [(World.modifyWS_fields w a f).1], fun b hb => ?_⟩
  rw [World.heap_modifyWS]
  split
  · rename_i hab
    subst hab
    exact absurd hb ha
  · rfl

theorem Client.ensureWebSocketConnected_of_connected (ctx : Context) (net : NetEnv) (w : World)
    (hconn : Client.IsWebSocketConnected w = true) :
    (Client.ensureWebSocketConnected ctx net w).1 = w := by
  unfold Client.ensureWebSocketConnected
  split
  · rfl
  · simp [hconn]

theorem Client.waitReturn_keepsConn (i : Nat) (ret : WaitReturn) (w : World) :
    KeepsConn w (Client.waitReturn i ret w) := by
  unfold Client.waitReturn
  split
  · exact KeepsConn.keeps_refl w
  · dsimp only
    apply KeepsConn.keeps_of_modifyWS
    · intro ws; rfl
    · exact KeepsConn.keeps_of_modifyWait _ _ (KeepsConn.keeps_refl w)

theorem Client.waitSelect_keepsConn (i : Nat) (pick : SelectCase) (w : World) :
    KeepsConn w (Client.waitSelect i pick w) := by
  unfold Client.waitSelect
  split
  · exact KeepsConn.keeps_refl w
  · split
    · exact KeepsConn.keeps_refl w
    · split
      · split
        · exact (KeepsConn.keeps_of_modifyWait _ _ (KeepsConn.keeps_refl w)).keeps_trans
            (Client.waitReturn_keepsConn _ _ _)
        · exact KeepsConn.keeps_refl w
      · split
        · exact (KeepsConn.keeps_of_modifyWait _ _ (KeepsConn.keeps_refl w)).keeps_trans
            (Client.waitReturn_keepsConn _ _ _)
        · exact KeepsConn.keeps_refl w
      · split
        · exact Client.waitReturn_keepsConn _ _ _
        · exact KeepsConn.keeps_refl w

theorem Client.followUp_keepsConn (i : Nat) (reply : RestyResult HistoryResponse) (w : World) :
    KeepsConn w (Client.followUp i reply w) := by
  unfold Client.followUp
  split
  · exact KeepsConn.keeps_refl w
  · split
    · dsimp only
      have h1 : ∀ q : List String, KeepsConn w ({ w with historyQueries := q } : World) :=
        fun q => KeepsConn.keeps_of_eq rfl rfl
      split
      · exact KeepsConn.keeps_of_modifyWait _ _ (KeepsConn.keeps_of_modifyWait _ _ (h1 _))
      · split
        · exact KeepsConn.keeps_of_modifyWait _ _ (KeepsConn.keeps_of_modifyWait _ _ (h1 _))
        · exact KeepsConn.keeps_of_modifyWait _ _ (KeepsConn.keeps_of_modifyWait _ _ (h1 _))
    · exact KeepsConn.keeps_refl w

theorem Client.waitForCompletionWithExistingWS_keepsConn (ctx : Context) (promptID : String)
    (timeout : Int) (a : Nat) (w : World) :
    KeepsConn w (Client.waitForCompletionWithExistingWS ctx promptID timeout a w) := by
  unfold Client.waitForCompletionWithExistingWS
  split
  · exact KeepsConn.keeps_refl w
  · dsimp only
    apply KeepsConn.keeps_of_modifyWS
    · intro ws; rfl
    · exact KeepsConn.keeps_of_eq rfl rfl

theorem Client.WaitForCompletionWithWS_keepsConn (ctx : Context) (promptID : String)
    (timeout : Int) (net : NetEnv) (w : World) (hconn : Client.IsWebSocketConnected w = true) :
    KeepsConn w (Client.WaitForCompletionWithWS ctx promptID timeout net w).1 := by
  have he := Client.ensureWebSocketConnected_of_connected ctx net w hconn
  rw [← Client.GetWebSocketClient_world] at he
  unfold Client.WaitForCompletionWithWS
  dsimp only
  generalize (if timeout ≤ 0 then 5 * timeMinute else timeout) = t
  split
  · rename_i heq; rw [heq] at he; dsimp only at he ⊢; rw [he]; exact KeepsConn.keeps_refl w
  · rename_i heq; rw [heq] at he; dsimp only at he ⊢; rw [he]
    exact Client.waitForCompletionWithExistingWS_keepsConn _ _ _ _ _
  · rename_i heq; rw [heq] at he; dsimp only at he ⊢; rw [he]; exact KeepsConn.keeps_refl w

/-- C9 (as amended): `IsWebSocketConnected` goes from true to false in one step only through
`CloseWebSocket`, through a failed read on the stored stream client, or through the receive
loop of the stored stream client finding its context done at the `select` (that context is
derived from the context passed to the call that connected); no other step, a cancellation
included, makes a connected client not connected. -/
theorem connection_ends_by_close_read_failure_or_done_context (w : World) (e : Event)
    (hbefore : Client.IsWebSocketConnected w = true)
    (hafter : Client.IsWebSocketConnected (step w e) = false) :
    (∃ closeErr, e = .closeWebSocket closeErr) ∨
    (∃ a err, e = .loopRead a (.error err) ∧ w.client.wsClient = some a) ∨
    (∃ a ws, e = .loopSelect a ∧ w.client.wsClient = some a ∧ w.heap[a]? = some ws ∧
      ws.ctxDone w.cancelled = true) := by
  have hkeep : ∀ w', KeepsConn w w' → Client.IsWebSocketConnected w' = false → False := by
    intro w' hk hf
    rw [hk.connected, hbefore] at hf
    cases hf
  cases e with
  | getWebSocketStatus ctx net =>
    exfalso
    simp only [step, Client.GetWebSocketStatus_world,
      Client.ensureWebSocketConnected_of_connected ctx net w hbefore] at hafter
    rw [hbefore] at hafter; cases hafter
  | getWebSocketClient ctx net =>
    exfalso
    simp only [step, Client.GetWebSocketClient_world,
      Client.ensureWebSocketConnected_of_connected ctx net w hbefore] at hafter
    rw [hbefore] at hafter; cases hafter
  | waitForCompletionWithWS ctx promptID timeout net =>
    exact (hkeep _ (Client.WaitForCompletionWithWS_keepsConn ctx promptID timeout net w hbefore)
      hafter).elim
  | closeWebSocket closeErr => exact Or.inl ⟨closeErr, rfl⟩
  | cancel id => exact (hkeep _ (KeepsConn.keeps_of_eq rfl rfl) hafter).elim
  | followUp wait reply => exact (hkeep _ (Client.followUp_keepsConn _ _ _) hafter).elim
  | deadline wait =>
    exact (hkeep _ (KeepsConn.keeps_of_modifyWait _ _ (KeepsConn.keeps_refl w)) hafter).elim
  | waitSelect wait pick => exact (hkeep _ (Client.waitSelect_keepsConn _ _ _) hafter).elim
  | loopSelect a =>
    by_cases ha : w.client.wsClient = some a
    · cases hws : w.heap[a]? with
      | none =>
        exfalso
        simp only [step, WSClient.loopSelect, hws] at hafter
        rw [hbefore] at hafter; cases hafter
      | some ws =>
        by_cases hdone : ws.ctxDone w.cancelled = true
        · exact Or.inr (Or.inr ⟨a, ws, rfl, ha, hws, hdone⟩)
        · exfalso
          refine hkeep _ ?_ hafter
          simp only [step, WSClient.loopSelect, hws]
          split
          · try rw [if_neg hdone]
            exact KeepsConn.keeps_of_modifyWS _ _ (fun _ => rfl) (KeepsConn.keeps_refl w)
          · exact KeepsConn.keeps_refl w
    · exfalso
      refine hkeep _ ?_ hafter
      simp only [step, WSClient.loopSelect]
      split
      · exact KeepsConn.keeps_refl w
      · split
        · split <;> exact KeepsConn.keeps_of_modifyWS_other _ _ ha (KeepsConn.keeps_refl w)
        · exact KeepsConn.keeps_refl w
  | loopRead a r =>
    cases r with
    | error err =>
      by_cases ha : w.client.wsClient = some a
      · exact Or.inr (Or.inl ⟨a, err, rfl, ha⟩)
      · exfalso
        refine hkeep _ ?_ hafter
        simp only [step, WSClient.loopRead]
        split
        · exact KeepsConn.keeps_refl w
        · split
          · have hinv : ∀ (cb : ErrorCallback) (e : GoError),
                KeepsConn w (if cb ≠ .nil then cb.invoke "" e (w.note (.error "" e)) else w) := by
              intro cb e
              split
              · exact ((Handled.note _ _).handled_trans (ErrorCallback.error_invoke_handled _ _ _ _)).keepsConn
              · exact KeepsConn.keeps_refl w
            refine KeepsConn.keeps_of_modifyWS_other _ _ ?_ (hinv _ _)
            rw [(hinv _ _).1]
            exact ha
          · exact KeepsConn.keeps_refl w
    | ok data =>
      exfalso
      refine hkeep _ ?_ hafter
      simp only [step, WSClient.loopRead]
      split
      · exact KeepsConn.keeps_refl w
      · split
        · exact KeepsConn.keeps_of_modifyWS _ _ (fun _ => rfl)
            (WSClient.handleMessage_handled _ _ _).keepsConn
        · exact KeepsConn.keeps_refl w

/-- Witness for C9: the only step that ends the connection of the example is the pass of the
receive loop through `select` with its context done. -/
theorem connection_ends_by_close_read_failure_or_done_context_witness :
    ∃ a ws, (Event.loopSelect 0 = .loopSelect a) ∧
      (run freshWorld [.getWebSocketStatus (.cancellable 1) demoNet, .cancel 1]).client.wsClient
        = some a ∧
      (run freshWorld [.getWebSocketStatus (.cancellable 1) demoNet, .cancel 1]).heap[a]? = some ws ∧
      ws.ctxDone (run freshWorld [.getWebSocketStatus (.cancellable 1) demoNet, .cancel 1]).cancelled
        = true := by
  rcases connection_ends_by_close_read_failure_or_done_context
    (run freshWorld [.getWebSocketStatus (.cancellable 1) demoNet, .cancel 1]) (.loopSelect 0)
    rfl rfl with ⟨c, hc⟩ | ⟨a, err, hc, _⟩ | h
  · cases hc
  · cases hc
  · exact h

/-- Counterexample to C9 as stated: the context passed to the `GetWebSocketStatus` call that
connected is cancelled, and at the next pass of the receive loop through `select` the
client is no longer connected, with neither `CloseWebSocket` nor a failed read. -/
theorem cancelled_connect_context_ends_connection :
    Client.IsWebSocketConnected
      (run freshWorld [.getWebSocketStatus (.cancellable 1) demoNet]) = true ∧
    Client.IsWebSocketConnected
      (run freshWorld [.getWebSocketStatus (.cancellable 1) demoNet, .cancel 1]) = true ∧
    Client.IsWebSocketConnected
      (run freshWorld [.getWebSocketStatus (.cancellable 1) demoNet, .cancel 1, .loopSelect 0])
        = false := ⟨rfl, rfl, rfl⟩

/-! ## Theorems: where the result of a stream wait comes from -/

theorem FromFollowUp.followUp_mono {p : String} {n : Nat} {es : List Event} (e : Event) {v : WaitResult}
    (h : FromFollowUp p n es v) : FromFollowUp p n (es ++ [e]) v := by
  obtain ⟨h1, reply, hist, hmem, h2, h3⟩ := h
  exact ⟨h1, reply, hist, List.mem_append_left _ hmem, h2, h3⟩

theorem GoodFrame.frame_mono {p : String} {n : Nat} {es : List Event} (e : Event) {F : WaitFrame}
    (h : GoodFrame p n es F) : GoodFrame p n (es ++ [e]) F := by
  obtain ⟨h1, h2, h3, h4⟩ := h
  exact ⟨h1, fun v hv => (h2 v hv).followUp_mono e, fun v hv => (h3 v hv).followUp_mono e,
    fun r er hr => ⟨(h4 r er hr).1, (h4 r er hr).2.followUp_mono e⟩⟩

theorem ResultsTraced.of_waits {p : String} {n : Nat} {es : List Event} {w w' : World}
    (h : ResultsTraced p n es w) (hw : w'.waits[n]? = w.waits[n]?) : ResultsTraced p n es w' := by
  obtain ⟨F, hF, hg⟩ := h
  exact ⟨F, by rw [hw]; exact hF, hg⟩

theorem ResultsTraced.traced_of_modifyWS {p : String} {n : Nat} {es : List Event} {w : World}
    (a : Nat) (f : WSClient → WSClient) (h : ResultsTraced p n es w) :
    ResultsTraced p n es (w.modifyWS a f) :=
  h.of_waits (by rw [(World.modifyWS_fields w a f).2.1])

theorem ResultsTraced.traced_of_modifyWait {p : String} {n : Nat} {es : List Event} {w : World}
    (j : Nat) (f : WaitFrame → WaitFrame) (h : ResultsTraced p n es w)
    (hf : j = n → ∀ F, w.waits[n]? = some F → GoodFrame p n es F → GoodFrame p n es (f F)) :
    ResultsTraced p n es (w.modifyWait j f) := by
  obtain ⟨F, hF, hg⟩ := h
  by_cases hj : j = n
  · refine ⟨f F, ?_, hf hj F hF hg⟩
    rw [World.waits_modifyWait, if_pos hj, hF]
    rfl
  · refine ⟨F, ?_, hg⟩
    rw [World.waits_modifyWait, if_neg hj, hF]

theorem ResultsTraced.of_handled {p : String} {n : Nat} {es : List Event} {w w' : World}
    (h : ResultsTraced p n es w) (hh : Handled w w') : ResultsTraced p n es w' := by
  obtain ⟨F, hF, hp, hb, hbl, hr⟩ := h
  obtain ⟨_, _, _, _, _, l, t⟩ := hh
  have hlt : n < w'.waits.length := by
    rw [l]
    by_contra hge
    rw [List.getElem?_eq_none (by omega)] at hF
    cases hF
  have hG : w'.waits[n]? = some (w'.waits[n]) := List.getElem?_eq_getElem hlt
  obtain ⟨_, a2, _, _, a5, _, _, _, _, a10⟩ := t n F _ hF hG
  exact ⟨_, hG, by rw [a2]; exact hp, by rw [a5]; exact hb, by rw [a5]; exact hbl,
    by rw [a10]; exact hr⟩

theorem GetHistory_ok (p : String) (reply : RestyResult HistoryResponse)
    (history : Option HistoryResponse) (h : GetHistory p reply = (history, none)) :
    ∃ out, history = some out := by
  unfold GetHistory at h
  cases reply with
  | failed err => simp at h
  | response status body out =>
    dsimp only at h
    split at h
    · simp at h
    · simp only [Prod.mk.injEq, and_true] at h
      exact ⟨out, h.symm⟩

theorem Chan.recv_sub {α : Type} (ch ch' : Chan α) (v : α) (h : ch.recv = some (v, ch')) :
    v ∈ ch.buffer ∧ (∀ x ∈ ch'.buffer, x ∈ ch.buffer ∨ x ∈ ch.blocked) ∧
    (∀ x ∈ ch'.blocked, x ∈ ch.blocked) := by
  unfold Chan.recv at h
  cases hb : ch.buffer with
  | nil => rw [hb] at h; cases h
  | cons y rest =>
    rw [hb] at h
    simp only [Option.some.injEq, Prod.mk.injEq] at h
    obtain ⟨rfl, rfl⟩ := h
    refine ⟨List.mem_cons_self _ _, fun x hx => ?_, fun x hx => ?_⟩
    · simp only [List.mem_append] at hx
      rcases hx with hx | hx
      · exact Or.inl (List.mem_cons_of_mem _ hx)
      · exact Or.inr (List.mem_of_mem_take hx)
    · exact List.mem_of_mem_drop hx

theorem Chan.send_sub {α : Type} (ch : Chan α) (v : α) :
    (∀ x ∈ (ch.send v).buffer, x ∈ ch.buffer ∨ x = v) ∧
    (∀ x ∈ (ch.send v).blocked, x ∈ ch.blocked ∨ x = v) := by
  unfold Chan.send
  split
  · exact ⟨fun x hx => by simpa using hx, fun x hx => Or.inl hx⟩
  · exact ⟨fun x hx => Or.inl hx, fun x hx => by simpa using hx⟩

theorem Client.waitReturn_traced {p : String} {n : Nat} {es : List Event} {w : World}
    (j : Nat) (ret : WaitReturn) (h : ResultsTraced p n es w)
    (hret : j = n → ∀ r e, ret = (some r, e) → e = none ∧ FromFollowUp p n es r) :
    ResultsTraced p n es (Client.waitReturn j ret w) := by
  unfold Client.waitReturn
  split
  · exact h
  · dsimp only
    apply ResultsTraced.traced_of_modifyWS
    apply ResultsTraced.traced_of_modifyWait _ _ h
    intro hj F _ hg
    obtain ⟨h1, h2, h3, _⟩ := hg
    refine ⟨h1, h2, h3, fun r e hr => ?_⟩
    simp only [Option.some.injEq] at hr
    exact hret hj r e hr

theorem Client.waitSelect_traced {p : String} {n : Nat} {es : List Event} {w : World}
    (j : Nat) (pick : SelectCase) (h : ResultsTraced p n es w) :
    ResultsTraced p n es (Client.waitSelect j pick w) := by
  unfold Client.waitSelect
  cases hj : w.waits[j]? with
  | none => exact h
  | some frame =>
    dsimp only
    split
    · exact h
    · cases pick with
      | resultChan =>
        dsimp only
        cases hr : frame.resultChan.recv with
        | none => exact h
        | some pr =>
          obtain ⟨result, ch⟩ := pr
          dsimp only
          obtain ⟨hv, hbuf, hblk⟩ := Chan.recv_sub _ _ _ hr
          have hframe : j = n → ∀ F, w.waits[n]? = some F → F = frame := by
            intro hjn F hF
            rw [hjn] at hj
            rw [hj] at hF
            cases hF
            rfl
          apply Client.waitReturn_traced
          · apply ResultsTraced.traced_of_modifyWait _ _ h
            intro hjn F hF hg
            have := hframe hjn F hF
            subst this
            obtain ⟨h1, h2, h3, h4⟩ := hg
            refine ⟨h1, fun v hvm => ?_, fun v hvm => h3 v (hblk v hvm), h4⟩
            rcases hbuf v hvm with hx | hx
            · exact h2 v hx
            · exact h3 v hx
          · intro hjn r e hre
            simp only [Prod.mk.injEq, Option.some.injEq] at hre
            obtain ⟨rfl, rfl⟩ := hre
            obtain ⟨F, hF, hg⟩ := h
            have := hframe hjn F hF
            subst this
            exact ⟨rfl, hg.2.1 _ hv⟩
      | errorChan =>
        dsimp only
        cases hr : frame.errorChan.recv with
        | none => exact h
        | some pr =>
          obtain ⟨err, ch⟩ := pr
          dsimp only
          apply Client.waitReturn_traced
          · apply ResultsTraced.traced_of_modifyWait _ _ h
            intro _ F _ hg
            exact hg
          · intro _ r e hre
            simp at hre
      | timeoutDone =>
        dsimp only
        split
        · apply Client.waitReturn_traced _ _ h
          intro _ r e hre
          simp at hre
        · exact h

theorem Client.followUp_traced {p : String} {n : Nat} {es : List Event} {w : World}
    (j : Nat) (reply : RestyResult HistoryResponse) (h : ResultsTraced p n es w) :
    ResultsTraced p n (es ++ [.followUp j reply]) (Client.followUp j reply w) := by
  have hmono : ResultsTraced p n (es ++ [.followUp j reply]) w := by
    obtain ⟨F, hF, hg⟩ := h
    exact ⟨F, hF, hg.frame_mono _⟩
  unfold Client.followUp
  cases hj : w.waits[j]? with
  | none => exact hmono
  | some frame =>
    dsimp only
    split
    · have hq : ResultsTraced p n (es ++ [.followUp j reply])
          ({ w with historyQueries := w.historyQueries ++ [frame.promptID] } : World) :=
        hmono.of_waits rfl
      have hfin : ResultsTraced p n (es ++ [.followUp j reply])
          (({ w with historyQueries := w.historyQueries ++ [frame.promptID] } : World).modifyWait j
            (fun f => { f with followUpsFinished := f.followUpsFinished + 1 })) := by
        apply ResultsTraced.traced_of_modifyWait _ _ hq
        intro _ F _ hg
        exact hg
      have hframe : j = n → frame.promptID = p := by
        intro hjn
        obtain ⟨F, hF, hg⟩ := h
        rw [hjn] at hj
        rw [hj] at hF
        cases hF
        exact hg.1
      split
      · apply ResultsTraced.traced_of_modifyWait _ _ hfin
        intro _ F _ hg
        exact hg
      · rename_i history heq
        obtain ⟨out, rfl⟩ := GetHistory_ok _ _ _ heq
        simp only [Option.getD_some]
        split
        · rename_i item hitem
          apply ResultsTraced.traced_of_modifyWait _ _ hfin
          intro hjn F _ hg
          have hp := hframe hjn
          obtain ⟨h1, h2, h3, h4⟩ := hg
          have hnew : FromFollowUp p n (es ++ [.followUp j reply])
              { PromptID := frame.promptID, Item := item } := by
            refine ⟨hp, reply, out, ?_, ?_, ?_⟩
            · rw [hjn]; simp
            · rw [← hp]; exact heq
            · rw [← hp]; exact hitem
          obtain ⟨sb, sl⟩ := Chan.send_sub F.resultChan
            ({ PromptID := frame.promptID, Item := item } : WaitResult)
          refine ⟨h1, fun v hv => ?_, fun v hv => ?_, h4⟩
          · rcases sb v hv with hx | hx
            · exact h2 v hx
            · rw [hx]; exact hnew
          · rcases sl v hv with hx | hx
            · exact h3 v hx
            · rw [hx]; exact hnew
        · apply ResultsTraced.traced_of_modifyWait _ _ hfin
          intro _ F _ hg
          exact hg
    · exact hmono

theorem WSClient.Connect_waits (a : Nat) (ctx : Context) (net : NetEnv) (w : World) :
    (WSClient.Connect a ctx net w).1.waits = w.waits := by
  unfold WSClient.Connect
  split
  · rfl
  · split
    · rfl
    · split
      · rfl
      · dsimp only
        split
        · rfl
        · rw [(World.modifyWS_fields _ _ _).2.1]

theorem Client.ensureWebSocketConnected_waits (ctx : Context) (net : NetEnv) (w : World) :
    (Client.ensureWebSocketConnected ctx net w).1.waits = w.waits := by
  unfold Client.ensureWebSocketConnected
  split
  · rfl
  · split
    · rfl
    · dsimp only
      rw [WSClient.Connect_waits]

theorem WSClient.Close_waits (a : Nat) (e : Option GoError) (w : World) :
    (WSClient.Close a e w).1.waits = w.waits := by
  unfold WSClient.Close
  split
  · rfl
  · split
    · rfl
    · dsimp only
      split <;> split <;>
        simp only [(World.modifyWS_fields _ _ _).2.1]

theorem Client.waitForCompletionWithExistingWS_waits (ctx : Context) (promptID : String)
    (timeout : Int) (a : Nat) (w : World) (n : Nat) (F : WaitFrame) (hF : w.waits[n]? = some F) :
    (Client.waitForCompletionWithExistingWS ctx promptID timeout a w).waits[n]? = w.waits[n]? := by
  have hlt : n < w.waits.length := by
    by_contra hge
    rw [List.getElem?_eq_none (by omega)] at hF
    cases hF
  unfold Client.waitForCompletionWithExistingWS
  split
  · rfl
  · dsimp only
    rw [(World.modifyWS_fields _ _ _).2.1]
    exact List.getElem?_append_left hlt

theorem Client.WaitForCompletionWithWS_waits (ctx : Context) (promptID : String)
    (timeout : Int) (net : NetEnv) (w : World) (n : Nat) (F : WaitFrame)
    (hF : w.waits[n]? = some F) :
    (Client.WaitForCompletionWithWS ctx promptID timeout net w).1.waits[n]? = w.waits[n]? := by
  have he := Client.ensureWebSocketConnected_waits ctx net w
  rw [← Client.GetWebSocketClient_world] at he
  unfold Client.WaitForCompletionWithWS
  dsimp only
  generalize (if timeout ≤ 0 then 5 * timeMinute else timeout) = t
  split
  · rename_i heq; rw [heq] at he; dsimp only at he ⊢; rw [he]
  · rename_i heq; rw [heq] at he; dsimp only at he ⊢
    rw [Client.waitForCompletionWithExistingWS_waits _ _ _ _ _ n F (by rw [he]; exact hF), he]
  · rename_i heq; rw [heq] at he; dsimp only at he ⊢; rw [he]

theorem step_traced {p : String} {n : Nat} {es : List Event} {w : World} (e : Event)
    (h : ResultsTraced p n es w) : ResultsTraced p n (es ++ [e]) (step w e) := by
  have hmono : ResultsTraced p n (es ++ [e]) w := by
    obtain ⟨F, hF, hg⟩ := h
    exact ⟨F, hF, hg.frame_mono _⟩
  cases e with
  | getWebSocketStatus ctx net =>
    refine hmono.of_waits ?_
    simp only [step, Client.GetWebSocketStatus_world, Client.ensureWebSocketConnected_waits]
  | getWebSocketClient ctx net =>
    refine hmono.of_waits ?_
    simp only [step, Client.GetWebSocketClient_world, Client.ensureWebSocketConnected_waits]
  | waitForCompletionWithWS ctx promptID timeout net =>
    obtain ⟨F, hF, hg⟩ := hmono
    refine ⟨F, ?_, hg⟩
    show (Client.WaitForCompletionWithWS ctx promptID timeout net w).1.waits[n]? = some F
    rw [Client.WaitForCompletionWithWS_waits _ _ _ _ _ _ _ hF]
    exact hF
  | closeWebSocket closeErr =>
    refine hmono.of_waits ?_
    simp only [step, Client.CloseWebSocket]
    split
    · dsimp only
      rw [WSClient.Close_waits]
    · rfl
  | cancel id => exact hmono.of_waits rfl
  | loopSelect a =>
    simp only [step, WSClient.loopSelect]
    split
    · exact hmono
    · split
      · split <;> exact ResultsTraced.traced_of_modifyWS _ _ hmono
      · exact hmono
  | loopRead a r =>
    simp only [step, WSClient.loopRead]
    split
    · exact hmono
    · split
      · split
        · apply ResultsTraced.traced_of_modifyWS
          split
          · exact hmono.of_handled ((Handled.note _ _).handled_trans (ErrorCallback.error_invoke_handled _ _ _ _))
          · exact hmono
        · apply ResultsTraced.traced_of_modifyWS
          exact hmono.of_handled (WSClient.handleMessage_handled _ _ _)
      · exact hmono
  | followUp wait reply => exact Client.followUp_traced wait reply h
  | deadline wait =>
    simp only [step, Client.waitDeadline]
    apply ResultsTraced.traced_of_modifyWait _ _ hmono
    intro _ F _ hg
    exact hg
  | waitSelect wait pick => exact Client.waitSelect_traced wait pick hmono

theorem run_traced {p : String} {n : Nat} (events : List Event) :
    ∀ (before : List Event) (w : World), ResultsTraced p n before w →
      ResultsTraced p n (before ++ events) (run w events) := by
  induction events with
  | nil => intro before w h; simpa [run] using h
  | cons e rest ih =>
    intro before w h
    have := ih (before ++ [e]) (step w e) (step_traced e h)
    simpa [run] using this

theorem WSClient.Connect_ok (a : Nat) (ctx : Context) (net : NetEnv) (w w' : World) (ws : WSClient)
    (hws : w.heap[a]? = some ws) (h : WSClient.Connect a ctx net w = (w', none)) :
    w'.client = w.client ∧ ∃ ws', w'.heap[a]? = some ws' := by
  unfold WSClient.Connect at h
  simp only [hws] at h
  split at h
  · simp at h
  · split at h
    · simp at h
    · split at h
      · simp at h
      · simp only [Prod.mk.injEq, and_true] at h
        rw [← h]
        refine ⟨(World.modifyWS_fields _ _ _).1, ?_⟩
        rw [World.heap_modifyWS]
        simp [hws]

theorem Client.ensureWebSocketConnected_ok (ctx : Context) (net : NetEnv) (w w' : World)
    (h : Client.ensureWebSocketConnected ctx net w = (w', none)) :
    ∃ a ws, w'.client.wsClient = some a ∧ w'.heap[a]? = some ws := by
  unfold Client.ensureWebSocketConnected at h
  split at h
  · simp at h
  · split at h
    · rename_i hconn
      simp only [Prod.mk.injEq, and_true] at h
      rw [← h]
      unfold Client.IsWebSocketConnected at hconn
      cases hc : w.client.wsClient with
      | none => simp [hc] at hconn
      | some a =>
        cases hh : w.heap[a]? with
        | none => simp [hc, hh] at hconn
        | some ws => exact ⟨a, ws, rfl, hh⟩
    · dsimp only at h
      obtain ⟨hcl, ws', hws'⟩ := WSClient.Connect_ok _ ctx net _ w' _
        (List.getElem?_concat_length _ _) h
      exact ⟨w.heap.length, ws', by rw [hcl], hws'⟩

/-- C2 (as amended): whenever `WaitForCompletionWithWS` returns a result, the error is nil, the
result carries the awaited id, and its `Item` is the entry for that id in the successful
reply to a follow-up history query of this wait; no terminal test is applied to it. -/
theorem stream_wait_result_is_follow_up_entry
    (w : World) (ctx : Context) (p : String) (timeout : Int) (net : NetEnv)
    (events : List Event) (result : WaitResult) (err : Option GoError)
    (hret : (Client.WaitForCompletionWithWS ctx p timeout net w).2 = some (some result, err) ∨
      ((Client.WaitForCompletionWithWS ctx p timeout net w).2 = none ∧
        (run (Client.WaitForCompletionWithWS ctx p timeout net w).1 events).returned w.waits.length
          = some (some result, err))) :
    err = none ∧ result.PromptID = p ∧
    ∃ reply h, Event.followUp w.waits.length reply ∈ events ∧
      GetHistory p reply = (some h, none) ∧ h.lookup p = some result.Item := by
  have hstart : (∃ e, (Client.WaitForCompletionWithWS ctx p timeout net w).2 = some (none, some e)) ∨
      ResultsTraced p w.waits.length [] (Client.WaitForCompletionWithWS ctx p timeout net w).1 := by
    have hew := Client.ensureWebSocketConnected_waits ctx net w
    unfold Client.WaitForCompletionWithWS Client.GetWebSocketClient
    dsimp only
    generalize (if timeout ≤ 0 then 5 * timeMinute else timeout) = t
    cases hens : Client.ensureWebSocketConnected ctx net w with
    | mk w1 e1 =>
      rw [hens] at hew
      dsimp only at hew
      cases e1 with
      | some e => exact Or.inl ⟨_, rfl⟩
      | none =>
        obtain ⟨a, ws, hcl, hws⟩ := Client.ensureWebSocketConnected_ok ctx net w w1 hens
        right
        simp only [hcl]
        unfold Client.waitForCompletionWithExistingWS
        rw [hws]
        dsimp only
        apply ResultsTraced.traced_of_modifyWS
        refine ⟨{ ctx := ctx, promptID := p, timeout := t, wsClient := a, resultChan := Chan.make,
                  errorChan := Chan.make, completed := false,
                  originalOnExecution := ws.onExecution, originalOnError := ws.onError,
                  followUpsStarted := 0, followUpsFinished := 0, deadlinePassed := false,
                  ret := none }, ?_, ?_, ?_, ?_, ?_⟩
        · dsimp only
          rw [← hew]
          exact List.getElem?_concat_length _ _
        · rfl
        · intro v hv; simp [Chan.make] at hv
        · intro v hv; simp [Chan.make] at hv
        · intro r e hr; simp at hr
  rcases hret with himm | ⟨hblocked, hrun⟩
  · rcases hstart with ⟨e, he⟩ | htr
    · rw [he] at himm; simp at himm
    · exfalso
      obtain ⟨F, hF, _⟩ := htr
      unfold Client.WaitForCompletionWithWS at himm
      dsimp only at himm
      split at himm <;> simp at himm
  · rcases hstart with ⟨e, he⟩ | htr
    · rw [he] at hblocked; cases hblocked
    · have hfin := run_traced events [] _ htr
      obtain ⟨F, hF, _, _, _, hr⟩ := hfin
      simp only [World.returned, hF] at hrun
      obtain ⟨he, hp, reply, h, hmem, hg, hl⟩ := hr result err hrun
      exact ⟨he, hp, reply, h, by simpa using hmem, hg, hl⟩

/-- Witness for C2: the returned record is the entry of the follow-up reply. -/
theorem stream_wait_result_is_follow_up_entry_witness :
    ∃ reply h, Event.followUp demoWorld.waits.length reply ∈
        [Event.loopRead 0 (.ok (executingDone "abc123")),
         Event.followUp 0 (.response 200 "" [("abc123", emptyOutputsItem)]),
         Event.waitSelect 0 .resultChan] ∧
      GetHistory "abc123" reply = (some h, none) ∧
      h.lookup "abc123" = some emptyOutputsItem :=
  (stream_wait_result_is_follow_up_entry demoWorld .background "abc123" 0 demoNet
    [.loopRead 0 (.ok (executingDone "abc123")),
     .followUp 0 (.response 200 "" [("abc123", emptyOutputsItem)]),
     .waitSelect 0 .resultChan]
    { PromptID := "abc123", Item := emptyOutputsItem } none (Or.inr ⟨rfl, rfl⟩)).2.2

/-- Counterexample to C2 as stated: the follow-up entry has `completed = false` and no
outputs, and the wait returns it as a success. -/
theorem stream_wait_returns_non_terminal_entry :
    specTerminal pendingItem = false ∧
    (Client.WaitForCompletionWithWS .background "abc123" 0 demoNet demoWorld).2 = none ∧
    (run (Client.WaitForCompletionWithWS .background "abc123" 0 demoNet demoWorld).1
      [.loopRead 0 (.ok (executingDone "abc123")),
       .followUp 0 (.response 200 "" [("abc123", pendingItem)]),
       .waitSelect 0 .resultChan]).returned 0
      = some (some { PromptID := "abc123", Item := pendingItem }, none) := ⟨rfl, rfl, rfl⟩

theorem jsonMarshal_ok (data : JSON) : jsonMarshal data = ((jsonMarshal data).1, none) := by
  cases data <;> rfl

theorem WSClient.handleMessage_bad_payload (ws : WSClient) (data : FrameBytes) (msg : WSMessage)
    (e : GoError) (w : World) (hdec : unmarshalWSMessage data = (msg, none))
    (hpay : payloadError msg = some e) : ws.handleMessage data w = w := by
  unfold WSClient.handleMessage
  rw [hdec]
  dsimp only
  unfold payloadError at hpay
  split_ifs at hpay ⊢ with h1 h2 h3 h4 h5
  · unfold WSClient.handleStatusMessage
    split_ifs
    · rfl
    · rw [jsonMarshal_ok]
      dsimp only
      split
      · rename_i heq
        rw [heq] at hpay
        cases hpay
      · rfl
  · unfold WSClient.handleExecutionStartMessage
    split_ifs
    · rfl
    · rw [jsonMarshal_ok]
      dsimp only
      split
      · rename_i heq
        rw [heq] at hpay
        cases hpay
      · rfl
  · unfold WSClient.handleExecutingMessage
    split_ifs
    · rfl
    · rw [jsonMarshal_ok]
      dsimp only
      split
      · rename_i heq
        rw [heq] at hpay
        cases hpay
      · rfl
  · unfold WSClient.handleProgressMessage
    split_ifs
    · rfl
    · rw [jsonMarshal_ok]
      dsimp only
      split
      · rename_i heq
        rw [heq] at hpay
        cases hpay
      · rfl
  · unfold WSClient.handleExecutionErrorMessage
    split_ifs
    · rfl
    · rw [jsonMarshal_ok]
      dsimp only
      split
      · rename_i heq
        rw [heq] at hpay
        cases hpay
      · rfl

theorem ExecutionCallback.execution_invoke_dispatched (cb : ExecutionCallback) (p : String)
    (n : Option String) : ∀ w, (cb.invoke p n w).dispatched = w.dispatched := by
  induction cb with
  | nil => intro w; rfl
  | user id => intro w; rfl
  | waitWrapper original promptID wait ih =>
    intro w
    simp only [ExecutionCallback.invoke]
    have h1 : (if original ≠ .nil then original.invoke p n w else w).dispatched = w.dispatched := by
      split
      · exact ih w
      · rfl
    split
    · rw [(World.modifyWait_fields _ _ _).2.2.2.1]; exact h1
    · exact h1

theorem ErrorCallback.error_invoke_dispatched (cb : ErrorCallback) (p : String) (e : GoError) :
    ∀ w, (cb.invoke p e w).dispatched = w.dispatched := by
  induction cb with
  | nil => intro w; rfl
  | user id => intro w; rfl
  | waitWrapper original promptID wait ih =>
    intro w
    simp only [ErrorCallback.invoke]
    have h1 : (if original ≠ .nil then original.invoke p e w else w).dispatched = w.dispatched := by
      split
      · exact ih w
      · rfl
    split
    · rw [(World.modifyWait_fields _ _ _).2.2.2.1]; exact h1
    · exact h1

theorem WSClient.handleMessage_envelope_error (ws : WSClient) (data : FrameBytes) (msg : WSMessage)
    (e : GoError) (w : World) (hdec : unmarshalWSMessage data = (msg, some e))
    (hcb : ws.onError ≠ .nil) :
    ws.handleMessage data w =
      ws.onError.invoke "" (.errorf ("解析WebSocket消息失败: " ++ e.Error))
        (w.note (.error "" (.errorf ("解析WebSocket消息失败: " ++ e.Error)))) := by
  unfold WSClient.handleMessage
  rw [hdec]
  simp only [hcb, ne_eq, not_false_eq_true, if_true]

theorem WSClient.loopRead_ok_resumes (a : Nat) (ws : WSClient) (data : FrameBytes) (w : World)
    (rest : List Event) (hws : w.heap[a]? = some ws) (hloop : ws.loop = .inRead)
    (hctx : ws.ctxDone w.cancelled = false) (hh : ws.handleMessage data w = w) :
    run w (.loopRead a (.ok data) :: .loopSelect a :: rest) = run w rest := by
  have hstep : step w (.loopRead a (.ok data)) = w.modifyWS a (fun ws => { ws with loop := .atSelect }) := by
    simp only [step, WSClient.loopRead, hws, hloop, if_true, hh]
  have hsel : step (step w (.loopRead a (.ok data))) (.loopSelect a) = w := by
    rw [hstep]
    simp only [step, WSClient.loopSelect]
    rw [World.heap_modifyWS, hws]
    simp only [if_true, Option.map_some']
    have hc : WSClient.ctxDone { ws with loop := LoopPC.atSelect }
        (w.modifyWS a (fun ws => { ws with loop := .atSelect })).cancelled = false := by
      rw [(World.modifyWS_fields w a _).2.2.1]
      exact hctx
    simp only [hc, Bool.false_eq_true, if_false]
    rw [World.modifyWS_twice]
    refine World.modifyWS_fixed w a _ ws hws ?_
    simp only [Function.comp]
    rw [← hloop]
  simp only [run, List.foldl_cons]
  rw [hsel]

/-- C11 (as the code has it): when the envelope of a frame decodes but its data does not
decode into the typed payload of its type, `handleMessage` leaves the whole state as it
was: no handler is called, the error handler included, and the receive loop goes on
reading as if the frame had not arrived. The error handler is called with a decode error
only when the envelope itself does not decode, with an empty id and the error wrapped in
the text of `handleMessage`; the loop goes back to its `select` then too. -/
theorem undecodable_payload_is_dropped_silently
    (ws : WSClient) (data : FrameBytes) (msg : WSMessage) (w : World) :
    (∀ e, unmarshalWSMessage data = (msg, none) → payloadError msg = some e →
      ws.handleMessage data w = w ∧
      ∀ (a : Nat) (rest : List Event), w.heap[a]? = some ws → ws.loop = .inRead →
        ws.ctxDone w.cancelled = false →
        run w (.loopRead a (.ok data) :: .loopSelect a :: rest) = run w rest) ∧
    (∀ e, unmarshalWSMessage data = (msg, some e) → ws.onError ≠ .nil →
      (ws.handleMessage data w).dispatched =
        w.dispatched ++ [.error "" (.errorf ("解析WebSocket消息失败: " ++ e.Error))] ∧
      ∀ (a : Nat), w.heap[a]? = some ws → ws.loop = .inRead →
        ∃ ws', (step w (.loopRead a (.ok data))).heap[a]? = some ws' ∧
          ws'.loop = .atSelect ∧ ws'.running = ws.running) := by
  refine ⟨fun e hdec hpay => ?_, fun e hdec hcb => ?_⟩
  · have hh := WSClient.handleMessage_bad_payload ws data msg e w hdec hpay
    exact ⟨hh, fun a rest hws hloop hctx =>
      WSClient.loopRead_ok_resumes a ws data w rest hws hloop hctx hh⟩
  · constructor
    · rw [WSClient.handleMessage_envelope_error ws data msg e w hdec hcb,
        ErrorCallback.error_invoke_dispatched]
      rfl
    · intro a hws hloop
      have hheap : (ws.handleMessage data w).heap = w.heap :=
        (WSClient.handleMessage_handled ws data w).2.1
      refine ⟨{ ws with loop := .atSelect }, ?_, rfl, rfl⟩
      simp only [step, WSClient.loopRead, hws, hloop, if_true]
      rw [World.heap_modifyWS, hheap, hws]
      simp only [if_true, Option.map_some']

/-- Witness for C11: an `executing` frame with a numeric `prompt_id` between two reads of
the demo client; a frame that is not JSON; a frame with a number beyond the float64
range, whose envelope does not decode; and, read by a client with a progress handler, a
`progress` frame whose value does not fit an `int` once it has been through float64. -/
theorem undecodable_payload_is_dropped_silently_witness :
    run demoWorld [.loopRead 0 (.ok executingBadFrame), .loopSelect 0,
        .loopRead 0 (.ok (executingDone "abc123"))]
      = run demoWorld [.loopRead 0 (.ok (executingDone "abc123"))] ∧
    (demoStream.handleMessage (.invalid "unexpected end of JSON input") demoWorld).dispatched =
      [.error "" (.errorf ("解析WebSocket消息失败: " ++ "unexpected end of JSON input"))] ∧
    (demoStream.handleMessage executingHugeFrame demoWorld).dispatched =
      [.error "" (.errorf ("解析WebSocket消息失败: " ++
        "json: cannot unmarshal number 1e400 into Go struct field WSMessage.data of type float64"))] ∧
    WSClient.handleMessage { demoStream with onProgress := .user 3 } progressHugeFrame demoWorld
      = demoWorld := by
  have h := undecodable_payload_is_dropped_silently demoStream executingBadFrame
    executingBadMessage demoWorld
  have h2 := undecodable_payload_is_dropped_silently demoStream
    (.invalid "unexpected end of JSON input") { Type_ := "", Data := none } demoWorld
  have h3 := undecodable_payload_is_dropped_silently demoStream executingHugeFrame
    (unmarshalWSMessage executingHugeFrame).1 demoWorld
  have h4 := undecodable_payload_is_dropped_silently { demoStream with onProgress := .user 3 }
    progressHugeFrame (unmarshalWSMessage progressHugeFrame).1 demoWorld
  exact ⟨((h.1 _ rfl rfl).2 0 [.loopRead 0 (.ok (executingDone "abc123"))] rfl rfl rfl),
    (h2.2 (.jsonSyntax "unexpected end of JSON input") rfl (by decide)).1,
    (h3.2 (.unmarshalType "number 1e400" "Go struct field WSMessage.data of type float64")
      rfl (by decide)).1,
    (h4.1 (.unmarshalType "number" "Go struct field WSProgressMessage.value of type int")
      rfl rfl).1⟩

/-- Counterexample to C11 as stated: the demo client, with an execution handler and an
error handler installed, reads an `executing` frame whose `prompt_id` is a number; the
payload does not decode, and neither handler is called. -/
theorem undecodable_payload_reaches_no_error_handler :
    unmarshalWSMessage executingBadFrame = (executingBadMessage, none) ∧
    (payloadError executingBadMessage).isSome = true ∧
    demoWorld.heap[0]? = some demoStream ∧ demoStream.onError = .user 2 ∧
    (run demoWorld [.loopRead 0 (.ok executingBadFrame)]).dispatched = [] ∧
    (run demoWorld [.loopRead 0 (.ok executingBadFrame)]).calls = [] :=
  ⟨rfl, rfl, rfl, rfl, rfl, rfl⟩

/-- C18: `Connect` on a stream client whose `running` flag is set returns the error
`WebSocket客户端已经在运行` and leaves the whole state as it was: no dial is logged, and the
connection, the context and the `running` flag of the stream client are the ones it had. -/
theorem connect_while_running_fails_without_dial
    (a : Nat) (ctx : Context) (net : NetEnv) (w : World) (ws : WSClient)
    (hws : w.heap[a]? = some ws) (hrun : ws.running = true) :
    WSClient.Connect a ctx net w = (w, some (.errorf "WebSocket客户端已经在运行")) ∧
    (WSClient.Connect a ctx net w).1.dials = w.dials ∧
    ∃ ws', (WSClient.Connect a ctx net w).1.heap[a]? = some ws' ∧ ws'.conn = ws.conn ∧
      ws'.ctx = ws.ctx ∧ ws'.cancelCalled = ws.cancelCalled ∧ ws'.running = true := by
  have h : WSClient.Connect a ctx net w = (w, some (.errorf "WebSocket客户端已经在运行")) := by
    simp only [WSClient.Connect, hws, hrun, if_true]
  rw [h]
  exact ⟨rfl, rfl, ws, hws, rfl, rfl, rfl, hrun⟩

/-- Witness for C18: a second `Connect` on the connected stream client of the demo client. -/
theorem connect_while_running_fails_without_dial_witness :
    WSClient.Connect 0 (.cancellable 3) demoNet demoWorld =
      (demoWorld, some (.errorf "WebSocket客户端已经在运行")) :=
  (connect_while_running_fails_without_dial 0 (.cancellable 3) demoNet demoWorld demoStream
    rfl rfl).1

theorem WSClient.Close_not_running (a : Nat) (closeErr : Option GoError) (w : World) (ws : WSClient)
    (hws : w.heap[a]? = some ws) (hrun : ws.running = false) :
    WSClient.Close a closeErr w = (w, none) := by
  simp only [WSClient.Close, hws, hrun, Bool.not_false, if_true]

theorem WSClient.Close_unallocated (a : Nat) (closeErr : Option GoError) (w : World)
    (hws : w.heap[a]? = none) : WSClient.Close a closeErr w = (w, none) := by
  simp only [WSClient.Close, hws]

theorem WSClient.Close_stops (a : Nat) (closeErr : Option GoError) (w : World) (ws' : WSClient)
    (h : (WSClient.Close a closeErr w).1.heap[a]? = some ws') : ws'.running = false := by
  unfold WSClient.Close at h
  split at h
  · rename_i hnone
    rw [hnone] at h
    cases h
  · rename_i ws hws
    split at h
    · rename_i hrun
      rw [hws] at h
      cases h
      simpa using hrun
    · dsimp only at h
      have hfinal : (if ws.ctx.isSome then
          (w.modifyWS a (fun ws => { ws with running := false })).modifyWS a
            (fun ws => { ws with cancelCalled := true })
          else w.modifyWS a (fun ws => { ws with running := false })).heap[a]? = some ws' := by
        split at h <;> exact h
      split at hfinal
      · rw [World.heap_modifyWS, World.heap_modifyWS, hws] at hfinal
        simp only [if_true, Option.map_some', Option.some.injEq] at hfinal
        rw [← hfinal]
      · rw [World.heap_modifyWS, hws] at hfinal
        simp only [if_true, Option.map_some', Option.some.injEq] at hfinal
        rw [← hfinal]

/-- C19: `Close` on a stream client that is not running returns nil and leaves the whole
state as it was; so for every stream client a second `Close` right after a first one
returns nil and changes nothing, `IsConnected` is false after any `Close`, and
`Client.CloseWebSocket` on a client that holds no stream client returns nil and leaves
the state as it was. -/
theorem close_when_not_running_is_a_no_op (a : Nat) (w : World) :
    (∀ closeErr ws, w.heap[a]? = some ws → ws.running = false →
      WSClient.Close a closeErr w = (w, none)) ∧
    (∀ first second, WSClient.Close a second (WSClient.Close a first w).1 =
      ((WSClient.Close a first w).1, none)) ∧
    (∀ closeErr ws', (WSClient.Close a closeErr w).1.heap[a]? = some ws' →
      ws'.IsConnected = false) ∧
    (∀ closeErr, w.client.wsClient = none → Client.CloseWebSocket closeErr w = (w, none)) := by
  refine ⟨fun closeErr ws hws hrun => WSClient.Close_not_running a closeErr w ws hws hrun,
    fun first second => ?_, fun closeErr ws' h => ?_, fun closeErr h => ?_⟩
  · cases hh : (WSClient.Close a first w).1.heap[a]? with
    | none => exact WSClient.Close_unallocated a second _ hh
    | some ws' =>
      exact WSClient.Close_not_running a second _ ws' hh (WSClient.Close_stops a first w ws' hh)
  · simp only [WSClient.IsConnected, WSClient.Close_stops a closeErr w ws' h, Bool.false_and]
  · simp only [Client.CloseWebSocket, h]

/-- Witness for C19: the demo client is closed twice, the first `conn.Close` failing; and
a client just built is closed. -/
theorem close_when_not_running_is_a_no_op_witness :
    (WSClient.Close 0 (some (.transport "broken pipe")) demoWorld).2 =
      some (.transport "broken pipe") ∧
    WSClient.Close 0 (some (.transport "broken pipe"))
        (WSClient.Close 0 (some (.transport "broken pipe")) demoWorld).1 =
      ((WSClient.Close 0 (some (.transport "broken pipe")) demoWorld).1, none) ∧
    Client.CloseWebSocket none freshWorld = (freshWorld, none) :=
  ⟨rfl, (close_when_not_running_is_a_no_op 0 demoWorld).2.1 _ _,
    (close_when_not_running_is_a_no_op 0 freshWorld).2.2.2 none rfl⟩

theorem WSClient.loop_events_after_return (a : Nat) (events : List Event) :
    ∀ (w : World) (ws : WSClient), w.heap[a]? = some ws → ws.loop = .returned →
      (∀ e ∈ events, e = .loopSelect a ∨ ∃ r, e = .loopRead a r) → run w events = w := by
  induction events with
  | nil => intro w ws _ _ _; rfl
  | cons e rest ih =>
    intro w ws hws hloop hev
    have hstep : step w e = w := by
      rcases hev e (List.mem_cons_self _ _) with h | ⟨r, h⟩
      · subst h
        simp only [step, WSClient.loopSelect, hws, hloop]
        rfl
      · subst h
        simp only [step, WSClient.loopRead, hws, hloop]
        rfl
    simp only [run, List.foldl_cons]
    rw [hstep]
    exact ih w ws hws hloop (fun e he => hev e (List.mem_cons_of_mem _ he))

/-- C20: when the pending read of the receive loop fails, the loop returns and `running`
is cleared, so `IsConnected` is false afterwards and every later event of that loop
changes nothing; with an error handler installed, exactly one call goes to it, with an
empty id and the error `读取WebSocket消息失败: ` followed by the text of the read error. -/
theorem read_failure_reports_once_and_ends_loop
    (a : Nat) (err : GoError) (w : World) (ws : WSClient)
    (hws : w.heap[a]? = some ws) (hloop : ws.loop = .inRead) :
    (∃ ws', (step w (.loopRead a (.error err))).heap[a]? = some ws' ∧ ws'.loop = .returned ∧
      ws'.running = false ∧ ws'.IsConnected = false) ∧
    (∀ events, (∀ e ∈ events, e = .loopSelect a ∨ ∃ r, e = .loopRead a r) →
      run (step w (.loopRead a (.error err))) events = step w (.loopRead a (.error err))) ∧
    (ws.onError ≠ .nil →
      (step w (.loopRead a (.error err))).dispatched =
        w.dispatched ++ [.error "" (.errorf ("读取WebSocket消息失败: " ++ err.Error))]) ∧
    (∀ id, ws.onError = .user id →
      (step w (.loopRead a (.error err))).calls =
        w.calls ++ [.error id "" (.errorf ("读取WebSocket消息失败: " ++ err.Error))]) ∧
    (ws.onError = .nil → (step w (.loopRead a (.error err))).dispatched = w.dispatched ∧
      (step w (.loopRead a (.error err))).calls = w.calls) := by
  have hstep : step w (.loopRead a (.error err)) =
      (if ws.onError ≠ .nil then
        ws.onError.invoke "" (.errorf ("读取WebSocket消息失败: " ++ err.Error))
          (w.note (.error "" (.errorf ("读取WebSocket消息失败: " ++ err.Error))))
       else w).modifyWS a (fun ws => { ws with loop := .returned, running := false }) := by
    simp only [step, WSClient.loopRead, hws, hloop, if_true]
  have hheap : (if ws.onError ≠ .nil then
        ws.onError.invoke "" (.errorf ("读取WebSocket消息失败: " ++ err.Error))
          (w.note (.error "" (.errorf ("读取WebSocket消息失败: " ++ err.Error))))
       else w).heap = w.heap := by
    split
    · exact (ErrorCallback.error_invoke_handled _ _ _ _).2.1
    · rfl
  have hafter : (step w (.loopRead a (.error err))).heap[a]? =
      some { ws with loop := .returned, running := false } := by
    rw [hstep, World.heap_modifyWS, hheap, hws]
    simp only [if_true, Option.map_some']
  refine ⟨⟨_, hafter, rfl, rfl, rfl⟩, fun events hev =>
    WSClient.loop_events_after_return a events _ _ hafter rfl hev, fun hcb => ?_, fun id hid => ?_,
    fun hnil => ?_⟩
  · rw [hstep, (World.modifyWS_fields _ _ _).2.2.2.1, if_pos hcb,
      ErrorCallback.error_invoke_dispatched]
    rfl
  · rw [hstep, (World.modifyWS_fields _ _ _).2.2.2.2.1, hid]
    rfl
  · rw [hstep, (World.modifyWS_fields _ _ _).2.2.2.1, (World.modifyWS_fields _ _ _).2.2.2.2.1]
    simp only [hnil, ne_eq, not_true_eq_false, if_false, and_self]

/-- Witness for C20: the read of the demo client fails with an end of file, and a frame
that arrives afterwards is not dispatched. -/
theorem read_failure_reports_once_and_ends_loop_witness :
    (run demoWorld [.loopRead 0 (.error (.transport "EOF")), .loopSelect 0,
      .loopRead 0 (.ok (executingDone "abc123"))]).dispatched =
      [.error "" (.errorf ("读取WebSocket消息失败: " ++ "EOF"))] ∧
    (run demoWorld [.loopRead 0 (.error (.transport "EOF")), .loopSelect 0,
      .loopRead 0 (.ok (executingDone "abc123"))]).calls =
      [.error 2 "" (.errorf ("读取WebSocket消息失败: " ++ "EOF"))] := by
  have h := read_failure_reports_once_and_ends_loop 0 (.transport "EOF") demoWorld demoStream
    rfl rfl
  have hrun : run demoWorld [.loopRead 0 (.error (.transport "EOF")), .loopSelect 0,
      .loopRead 0 (.ok (executingDone "abc123"))] =
      step demoWorld (.loopRead 0 (.error (.transport "EOF"))) :=
    h.2.1 [.loopSelect 0, .loopRead 0 (.ok (executingDone "abc123"))]
      (by
        intro e he
        simp only [List.mem_cons, List.mem_singleton, List.not_mem_nil, or_false] at he
        rcases he with he | he
        · exact Or.inl he
        · exact Or.inr ⟨_, he⟩)
  rw [hrun]
  exact ⟨h.2.2.1 (by decide), h.2.2.2.1 2 rfl⟩

theorem ActsOnce.acts_refl (F : WaitFrame) : ActsOnce F F := Or.inl rfl

theorem ActsOnce.acts_trans {F G H : WaitFrame} (h1 : ActsOnce F G) (h2 : ActsOnce G H) :
    ActsOnce F H := by
  rcases h1 with h1 | ⟨hF, h1⟩
  · rw [h1] at h2; exact h2
  · rcases h2 with h2 | ⟨hG, _⟩
    · rw [h2]; exact Or.inr ⟨hF, h1⟩
    · rcases h1 with h1 | ⟨e, h1⟩
      · rw [h1] at hG; cases hG
      · rw [h1] at hG; cases hG

theorem ActsOnce.of_completed {F G : WaitFrame} (h : ActsOnce F G) (hc : F.completed = true) :
    G = F := by
  rcases h with h | ⟨hF, _⟩
  · exact h
  · rw [hc] at hF; cases hF

theorem WaitActs.waits_refl (n : Nat) (w : World) : WaitActs n w w :=
  fun F hF => ⟨F, hF, ActsOnce.acts_refl F⟩

theorem WaitActs.waits_trans {n : Nat} {w1 w2 w3 : World} (h1 : WaitActs n w1 w2)
    (h2 : WaitActs n w2 w3) : WaitActs n w1 w3 := by
  intro F hF
  obtain ⟨G, hG, hFG⟩ := h1 F hF
  obtain ⟨H, hH, hGH⟩ := h2 G hG
  exact ⟨H, hH, hFG.acts_trans hGH⟩

theorem WaitActs.of_waits_eq {n : Nat} {w w' : World} (h : w'.waits = w.waits) : WaitActs n w w' := by
  intro F hF
  exact ⟨F, by rw [h]; exact hF, ActsOnce.acts_refl F⟩

theorem WaitActs.acts_modifyWait (n : Nat) (w : World) (i : Nat) (f : WaitFrame → WaitFrame)
    (hf : ∀ F, ActsOnce F (f F)) : WaitActs n w (w.modifyWait i f) := by
  intro F hF
  rw [World.waits_modifyWait]
  split
  · rw [hF]; exact ⟨f F, rfl, hf F⟩
  · exact ⟨F, hF, ActsOnce.acts_refl F⟩

theorem ExecutionCallback.execution_invoke_acts (n : Nat) (cb : ExecutionCallback) (p : String)
    (node : Option String) : ∀ w, WaitActs n w (cb.invoke p node w) := by
  induction cb with
  | nil => intro w; exact WaitActs.waits_refl n w
  | user id => intro w; exact WaitActs.of_waits_eq rfl
  | waitWrapper original promptID wait ih =>
    intro w
    simp only [ExecutionCallback.invoke]
    have h1 : WaitActs n w (if original ≠ .nil then original.invoke p node w else w) := by
      split
      · exact ih w
      · exact WaitActs.waits_refl n w
    split
    · refine h1.waits_trans (WaitActs.acts_modifyWait n _ _ _ (fun F => ?_))
      cases hc : F.completed with
      | true => exact Or.inl (by simp only [hc, Bool.not_true, Bool.false_eq_true, if_false])
      | false =>
        refine Or.inr ⟨hc, Or.inl ?_⟩
        simp only [hc, Bool.not_false, if_true]
    · exact h1

theorem ErrorCallback.error_invoke_acts (n : Nat) (cb : ErrorCallback) (p : String)
    (e : GoError) : ∀ w, WaitActs n w (cb.invoke p e w) := by
  induction cb with
  | nil => intro w; exact WaitActs.waits_refl n w
  | user id => intro w; exact WaitActs.of_waits_eq rfl
  | waitWrapper original promptID wait ih =>
    intro w
    simp only [ErrorCallback.invoke]
    have h1 : WaitActs n w (if original ≠ .nil then original.invoke p e w else w) := by
      split
      · exact ih w
      · exact WaitActs.waits_refl n w
    split
    · refine h1.waits_trans (WaitActs.acts_modifyWait n _ _ _ (fun F => ?_))
      cases hc : F.completed with
      | true => exact Or.inl (by simp only [hc, Bool.not_true, Bool.false_eq_true, if_false])
      | false =>
        refine Or.inr ⟨hc, Or.inr ⟨e, ?_⟩⟩
        simp only [hc, Bool.not_false, if_true]
    · exact h1

theorem ProgressCallback.progress_invoke_waits (cb : ProgressCallback) (p : String)
    (m : WSProgressMessage) (w : World) : (cb.invoke p m w).waits = w.waits := by
  cases cb <;> rfl

theorem StatusCallback.status_invoke_waits (cb : StatusCallback) (p : String) (s : String)
    (w : World) : (cb.invoke p s w).waits = w.waits := by
  cases cb <;> rfl

theorem WSClient.handleMessage_acts (n : Nat) (ws : WSClient) (data : FrameBytes) (w : World) :
    WaitActs n w (ws.handleMessage data w) := by
  have hnote : ∀ d, WaitActs n w (w.note d) := fun d => WaitActs.of_waits_eq rfl
  unfold WSClient.handleMessage
  split
  · split
    · exact (hnote _).waits_trans (ErrorCallback.error_invoke_acts n _ _ _ _)
    · exact WaitActs.waits_refl n w
  · split_ifs
    · unfold WSClient.handleStatusMessage
      split_ifs
      · exact WaitActs.waits_refl n w
      · split
        · split
          · exact WaitActs.of_waits_eq (StatusCallback.status_invoke_waits _ _ _ _)
          · exact WaitActs.waits_refl n w
        · exact WaitActs.waits_refl n w
    · unfold WSClient.handleExecutionStartMessage
      split_ifs
      · exact WaitActs.waits_refl n w
      · split
        · split
          · exact (hnote _).waits_trans (ExecutionCallback.execution_invoke_acts n _ _ _ _)
          · exact WaitActs.waits_refl n w
        · exact WaitActs.waits_refl n w
    · unfold WSClient.handleExecutingMessage
      split_ifs
      · exact WaitActs.waits_refl n w
      · split
        · split
          · exact (hnote _).waits_trans (ExecutionCallback.execution_invoke_acts n _ _ _ _)
          · exact WaitActs.waits_refl n w
        · exact WaitActs.waits_refl n w
    · unfold WSClient.handleProgressMessage
      split_ifs
      · exact WaitActs.waits_refl n w
      · split
        · split
          · exact WaitActs.of_waits_eq (ProgressCallback.progress_invoke_waits _ _ _ _)
          · exact WaitActs.waits_refl n w
        · exact WaitActs.waits_refl n w
    · unfold WSClient.handleExecutionErrorMessage
      split_ifs
      · exact WaitActs.waits_refl n w
      · split
        · split
          · exact (hnote _).waits_trans (ErrorCallback.error_invoke_acts n _ _ _ _)
          · exact WaitActs.waits_refl n w
        · exact WaitActs.waits_refl n w
    · unfold WSClient.handleExecutionInterruptedMessage
      split_ifs
      · exact WaitActs.waits_refl n w
      · split
        · exact (hnote _).waits_trans (ErrorCallback.error_invoke_acts n _ _ _ _)
        · exact WaitActs.waits_refl n w
    · exact WaitActs.waits_refl n w

theorem step_loop_acts (n : Nat) (w : World) (e : Event) (he : e.isLoop = true) :
    WaitActs n w (step w e) := by
  cases e with
  | loopSelect a =>
    simp only [step, WSClient.loopSelect]
    split
    · exact WaitActs.waits_refl n w
    · split_ifs
      · exact WaitActs.of_waits_eq (World.modifyWS_fields _ _ _).2.1
      · exact WaitActs.of_waits_eq (World.modifyWS_fields _ _ _).2.1
      · exact WaitActs.waits_refl n w
  | loopRead a r =>
    simp only [step, WSClient.loopRead]
    split
    · exact WaitActs.waits_refl n w
    · rename_i ws hws
      by_cases hl : ws.loop = .inRead
      · rw [if_pos hl]
        cases r with
        | error err =>
          dsimp only
          refine WaitActs.waits_trans ?_ (WaitActs.of_waits_eq (World.modifyWS_fields _ _ _).2.1)
          by_cases hcb : ws.onError = .nil
          · rw [if_neg (not_not.mpr hcb)]
            exact WaitActs.waits_refl n w
          · rw [if_pos hcb]
            exact (WaitActs.of_waits_eq rfl : WaitActs n w (w.note _)).waits_trans
              (ErrorCallback.error_invoke_acts n _ _ _ _)
        | ok data =>
          exact (WSClient.handleMessage_acts n _ _ w).waits_trans
            (WaitActs.of_waits_eq (World.modifyWS_fields _ _ _).2.1)
      · rw [if_neg hl]
        exact WaitActs.waits_refl n w
  | _ => cases he

theorem run_loop_acts (n : Nat) (events : List Event) :
    ∀ w, (∀ e ∈ events, e.isLoop = true) → WaitActs n w (run w events) := by
  induction events with
  | nil => intro w _; exact WaitActs.waits_refl n w
  | cons e rest ih =>
    intro w h
    simp only [run, List.foldl_cons]
    exact (step_loop_acts n w e (h e (List.mem_cons_self _ _))).waits_trans
      (ih (step w e) (fun e he => h e (List.mem_cons_of_mem _ he)))

/-- C12: a wait begins on a stream client, and the receive loops then read any sequence of
frames (or fail to read).  At every point the frame of the wait is in one of three
states: nothing has happened; the flag `completed` is set and exactly one follow-up has
been started, no error sent; or the flag is set and exactly one error has been sent on
`errorChan`, no follow-up started.  Once the flag is set, whatever is read afterwards
leaves the frame of the wait as it is. -/
theorem wrappers_start_follow_up_or_send_error_at_most_once
    (ctx : Context) (p : String) (timeout : Int) (a : Nat) (w : World) (ws : WSClient)
    (hws : w.heap[a]? = some ws) (frames : List Event)
    (hframes : ∀ e ∈ frames, e.isLoop = true) :
    ∃ F, (run (Client.waitForCompletionWithExistingWS ctx p timeout a w) frames).waits[w.waits.length]?
        = some F ∧
      ((F.completed = false ∧ F.followUpsStarted = 0 ∧ F.errorChan = Chan.make) ∨
       (F.completed = true ∧ F.followUpsStarted = 1 ∧ F.errorChan = Chan.make) ∨
       (F.completed = true ∧ F.followUpsStarted = 0 ∧ ∃ e, F.errorChan = Chan.make.send e)) ∧
      (F.completed = true → ∀ more, (∀ e ∈ more, e.isLoop = true) →
        (run (run (Client.waitForCompletionWithExistingWS ctx p timeout a w) frames) more).waits[w.waits.length]?
          = some F) := by
  have hstart : (Client.waitForCompletionWithExistingWS ctx p timeout a w).waits[w.waits.length]? =
      some { ctx := ctx, promptID := p, timeout := timeout, wsClient := a, resultChan := Chan.make,
             errorChan := Chan.make, completed := false, originalOnExecution := ws.onExecution,
             originalOnError := ws.onError, followUpsStarted := 0, followUpsFinished := 0,
             deadlinePassed := false, ret := none } := by
    unfold Client.waitForCompletionWithExistingWS
    rw [hws]
    dsimp only
    rw [(World.modifyWS_fields _ a _).2.1]
    simp
  obtain ⟨F, hF, hact⟩ := run_loop_acts w.waits.length frames _ hframes _ hstart
  refine ⟨F, hF, ?_, fun hc more hmore => ?_⟩
  · rcases hact with h | ⟨_, h | ⟨e, h⟩⟩
    · rw [h]; exact Or.inl ⟨rfl, rfl, rfl⟩
    · rw [h]; exact Or.inr (Or.inl ⟨rfl, rfl, rfl⟩)
    · rw [h]; exact Or.inr (Or.inr ⟨rfl, rfl, e, rfl⟩)
  · obtain ⟨G, hG, hFG⟩ := run_loop_acts w.waits.length more _ hmore F hF
    rw [hG, hFG.of_completed hc]

/-- Witness for C12: the demo client waits for `abc123` and reads two end signals, an
error frame for the same id and then fails to read: one follow-up is started and no error
is sent. -/
theorem wrappers_start_follow_up_or_send_error_at_most_once_witness :
    (∀ e ∈ repeatedSignals, e.isLoop = true) ∧
    (∃ F, (run (Client.waitForCompletionWithExistingWS .background "abc123" 0 0 demoWorld)
        repeatedSignals).waits[demoWorld.waits.length]? = some F ∧
      ((F.completed = false ∧ F.followUpsStarted = 0 ∧ F.errorChan = Chan.make) ∨
       (F.completed = true ∧ F.followUpsStarted = 1 ∧ F.errorChan = Chan.make) ∨
       (F.completed = true ∧ F.followUpsStarted = 0 ∧ ∃ e, F.errorChan = Chan.make.send e)) ∧
      (F.completed = true → ∀ more, (∀ e ∈ more, e.isLoop = true) →
        (run (run (Client.waitForCompletionWithExistingWS .background "abc123" 0 0 demoWorld)
          repeatedSignals) more).waits[demoWorld.waits.length]? = some F)) ∧
    ((run (Client.waitForCompletionWithExistingWS .background "abc123" 0 0 demoWorld)
        repeatedSignals).waits.map (fun F => (F.completed, F.followUpsStarted, F.errorChan.buffer)))
      = [(true, 1, [])] :=
  ⟨by decide, wrappers_start_follow_up_or_send_error_at_most_once .background
    "abc123" 0 0 demoWorld demoStream rfl repeatedSignals (by decide), rfl⟩

theorem World.modifyWait_same (w : World) (i : Nat) : w.modifyWait i (fun F => F) = w := by
  unfold World.modifyWait
  split
  · rename_i F hF
    rw [List.set_of_getElem? _ _ _ hF]
  · rfl

theorem ExecutionCallback.wrapper_after_original (original : ExecutionCallback) (p : String)
    (wait : Nat) (q : String) (node : Option String) (v : World) :
    ∃ f, (ExecutionCallback.waitWrapper original p wait).invoke q node v =
      (original.invoke q node v).modifyWait wait f := by
  have h1 : (if original ≠ .nil then original.invoke q node v else v) = original.invoke q node v := by
    split
    · rfl
    · rename_i h
      rw [not_not.mp h]
      rfl
  simp only [ExecutionCallback.invoke]
  rw [h1]
  split
  · exact ⟨_, rfl⟩
  · exact ⟨fun F => F, (World.modifyWait_same _ _).symm⟩

theorem ErrorCallback.wrapper_after_original_error (original : ErrorCallback) (p : String)
    (wait : Nat) (q : String) (err : GoError) (v : World) :
    ∃ f, (ErrorCallback.waitWrapper original p wait).invoke q err v =
      (original.invoke q err v).modifyWait wait f := by
  have h1 : (if original ≠ .nil then original.invoke q err v else v) = original.invoke q err v := by
    split
    · rfl
    · rename_i h
      rw [not_not.mp h]
      rfl
  simp only [ErrorCallback.invoke]
  rw [h1]
  split
  · exact ⟨_, rfl⟩
  · exact ⟨fun F => F, (World.modifyWait_same _ _).symm⟩

/-- C13: a wait that begins on a stream client puts into its execution and error slots
wrappers around the handlers found there.  A call of either wrapper, whatever the id and
in whatever state, has the effect of the same call of the handler found, with the same
arguments, followed by an update of the frame of the wait alone.  So a caller handler
found there is called exactly once with those arguments, and with no handler found
nothing is called. -/
theorem wrappers_pass_every_notification_to_previous_handler
    (ctx : Context) (p : String) (timeout : Int) (a : Nat) (w : World) (ws : WSClient)
    (hws : w.heap[a]? = some ws) :
    (Client.waitForCompletionWithExistingWS ctx p timeout a w).slots a =
      some (.waitWrapper ws.onExecution p w.waits.length, .waitWrapper ws.onError p w.waits.length) ∧
    (∀ q node v, ∃ f, (ExecutionCallback.waitWrapper ws.onExecution p w.waits.length).invoke q node v =
      (ws.onExecution.invoke q node v).modifyWait w.waits.length f) ∧
    (∀ q err v, ∃ f, (ErrorCallback.waitWrapper ws.onError p w.waits.length).invoke q err v =
      (ws.onError.invoke q err v).modifyWait w.waits.length f) ∧
    (∀ id q node v, ws.onExecution = .user id →
      ((ExecutionCallback.waitWrapper ws.onExecution p w.waits.length).invoke q node v).calls =
        v.calls ++ [.execution id q node]) ∧
    (∀ id q err v, ws.onError = .user id →
      ((ErrorCallback.waitWrapper ws.onError p w.waits.length).invoke q err v).calls =
        v.calls ++ [.error id q err]) ∧
    (∀ q node v, ws.onExecution = .nil →
      ((ExecutionCallback.waitWrapper ws.onExecution p w.waits.length).invoke q node v).calls =
        v.calls) ∧
    (∀ q err v, ws.onError = .nil →
      ((ErrorCallback.waitWrapper ws.onError p w.waits.length).invoke q err v).calls = v.calls) := by
  refine ⟨?_, fun q node v => ExecutionCallback.wrapper_after_original _ _ _ _ _ _,
    fun q err v => ErrorCallback.wrapper_after_original_error _ _ _ _ _ _,
    fun id q node v hid => ?_, fun id q err v hid => ?_, fun q node v hnil => ?_,
    fun q err v hnil => ?_⟩
  · unfold Client.waitForCompletionWithExistingWS World.slots
    rw [hws]
    dsimp only
    rw [World.heap_modifyWS]
    simp only [if_true]
    rw [hws]
    rfl
  · obtain ⟨f, hf⟩ := ExecutionCallback.wrapper_after_original ws.onExecution p w.waits.length q node v
    rw [hf, (World.modifyWait_fields _ _ _).2.2.2.2.1, hid]
    rfl
  · obtain ⟨f, hf⟩ := ErrorCallback.wrapper_after_original_error ws.onError p w.waits.length q err v
    rw [hf, (World.modifyWait_fields _ _ _).2.2.2.2.1, hid]
    rfl
  · obtain ⟨f, hf⟩ := ExecutionCallback.wrapper_after_original ws.onExecution p w.waits.length q node v
    rw [hf, (World.modifyWait_fields _ _ _).2.2.2.2.1, hnil]
    rfl
  · obtain ⟨f, hf⟩ := ErrorCallback.wrapper_after_original_error ws.onError p w.waits.length q err v
    rw [hf, (World.modifyWait_fields _ _ _).2.2.2.2.1, hnil]
    rfl

/-- Witness for C13: the demo client, whose execution handler is the caller handler 1 and
whose error handler is the caller handler 2, waits for `abc123` and reads an `executing`
frame for another id; handler 1 is called once with the arguments of the frame. -/
theorem wrappers_pass_every_notification_to_previous_handler_witness :
    ((ExecutionCallback.waitWrapper (.user 1) "abc123" 0).invoke "other" (some "5")
        (Client.waitForCompletionWithExistingWS .background "abc123" 0 0 demoWorld)).calls =
      [.execution 1 "other" (some "5")] ∧
    ((ErrorCallback.waitWrapper (.user 2) "abc123" 0).invoke "abc123" (.errorf "boom")
        (Client.waitForCompletionWithExistingWS .background "abc123" 0 0 demoWorld)).calls =
      [.error 2 "abc123" (.errorf "boom")] :=
  ⟨(wrappers_pass_every_notification_to_previous_handler .background "abc123" 0 0 demoWorld
      demoStream rfl).2.2.2.1 1 "other" (some "5") _ rfl,
   (wrappers_pass_every_notification_to_previous_handler .background "abc123" 0 0 demoWorld
      demoStream rfl).2.2.2.2.1 2 "abc123" (.errorf "boom") _ rfl⟩

theorem WSClient.handleMessage_executionError (ws : WSClient) (data : FrameBytes) (msg : WSMessage)
    (errMsg : WSExecutionErrorMessage) (w : World)
    (hdec : unmarshalWSMessage data = (msg, none)) (htype : msg.Type_ = "execution_error")
    (hpay : unmarshalStruct "Go value of type comfyui2go.WSExecutionErrorMessage"
      WSExecutionErrorMessage.setField
      { PromptID := "", NodeID := "", NodeType := "", Exception := "" } (jsonMarshal msg.Data).1
      = (errMsg, none))
    (hcb : ws.onError ≠ .nil) :
    ws.handleMessage data w =
      ws.onError.invoke errMsg.PromptID (executionErrorOf errMsg)
        (w.note (.error errMsg.PromptID (executionErrorOf errMsg))) := by
  unfold WSClient.handleMessage
  rw [hdec]
  dsimp only
  rw [htype]
  have h1 : ¬ ("execution_error" = "status") := by decide
  have h2 : ¬ ("execution_error" = "execution_start") := by decide
  have h3 : ¬ ("execution_error" = "executing") := by decide
  have h4 : ¬ ("execution_error" = "progress") := by decide
  simp only [h1, h2, h3, h4, if_false, if_true]
  unfold WSClient.handleExecutionErrorMessage
  rw [if_neg hcb, jsonMarshal_ok]
  dsimp only
  rw [hpay]
  rfl

theorem Client.waitSelect_error (n : Nat) (w : World) (F : WaitFrame) (e : GoError)
    (ch : Chan GoError) (hF : w.waits[n]? = some F) (hret : F.ret = none)
    (hrecv : F.errorChan.recv = some (e, ch)) :
    (Client.waitSelect n .errorChan w).returned n = some (none, some e) ∧
    (Client.waitSelect n .errorChan w).historyQueries = w.historyQueries ∧
    (Client.waitSelect n .errorChan w).dispatched = w.dispatched ∧
    (Client.waitSelect n .errorChan w).calls = w.calls := by
  unfold Client.waitSelect
  rw [hF]
  simp only [hret, Option.isSome_none, Bool.false_eq_true, if_false, hrecv]
  unfold Client.waitReturn
  have hF' : (w.modifyWait n (fun f => { f with errorChan := ch })).waits[n]? =
      some { F with errorChan := ch } := by
    rw [World.waits_modifyWait, hF]; simp
  rw [hF']
  dsimp only
  refine ⟨?_, ?_, ?_, ?_⟩
  · unfold World.returned
    rw [(World.modifyWS_fields _ _ _).2.1, World.waits_modifyWait, hF']
    simp
  · rw [(World.modifyWS_fields _ _ _).2.2.2.2.2.2.1, (World.modifyWait_fields _ n _).2.2.2.2.2.2.1,
      (World.modifyWait_fields _ n _).2.2.2.2.2.2.1]
  · rw [(World.modifyWS_fields _ _ _).2.2.2.1, (World.modifyWait_fields _ n _).2.2.2.1,
      (World.modifyWait_fields _ n _).2.2.2.1]
  · rw [(World.modifyWS_fields _ _ _).2.2.2.2.1, (World.modifyWait_fields _ n _).2.2.2.2.1,
      (World.modifyWait_fields _ n _).2.2.2.2.1]

theorem WSClient.loopRead_executionError (a n : Nat) (p : String) (w : World) (ws : WSClient)
    (orig : ErrorCallback) (F : WaitFrame) (data : FrameBytes) (msg : WSMessage)
    (errMsg : WSExecutionErrorMessage)
    (hws : w.heap[a]? = some ws) (hloop : ws.loop = .inRead)
    (hcb : ws.onError = .waitWrapper orig p n)
    (horig : orig = .nil ∨ ∃ id, orig = .user id)
    (hF : w.waits[n]? = some F) (hfresh : F.completed = false)
    (hdec : unmarshalWSMessage data = (msg, none)) (htype : msg.Type_ = "execution_error")
    (hpay : unmarshalStruct "Go value of type comfyui2go.WSExecutionErrorMessage"
      WSExecutionErrorMessage.setField
      { PromptID := "", NodeID := "", NodeType := "", Exception := "" } (jsonMarshal msg.Data).1
      = (errMsg, none))
    (hid : errMsg.PromptID = p) :
    (WSClient.loopRead a (.ok data) w).waits[n]? =
      some { F with completed := true, errorChan := F.errorChan.send (executionErrorOf errMsg) } ∧
    (WSClient.loopRead a (.ok data) w).historyQueries = w.historyQueries ∧
    (WSClient.loopRead a (.ok data) w).dispatched =
      w.dispatched ++ [.error p (executionErrorOf errMsg)] ∧
    (orig = .nil → (WSClient.loopRead a (.ok data) w).calls = w.calls) ∧
    (∀ id, orig = .user id → (WSClient.loopRead a (.ok data) w).calls =
      w.calls ++ [.error id p (executionErrorOf errMsg)]) := by
  unfold WSClient.loopRead
  rw [hws]
  simp only [hloop, if_true]
  rw [WSClient.handleMessage_executionError ws data msg errMsg w hdec htype hpay
    (by rw [hcb]; simp), hcb, hid]
  simp only [ErrorCallback.invoke, if_true]
  generalize executionErrorOf errMsg = err
  have hinner : ∀ w₀ : World, (if orig ≠ .nil then orig.invoke p err w₀ else w₀).waits = w₀.waits ∧
      (if orig ≠ .nil then orig.invoke p err w₀ else w₀).historyQueries = w₀.historyQueries ∧
      (if orig ≠ .nil then orig.invoke p err w₀ else w₀).dispatched = w₀.dispatched ∧
      (orig = .nil → (if orig ≠ .nil then orig.invoke p err w₀ else w₀).calls = w₀.calls) ∧
      (∀ id, orig = .user id →
        (if orig ≠ .nil then orig.invoke p err w₀ else w₀).calls = w₀.calls ++ [.error id p err]) := by
    intro w₀
    rcases horig with rfl | ⟨id, rfl⟩
    · simp
    · simp [ErrorCallback.invoke]
  obtain ⟨hw, hq, hd, hc0, hc1⟩ := hinner (w.note (.error p err))
  refine ⟨?_, ?_, ?_, fun hnil => ?_, fun id hid => ?_⟩
  · rw [(World.modifyWS_fields _ _ _).2.1, World.waits_modifyWait, hw]
    simp [World.note, hF, hfresh]
  · rw [(World.modifyWS_fields _ _ _).2.2.2.2.2.2.1, (World.modifyWait_fields _ n _).2.2.2.2.2.2.1, hq]
    rfl
  · rw [(World.modifyWS_fields _ _ _).2.2.2.1, (World.modifyWait_fields _ n _).2.2.2.1, hd]
    rfl
  · rw [(World.modifyWS_fields _ _ _).2.2.2.2.1, (World.modifyWait_fields _ n _).2.2.2.2.1, hc0 hnil]
    rfl
  · rw [(World.modifyWS_fields _ _ _).2.2.2.2.1, (World.modifyWait_fields _ n _).2.2.2.2.1, hc1 id hid]
    rfl

theorem Client.ensureWebSocketConnected_first (ctx : Context) (net : NetEnv) (w w' : World)
    (hdis : Client.IsWebSocketConnected w = false)
    (h : Client.ensureWebSocketConnected ctx net w = (w', none)) :
    (∃ d, w'.dials = w.dials ++ [d]) ∧ Client.IsWebSocketConnected w' = true ∧
    w'.client.wsClient = some w.heap.length ∧ w'.client.wsEnabled = true := by
  unfold Client.ensureWebSocketConnected at h
  split at h
  · simp at h
  · rename_i hen
    rw [hdis] at h
    simp only [Bool.false_eq_true, if_false] at h
    unfold WSClient.Connect at h
    rw [List.getElem?_concat_length] at h
    simp only [NewWSClient, Bool.false_eq_true, if_false] at h
    split at h
    · simp at h
    · split at h
      · simp at h
      · simp only [Prod.mk.injEq, and_true] at h
        rw [← h]
        refine ⟨⟨_, (World.modifyWS_fields _ _ _).2.2.2.2.2.1⟩, ?_, ?_, ?_⟩
        · unfold Client.IsWebSocketConnected
          rw [(World.modifyWS_fields _ _ _).1]
          dsimp only
          rw [World.heap_modifyWS]
          simp [WSClient.IsConnected]
        · rw [(World.modifyWS_fields _ _ _).1]
        · rw [(World.modifyWS_fields _ _ _).1]
          simpa using hen

theorem run_ensure_connected (events : List Event) (w : World)
    (hen : w.client.wsEnabled = true) (hconn : Client.IsWebSocketConnected w = true)
    (hev : ∀ e ∈ events, e.isEnsure = true) : run w events = w := by
  induction events with
  | nil => rfl
  | cons e rest ih =>
    have hstep : step w e = w := by
      have he := hev e (List.mem_cons_self _ _)
      cases e with
      | getWebSocketStatus ctx net =>
        simp only [step, Client.GetWebSocketStatus,
          Client.ensureWebSocketConnected_connected ctx net w hen hconn]
      | getWebSocketClient ctx net =>
        simp only [step, Client.GetWebSocketClient,
          Client.ensureWebSocketConnected_connected ctx net w hen hconn]
      | _ => cases he
    simp only [run, List.foldl_cons]
    rw [hstep]
    exact ih (fun e he => hev e (List.mem_cons_of_mem _ he))

/-- Counterexample to C17 as stated: two callers on a client just built while the server
refuses connections: each of them dials, so two dials are attempted; and when the server
accepts the third caller, three dials have been attempted. -/
theorem each_caller_dials_again_after_failed_dial :
    Client.IsWebSocketConnected freshWorld = false ∧
    (run freshWorld [.getWebSocketStatus .background refusingNet,
      .getWebSocketStatus .background refusingNet]).dials.length = 2 ∧
    (run freshWorld [.getWebSocketStatus .background refusingNet,
      .getWebSocketStatus .background refusingNet,
      .getWebSocketStatus .background demoNet]).dials.length = 3 ∧
    Client.IsWebSocketConnected (run freshWorld [.getWebSocketStatus .background refusingNet,
      .getWebSocketStatus .background refusingNet,
      .getWebSocketStatus .background demoNet]) = true :=
  ⟨rfl, rfl, rfl, rfl⟩

theorem Steady.steady_refl (a : Nat) (w : World) : Steady a w w := ⟨rfl, rfl, rfl, rfl⟩

theorem Steady.steady_trans {a : Nat} {w1 w2 w3 : World} (h1 : Steady a w1 w2) (h2 : Steady a w2 w3) :
    Steady a w1 w3 :=
  ⟨h2.1.trans h1.1, h2.2.1.trans h1.2.1, h2.2.2.1.trans h1.2.2.1, h2.2.2.2.trans h1.2.2.2⟩

theorem Steady.steady_of_eq {a : Nat} {w w' : World} (hc : w'.client = w.client)
    (hd : w'.dials = w.dials) (hx : w'.cancelled = w.cancelled) (hh : w'.heap = w.heap) :
    Steady a w w' := ⟨hc, hd, hx, by rw [hh]⟩

theorem Handled.steady {a : Nat} {w w' : World} (h : Handled w w') : Steady a w w' :=
  Steady.steady_of_eq h.1 h.2.2.2.1 h.2.2.1 h.2.1

theorem Steady.steady_of_modifyWait {a : Nat} {w0 w : World} (i : Nat) (f : WaitFrame → WaitFrame)
    (h : Steady a w0 w) : Steady a w0 (w.modifyWait i f) :=
  h.steady_trans (Steady.steady_of_eq (World.modifyWait_fields w i f).1
    (World.modifyWait_fields w i f).2.2.2.2.2.1 (World.modifyWait_fields w i f).2.2.1
    (World.modifyWait_fields w i f).2.1)

theorem Steady.steady_of_modifyWS {a : Nat} {w0 w : World} (b : Nat) (f : WSClient → WSClient)
    (hf : ∀ ws, (f ws).core = ws.core) (h : Steady a w0 w) : Steady a w0 (w.modifyWS b f) := by
  refine h.steady_trans ⟨(World.modifyWS_fields w b f).1, (World.modifyWS_fields w b f).2.2.2.2.2.1,
    (World.modifyWS_fields w b f).2.2.1, ?_⟩
  rw [World.heap_modifyWS]
  split
  · cases w.heap[a]? <;> simp [hf]
  · rfl

theorem Steady.steady_of_modifyWS_other {a : Nat} {w0 w : World} (b : Nat) (f : WSClient → WSClient)
    (hb : b ≠ a) (h : Steady a w0 w) : Steady a w0 (w.modifyWS b f) := by
  refine h.steady_trans ⟨(World.modifyWS_fields w b f).1, (World.modifyWS_fields w b f).2.2.2.2.2.1,
    (World.modifyWS_fields w b f).2.2.1, ?_⟩
  rw [World.heap_modifyWS, if_neg hb]

theorem Alive.of_steady {a : Nat} {ctx : Option Context} {dials : List (String × Option String)}
    {w w' : World} (h : Alive a ctx dials w) (hs : Steady a w w') : Alive a ctx dials w' := by
  obtain ⟨hen, hcl, hd, ws, hws, hconn, hctx, hdone⟩ := h
  obtain ⟨hc, hdl, hx, hcore⟩ := hs
  rw [hws] at hcore
  cases hws' : w'.heap[a]? with
  | none => rw [hws'] at hcore; cases hcore
  | some ws' =>
    rw [hws'] at hcore
    simp only [Option.map_some', Option.some.injEq, WSClient.core, Prod.mk.injEq] at hcore
    obtain ⟨h1, h2, h3, h4⟩ := hcore
    refine ⟨by rw [hc]; exact hen, by rw [hc]; exact hcl, by rw [hdl]; exact hd, ws', hws', ?_, ?_, ?_⟩
    · simp only [WSClient.IsConnected, h1, h2] at hconn ⊢
      exact hconn
    · rw [h3]; exact hctx
    · simp only [WSClient.ctxDone, h3, h4, hx] at hdone ⊢
      exact hdone

theorem Alive.isConnected {a : Nat} {ctx : Option Context} {dials : List (String × Option String)}
    {w : World} (h : Alive a ctx dials w) : Client.IsWebSocketConnected w = true := by
  obtain ⟨_, hcl, _, ws, hws, hconn, _, _⟩ := h
  simp [Client.IsWebSocketConnected, hcl, hws, hconn]

theorem Client.waitReturn_steady (a i : Nat) (ret : WaitReturn) (w : World) :
    Steady a w (Client.waitReturn i ret w) := by
  unfold Client.waitReturn
  split
  · exact Steady.steady_refl a w
  · dsimp only
    apply Steady.steady_of_modifyWS
    · intro ws; rfl
    · exact Steady.steady_of_modifyWait _ _ (Steady.steady_refl a w)

theorem Client.waitSelect_steady (a i : Nat) (pick : SelectCase) (w : World) :
    Steady a w (Client.waitSelect i pick w) := by
  unfold Client.waitSelect
  split
  · exact Steady.steady_refl a w
  · split
    · exact Steady.steady_refl a w
    · split
      · split
        · exact (Steady.steady_of_modifyWait _ _ (Steady.steady_refl a w)).steady_trans
            (Client.waitReturn_steady _ _ _ _)
        · exact Steady.steady_refl a w
      · split
        · exact (Steady.steady_of_modifyWait _ _ (Steady.steady_refl a w)).steady_trans
            (Client.waitReturn_steady _ _ _ _)
        · exact Steady.steady_refl a w
      · split
        · exact Client.waitReturn_steady _ _ _ _
        · exact Steady.steady_refl a w

theorem Client.followUp_steady (a i : Nat) (reply : RestyResult HistoryResponse) (w : World) :
    Steady a w (Client.followUp i reply w) := by
  unfold Client.followUp
  split
  · exact Steady.steady_refl a w
  · split
    · dsimp only
      have h1 : ∀ q : List String, Steady a w ({ w with historyQueries := q } : World) :=
        fun q => Steady.steady_of_eq rfl rfl rfl rfl
      split
      · exact Steady.steady_of_modifyWait _ _ (Steady.steady_of_modifyWait _ _ (h1 _))
      · split
        · exact Steady.steady_of_modifyWait _ _ (Steady.steady_of_modifyWait _ _ (h1 _))
        · exact Steady.steady_of_modifyWait _ _ (Steady.steady_of_modifyWait _ _ (h1 _))
    · exact Steady.steady_refl a w

theorem Client.waitForCompletionWithExistingWS_steady (a : Nat) (ctx : Context) (promptID : String)
    (timeout : Int) (b : Nat) (w : World) :
    Steady a w (Client.waitForCompletionWithExistingWS ctx promptID timeout b w) := by
  unfold Client.waitForCompletionWithExistingWS
  split
  · exact Steady.steady_refl a w
  · dsimp only
    apply Steady.steady_of_modifyWS
    · intro ws; rfl
    · exact Steady.steady_of_eq rfl rfl rfl rfl

theorem Client.WaitForCompletionWithWS_steady (a : Nat) (ctx : Context) (promptID : String)
    (timeout : Int) (net : NetEnv) (w : World) (hconn : Client.IsWebSocketConnected w = true) :
    Steady a w (Client.WaitForCompletionWithWS ctx promptID timeout net w).1 := by
  have he := Client.ensureWebSocketConnected_of_connected ctx net w hconn
  rw [← Client.GetWebSocketClient_world] at he
  unfold Client.WaitForCompletionWithWS
  dsimp only
  generalize (if timeout ≤ 0 then 5 * timeMinute else timeout) = t
  split
  · rename_i heq; rw [heq] at he; dsimp only at he ⊢; rw [he]; exact Steady.steady_refl a w
  · rename_i heq; rw [heq] at he; dsimp only at he ⊢; rw [he]
    exact Client.waitForCompletionWithExistingWS_steady _ _ _ _ _ _
  · rename_i heq; rw [heq] at he; dsimp only at he ⊢; rw [he]; exact Steady.steady_refl a w

theorem step_alive (a : Nat) (ctx : Option Context) (dials : List (String × Option String))
    (w : World) (e : Event) (h : Alive a ctx dials w) (he : e.keepsAlive a ctx = true) :
    Alive a ctx dials (step w e) := by
  cases e with
  | getWebSocketStatus c net =>
    simp only [step, Client.GetWebSocketStatus_world,
      Client.ensureWebSocketConnected_of_connected c net w h.isConnected]
    exact h
  | getWebSocketClient c net =>
    simp only [step, Client.GetWebSocketClient_world,
      Client.ensureWebSocketConnected_of_connected c net w h.isConnected]
    exact h
  | waitForCompletionWithWS c promptID timeout net =>
    exact h.of_steady (Client.WaitForCompletionWithWS_steady a c promptID timeout net w h.isConnected)
  | closeWebSocket closeErr => cases he
  | cancel id =>
    obtain ⟨hen, hcl, hd, ws, hws, hconn, hctx, hdone⟩ := h
    refine ⟨hen, hcl, hd, ws, hws, hconn, hctx, ?_⟩
    simp only [step]
    simp only [Event.keepsAlive, bne_iff_ne, ne_eq] at he
    rw [← hctx] at he
    unfold WSClient.ctxDone at hdone ⊢
    cases hc : ws.ctx with
    | none => rw [hc] at hdone; exact hdone
    | some c =>
      rw [hc] at hdone he
      cases c with
      | background => exact hdone
      | cancellable j =>
        have hj : j ≠ id := fun hji => he (by rw [hji])
        simp only [Context.isDone, Bool.or_eq_false_iff] at hdone ⊢
        refine ⟨hdone.1, ?_⟩
        have h2 := hdone.2
        simp only [List.contains_cons, Bool.or_eq_false_iff, beq_eq_false_iff_ne, ne_eq]
        exact ⟨hj, h2⟩
  | followUp wait reply => exact h.of_steady (Client.followUp_steady a _ _ _)
  | deadline wait =>
    exact h.of_steady (Steady.steady_of_modifyWait _ _ (Steady.steady_refl a w))
  | waitSelect wait pick => exact h.of_steady (Client.waitSelect_steady a _ _ _)
  | loopSelect b =>
    refine h.of_steady ?_
    simp only [step, WSClient.loopSelect]
    split
    · exact Steady.steady_refl a w
    · rename_i ws' hws'
      by_cases hl : ws'.loop = .atSelect
      · rw [if_pos hl]
        by_cases hb : b = a
        · obtain ⟨_, _, _, ws, hws, _, _, hdone⟩ := h
          rw [hb, hws] at hws'
          cases hws'
          rw [hdone]
          simp only [Bool.false_eq_true, if_false]
          exact Steady.steady_of_modifyWS _ _ (fun _ => rfl) (Steady.steady_refl a w)
        · split <;> exact Steady.steady_of_modifyWS_other _ _ hb (Steady.steady_refl a w)
      · rw [if_neg hl]
        exact Steady.steady_refl a w
  | loopRead b r =>
    refine h.of_steady ?_
    simp only [step, WSClient.loopRead]
    split
    · exact Steady.steady_refl a w
    · rename_i ws' hws'
      by_cases hl : ws'.loop = .inRead
      · rw [if_pos hl]
        cases r with
        | error err =>
          have hb : b ≠ a := by
            simpa [Event.keepsAlive] using he
          dsimp only
          refine Steady.steady_of_modifyWS_other _ _ hb ?_
          split
          · exact ((Handled.note _ _).handled_trans
              (ErrorCallback.error_invoke_handled _ _ _ _)).steady
          · exact Steady.steady_refl a w
        | ok data =>
          exact Steady.steady_of_modifyWS _ _ (fun _ => rfl)
            (WSClient.handleMessage_handled _ _ _).steady
      · rw [if_neg hl]
        exact Steady.steady_refl a w

theorem run_alive (a : Nat) (ctx : Option Context) (dials : List (String × Option String))
    (events : List Event) : ∀ (w : World), Alive a ctx dials w →
      (∀ e ∈ events, e.keepsAlive a ctx = true) → Alive a ctx dials (run w events) := by
  induction events with
  | nil => intro w h _; exact h
  | cons e rest ih =>
    intro w h hev
    simp only [run, List.foldl_cons]
    exact ih (step w e) (step_alive a ctx dials w e h (hev e (List.mem_cons_self _ _)))
      (fun e he => hev e (List.mem_cons_of_mem _ he))

/-- C16 (as amended): while the client holds a connected stream client whose context is
not done, `ensureWebSocketConnected` returns nil and changes nothing, so it neither dials
nor replaces the stored stream client, and `GetWebSocketClient` returns that stream
client.  This stays so after any events other than a `CloseWebSocket`, a failed read on
that stream client and the cancellation of the context it was connected under: no dial
is added, and every later call returns the same stream client. -/
theorem connected_client_is_reused_without_dial
    (w : World) (a : Nat) (ws : WSClient)
    (hen : w.client.wsEnabled = true) (hcl : w.client.wsClient = some a)
    (hws : w.heap[a]? = some ws) (hconn : ws.IsConnected = true)
    (hctx : ws.ctxDone w.cancelled = false)
    (events : List Event) (hquiet : ∀ e ∈ events, e.keepsAlive a ws.ctx = true) :
    (∀ ctx net, Client.ensureWebSocketConnected ctx net w = (w, none) ∧
      Client.GetWebSocketClient ctx net w = (w, some a, none)) ∧
    (run w events).dials = w.dials ∧
    (∀ ctx net,
      Client.ensureWebSocketConnected ctx net (run w events) = (run w events, none) ∧
      Client.GetWebSocketClient ctx net (run w events) = (run w events, some a, none)) := by
  have key : ∀ v : World, Alive a ws.ctx w.dials v → ∀ ctx net,
      Client.ensureWebSocketConnected ctx net v = (v, none) ∧
      Client.GetWebSocketClient ctx net v = (v, some a, none) := by
    intro v hv ctx net
    have h2 := Client.ensureWebSocketConnected_connected ctx net v hv.1 hv.isConnected
    refine ⟨h2, ?_⟩
    simp only [Client.GetWebSocketClient, h2, hv.2.1]
  have h0 : Alive a ws.ctx w.dials w := ⟨hen, hcl, rfl, ws, hws, hconn, rfl, hctx⟩
  have h1 := run_alive a ws.ctx w.dials events w h0 hquiet
  exact ⟨key w h0, h1.2.2.1, key _ h1⟩

/-- Witness for C16: the demo client, connected by one dial, goes through `quietEvents`,
in which every dial would be refused; there is still one dial and the same stream client. -/
theorem connected_client_is_reused_without_dial_witness :
    (run demoWorld quietEvents).dials = demoWorld.dials ∧
    demoWorld.dials.length = 1 ∧
    Client.GetWebSocketClient .background refusingNet (run demoWorld quietEvents) =
      (run demoWorld quietEvents, some 0, none) := by
  have h := connected_client_is_reused_without_dial demoWorld 0 demoStream rfl rfl rfl rfl rfl
    quietEvents (by decide)
  exact ⟨h.2.1, rfl, (h.2.2 .background refusingNet).2⟩

/-- Counterexample to C16 as stated: the first caller connects under a context that is
then cancelled; the receive loop finds it done at its `select` and returns; the next
caller dials again and gets another stream client.  Two dials, with neither a close nor a
failed read in between. -/
theorem second_dial_after_cancelled_connect_context :
    (Client.GetWebSocketClient (.cancellable 1) demoNet freshWorld).2 = (some 0, none) ∧
    (Client.GetWebSocketClient .background demoNet
      (run freshWorld [.getWebSocketClient (.cancellable 1) demoNet, .cancel 1, .loopSelect 0])).2
      = (some 1, none) ∧
    (run freshWorld [.getWebSocketClient (.cancellable 1) demoNet, .cancel 1, .loopSelect 0,
      .getWebSocketClient .background demoNet]).dials.length = 2 :=
  ⟨rfl, rfl, rfl⟩

theorem SameIds.ids_refl (waits : List WaitFrame) : SameIds waits waits :=
  fun _ F h => ⟨F, h, rfl⟩

theorem ExecutionCallback.wf_mono {waits waits' : List WaitFrame} (h : SameIds waits waits') :
    ∀ cb : ExecutionCallback, cb.wf waits = true → cb.wf waits' = true := by
  intro cb
  induction cb with
  | nil => intro _; rfl
  | user id => intro _; rfl
  | waitWrapper original promptID wait ih =>
    intro hcb
    simp only [ExecutionCallback.wf, Bool.and_eq_true] at hcb ⊢
    refine ⟨ih hcb.1, ?_⟩
    cases hF : waits[wait]? with
    | none => rw [hF] at hcb; exact absurd hcb.2 (by simp)
    | some F =>
      obtain ⟨G, hG, hid⟩ := h wait F hF
      rw [hF] at hcb
      rw [hG]
      simp only [beq_iff_eq] at hcb ⊢
      rw [hid]
      exact hcb.2

theorem World.wellFormed_iff (w : World) :
    w.wellFormed = true ↔
      (w.client.onExecution.wf w.waits = true ∧
       (∀ (a : Nat) (ws : WSClient), w.heap[a]? = some ws → ws.onExecution.wf w.waits = true) ∧
       (∀ (i : Nat) (F : WaitFrame), w.waits[i]? = some F →
         F.originalOnExecution.wf w.waits = true)) := by
  simp only [World.wellFormed, Bool.and_eq_true, List.all_eq_true, List.mem_iff_getElem?,
    and_assoc]
  constructor
  · rintro ⟨h1, h2, h3⟩
    exact ⟨h1, fun a ws h => h2 ws ⟨a, h⟩, fun i F h => h3 F ⟨i, h⟩⟩
  · rintro ⟨h1, h2, h3⟩
    exact ⟨h1, fun ws ⟨a, h⟩ => h2 a ws h, fun F ⟨i, h⟩ => h3 i F h⟩

theorem World.wellFormed_congr {w w' : World} (hw : w.wellFormed = true)
    (hc : w'.client.onExecution = w.client.onExecution) (hh : w'.heap = w.heap)
    (hwaits : w'.waits = w.waits) : w'.wellFormed = true := by
  rw [World.wellFormed_iff] at hw ⊢
  rw [hc, hh, hwaits]
  exact hw

theorem World.wellFormed_modifyWS (w : World) (a : Nat) (f : WSClient → WSClient)
    (hw : w.wellFormed = true)
    (hf : ∀ ws, w.heap[a]? = some ws → (f ws).onExecution.wf w.waits = true) :
    (w.modifyWS a f).wellFormed = true := by
  rw [World.wellFormed_iff] at hw ⊢
  obtain ⟨h1, h2, h3⟩ := hw
  rw [(World.modifyWS_fields w a f).1, (World.modifyWS_fields w a f).2.1]
  refine ⟨h1, fun b ws hb => ?_, h3⟩
  rw [World.heap_modifyWS] at hb
  split at hb
  · rename_i hab
    cases hws : w.heap[b]? with
    | none => rw [hws] at hb; cases hb
    | some ws0 =>
      rw [hws] at hb
      simp only [Option.map_some', Option.some.injEq] at hb
      rw [← hb]
      exact hf ws0 (by rw [hab]; exact hws)
  · exact h2 b ws hb

theorem World.wellFormed_modifyWait (w : World) (i : Nat) (f : WaitFrame → WaitFrame)
    (hw : w.wellFormed = true)
    (hf : ∀ F, (f F).promptID = F.promptID ∧ (f F).originalOnExecution = F.originalOnExecution) :
    (w.modifyWait i f).wellFormed = true := by
  have hids : SameIds w.waits (w.modifyWait i f).waits := by
    intro j F hF
    rw [World.waits_modifyWait]
    split
    · rw [hF]; exact ⟨f F, rfl, (hf F).1⟩
    · exact ⟨F, hF, rfl⟩
  rw [World.wellFormed_iff] at hw ⊢
  obtain ⟨h1, h2, h3⟩ := hw
  rw [(World.modifyWait_fields w i f).1, (World.modifyWait_fields w i f).2.1]
  refine ⟨ExecutionCallback.wf_mono hids _ h1,
    fun a ws ha => ExecutionCallback.wf_mono hids _ (h2 a ws ha), fun j G hG => ?_⟩
  rw [World.waits_modifyWait] at hG
  split at hG
  · cases hF : w.waits[j]? with
    | none => rw [hF] at hG; cases hG
    | some F =>
      rw [hF] at hG
      simp only [Option.map_some', Option.some.injEq] at hG
      rw [← hG, (hf F).2]
      exact ExecutionCallback.wf_mono hids _ (h3 j F hF)
  · exact ExecutionCallback.wf_mono hids _ (h3 j G hG)

theorem Handled.wellFormed {w w' : World} (h : Handled w w') (hw : w.wellFormed = true) :
    w'.wellFormed = true := by
  obtain ⟨hc, hh, _, _, _, hlen, hfr⟩ := h
  have hback : ∀ (j : Nat) (G : WaitFrame), w'.waits[j]? = some G →
      ∃ F, w.waits[j]? = some F ∧ HandlerTouched F G := by
    intro j G hG
    have hlt : j < w.waits.length := by
      rw [← hlen]
      by_contra hge
      rw [List.getElem?_eq_none (by omega)] at hG
      cases hG
    refine ⟨w.waits[j], List.getElem?_eq_getElem hlt, hfr j _ G (List.getElem?_eq_getElem hlt) hG⟩
  have hids : SameIds w.waits w'.waits := by
    intro j F hF
    have hlt : j < w'.waits.length := by
      rw [hlen]
      by_contra hge
      rw [List.getElem?_eq_none (by omega)] at hF
      cases hF
    exact ⟨w'.waits[j], List.getElem?_eq_getElem hlt,
      (hfr j F _ hF (List.getElem?_eq_getElem hlt)).2.1⟩
  rw [World.wellFormed_iff] at hw ⊢
  obtain ⟨h1, h2, h3⟩ := hw
  rw [hc, hh]
  refine ⟨ExecutionCallback.wf_mono hids _ h1,
    fun a ws ha => ExecutionCallback.wf_mono hids _ (h2 a ws ha), fun j G hG => ?_⟩
  obtain ⟨F, hF, ht⟩ := hback j G hG
  rw [ht.2.2.2.2.2.1]
  exact ExecutionCallback.wf_mono hids _ (h3 j F hF)

theorem World.wellFormed_modifyWS_slot (w : World) (a : Nat) (f : WSClient → WSClient)
    (hw : w.wellFormed = true) (hf : ∀ ws, (f ws).onExecution = ws.onExecution) :
    (w.modifyWS a f).wellFormed = true := by
  refine World.wellFormed_modifyWS w a f hw (fun ws hws => ?_)
  rw [hf ws]
  exact ((World.wellFormed_iff w).1 hw).2.1 a ws hws

theorem WSClient.Connect_wellFormed (a : Nat) (ctx : Context) (net : NetEnv) (w : World)
    (hw : w.wellFormed = true) : (WSClient.Connect a ctx net w).1.wellFormed = true := by
  unfold WSClient.Connect
  split
  · exact hw
  · split
    · exact hw
    · split
      · exact hw
      · dsimp only
        split
        · exact World.wellFormed_congr hw rfl rfl rfl
        · exact World.wellFormed_modifyWS_slot _ _ _ (World.wellFormed_congr hw rfl rfl rfl)
            (fun _ => rfl)

theorem Client.ensureWebSocketConnected_wellFormed (ctx : Context) (net : NetEnv) (w : World)
    (hw : w.wellFormed = true) :
    (Client.ensureWebSocketConnected ctx net w).1.wellFormed = true := by
  unfold Client.ensureWebSocketConnected
  split
  · exact hw
  · split
    · exact hw
    · dsimp only
      apply WSClient.Connect_wellFormed
      obtain ⟨h1, h2, h3⟩ := (World.wellFormed_iff w).1 hw
      rw [World.wellFormed_iff]
      refine ⟨h1, fun b ws hb => ?_, h3⟩
      dsimp only at hb ⊢
      by_cases hlt : b < w.heap.length
      · rw [List.getElem?_append_left hlt] at hb
        exact h2 b ws hb
      · by_cases heq : b = w.heap.length
        · rw [heq, List.getElem?_concat_length] at hb
          cases hb
          exact h1
        · rw [List.getElem?_eq_none (by simp; omega)] at hb
          cases hb

theorem WSClient.Close_wellFormed (a : Nat) (e : Option GoError) (w : World)
    (hw : w.wellFormed = true) : (WSClient.Close a e w).1.wellFormed = true := by
  have h1 : (w.modifyWS a (fun ws => { ws with running := false })).wellFormed = true :=
    World.wellFormed_modifyWS_slot _ _ _ hw (fun _ => rfl)
  have h2 : ((w.modifyWS a (fun ws => { ws with running := false })).modifyWS a
      (fun ws => { ws with cancelCalled := true })).wellFormed = true :=
    World.wellFormed_modifyWS_slot _ _ _ h1 (fun _ => rfl)
  unfold WSClient.Close
  split
  · exact hw
  · split
    · exact hw
    · dsimp only
      split <;> split <;> first | exact h2 | exact h1

theorem Client.waitForCompletionWithExistingWS_wellFormed (ctx : Context) (promptID : String)
    (timeout : Int) (a : Nat) (w : World) (hw : w.wellFormed = true) :
    (Client.waitForCompletionWithExistingWS ctx promptID timeout a w).wellFormed = true := by
  unfold Client.waitForCompletionWithExistingWS
  split
  · exact hw
  · rename_i ws hws
    dsimp only
    obtain ⟨h1, h2, h3⟩ := (World.wellFormed_iff w).1 hw
    have hids : ∀ F : WaitFrame, SameIds w.waits (w.waits ++ [F]) := by
      intro F i G hG
      have hlt : i < w.waits.length := by
        by_contra hge
        rw [List.getElem?_eq_none (by omega)] at hG
        cases hG
      exact ⟨G, by rw [List.getElem?_append_left hlt]; exact hG, rfl⟩
    apply World.wellFormed_modifyWS
    · rw [World.wellFormed_iff]
      refine ⟨ExecutionCallback.wf_mono (hids _) _ h1,
        fun b ws' hb => ExecutionCallback.wf_mono (hids _) _ (h2 b ws' hb), fun i F hF => ?_⟩
      dsimp only at hF ⊢
      by_cases hlt : i < w.waits.length
      · rw [List.getElem?_append_left hlt] at hF
        exact ExecutionCallback.wf_mono (hids _) _ (h3 i F hF)
      · by_cases heq : i = w.waits.length
        · rw [heq, List.getElem?_concat_length] at hF
          cases hF
          exact ExecutionCallback.wf_mono (hids _) _ (h2 a ws hws)
        · rw [List.getElem?_eq_none (by simp; omega)] at hF
          cases hF
    · intro ws' _
      dsimp only
      simp only [ExecutionCallback.wf, List.getElem?_concat_length, beq_self_eq_true,
        Bool.and_true]
      exact ExecutionCallback.wf_mono (hids _) _ (h2 a ws hws)

theorem Client.WaitForCompletionWithWS_wellFormed (ctx : Context) (promptID : String)
    (timeout : Int) (net : NetEnv) (w : World) (hw : w.wellFormed = true) :
    (Client.WaitForCompletionWithWS ctx promptID timeout net w).1.wellFormed = true := by
  have he := Client.ensureWebSocketConnected_wellFormed ctx net w hw
  rw [← Client.GetWebSocketClient_world] at he
  unfold Client.WaitForCompletionWithWS
  dsimp only
  generalize (if timeout ≤ 0 then 5 * timeMinute else timeout) = t
  split
  · rename_i heq; rw [heq] at he; exact he
  · rename_i heq; rw [heq] at he
    exact Client.waitForCompletionWithExistingWS_wellFormed _ _ _ _ _ he
  · rename_i heq; rw [heq] at he; exact he

theorem Client.waitReturn_wellFormed (i : Nat) (ret : WaitReturn) (w : World)
    (hw : w.wellFormed = true) : (Client.waitReturn i ret w).wellFormed = true := by
  unfold Client.waitReturn
  split
  · exact hw
  · rename_i frame hframe
    dsimp only
    have h1 : (w.modifyWait i (fun f => { f with ret := some ret })).wellFormed = true :=
      World.wellFormed_modifyWait _ _ _ hw (fun _ => ⟨rfl, rfl⟩)
    refine World.wellFormed_modifyWS _ _ _ h1 (fun ws _ => ?_)
    dsimp only
    have hF : (w.modifyWait i (fun f => { f with ret := some ret })).waits[i]? =
        some { frame with ret := some ret } := by
      rw [World.waits_modifyWait, hframe]; simp
    exact ((World.wellFormed_iff _).1 h1).2.2 i { frame with ret := some ret } hF

theorem Client.waitSelect_wellFormed (i : Nat) (pick : SelectCase) (w : World)
    (hw : w.wellFormed = true) : (Client.waitSelect i pick w).wellFormed = true := by
  unfold Client.waitSelect
  split
  · exact hw
  · split
    · exact hw
    · split
      · split
        · exact Client.waitReturn_wellFormed _ _ _
            (World.wellFormed_modifyWait _ _ _ hw (fun _ => ⟨rfl, rfl⟩))
        · exact hw
      · split
        · exact Client.waitReturn_wellFormed _ _ _
            (World.wellFormed_modifyWait _ _ _ hw (fun _ => ⟨rfl, rfl⟩))
        · exact hw
      · split
        · exact Client.waitReturn_wellFormed _ _ _ hw
        · exact hw

theorem Client.followUp_wellFormed (i : Nat) (reply : RestyResult HistoryResponse) (w : World)
    (hw : w.wellFormed = true) : (Client.followUp i reply w).wellFormed = true := by
  unfold Client.followUp
  split
  · exact hw
  · split
    · dsimp only
      have h1 : ∀ q : List String, ({ w with historyQueries := q } : World).wellFormed = true :=
        fun q => World.wellFormed_congr hw rfl rfl rfl
      have h2 : ∀ q : List String, (({ w with historyQueries := q } : World).modifyWait i
          (fun f => { f with followUpsFinished := f.followUpsFinished + 1 })).wellFormed = true :=
        fun q => World.wellFormed_modifyWait _ _ _ (h1 q) (fun _ => ⟨rfl, rfl⟩)
      split
      · exact World.wellFormed_modifyWait _ _ _ (h2 _) (fun _ => ⟨rfl, rfl⟩)
      · split
        · exact World.wellFormed_modifyWait _ _ _ (h2 _) (fun _ => ⟨rfl, rfl⟩)
        · exact World.wellFormed_modifyWait _ _ _ (h2 _) (fun _ => ⟨rfl, rfl⟩)
    · exact hw

theorem step_wellFormed (w : World) (e : Event) (hw : w.wellFormed = true) :
    (step w e).wellFormed = true := by
  cases e with
  | getWebSocketStatus ctx net =>
    simp only [step, Client.GetWebSocketStatus_world]
    exact Client.ensureWebSocketConnected_wellFormed ctx net w hw
  | getWebSocketClient ctx net =>
    simp only [step, Client.GetWebSocketClient_world]
    exact Client.ensureWebSocketConnected_wellFormed ctx net w hw
  | waitForCompletionWithWS ctx promptID timeout net =>
    exact Client.WaitForCompletionWithWS_wellFormed ctx promptID timeout net w hw
  | closeWebSocket closeErr =>
    simp only [step, Client.CloseWebSocket]
    split
    · exact World.wellFormed_congr (WSClient.Close_wellFormed _ closeErr w hw) rfl rfl rfl
    · exact hw
  | cancel id => exact World.wellFormed_congr hw rfl rfl rfl
  | loopSelect a =>
    simp only [step, WSClient.loopSelect]
    split
    · exact hw
    · split
      · split <;> exact World.wellFormed_modifyWS_slot _ _ _ hw (fun _ => rfl)
      · exact hw
  | loopRead a r =>
    simp only [step, WSClient.loopRead]
    split
    · exact hw
    · split
      · split
        · refine World.wellFormed_modifyWS_slot _ _ _ ?_ (fun _ => rfl)
          split
          · exact ((Handled.note _ _).handled_trans
              (ErrorCallback.error_invoke_handled _ _ _ _)).wellFormed hw
          · exact hw
        · exact World.wellFormed_modifyWS_slot _ _ _
            ((WSClient.handleMessage_handled _ _ _).wellFormed hw) (fun _ => rfl)
      · exact hw
  | followUp wait reply => exact Client.followUp_wellFormed wait reply w hw
  | deadline wait =>
    exact World.wellFormed_modifyWait _ _ _ hw (fun _ => ⟨rfl, rfl⟩)
  | waitSelect wait pick => exact Client.waitSelect_wellFormed wait pick w hw

theorem run_wellFormed (events : List Event) :
    ∀ w : World, w.wellFormed = true → (run w events).wellFormed = true := by
  induction events with
  | nil => intro w hw; exact hw
  | cons e rest ih =>
    intro w hw
    simp only [run, List.foldl_cons]
    exact ih (step w e) (step_wellFormed w e hw)

theorem ExecutionCallback.execution_invoke_signal (n : Nat) (cb : ExecutionCallback) (q : String)
    (node : Option String) :
    ∀ (w : World) (F : WaitFrame), cb.wf w.waits = true → w.waits[n]? = some F →
      ∃ G, (cb.invoke q node w).waits[n]? = some G ∧ G.promptID = F.promptID ∧
        G.resultChan = F.resultChan ∧ G.ret = F.ret ∧
        F.followUpsStarted ≤ G.followUpsStarted ∧
        (G.followUpsStarted = F.followUpsStarted ∨ (q = F.promptID ∧ node = none)) := by
  induction cb with
  | nil => intro w F _ hF; exact ⟨F, hF, rfl, rfl, rfl, Nat.le_refl _, Or.inl rfl⟩
  | user id => intro w F _ hF; exact ⟨F, hF, rfl, rfl, rfl, Nat.le_refl _, Or.inl rfl⟩
  | waitWrapper original promptID wait ih =>
    intro w F hcb hF
    simp only [ExecutionCallback.wf, Bool.and_eq_true] at hcb
    obtain ⟨horig, hwait⟩ := hcb
    have h1 : ∃ G, (if original ≠ .nil then original.invoke q node w else w).waits[n]? = some G ∧
        G.promptID = F.promptID ∧ G.resultChan = F.resultChan ∧ G.ret = F.ret ∧
        F.followUpsStarted ≤ G.followUpsStarted ∧
        (G.followUpsStarted = F.followUpsStarted ∨ (q = F.promptID ∧ node = none)) := by
      split
      · exact ih w F horig hF
      · exact ⟨F, hF, rfl, rfl, rfl, Nat.le_refl _, Or.inl rfl⟩
    simp only [ExecutionCallback.invoke]
    obtain ⟨G1, hG1, hp1, hr1, hret1, hm1, hs1⟩ := h1
    split
    · rename_i hmatch
      rw [World.waits_modifyWait]
      by_cases hwn : wait = n
      · rw [if_pos hwn, hG1]
        have hpid : promptID = F.promptID := by
          rw [hwn, hF] at hwait
          simp only [beq_iff_eq] at hwait
          exact hwait.symm
        refine ⟨_, rfl, ?_, ?_, ?_, ?_, Or.inr ⟨by rw [← hpid]; exact hmatch.1, hmatch.2⟩⟩
        · dsimp only; split <;> exact hp1
        · dsimp only; split <;> exact hr1
        · dsimp only; split <;> exact hret1
        · dsimp only
          split
          · exact Nat.le_succ_of_le hm1
          · exact hm1
      · rw [if_neg hwn]
        exact ⟨G1, hG1, hp1, hr1, hret1, hm1, hs1⟩
    · exact ⟨G1, hG1, hp1, hr1, hret1, hm1, hs1⟩

theorem ErrorCallback.error_invoke_signal (n : Nat) (cb : ErrorCallback) (q : String)
    (e : GoError) :
    ∀ (w : World) (F : WaitFrame), w.waits[n]? = some F →
      ∃ G, (cb.invoke q e w).waits[n]? = some G ∧ G.promptID = F.promptID ∧
        G.resultChan = F.resultChan ∧ G.ret = F.ret ∧
        G.followUpsStarted = F.followUpsStarted := by
  induction cb with
  | nil => intro w F hF; exact ⟨F, hF, rfl, rfl, rfl, rfl⟩
  | user id => intro w F hF; exact ⟨F, hF, rfl, rfl, rfl, rfl⟩
  | waitWrapper original promptID wait ih =>
    intro w F hF
    have h1 : ∃ G, (if original ≠ .nil then original.invoke q e w else w).waits[n]? = some G ∧
        G.promptID = F.promptID ∧ G.resultChan = F.resultChan ∧ G.ret = F.ret ∧
        G.followUpsStarted = F.followUpsStarted := by
      split
      · exact ih w F hF
      · exact ⟨F, hF, rfl, rfl, rfl, rfl⟩
    simp only [ErrorCallback.invoke]
    obtain ⟨G1, hG1, hp1, hr1, hret1, hs1⟩ := h1
    split
    · rw [World.waits_modifyWait]
      by_cases hwn : wait = n
      · rw [if_pos hwn, hG1]
        refine ⟨_, rfl, ?_, ?_, ?_, ?_⟩
        · dsimp only; split <;> exact hp1
        · dsimp only; split <;> exact hr1
        · dsimp only; split <;> exact hret1
        · dsimp only; split <;> exact hs1
      · rw [if_neg hwn]
        exact ⟨G1, hG1, hp1, hr1, hret1, hs1⟩
    · exact ⟨G1, hG1, hp1, hr1, hret1, hs1⟩

theorem SignalStep.via_execution (n : Nat) (cb : ExecutionCallback) (q : String)
    (node : Option String) (w : World) (F : WaitFrame) (hcb : cb.wf w.waits = true)
    (hF : w.waits[n]? = some F) :
    ∃ G ds, (cb.invoke q node (w.note (.execution q node))).waits[n]? = some G ∧
      (cb.invoke q node (w.note (.execution q node))).dispatched = w.dispatched ++ ds ∧
      SignalStep ds F G := by
  obtain ⟨G, hG, hp, hr, hret, hm, hs⟩ := ExecutionCallback.execution_invoke_signal n cb q node
    (w.note (.execution q node)) F hcb hF
  refine ⟨G, [.execution q node], hG, ?_, hp, hr, hret, hm, ?_⟩
  · rw [ExecutionCallback.execution_invoke_dispatched]
    rfl
  · rcases hs with hs | ⟨hq, hnode⟩
    · exact Or.inl hs
    · right
      rw [hq, hnode]
      exact List.mem_singleton_self _

theorem SignalStep.via_error (n : Nat) (cb : ErrorCallback) (q : String) (e : GoError)
    (w : World) (F : WaitFrame) (hF : w.waits[n]? = some F) :
    ∃ G ds, (cb.invoke q e (w.note (.error q e))).waits[n]? = some G ∧
      (cb.invoke q e (w.note (.error q e))).dispatched = w.dispatched ++ ds ∧
      SignalStep ds F G := by
  obtain ⟨G, hG, hp, hr, hret, hs⟩ := ErrorCallback.error_invoke_signal n cb q e
    (w.note (.error q e)) F hF
  refine ⟨G, [.error q e], hG, ?_, hp, hr, hret, Nat.le_of_eq hs.symm, Or.inl hs⟩
  rw [ErrorCallback.error_invoke_dispatched]
  rfl

theorem SignalStep.via_nothing (n : Nat) (w : World) (F : WaitFrame) (hF : w.waits[n]? = some F) :
    ∃ G ds, w.waits[n]? = some G ∧ w.dispatched = w.dispatched ++ ds ∧ SignalStep ds F G :=
  ⟨F, [], hF, by simp, rfl, rfl, rfl, Nat.le_refl _, Or.inl rfl⟩

theorem SignalStep.via_status (n : Nat) (cb : StatusCallback) (q s : String) (w : World)
    (F : WaitFrame) (hF : w.waits[n]? = some F) :
    ∃ G ds, (cb.invoke q s (w.note (.status q s))).waits[n]? = some G ∧
      (cb.invoke q s (w.note (.status q s))).dispatched = w.dispatched ++ ds ∧
      SignalStep ds F G := by
  refine ⟨F, [.status q s], ?_, ?_, rfl, rfl, rfl, Nat.le_refl _, Or.inl rfl⟩
  · rw [StatusCallback.status_invoke_waits]; exact hF
  · cases cb <;> rfl

theorem SignalStep.via_progress (n : Nat) (cb : ProgressCallback) (q : String)
    (m : WSProgressMessage) (w : World) (F : WaitFrame) (hF : w.waits[n]? = some F) :
    ∃ G ds, (cb.invoke q m (w.note (.progress q m))).waits[n]? = some G ∧
      (cb.invoke q m (w.note (.progress q m))).dispatched = w.dispatched ++ ds ∧
      SignalStep ds F G := by
  refine ⟨F, [.progress q m], ?_, ?_, rfl, rfl, rfl, Nat.le_refl _, Or.inl rfl⟩
  · rw [ProgressCallback.progress_invoke_waits]; exact hF
  · cases cb <;> rfl

theorem WSClient.handleMessage_signal (n : Nat) (ws : WSClient) (data : FrameBytes) (w : World)
    (F : WaitFrame) (hcb : ws.onExecution.wf w.waits = true) (hF : w.waits[n]? = some F) :
    ∃ G ds, (ws.handleMessage data w).waits[n]? = some G ∧
      (ws.handleMessage data w).dispatched = w.dispatched ++ ds ∧ SignalStep ds F G := by
  have hno := SignalStep.via_nothing n w F hF
  unfold WSClient.handleMessage
  split
  · split
    · exact SignalStep.via_error n _ _ _ w F hF
    · exact hno
  · split_ifs
    · unfold WSClient.handleStatusMessage
      split_ifs
      · exact hno
      · split
        · split
          · exact SignalStep.via_status n _ _ _ w F hF
          · exact hno
        · exact hno
    · unfold WSClient.handleExecutionStartMessage
      split_ifs
      · exact hno
      · split
        · split
          · exact SignalStep.via_execution n _ _ _ w F hcb hF
          · exact hno
        · exact hno
    · unfold WSClient.handleExecutingMessage
      split_ifs
      · exact hno
      · split
        · split
          · exact SignalStep.via_execution n _ _ _ w F hcb hF
          · exact hno
        · exact hno
    · unfold WSClient.handleProgressMessage
      split_ifs
      · exact hno
      · split
        · split
          · exact SignalStep.via_progress n _ _ _ w F hF
          · exact hno
        · exact hno
    · unfold WSClient.handleExecutionErrorMessage
      split_ifs
      · exact hno
      · split
        · split
          · exact SignalStep.via_error n _ _ _ w F hF
          · exact hno
        · exact hno
    · unfold WSClient.handleExecutionInterruptedMessage
      split_ifs
      · exact hno
      · split
        · exact SignalStep.via_error n _ _ _ w F hF
        · exact hno
    · exact hno

theorem Signalled.sig_of_eq {p : String} {n : Nat} {base : List Dispatch} {w w' : World}
    (h : Signalled p n base w) (hw : w'.waits[n]? = w.waits[n]?)
    (hd : w'.dispatched = w.dispatched) : Signalled p n base w' := by
  obtain ⟨F, ds, hF, hds, hs⟩ := h
  exact ⟨F, ds, by rw [hw]; exact hF, by rw [hd]; exact hds, hs⟩

theorem Signalled.sig_of_modifyWS {p : String} {n : Nat} {base : List Dispatch} {w : World}
    (a : Nat) (f : WSClient → WSClient) (h : Signalled p n base w) :
    Signalled p n base (w.modifyWS a f) :=
  h.sig_of_eq (by rw [(World.modifyWS_fields w a f).2.1]) (World.modifyWS_fields w a f).2.2.2.1

theorem Signalled.sig_of_modifyWait {p : String} {n : Nat} {base : List Dispatch} {w : World}
    (j : Nat) (f : WaitFrame → WaitFrame) (h : Signalled p n base w)
    (hf : j = n → ∀ F ds, w.waits[n]? = some F → SignalSeen p ds F → SignalSeen p ds (f F)) :
    Signalled p n base (w.modifyWait j f) := by
  obtain ⟨F, ds, hF, hds, hs⟩ := h
  by_cases hj : j = n
  · refine ⟨f F, ds, ?_, ?_, hf hj F ds hF hs⟩
    · rw [World.waits_modifyWait, if_pos hj, hF]
      rfl
    · rw [(World.modifyWait_fields w j f).2.2.2.1]; exact hds
  · refine ⟨F, ds, ?_, ?_, hs⟩
    · rw [World.waits_modifyWait, if_neg hj]; exact hF
    · rw [(World.modifyWait_fields w j f).2.2.2.1]; exact hds

theorem Signalled.sig_of_step {p : String} {n : Nat} {base : List Dispatch} {w w' : World}
    (h : Signalled p n base w)
    (hs : ∀ F, w.waits[n]? = some F → ∃ G ds, w'.waits[n]? = some G ∧
      w'.dispatched = w.dispatched ++ ds ∧ SignalStep ds F G) :
    Signalled p n base w' := by
  obtain ⟨F, ds, hF, hds, hp, hstart, hres, hnil⟩ := h
  obtain ⟨G, ds', hG, hd', gp, gr, gret, gm, gs⟩ := hs F hF
  refine ⟨G, ds ++ ds', hG, by rw [hd', hds, List.append_assoc], by rw [gp]; exact hp,
    fun h1 => ?_, fun v hv => ?_, fun e he => ?_⟩
  · rcases gs with gs | gs
    · rw [gs] at h1
      exact List.mem_append_left _ (hstart h1)
    · rw [hp] at gs
      exact List.mem_append_right _ gs
  · rw [gr, gret] at hv
    exact Nat.le_trans (hres v hv) gm
  · rw [gret] at he
    exact hnil e he

theorem Client.waitReturn_signalled {p : String} {n : Nat} {base : List Dispatch} {w : World}
    (j : Nat) (ret : WaitReturn) (h : Signalled p n base w)
    (hret : j = n → ∀ F, w.waits[n]? = some F →
      (∀ v e, ret = (some v, e) → 1 ≤ F.followUpsStarted) ∧ (∀ e, ret = (none, e) → e ≠ none)) :
    Signalled p n base (Client.waitReturn j ret w) := by
  unfold Client.waitReturn
  split
  · exact h
  · dsimp only
    apply Signalled.sig_of_modifyWS
    apply Signalled.sig_of_modifyWait _ _ h
    intro hj F ds hF hg
    obtain ⟨h1, h2, h3, _⟩ := hg
    obtain ⟨r1, r2⟩ := hret hj F hF
    refine ⟨h1, h2, fun v hv => ?_, fun e he => ?_⟩
    · rcases hv with hv | hv | ⟨e, hv⟩
      · exact h3 v (Or.inl hv)
      · exact h3 v (Or.inr (Or.inl hv))
      · simp only [Option.some.injEq] at hv
        exact r1 v e hv
    · simp only [Option.some.injEq] at he
      exact r2 e he

theorem Client.waitSelect_signalled {p : String} {n : Nat} {base : List Dispatch} {w : World}
    (j : Nat) (pick : SelectCase) (h : Signalled p n base w) :
    Signalled p n base (Client.waitSelect j pick w) := by
  unfold Client.waitSelect
  cases hj : w.waits[j]? with
  | none => exact h
  | some frame =>
    dsimp only
    split
    · exact h
    · cases pick with
      | resultChan =>
        dsimp only
        cases hr : frame.resultChan.recv with
        | none => exact h
        | some pr =>
          obtain ⟨result, ch⟩ := pr
          dsimp only
          obtain ⟨hv, hbuf, hblk⟩ := Chan.recv_sub _ _ _ hr
          have hstarted : j = n → 1 ≤ frame.followUpsStarted := by
            intro hjn
            obtain ⟨F, ds, hF, _, _, _, h3, _⟩ := h
            rw [hjn] at hj
            rw [hj] at hF
            cases hF
            exact h3 result (Or.inl hv)
          have hframe : j = n → ∀ F, w.waits[n]? = some F → F = frame := by
            intro hjn F hF
            rw [hjn] at hj
            rw [hj] at hF
            cases hF
            rfl
          apply Client.waitReturn_signalled
          · apply Signalled.sig_of_modifyWait _ _ h
            intro hjn F ds hF hg
            have := hframe hjn F hF
            subst this
            obtain ⟨h1, h2, h3, h4⟩ := hg
            refine ⟨h1, h2, fun v hvm => ?_, h4⟩
            rcases hvm with hvm | hvm | hvm
            · rcases hbuf v hvm with hx | hx
              · exact h3 v (Or.inl hx)
              · exact h3 v (Or.inr (Or.inl hx))
            · exact h3 v (Or.inr (Or.inl (hblk v hvm)))
            · exact h3 v (Or.inr (Or.inr hvm))
          · intro hjn F hF
            rw [World.waits_modifyWait, if_pos hjn] at hF
            rw [hjn] at hj
            rw [hj] at hF
            simp only [Option.map_some', Option.some.injEq] at hF
            refine ⟨fun v e _ => ?_, fun e he => ?_⟩
            · rw [← hF]
              exact hstarted hjn
            · simp at he
      | errorChan =>
        dsimp only
        cases hr : frame.errorChan.recv with
        | none => exact h
        | some pr =>
          obtain ⟨err, ch⟩ := pr
          dsimp only
          apply Client.waitReturn_signalled
          · apply Signalled.sig_of_modifyWait _ _ h
            intro _ F ds _ hg
            exact hg
          · intro _ F _
            refine ⟨fun v e he => ?_, fun e he => ?_⟩
            · simp at he
            · simp only [Prod.mk.injEq, true_and] at he
              rw [← he]
              simp
      | timeoutDone =>
        dsimp only
        split
        · apply Client.waitReturn_signalled _ _ h
          intro _ F _
          refine ⟨fun v e he => ?_, fun e he => ?_⟩
          · simp at he
          · simp only [Prod.mk.injEq, true_and] at he
            rw [← he]
            simp
        · exact h

theorem Client.followUp_signalled {p : String} {n : Nat} {base : List Dispatch} {w : World}
    (j : Nat) (reply : RestyResult HistoryResponse) (h : Signalled p n base w) :
    Signalled p n base (Client.followUp j reply w) := by
  unfold Client.followUp
  cases hj : w.waits[j]? with
  | none => exact h
  | some frame =>
    dsimp only
    split
    · rename_i hguard
      have hq : Signalled p n base
          ({ w with historyQueries := w.historyQueries ++ [frame.promptID] } : World) :=
        h.sig_of_eq rfl rfl
      have hfin : Signalled p n base
          (({ w with historyQueries := w.historyQueries ++ [frame.promptID] } : World).modifyWait j
            (fun f => { f with followUpsFinished := f.followUpsFinished + 1 })) := by
        apply Signalled.sig_of_modifyWait _ _ hq
        intro _ F ds _ hg
        exact hg
      have hstarted : j = n → ∀ F,
          (({ w with historyQueries := w.historyQueries ++ [frame.promptID] } : World).modifyWait j
            (fun f => { f with followUpsFinished := f.followUpsFinished + 1 })).waits[n]? = some F →
          1 ≤ F.followUpsStarted := by
        intro hjn F hF
        rw [World.waits_modifyWait, if_pos hjn] at hF
        rw [hjn] at hj
        dsimp only at hF
        rw [hj] at hF
        simp only [Option.map_some', Option.some.injEq] at hF
        rw [← hF]
        dsimp only
        omega
      split
      · apply Signalled.sig_of_modifyWait _ _ hfin
        intro _ F ds _ hg
        exact hg
      · split
        · apply Signalled.sig_of_modifyWait _ _ hfin
          intro hjn F ds hF hg
          obtain ⟨h1, h2, h3, h4⟩ := hg
          refine ⟨h1, h2, fun v _ => hstarted hjn F hF, h4⟩
        · apply Signalled.sig_of_modifyWait _ _ hfin
          intro _ F ds _ hg
          exact hg
    · exact h

theorem WSClient.Connect_dispatched (a : Nat) (ctx : Context) (net : NetEnv) (w : World) :
    (WSClient.Connect a ctx net w).1.dispatched = w.dispatched := by
  unfold WSClient.Connect
  split
  · rfl
  · split
    · rfl
    · split
      · rfl
      · dsimp only
        split
        · rfl
        · rw [(World.modifyWS_fields _ _ _).2.2.2.1]

theorem Client.ensureWebSocketConnected_dispatched (ctx : Context) (net : NetEnv) (w : World) :
    (Client.ensureWebSocketConnected ctx net w).1.dispatched = w.dispatched := by
  unfold Client.ensureWebSocketConnected
  split
  · rfl
  · split
    · rfl
    · dsimp only
      rw [WSClient.Connect_dispatched]

theorem WSClient.Close_dispatched (a : Nat) (e : Option GoError) (w : World) :
    (WSClient.Close a e w).1.dispatched = w.dispatched := by
  unfold WSClient.Close
  split
  · rfl
  · split
    · rfl
    · dsimp only
      split <;> split <;>
        simp only [(World.modifyWS_fields _ _ _).2.2.2.1]

theorem Client.WaitForCompletionWithWS_dispatched (ctx : Context) (promptID : String)
    (timeout : Int) (net : NetEnv) (w : World) :
    (Client.WaitForCompletionWithWS ctx promptID timeout net w).1.dispatched = w.dispatched := by
  have he := Client.ensureWebSocketConnected_dispatched ctx net w
  rw [← Client.GetWebSocketClient_world] at he
  unfold Client.WaitForCompletionWithWS
  dsimp only
  generalize (if timeout ≤ 0 then 5 * timeMinute else timeout) = t
  split
  · rename_i heq; rw [heq] at he; exact he
  · rename_i heq; rw [heq] at he
    dsimp only at he ⊢
    unfold Client.waitForCompletionWithExistingWS
    split
    · exact he
    · dsimp only
      rw [(World.modifyWS_fields _ _ _).2.2.2.1]
      exact he
  · rename_i heq; rw [heq] at he; exact he

theorem step_signalled {p : String} {n : Nat} {base : List Dispatch} {w : World} (e : Event)
    (hw : w.wellFormed = true) (h : Signalled p n base w) : Signalled p n base (step w e) := by
  cases e with
  | getWebSocketStatus ctx net =>
    refine h.sig_of_eq ?_ ?_
    · simp only [step, Client.GetWebSocketStatus_world, Client.ensureWebSocketConnected_waits]
    · simp only [step, Client.GetWebSocketStatus_world, Client.ensureWebSocketConnected_dispatched]
  | getWebSocketClient ctx net =>
    refine h.sig_of_eq ?_ ?_
    · simp only [step, Client.GetWebSocketClient_world, Client.ensureWebSocketConnected_waits]
    · simp only [step, Client.GetWebSocketClient_world, Client.ensureWebSocketConnected_dispatched]
  | waitForCompletionWithWS ctx promptID timeout net =>
    obtain ⟨F, ds, hF, hds, hs⟩ := h
    refine ⟨F, ds, ?_, ?_, hs⟩
    · show (Client.WaitForCompletionWithWS ctx promptID timeout net w).1.waits[n]? = some F
      rw [Client.WaitForCompletionWithWS_waits _ _ _ _ _ _ _ hF]
      exact hF
    · show (Client.WaitForCompletionWithWS ctx promptID timeout net w).1.dispatched = base ++ ds
      rw [Client.WaitForCompletionWithWS_dispatched]
      exact hds
  | closeWebSocket closeErr =>
    refine h.sig_of_eq ?_ ?_
    · simp only [step, Client.CloseWebSocket]
      split
      · dsimp only
        rw [WSClient.Close_waits]
      · rfl
    · simp only [step, Client.CloseWebSocket]
      split
      · dsimp only
        rw [WSClient.Close_dispatched]
      · rfl
  | cancel id => exact h.sig_of_eq rfl rfl
  | loopSelect a =>
    simp only [step, WSClient.loopSelect]
    split
    · exact h
    · split
      · split <;> exact Signalled.sig_of_modifyWS _ _ h
      · exact h
  | loopRead a r =>
    simp only [step, WSClient.loopRead]
    split
    · exact h
    · rename_i ws hws
      by_cases hl : ws.loop = .inRead
      · rw [if_pos hl]
        cases r with
        | error err =>
          dsimp only
          apply Signalled.sig_of_modifyWS
          by_cases hcb : ws.onError = .nil
          · rw [if_neg (not_not.mpr hcb)]
            exact h
          · rw [if_pos hcb]
            exact h.sig_of_step (fun F hF => SignalStep.via_error n _ _ _ w F hF)
        | ok data =>
          apply Signalled.sig_of_modifyWS
          exact h.sig_of_step (fun F hF => WSClient.handleMessage_signal n ws data w F
            (((World.wellFormed_iff w).1 hw).2.1 a ws hws) hF)
      · rw [if_neg hl]
        exact h
  | followUp wait reply => exact Client.followUp_signalled wait reply h
  | deadline wait =>
    simp only [step, Client.waitDeadline]
    apply Signalled.sig_of_modifyWait _ _ h
    intro _ F ds _ hg
    exact hg
  | waitSelect wait pick => exact Client.waitSelect_signalled wait pick h

theorem run_signalled {p : String} {n : Nat} {base : List Dispatch} (events : List Event) :
    ∀ w : World, w.wellFormed = true → Signalled p n base w →
      Signalled p n base (run w events) := by
  induction events with
  | nil => intro w _ h; exact h
  | cons e rest ih =>
    intro w hw h
    simp only [run, List.foldl_cons]
    exact ih (step w e) (step_wellFormed w e hw) (step_signalled e hw h)

/-- C14 (as amended): in a state whose execution callbacks are well formed (every state
reached from a client built with handlers of the caller is), a `WaitForCompletionWithWS`
for `p` that returns at once returns a nil result with a non-nil error; and when it
blocks, whatever events follow, a value it returns is either a nil result with a non-nil
error, or a result with a nil error, and then the end signal for `p` (a call through the
execution slot with `p` and a nil node) was made after the wait began, and a follow-up
history query of this wait succeeded with an entry for `p`, which is the result.  The
converse does not hold: the timeout case of the `select` can be taken all the same. -/
theorem stream_wait_result_needs_end_signal_and_follow_up_entry
    (w : World) (ctx : Context) (p : String) (timeout : Int) (net : NetEnv)
    (events : List Event) (hw : w.wellFormed = true) :
    (∀ ret, (Client.WaitForCompletionWithWS ctx p timeout net w).2 = some ret →
      ret.1 = none ∧ ret.2 ≠ none) ∧
    ((Client.WaitForCompletionWithWS ctx p timeout net w).2 = none →
      ∀ r e, (run (Client.WaitForCompletionWithWS ctx p timeout net w).1 events).returned
          w.waits.length = some (r, e) →
        (r = none ∧ e ≠ none) ∨
        (∃ v, r = some v ∧ e = none ∧
          (∃ ds, (run (Client.WaitForCompletionWithWS ctx p timeout net w).1 events).dispatched
              = w.dispatched ++ ds ∧ Dispatch.execution p none ∈ ds) ∧
          ∃ reply h, Event.followUp w.waits.length reply ∈ events ∧
            GetHistory p reply = (some h, none) ∧ h.lookup p = some v.Item)) := by
  have hwf := Client.WaitForCompletionWithWS_wellFormed ctx p timeout net w hw
  have hdisp := Client.WaitForCompletionWithWS_dispatched ctx p timeout net w
  have hstart : (∃ e, (Client.WaitForCompletionWithWS ctx p timeout net w).2 = some (none, some e)) ∨
      ((Client.WaitForCompletionWithWS ctx p timeout net w).2 = none ∧
       ∃ F, (Client.WaitForCompletionWithWS ctx p timeout net w).1.waits[w.waits.length]? = some F ∧
        F.promptID = p ∧ F.followUpsStarted = 0 ∧ F.resultChan = Chan.make ∧ F.ret = none) := by
    have hew := Client.ensureWebSocketConnected_waits ctx net w
    unfold Client.WaitForCompletionWithWS Client.GetWebSocketClient
    dsimp only
    generalize (if timeout ≤ 0 then 5 * timeMinute else timeout) = t
    cases hens : Client.ensureWebSocketConnected ctx net w with
    | mk w1 e1 =>
      rw [hens] at hew
      dsimp only at hew
      cases e1 with
      | some e => exact Or.inl ⟨_, rfl⟩
      | none =>
        obtain ⟨a, ws, hcl, hws⟩ := Client.ensureWebSocketConnected_ok ctx net w w1 hens
        right
        simp only [hcl, true_and]
        unfold Client.waitForCompletionWithExistingWS
        rw [hws]
        dsimp only
        refine ⟨{ ctx := ctx, promptID := p, timeout := t, wsClient := a, resultChan := Chan.make,
                  errorChan := Chan.make, completed := false,
                  originalOnExecution := ws.onExecution, originalOnError := ws.onError,
                  followUpsStarted := 0, followUpsFinished := 0, deadlinePassed := false,
                  ret := none }, ?_, rfl, rfl, rfl, rfl⟩
        rw [(World.modifyWS_fields _ _ _).2.1]
        dsimp only
        rw [← hew]
        exact List.getElem?_concat_length _ _
  refine ⟨fun ret hret => ?_, fun hblocked r e hrun => ?_⟩
  · rcases hstart with ⟨e, he⟩ | ⟨hnone, _⟩
    · rw [he] at hret
      cases hret
      exact ⟨rfl, by simp⟩
    · rw [hnone] at hret
      cases hret
  · rcases hstart with ⟨e, he⟩ | ⟨_, F, hF, hFp, hFs, hFr, hFret⟩
    · rw [he] at hblocked; cases hblocked
    · have htr : ResultsTraced p w.waits.length []
          (Client.WaitForCompletionWithWS ctx p timeout net w).1 := by
        refine ⟨F, hF, hFp, ?_, ?_, ?_⟩
        · intro v hv; rw [hFr] at hv; simp [Chan.make] at hv
        · intro v hv; rw [hFr] at hv; simp [Chan.make] at hv
        · intro r e hr; rw [hFret] at hr; cases hr
      have hsig : Signalled p w.waits.length w.dispatched
          (Client.WaitForCompletionWithWS ctx p timeout net w).1 := by
        refine ⟨F, [], hF, by rw [hdisp]; simp, hFp, ?_, ?_, ?_⟩
        · intro h1; rw [hFs] at h1; cases h1
        · intro v hv
          rw [hFr, hFret] at hv
          simp [Chan.make] at hv
        · intro e he; rw [hFret] at he; cases he
      obtain ⟨G, hG, _, _, _, hgood⟩ := run_traced events [] _ htr
      obtain ⟨G', ds, hG', hds, _, hseen, hres, hnil⟩ := run_signalled events _ hwf hsig
      rw [hG] at hG'
      cases hG'
      simp only [World.returned, hG] at hrun
      cases r with
      | none => exact Or.inl ⟨rfl, hnil e hrun⟩
      | some v =>
        right
        obtain ⟨he, _, reply, h, hmem, hg, hl⟩ := hgood v e hrun
        exact ⟨v, rfl, he, ⟨ds, hds, hseen (hres v (Or.inr (Or.inr ⟨e, hrun⟩)))⟩,
          reply, h, by simpa using hmem, hg, hl⟩

/-- Witness for C14: the demo client waits for `abc123`, reads the end signal, the
follow-up succeeds and the `select` receives the result. -/
theorem stream_wait_result_needs_end_signal_and_follow_up_entry_witness :
    (run (Client.WaitForCompletionWithWS .background "abc123" 0 demoNet demoWorld).1
      [.loopRead 0 (.ok (executingDone "abc123")),
       .followUp 0 (.response 200 "" [("abc123", completedItem)]),
       .waitSelect 0 .resultChan]).returned 0
      = some (some { PromptID := "abc123", Item := completedItem }, none) ∧
    ∃ ds, (run (Client.WaitForCompletionWithWS .background "abc123" 0 demoNet demoWorld).1
      [.loopRead 0 (.ok (executingDone "abc123")),
       .followUp 0 (.response 200 "" [("abc123", completedItem)]),
       .waitSelect 0 .resultChan]).dispatched = demoWorld.dispatched ++ ds ∧
      Dispatch.execution "abc123" none ∈ ds := by
  rcases (stream_wait_result_needs_end_signal_and_follow_up_entry demoWorld .background "abc123"
    0 demoNet [.loopRead 0 (.ok (executingDone "abc123")),
       .followUp 0 (.response 200 "" [("abc123", completedItem)]),
       .waitSelect 0 .resultChan] rfl).2 rfl
    (some { PromptID := "abc123", Item := completedItem }) none rfl with ⟨h, _⟩ | ⟨v, _, _, hds, _⟩
  · cases h
  · exact ⟨rfl, hds⟩

/-- Counterexample to C14 as stated, in two traces.  In the first the end signal for
`abc123` arrived, the follow-up history query succeeded and its response has an entry for
`abc123`, which sits in the result channel; the timeout has elapsed too, and the `select`
of the wait takes the timeout case.  In the second the end signal arrived before the
timeout, the wait returned the timeout error while the follow-up goroutine was still
sleeping, and the follow-up query, made with the caller context, then succeeded with an
entry for `abc123`.  Both waits return a nil result with the timeout error. -/
theorem stream_wait_times_out_after_successful_follow_up :
    (Client.WaitForCompletionWithWS .background "abc123" timeSecond demoNet demoWorld).2 = none ∧
    GetHistory "abc123" (.response 200 "" [("abc123", completedItem)])
      = (some [("abc123", completedItem)], none) ∧
    Dispatch.execution "abc123" none ∈
      (run (Client.WaitForCompletionWithWS .background "abc123" timeSecond demoNet demoWorld).1
        lateSelect).dispatched ∧
    (run (Client.WaitForCompletionWithWS .background "abc123" timeSecond demoNet demoWorld).1
      lateSelect).historyQueries = ["abc123"] ∧
    ((run (Client.WaitForCompletionWithWS .background "abc123" timeSecond demoNet demoWorld).1
      (lateSelect.take 3)).waits.map (fun F => (F.resultChan.buffer, F.ret)))
      = [([{ PromptID := "abc123", Item := completedItem }], none)] ∧
    (run (Client.WaitForCompletionWithWS .background "abc123" timeSecond demoNet demoWorld).1
      lateSelect).returned 0 = some (none, some (.errorf "等待任务完成超时")) ∧
    Dispatch.execution "abc123" none ∈
      (run (Client.WaitForCompletionWithWS .background "abc123" timeSecond demoNet demoWorld).1
        lateFollowUp).dispatched ∧
    (run (Client.WaitForCompletionWithWS .background "abc123" timeSecond demoNet demoWorld).1
      lateFollowUp).historyQueries = ["abc123"] ∧
    ((run (Client.WaitForCompletionWithWS .background "abc123" timeSecond demoNet demoWorld).1
      lateFollowUp).waits.map (fun F => F.resultChan.buffer))
      = [[{ PromptID := "abc123", Item := completedItem }]] ∧
    (run (Client.WaitForCompletionWithWS .background "abc123" timeSecond demoNet demoWorld).1
      lateFollowUp).returned 0 = some (none, some (.errorf "等待任务完成超时")) :=
  ⟨rfl, rfl, by decide, rfl, rfl, rfl, by decide, rfl, rfl, rfl⟩

theorem reachable_wellFormed (c : Client) (events : List Event)
    (hc : c.onExecution = .nil ∨ ∃ id, c.onExecution = .user id) :
    (run (World.new c) events).wellFormed = true := by
  apply run_wellFormed
  rcases hc with hc | ⟨id, hc⟩ <;> simp [World.wellFormed, World.new, hc, ExecutionCallback.wf]

/-- C22: `Prompt` returns the `prompt_id` of the decoded response with a nil error when
the request comes back with a 2xx status and that `prompt_id` is not empty, and only
then; a transport error is returned as it is, a status outside 2xx gives the error
`/prompt failed: ` followed by the body, an empty `prompt_id` gives the error
`missing prompt_id in response`, and each of the three comes with the empty string. -/
theorem prompt_returns_id_exactly_on_success_with_prompt_id
    (c : Client) (prompt : JSON) (post : String → JSONMap → RestyResult PromptResponse) :
    (∀ status body resp, post "/prompt" (c.promptBody prompt) = .response status body resp →
      isSuccess status = true → resp.PromptID ≠ "" →
      c.Prompt prompt post = (resp.PromptID, none)) ∧
    (∀ err, post "/prompt" (c.promptBody prompt) = .failed err →
      c.Prompt prompt post = ("", some err)) ∧
    (∀ status body resp, post "/prompt" (c.promptBody prompt) = .response status body resp →
      isSuccess status = false →
      c.Prompt prompt post = ("", some (.errorf ("/prompt failed: " ++ body)))) ∧
    (∀ status body resp, post "/prompt" (c.promptBody prompt) = .response status body resp →
      isSuccess status = true → resp.PromptID = "" →
      c.Prompt prompt post = ("", some (.errorf "missing prompt_id in response"))) ∧
    ((c.Prompt prompt post).2 = none ↔
      ∃ status body resp, post "/prompt" (c.promptBody prompt) = .response status body resp ∧
        isSuccess status = true ∧ resp.PromptID ≠ "" ∧
        (c.Prompt prompt post).1 = resp.PromptID) ∧
    ((c.Prompt prompt post).2 ≠ none → (c.Prompt prompt post).1 = "") := by
  refine ⟨fun status body resp h hs hp => ?_, fun err h => ?_, fun status body resp h hs => ?_,
    fun status body resp h hs hp => ?_, ?_, ?_⟩
  · simp only [Client.Prompt, h, hs, Bool.not_true, Bool.false_eq_true, if_false, hp]
  · simp only [Client.Prompt, h]
  · simp only [Client.Prompt, h, hs, Bool.not_false, if_true]
  · simp only [Client.Prompt, h, hs, Bool.not_true, Bool.false_eq_true, if_false, hp, if_true]
  · constructor
    · intro hnone
      cases hpost : post "/prompt" (c.promptBody prompt) with
      | failed err =>
        simp only [Client.Prompt, hpost] at hnone
        cases hnone
      | response status body resp =>
        cases hs : isSuccess status with
        | false =>
          simp only [Client.Prompt, hpost, hs, Bool.not_false, if_true] at hnone
          cases hnone
        | true =>
          by_cases hp : resp.PromptID = ""
          · simp only [Client.Prompt, hpost, hs, Bool.not_true, Bool.false_eq_true, if_false, hp,
              if_true] at hnone
            cases hnone
          · refine ⟨status, body, resp, rfl, hs, hp, ?_⟩
            simp only [Client.Prompt, hpost, hs, Bool.not_true, Bool.false_eq_true, if_false, hp]
    · rintro ⟨status, body, resp, h, hs, hp, _⟩
      simp only [Client.Prompt, h, hs, Bool.not_true, Bool.false_eq_true, if_false, hp]
  · intro hne
    cases hpost : post "/prompt" (c.promptBody prompt) with
    | failed err => simp only [Client.Prompt, hpost]
    | response status body resp =>
      cases hs : isSuccess status with
      | false => simp only [Client.Prompt, hpost, hs, Bool.not_false, if_true]
      | true =>
        by_cases hp : resp.PromptID = ""
        · simp only [Client.Prompt, hpost, hs, Bool.not_true, Bool.false_eq_true, if_false, hp,
            if_true]
        · exfalso
          apply hne
          simp only [Client.Prompt, hpost, hs, Bool.not_true, Bool.false_eq_true, if_false, hp]

/-- Witness for C22: a demo client submits an empty workflow and gets the id `abc123`. -/
theorem prompt_returns_id_exactly_on_success_with_prompt_id_witness :
    (NewClient "demo" "http://127.0.0.1:8812/").Prompt (some []) acceptingPost = ("abc123", none) :=
  (prompt_returns_id_exactly_on_success_with_prompt_id (NewClient "demo" "http://127.0.0.1:8812/")
    (some []) acceptingPost).1 200 "" { PromptID := "abc123", Number := 1, NodeErrors := none }
    rfl rfl (by decide)

/-- C28: with `pollEvery` zero or negative `WaitForCompletion` runs exactly as with one
second; the period of its ticker is positive in every case, and a positive `pollEvery`
is the period. -/
theorem poll_period_defaults_to_one_second
    (promptID : String) (pollEvery : Int) (events : List PollEvent) :
    (pollEvery ≤ 0 → WaitForCompletion promptID pollEvery events =
      WaitForCompletion promptID timeSecond events) ∧
    (pollEvery ≤ 0 → (WaitForCompletion promptID pollEvery events).period = 1000000000) ∧
    0 < (WaitForCompletion promptID pollEvery events).period ∧
    (0 < pollEvery → (WaitForCompletion promptID pollEvery events).period = pollEvery) := by
  refine ⟨fun h => ?_, fun h => ?_, ?_, fun h => ?_⟩
  · simp only [WaitForCompletion, h, if_true, timeSecond]
    rfl
  · simp only [WaitForCompletion, h, if_true, timeSecond]
  · simp only [WaitForCompletion, timeSecond]
    split <;> omega
  · simp only [WaitForCompletion]
    rw [if_neg (by omega)]

/-- Witness for C28: a period of zero and a period of minus five nanoseconds give the
run of one second. -/
theorem poll_period_defaults_to_one_second_witness :
    WaitForCompletion "abc123" 0 [.tick (.response 200 "" [("abc123", completedItem)])] =
      WaitForCompletion "abc123" timeSecond [.tick (.response 200 "" [("abc123", completedItem)])] ∧
    (WaitForCompletion "abc123" (-5) []).period = 1000000000 :=
  ⟨(poll_period_defaults_to_one_second "abc123" 0
      [.tick (.response 200 "" [("abc123", completedItem)])]).1 (by decide),
   (poll_period_defaults_to_one_second "abc123" (-5) []).2.1 (by decide)⟩

theorem pollLoop_append (promptID : String) (before rest : List PollEvent) :
    ∀ queries q', pollLoop promptID before queries = (q', none) →
      pollLoop promptID (before ++ rest) queries = pollLoop promptID rest q' := by
  induction before with
  | nil =>
    intro queries q' h
    simp only [pollLoop, Prod.mk.injEq, and_true] at h
    rw [← h]
    rfl
  | cons ev tail ih =>
    intro queries q' h
    cases ev with
    | done e => simp [pollLoop] at h
    | tick reply =>
      simp only [List.cons_append, pollLoop] at h ⊢
      split at h
      · simp at h
      · split at h
        · split at h
          · simp at h
          · rename_i hc1
            split at h
            · simp at h
            · rename_i hc2
              rw [if_neg hc1, if_neg hc2]
              exact ih _ _ h
        · exact ih _ _ h

/-- C23: while `WaitForCompletion` is still blocked after the events `before`, a tick
whose history query fails makes it return at once a nil result with the error of the
query (the transport error itself, or `GET /history/<id> failed: ` and the body for a
status outside 2xx); that query is its last one, whatever would have followed. -/
theorem poll_returns_first_history_error_without_further_query
    (promptID : String) (pollEvery : Int) (before rest : List PollEvent)
    (reply : RestyResult HistoryResponse) (out : Option HistoryResponse) (err : GoError)
    (hbefore : (WaitForCompletion promptID pollEvery before).ret = none)
    (hfail : GetHistory promptID reply = (out, some err)) :
    (WaitForCompletion promptID pollEvery (before ++ .tick reply :: rest)).ret
      = some (none, some err) ∧
    (WaitForCompletion promptID pollEvery (before ++ .tick reply :: rest)).queries
      = (WaitForCompletion promptID pollEvery before).queries ++ [promptID] ∧
    (∀ e, reply = .failed e → err = e) ∧
    (∀ status body h, reply = .response status body h →
      isSuccess status = false ∧
      err = .errorf ("GET " ++ ("/history/" ++ promptID) ++ " failed: " ++ body)) := by
  have hb : pollLoop promptID before [] = ((pollLoop promptID before []).1, none) := by
    simp only [WaitForCompletion] at hbefore
    rw [← hbefore]
  have happ := pollLoop_append promptID before (.tick reply :: rest) [] _ hb
  have hstep : pollLoop promptID (.tick reply :: rest) (pollLoop promptID before []).1 =
      ((pollLoop promptID before []).1 ++ [promptID], some (none, some err)) := by
    simp only [pollLoop, hfail]
  refine ⟨?_, ?_, fun e he => ?_, fun status body h he => ?_⟩
  · simp only [WaitForCompletion, happ, hstep]
  · simp only [WaitForCompletion, happ, hstep]
  · rw [he] at hfail
    simp only [GetHistory, Prod.mk.injEq, Option.some.injEq] at hfail
    exact hfail.2.symm
  · rw [he] at hfail
    simp only [GetHistory] at hfail
    cases hs : isSuccess status with
    | true => simp [hs] at hfail
    | false =>
      simp only [hs, Bool.not_false, if_true, Prod.mk.injEq, Option.some.injEq] at hfail
      exact ⟨rfl, hfail.2.symm⟩

/-- Witness for C23: the second query fails with status 500 and the third tick, which
would end the wait, is never queried. -/
theorem poll_returns_first_history_error_without_further_query_witness :
    (WaitForCompletion "abc123" timeSecond
      [.tick (.response 200 "" [("abc123", pendingItem)]),
       .tick (.response 500 "boom" []),
       .tick (.response 200 "" [("abc123", completedItem)])]).ret
      = some (none, some (.errorf "GET /history/abc123 failed: boom")) ∧
    (WaitForCompletion "abc123" timeSecond
      [.tick (.response 200 "" [("abc123", pendingItem)]),
       .tick (.response 500 "boom" []),
       .tick (.response 200 "" [("abc123", completedItem)])]).queries = ["abc123", "abc123"] := by
  have h := poll_returns_first_history_error_without_further_query "abc123" timeSecond
    [.tick (.response 200 "" [("abc123", pendingItem)])]
    [.tick (.response 200 "" [("abc123", completedItem)])]
    (.response 500 "boom" []) none (.errorf "GET /history/abc123 failed: boom") rfl rfl
  exact ⟨h.1, h.2.1⟩

theorem OptionCall.option_wsEnabled (o : OptionCall) (c : Client) :
    (o.option c).wsEnabled = (o.wsSetting).getD c.wsEnabled := by
  cases o <;> try rfl
  case withWebSocketCallbacks config =>
    simp only [OptionCall.option, WithWebSocketCallbacks, OptionCall.wsSetting, Option.getD_none]
    split_ifs <;> rfl

theorem foldl_options_wsEnabled (opts : List OptionCall) :
    ∀ c : Client, ((opts.map OptionCall.option).foldl (fun c o => o c) c).wsEnabled =
      ((opts.filterMap OptionCall.wsSetting).getLast?).getD c.wsEnabled := by
  induction opts with
  | nil => intro c; rfl
  | cons o rest ih =>
    intro c
    simp only [List.map_cons, List.foldl_cons]
    rw [ih (o.option c), OptionCall.option_wsEnabled]
    cases hs : o.wsSetting with
    | none => simp [List.filterMap_cons, hs]
    | some b =>
      simp only [List.filterMap_cons, hs, Option.getD_some]
      cases hl : (List.filterMap OptionCall.wsSetting rest).getLast? with
      | none =>
        rw [List.getLast?_eq_none_iff] at hl
        simp [hl]
      | some x =>
        have : (b :: List.filterMap OptionCall.wsSetting rest).getLast? = some x := by
          cases hr : List.filterMap OptionCall.wsSetting rest with
          | nil => rw [hr] at hl; cases hl
          | cons y ys => rw [hr] at hl; rw [List.getLast?_cons_cons]; exact hl
        rw [this]
        rfl

/-- C24: a client built by `NewClient` has streaming enabled; and for every list of
options built by the constructors of `options.go`, the client built by
`NewClientWithOptions` has streaming enabled or not as the last `WithWebSocketEnabled` or
`WithoutWebSocket` option of the list says, and enabled when the list has neither. -/
theorem websocket_enabled_follows_last_option (clientID baseURL : String)
    (opts : List OptionCall) :
    Client.IsWebSocketEnabled (World.new (NewClient clientID baseURL)) = true ∧
    Client.IsWebSocketEnabled
      (World.new (NewClientWithOptions clientID baseURL (opts.map OptionCall.option)))
      = lastWebSocketSetting opts := by
  refine ⟨rfl, ?_⟩
  simp only [Client.IsWebSocketEnabled, World.new, NewClientWithOptions]
  rw [foldl_options_wsEnabled]
  rfl

/-- Witness for C24: the later of two streaming options wins, whatever stands between
them. -/
theorem websocket_enabled_follows_last_option_witness :
    Client.IsWebSocketEnabled (World.new (NewClientWithOptions "demo" "http://127.0.0.1:8812/"
      ([OptionCall.withoutWebSocket, .withClientID "other", .withWebSocketEnabled true].map
        OptionCall.option))) = true ∧
    Client.IsWebSocketEnabled (World.new (NewClientWithOptions "demo" "http://127.0.0.1:8812/"
      ([OptionCall.withWebSocketEnabled true, .withDebug true, .withoutWebSocket].map
        OptionCall.option))) = false :=
  ⟨(websocket_enabled_follows_last_option "demo" "http://127.0.0.1:8812/"
      [.withoutWebSocket, .withClientID "other", .withWebSocketEnabled true]).2,
   (websocket_enabled_follows_last_option "demo" "http://127.0.0.1:8812/"
      [.withWebSocketEnabled true, .withDebug true, .withoutWebSocket]).2⟩

/-- C27 (as amended): for every frame whose envelope decodes (`json.Unmarshal` into
`WSMessage` returns nil) with the type `execution_interrupted`, read by a stream client
with an error handler: when the data has a member `prompt_id` that is a
string, exactly one call goes through the error slot, with that prompt id and the error
`任务执行被中断`, and a caller callback found there receives the same two arguments; when
the data has no member `prompt_id` or it is not a string, the whole state stays as it
was, so no handler is called. -/
theorem interrupted_frame_reports_exactly_with_string_prompt_id
    (ws : WSClient) (data : FrameBytes) (msg : WSMessage) (w : World)
    (hdec : unmarshalWSMessage data = (msg, none))
    (htype : msg.Type_ = "execution_interrupted") (hcb : ws.onError ≠ .nil) :
    (∀ p, msg.Data.get "prompt_id" = some (.string p) →
      ws.handleMessage data w =
        ws.onError.invoke p (.errorf "任务执行被中断") (w.note (.error p (.errorf "任务执行被中断"))) ∧
      (ws.handleMessage data w).dispatched =
        w.dispatched ++ [.error p (.errorf "任务执行被中断")] ∧
      (∀ id, ws.onError = .user id →
        (ws.handleMessage data w).calls = w.calls ++ [.error id p (.errorf "任务执行被中断")])) ∧
    ((∀ p, msg.Data.get "prompt_id" ≠ some (.string p)) → ws.handleMessage data w = w) := by
  have hh : ws.handleMessage data w = ws.handleExecutionInterruptedMessage msg.Data w := by
    unfold WSClient.handleMessage
    rw [hdec]
    dsimp only
    rw [htype]
    have h1 : ¬ ("execution_interrupted" = "status") := by decide
    have h2 : ¬ ("execution_interrupted" = "execution_start") := by decide
    have h3 : ¬ ("execution_interrupted" = "executing") := by decide
    have h4 : ¬ ("execution_interrupted" = "progress") := by decide
    have h5 : ¬ ("execution_interrupted" = "execution_error") := by decide
    simp only [h1, h2, h3, h4, h5, if_false, if_true]
  refine ⟨fun p hp => ?_, fun hno => ?_⟩
  · have hinv : ws.handleMessage data w =
        ws.onError.invoke p (.errorf "任务执行被中断") (w.note (.error p (.errorf "任务执行被中断"))) := by
      rw [hh]
      unfold WSClient.handleExecutionInterruptedMessage
      rw [if_neg hcb, hp]
    refine ⟨hinv, ?_, fun id hid => ?_⟩
    · rw [hinv, ErrorCallback.error_invoke_dispatched]
      rfl
    · rw [hinv, hid]
      rfl
  · rw [hh]
    unfold WSClient.handleExecutionInterruptedMessage
    rw [if_neg hcb]
    split
    · rename_i p hp
      exact absurd hp (hno p)
    · rfl

/-- Witness for C27: the demo client reads an interruption for `abc123`, one with a
numeric prompt id and one without prompt id; only the first reaches the error handler. -/
theorem interrupted_frame_reports_exactly_with_string_prompt_id_witness :
    (demoStream.handleMessage
      (interruptedFrame (.object [("prompt_id", .string "abc123")])) demoWorld).calls
      = [.error 2 "abc123" (.errorf "任务执行被中断")] ∧
    demoStream.handleMessage
      (interruptedFrame (.object [("prompt_id", .number (.int 7))])) demoWorld = demoWorld ∧
    demoStream.handleMessage (interruptedFrame (.object [])) demoWorld = demoWorld :=
  ⟨((interrupted_frame_reports_exactly_with_string_prompt_id demoStream
      (interruptedFrame (.object [("prompt_id", .string "abc123")]))
      { Type_ := "execution_interrupted", Data := some [("prompt_id", .string "abc123")] }
      demoWorld rfl rfl (by decide)).1 "abc123" rfl).2.2 2 rfl,
   (interrupted_frame_reports_exactly_with_string_prompt_id demoStream
      (interruptedFrame (.object [("prompt_id", .number (.int 7))]))
      { Type_ := "execution_interrupted",
        Data := some [("prompt_id", .number (.float false 7881299347898368 (-50)))] }
      demoWorld rfl rfl (by decide)).2 (by intro p h; cases h),
   (interrupted_frame_reports_exactly_with_string_prompt_id demoStream
      (interruptedFrame (.object []))
      { Type_ := "execution_interrupted", Data := some [] }
      demoWorld rfl rfl (by decide)).2 (by intro p h; cases h)⟩

theorem Client.WaitForCompletionWithWS_blocks (w : World) (a : Nat) (ws : WSClient)
    (ctx : Context) (p : String) (timeout : Int) (net : NetEnv)
    (hen : w.client.wsEnabled = true) (hcl : w.client.wsClient = some a)
    (hws : w.heap[a]? = some ws) (hconn : ws.IsConnected = true) :
    Client.WaitForCompletionWithWS ctx p timeout net w =
      (Client.waitForCompletionWithExistingWS ctx p
        (if timeout ≤ 0 then 5 * timeMinute else timeout) a w, none) := by
  have hc : Client.IsWebSocketConnected w = true := by
    simp [Client.IsWebSocketConnected, hcl, hws, hconn]
  simp [Client.WaitForCompletionWithWS, Client.GetWebSocketClient,
    Client.ensureWebSocketConnected_connected ctx net w hen hc, hcl]

theorem Client.waitForCompletionWithExistingWS_fresh (ctx : Context) (p : String) (t : Int)
    (a : Nat) (w : World) (ws : WSClient) (hws : w.heap[a]? = some ws) :
    (Client.waitForCompletionWithExistingWS ctx p t a w).waits[w.waits.length]? =
      some { ctx := ctx, promptID := p, timeout := t, wsClient := a, resultChan := Chan.make,
             errorChan := Chan.make, completed := false, originalOnExecution := ws.onExecution,
             originalOnError := ws.onError, followUpsStarted := 0, followUpsFinished := 0,
             deadlinePassed := false, ret := none } ∧
    (Client.waitForCompletionWithExistingWS ctx p t a w).heap[a]? =
      some { ws with onExecution := .waitWrapper ws.onExecution p w.waits.length,
                     onError := .waitWrapper ws.onError p w.waits.length } ∧
    (Client.waitForCompletionWithExistingWS ctx p t a w).dispatched = w.dispatched ∧
    (Client.waitForCompletionWithExistingWS ctx p t a w).calls = w.calls ∧
    (Client.waitForCompletionWithExistingWS ctx p t a w).historyQueries = w.historyQueries := by
  unfold Client.waitForCompletionWithExistingWS
  rw [hws]
  dsimp only
  refine ⟨?_, ?_, ?_, ?_, ?_⟩
  · rw [(World.modifyWS_fields _ a _).2.1]
    exact List.getElem?_concat_length _ _
  · rw [World.heap_modifyWS]
    simp only [if_true, hws, Option.map_some']
  · rw [(World.modifyWS_fields _ a _).2.2.2.1]
  · rw [(World.modifyWS_fields _ a _).2.2.2.2.1]
  · rw [(World.modifyWS_fields _ a _).2.2.2.2.2.2.1]

theorem unmarshalWSMessage_executionStart (p : String) :
    unmarshalWSMessage (executionStartFrame p) =
      ({ Type_ := "execution_start",
         Data := some [("prompt_id", .string p),
           ("timestamp", .number (.float false 6963200000000000 (-12)))] },
       none) := rfl

theorem WSClient.handleMessage_executionStart (ws : WSClient) (p : String) (w : World) :
    ws.handleMessage (executionStartFrame p) w = ws.handleMessage (executingDone p) w := by
  by_cases hcb : ws.onExecution = .nil
  · unfold WSClient.handleMessage
    rw [unmarshalWSMessage_executionStart, unmarshalWSMessage_executingDone]
    have h1 : ¬ ("execution_start" = "status") := by decide
    have h2 : ¬ ("executing" = "status") := by decide
    have h3 : ¬ ("executing" = "execution_start") := by decide
    simp only [h1, h2, h3, if_false, if_true]
    unfold WSClient.handleExecutionStartMessage WSClient.handleExecutingMessage
    rw [if_pos hcb, if_pos hcb]
  · rw [WSClient.handleMessage_executingDone ws p w hcb]
    unfold WSClient.handleMessage
    rw [unmarshalWSMessage_executionStart]
    have h1 : ¬ ("execution_start" = "status") := by decide
    simp only [h1, if_false, if_true]
    unfold WSClient.handleExecutionStartMessage
    rw [if_neg hcb]
    rfl

/-- C29: a frame of type `execution_start` with prompt id `p` is handled exactly as the
frame of type `executing` with a null node and prompt id `p`: with an execution handler
installed, one call goes through the execution slot with `p` and a nil node.  So when a
`WaitForCompletionWithWS` for `p` is blocked and the receive loop reads the
`execution_start` frame of `p`, the wait has its flag `completed` set and its follow-up
started, the call `(p, nil)` being the only one made since the wait began. -/
theorem execution_start_frame_starts_follow_up
    (w : World) (a : Nat) (ws : WSClient) (ctx : Context) (p : String) (timeout : Int)
    (net : NetEnv)
    (hen : w.client.wsEnabled = true) (hcl : w.client.wsClient = some a)
    (hws : w.heap[a]? = some ws) (hconn : ws.IsConnected = true) (hloop : ws.loop = .inRead)
    (horig : ws.onExecution = .nil ∨ ∃ id, ws.onExecution = .user id) :
    (∀ (ws' : WSClient) (v : World),
      ws'.handleMessage (executionStartFrame p) v = ws'.handleMessage (executingDone p) v) ∧
    (∀ (ws' : WSClient) (v : World), ws'.onExecution ≠ .nil →
      ws'.handleMessage (executionStartFrame p) v =
        ws'.onExecution.invoke p none (v.note (.execution p none))) ∧
    (Client.WaitForCompletionWithWS ctx p timeout net w).2 = none ∧
    (∃ F, (run (Client.WaitForCompletionWithWS ctx p timeout net w).1
        [.loopRead a (.ok (executionStartFrame p))]).waits[w.waits.length]? = some F ∧
      F.completed = true ∧ F.followUpsStarted = 1) ∧
    (run (Client.WaitForCompletionWithWS ctx p timeout net w).1
      [.loopRead a (.ok (executionStartFrame p))]).dispatched
      = w.dispatched ++ [.execution p none] := by
  refine ⟨fun ws' v => WSClient.handleMessage_executionStart ws' p v, fun ws' v hcb => ?_, ?_⟩
  · rw [WSClient.handleMessage_executionStart, WSClient.handleMessage_executingDone ws' p v hcb]
  · rw [Client.WaitForCompletionWithWS_blocks w a ws ctx p timeout net hen hcl hws hconn]
    generalize (if timeout ≤ 0 then 5 * timeMinute else timeout) = t
    refine ⟨rfl, ?_⟩
    dsimp only
    obtain ⟨hF, hws1, hd1, _, _⟩ :=
      Client.waitForCompletionWithExistingWS_fresh ctx p t a w ws hws
    generalize Client.waitForCompletionWithExistingWS ctx p t a w = w1 at hF hws1 hd1 ⊢
    have hstep : run w1 [.loopRead a (.ok (executionStartFrame p))] =
        WSClient.loopRead a (.ok (executingDone p)) w1 := by
      simp only [run, List.foldl_cons, List.foldl_nil, step, WSClient.loopRead, hws1,
        WSClient.handleMessage_executionStart]
    rw [hstep]
    obtain ⟨hF2, _, _⟩ := WSClient.loopRead_executingDone a w.waits.length p w1 _ ws.onExecution _
      hws1 hloop rfl horig hF rfl
    refine ⟨⟨_, hF2, rfl, rfl⟩, ?_⟩
    unfold WSClient.loopRead
    rw [hws1]
    simp only [hloop, if_true]
    rw [(World.modifyWS_fields _ _ _).2.2.2.1,
      WSClient.handleMessage_executingDone _ p w1 (by simp),
      ExecutionCallback.execution_invoke_dispatched]
    simp only [World.note, hd1]

/-- Witness for C29: the demo client waits for `abc123` and reads the `execution_start`
frame of `abc123`, then a successful follow-up reply; the wait returns a record that is
still pending. -/
theorem execution_start_frame_starts_follow_up_witness :
    (∃ F, (run (Client.WaitForCompletionWithWS .background "abc123" 0 demoNet demoWorld).1
        [.loopRead 0 (.ok (executionStartFrame "abc123"))]).waits[demoWorld.waits.length]? = some F ∧
      F.completed = true ∧ F.followUpsStarted = 1) ∧
    (run (Client.WaitForCompletionWithWS .background "abc123" 0 demoNet demoWorld).1
      [.loopRead 0 (.ok (executionStartFrame "abc123")),
       .followUp 0 (.response 200 "" [("abc123", pendingItem)]),
       .waitSelect 0 .resultChan]).returned 0
      = some (some { PromptID := "abc123", Item := pendingItem }, none) :=
  ⟨(execution_start_frame_starts_follow_up demoWorld 0 demoStream .background "abc123" 0 demoNet
      rfl rfl rfl rfl rfl (Or.inr ⟨1, rfl⟩)).2.2.2.1, rfl⟩

theorem decodeMembers_executing (entries : JSONMap) :
    ∀ cur : WSExecutingMessage, (∀ kv ∈ entries, ExecutingMember kv) →
      (entries.map Prod.fst).Nodup →
      decodeMembers WSExecutingMessage.setField cur entries =
        ({ Node := match entries.lookup "node" with
                   | some (.string s) => some s
                   | some _ => none
                   | none => cur.Node,
           PromptID := match entries.lookup "prompt_id" with
                       | some (.string p) => p
                       | _ => cur.PromptID }, none) := by
  induction entries with
  | nil => intro cur _ _; rfl
  | cons kv rest ih =>
    intro cur hmem hnodup
    obtain ⟨k, v⟩ := kv
    have hrest : ∀ kv ∈ rest, ExecutingMember kv := fun kv h => hmem kv (List.mem_cons_of_mem _ h)
    simp only [List.map_cons, List.nodup_cons] at hnodup
    obtain ⟨hk, hnd⟩ := hnodup
    have hnone : List.lookup k rest = none := by
      rw [List.lookup_eq_none_iff]
      intro kv' hkv'
      rw [bne_iff_ne]
      intro heq
      apply hk
      rw [heq]
      exact List.mem_map_of_mem Prod.fst hkv'
    have hstep : ∀ cur' : WSExecutingMessage, WSExecutingMessage.setField cur k v = (cur', none) →
        decodeMembers WSExecutingMessage.setField cur ((k, v) :: rest) =
          decodeMembers WSExecutingMessage.setField cur' rest := by
      intro cur' h
      simp only [decodeMembers, List.foldl_cons, h, saveError]
    have hn1 : matchesField "node" "node" = true := by decide
    have hn2 : matchesField "prompt_id" "node" = false := by decide
    have hn3 : matchesField "prompt_id" "prompt_id" = true := by decide
    rcases hmem (k, v) (List.mem_cons_self _ _) with ⟨hkn, hv⟩ | ⟨hkp, hv⟩ | ⟨hk1, hk2⟩
    · dsimp only at hkn hv
      subst hkn
      have hpn : ("prompt_id" == "node") = false := by decide
      rcases hv with hv | ⟨s, hv⟩
      · subst hv
        rw [hstep { cur with Node := none } (by
          simp only [WSExecutingMessage.setField, hn1, if_true, decodeStringPtr]), ih _ hrest hnd]
        simp only [List.lookup_cons, beq_self_eq_true, hnone, hpn]
      · subst hv
        rw [hstep { cur with Node := some s } (by
          simp only [WSExecutingMessage.setField, hn1, if_true, decodeStringPtr]), ih _ hrest hnd]
        simp only [List.lookup_cons, beq_self_eq_true, hnone, hpn]
    · dsimp only at hkp hv
      subst hkp
      have hnp : ("node" == "prompt_id") = false := by decide
      rcases hv with hv | ⟨s, hv⟩
      · subst hv
        rw [hstep cur (by
          simp only [WSExecutingMessage.setField, hn2, hn3, Bool.false_eq_true, if_false, if_true,
            decodeString]), ih _ hrest hnd]
        simp only [List.lookup_cons, beq_self_eq_true, hnone, hnp]
      · subst hv
        rw [hstep { cur with PromptID := s } (by
          simp only [WSExecutingMessage.setField, hn2, hn3, Bool.false_eq_true, if_false, if_true,
            decodeString]), ih _ hrest hnd]
        simp only [List.lookup_cons, beq_self_eq_true, hnone, hnp]
    · dsimp only at hk1 hk2
      have hkn : ("node" == k) = false := by
        rw [beq_eq_false_iff_ne]
        intro h
        rw [← h, hn1] at hk1
        cases hk1
      have hkp : ("prompt_id" == k) = false := by
        rw [beq_eq_false_iff_ne]
        intro h
        rw [← h, hn3] at hk2
        cases hk2
      rw [hstep cur (by
        simp only [WSExecutingMessage.setField, hk1, hk2, Bool.false_eq_true, if_false]),
        ih _ hrest hnd]
      simp only [List.lookup_cons, hkn, hkp]

theorem List.mem_of_lookup_some {β : Type} (k : String) (v : β) :
    ∀ l : List (String × β), l.lookup k = some v → (k, v) ∈ l := by
  intro l
  induction l with
  | nil => intro h; cases h
  | cons kv rest ih =>
    intro h
    obtain ⟨k', v'⟩ := kv
    rw [List.lookup_cons] at h
    cases hb : (k == k') with
    | true =>
      rw [hb] at h
      simp only [Option.some.injEq] at h
      rw [beq_iff_eq] at hb
      rw [hb, h]
      exact List.mem_cons_self _ _
    | false =>
      rw [hb] at h
      exact List.mem_cons_of_mem _ (ih h)

theorem unmarshal_executing (data : JSON)
    (hmem : ∀ kv ∈ data.getD [], ExecutingMember kv)
    (hnodup : ((data.getD []).map Prod.fst).Nodup) :
    unmarshalStruct "Go value of type comfyui2go.WSExecutingMessage" WSExecutingMessage.setField
      { Node := none, PromptID := "" } (jsonMarshal data).1 =
      ({ Node := frameNode (data.getD []), PromptID := framePromptID (data.getD []) }, none) := by
  cases data with
  | none => rfl
  | some entries =>
    simp only [Option.getD_some] at hmem hnodup ⊢
    simp only [jsonMarshal, unmarshalStruct]
    rw [decodeMembers_executing entries _ hmem hnodup]
    simp only [frameNode, framePromptID, Prod.mk.injEq, and_true, WSExecutingMessage.mk.injEq]
    cases h : List.lookup "node" entries with
    | none => rfl
    | some v => cases v <;> rfl

theorem trimSuffix_slash_append (s : String) : trimSuffix (s ++ "/") "/" = s := by
  unfold trimSuffix
  have h1 : (s ++ "/").toList = s.toList ++ ['/'] := by
    simp [String.toList, String.data_append]
  have h2 : ("/" : String).toList = ['/'] := rfl
  rw [h1, h2]
  have h3 : List.isSuffixOf ['/'] (s.toList ++ ['/']) = true := by
    rw [List.isSuffixOf_iff_suffix]
    exact List.suffix_append _ _
  rw [if_pos h3]
  simp

theorem trimSuffix_slash_none (s : String) (h : s.toList.getLast? ≠ some '/') :
    trimSuffix s "/" = s := by
  unfold trimSuffix
  have h2 : ("/" : String).toList = ['/'] := rfl
  rw [h2]
  have h3 : ¬ (List.isSuffixOf ['/'] s.toList = true) := by
    rw [List.isSuffixOf_iff_suffix]
    rintro ⟨t, ht⟩
    apply h
    rw [← ht]
    simp
  rw [if_neg h3]

theorem startsWith_append (p t : String) : startsWith (p ++ t) p = true := by
  unfold startsWith
  have h1 : (p ++ t).toList = p.toList ++ t.toList := by
    simp [String.toList, String.data_append]
  rw [h1, List.isPrefixOf_iff_prefix]
  exact List.prefix_append _ _

theorem replaceLeading_append (p t new : String) : replaceLeading (p ++ t) p new = new ++ t := by
  unfold replaceLeading
  have h1 : (p ++ t).toList = p.toList ++ t.toList := by
    simp [String.toList, String.data_append]
  rw [h1, List.drop_left]
  rfl

theorem startsWith_https_http (t : String) : startsWith ("https://" ++ t) "http://" = false := by
  unfold startsWith
  have h1 : ("https://" ++ t).toList = 'h' :: 't' :: 't' :: 'p' :: 's' :: ':' :: '/' :: '/' :: t.toList := by
    simp [String.toList, String.data_append]
  have h2 : ("http://" : String).toList = ['h', 't', 't', 'p', ':', '/', '/'] := rfl
  rw [h1, h2]
  simp [List.isPrefixOf]

theorem Chan.send_queued {α : Type} (ch : Chan α) (v : α) :
    (ch.send v).buffer.length + (ch.send v).blocked.length =
      ch.buffer.length + ch.blocked.length + 1 := by
  unfold Chan.send
  split
  · simp only [List.length_append, List.length_singleton]; omega
  · simp only [List.length_append, List.length_singleton]; omega

theorem Chan.send_empty {α : Type} (ch : Chan α) (v : α) (hb : ch.buffer = [])
    (hl : ch.blocked = []) : (ch.send v).blocked = [] := by
  unfold Chan.send
  rw [hb]
  simp only [List.length_nil, Nat.lt_one_iff, if_true]
  exact hl

theorem Chan.recv_queued {α : Type} (ch ch' : Chan α) (v : α) (h : ch.recv = some (v, ch')) :
    ch'.buffer.length + ch'.blocked.length + 1 = ch.buffer.length + ch.blocked.length ∧
    (ch.blocked = [] → ch'.blocked = []) := by
  unfold Chan.recv at h
  cases hb : ch.buffer with
  | nil => rw [hb] at h; cases h
  | cons y rest =>
    rw [hb] at h
    simp only [Option.some.injEq, Prod.mk.injEq] at h
    obtain ⟨_, rfl⟩ := h
    constructor
    · simp only [List.length_append, List.length_take, List.length_drop, List.length_cons]
      omega
    · intro hl
      simp only [hl, List.drop_nil]

theorem Spends.spends_refl (F : WaitFrame) : Spends F F := by
  intro h
  exact ⟨h, by omega⟩

theorem Spends.spends_trans {F G H : WaitFrame} (h1 : Spends F G) (h2 : Spends G H) :
    Spends F H := by
  intro hF
  obtain ⟨hG, a1⟩ := h1 hF
  obtain ⟨hH, a2⟩ := h2 hG
  exact ⟨hH, by omega⟩

theorem Spends.of_fields {F G : WaitFrame} (hr : G.resultChan = F.resultChan)
    (he : G.errorChan = F.errorChan) (hc : G.completed = F.completed)
    (hs : G.followUpsStarted = F.followUpsStarted)
    (hf : G.followUpsFinished = F.followUpsFinished) : Spends F G := by
  intro hF
  have hq : G.queued = F.queued := by simp only [WaitFrame.queued, hr, he]
  have hp : G.pending = F.pending := by simp only [WaitFrame.pending, hc, hs, hf]
  unfold Budget at hF ⊢
  rw [hq, hp, hr, he, hs, hf, hc]
  exact ⟨hF, by omega⟩

theorem ActsOnce.spends {F G : WaitFrame} (h : ActsOnce F G) : Spends F G := by
  rcases h with h | ⟨hc, h | ⟨e, h⟩⟩
  · rw [h]; exact Spends.spends_refl F
  · intro hF
    obtain ⟨hq, hrb, heb, hfs, hzero⟩ := hF
    have hs0 := hzero hc
    have hpF : F.pending = 1 := by simp only [WaitFrame.pending, hc, Bool.false_eq_true, if_false]
    have hqG : G.queued = F.queued := by rw [h]; rfl
    have hpG : G.pending = 1 := by
      rw [h]
      simp only [WaitFrame.pending, if_true]
      omega
    refine ⟨⟨by omega, by rw [h]; exact hrb, by rw [h]; exact heb, ?_, ?_⟩, by omega⟩
    · rw [h]; dsimp only; omega
    · rw [h]; intro hcontra; cases hcontra
  · intro hF
    obtain ⟨hq, hrb, heb, hfs, hzero⟩ := hF
    have hs0 := hzero hc
    have hpF : F.pending = 1 := by simp only [WaitFrame.pending, hc, Bool.false_eq_true, if_false]
    have hqF : F.queued = 0 := by omega
    have hqG : G.queued = F.queued + 1 := by
      rw [h]
      simp only [WaitFrame.queued]
      have := Chan.send_queued F.errorChan e
      omega
    have hpG : G.pending = 0 := by
      rw [h]
      simp only [WaitFrame.pending, if_true]
      omega
    have hbuf : F.errorChan.buffer = [] := by
      simp only [WaitFrame.queued] at hqF
      exact List.length_eq_zero.mp (by omega)
    refine ⟨⟨by omega, by rw [h]; exact hrb, ?_, ?_, ?_⟩, by omega⟩
    · rw [h]; exact Chan.send_empty _ _ hbuf heb
    · rw [h]; exact hfs
    · rw [h]; intro hcontra; cases hcontra

theorem World.modifyWait_twice (w : World) (i : Nat) (f g : WaitFrame → WaitFrame) :
    (w.modifyWait i f).modifyWait i g = w.modifyWait i (g ∘ f) := by
  unfold World.modifyWait
  cases h : w.waits[i]? with
  | none => simp only [h]
  | some F =>
    have hlt : i < w.waits.length := by
      by_contra hge
      rw [List.getElem?_eq_none (by omega)] at h
      cases h
    simp only [List.getElem?_set_self hlt, List.set_set, Function.comp]

theorem Thrifty.thrifty_refl (n : Nat) (w : World) : Thrifty n w w :=
  fun F hF => ⟨F, hF, Spends.spends_refl F⟩

theorem Thrifty.thrifty_trans {n : Nat} {w1 w2 w3 : World} (h1 : Thrifty n w1 w2)
    (h2 : Thrifty n w2 w3) : Thrifty n w1 w3 := by
  intro F hF
  obtain ⟨G, hG, hFG⟩ := h1 F hF
  obtain ⟨H, hH, hGH⟩ := h2 G hG
  exact ⟨H, hH, hFG.spends_trans hGH⟩

theorem Thrifty.of_frame_eq {n : Nat} {w w' : World} (h : w'.waits[n]? = w.waits[n]?) :
    Thrifty n w w' := by
  intro F hF
  exact ⟨F, by rw [h]; exact hF, Spends.spends_refl F⟩

theorem Thrifty.thrifty_of_modifyWS {n : Nat} {w0 w : World} (a : Nat) (f : WSClient → WSClient)
    (h : Thrifty n w0 w) : Thrifty n w0 (w.modifyWS a f) :=
  h.thrifty_trans (Thrifty.of_frame_eq (by rw [(World.modifyWS_fields w a f).2.1]))

theorem Thrifty.thrifty_of_modifyWait {n : Nat} {w0 w : World} (j : Nat)
    (f : WaitFrame → WaitFrame) (h : Thrifty n w0 w)
    (hf : ∀ F, w.waits[j]? = some F → Spends F (f F)) : Thrifty n w0 (w.modifyWait j f) := by
  refine h.thrifty_trans ?_
  intro F hF
  rw [World.waits_modifyWait]
  by_cases hj : j = n
  · rw [if_pos hj, hF]
    exact ⟨f F, rfl, hf F (by rw [hj]; exact hF)⟩
  · rw [if_neg hj]
    exact ⟨F, hF, Spends.spends_refl F⟩

theorem WaitActs.thrifty {n : Nat} {w w' : World} (h : WaitActs n w w') : Thrifty n w w' := by
  intro F hF
  obtain ⟨G, hG, hact⟩ := h F hF
  exact ⟨G, hG, hact.spends⟩

theorem Client.waitReturn_thrifty {n : Nat} {w0 w : World} (j : Nat) (ret : WaitReturn)
    (h : Thrifty n w0 w) : Thrifty n w0 (Client.waitReturn j ret w) := by
  unfold Client.waitReturn
  split
  · exact h
  · dsimp only
    apply Thrifty.thrifty_of_modifyWS
    apply Thrifty.thrifty_of_modifyWait _ _ h
    intro F _
    exact Spends.of_fields rfl rfl rfl rfl rfl

theorem Client.waitSelect_thrifty (n j : Nat) (pick : SelectCase) (w : World) :
    Thrifty n w (Client.waitSelect j pick w) := by
  unfold Client.waitSelect
  cases hj : w.waits[j]? with
  | none => exact Thrifty.thrifty_refl n w
  | some frame =>
    dsimp only
    split
    · exact Thrifty.thrifty_refl n w
    · cases pick with
      | resultChan =>
        dsimp only
        cases hr : frame.resultChan.recv with
        | none => exact Thrifty.thrifty_refl n w
        | some pr =>
          obtain ⟨result, ch⟩ := pr
          dsimp only
          apply Client.waitReturn_thrifty
          apply Thrifty.thrifty_of_modifyWait _ _ (Thrifty.thrifty_refl n w)
          intro F hF
          rw [hj] at hF
          cases hF
          obtain ⟨hlen, hblk⟩ := Chan.recv_queued _ _ _ hr
          intro hB
          obtain ⟨hq, hrb, heb, hfs, hzero⟩ := hB
          refine ⟨⟨?_, hblk hrb, heb, hfs, hzero⟩, ?_⟩
          · simp only [WaitFrame.queued, WaitFrame.pending] at hq ⊢
            omega
          · simp only [WaitFrame.queued, WaitFrame.pending]
            omega
      | errorChan =>
        dsimp only
        cases hr : frame.errorChan.recv with
        | none => exact Thrifty.thrifty_refl n w
        | some pr =>
          obtain ⟨err, ch⟩ := pr
          dsimp only
          apply Client.waitReturn_thrifty
          apply Thrifty.thrifty_of_modifyWait _ _ (Thrifty.thrifty_refl n w)
          intro F hF
          rw [hj] at hF
          cases hF
          obtain ⟨hlen, hblk⟩ := Chan.recv_queued _ _ _ hr
          intro hB
          obtain ⟨hq, hrb, heb, hfs, hzero⟩ := hB
          refine ⟨⟨?_, hrb, hblk heb, hfs, hzero⟩, ?_⟩
          · simp only [WaitFrame.queued, WaitFrame.pending] at hq ⊢
            omega
          · simp only [WaitFrame.queued, WaitFrame.pending]
            omega
      | timeoutDone =>
        dsimp only
        split
        · exact Client.waitReturn_thrifty _ _ (Thrifty.thrifty_refl n w)
        · exact Thrifty.thrifty_refl n w

theorem Spends.follow_up_send (F G : WaitFrame)
    (hg : F.followUpsFinished < F.followUpsStarted)
    (hG : (∃ e, G = { F with followUpsFinished := F.followUpsFinished + 1,
                              errorChan := F.errorChan.send e }) ∨
          (∃ v, G = { F with followUpsFinished := F.followUpsFinished + 1,
                              resultChan := F.resultChan.send v })) : Spends F G := by
  intro hF
  obtain ⟨hq, hrb, heb, hfs, hzero⟩ := hF
  have hc : F.completed = true := by
    cases hcc : F.completed with
    | true => rfl
    | false => have := hzero hcc; omega
  have hpF : F.pending = F.followUpsStarted - F.followUpsFinished := by
    simp only [WaitFrame.pending, hc, if_true]
  have hqF : F.queued = 0 := by omega
  simp only [WaitFrame.queued] at hqF
  have hrbuf : F.resultChan.buffer = [] := List.length_eq_zero.mp (by omega)
  have hebuf : F.errorChan.buffer = [] := List.length_eq_zero.mp (by omega)
  rcases hG with ⟨e, hG⟩ | ⟨v, hG⟩
  · have hqG : G.queued = 1 := by
      rw [hG]
      simp only [WaitFrame.queued]
      have := Chan.send_queued F.errorChan e
      omega
    have hpG : G.pending = F.followUpsStarted - (F.followUpsFinished + 1) := by
      rw [hG]
      simp only [WaitFrame.pending, hc, if_true]
    refine ⟨⟨by omega, by rw [hG]; exact hrb, ?_, ?_, ?_⟩, ?_⟩
    · rw [hG]; exact Chan.send_empty _ _ hebuf heb
    · rw [hG]; dsimp only; omega
    · rw [hG]; intro hcontra; rw [hc] at hcontra; cases hcontra
    · simp only [WaitFrame.queued] at hqG ⊢
      omega
  · have hqG : G.queued = 1 := by
      rw [hG]
      simp only [WaitFrame.queued]
      have := Chan.send_queued F.resultChan v
      omega
    have hpG : G.pending = F.followUpsStarted - (F.followUpsFinished + 1) := by
      rw [hG]
      simp only [WaitFrame.pending, hc, if_true]
    refine ⟨⟨by omega, ?_, by rw [hG]; exact heb, ?_, ?_⟩, ?_⟩
    · rw [hG]; exact Chan.send_empty _ _ hrbuf hrb
    · rw [hG]; dsimp only; omega
    · rw [hG]; intro hcontra; rw [hc] at hcontra; cases hcontra
    · simp only [WaitFrame.queued] at hqG ⊢
      omega

theorem Client.followUp_thrifty (n j : Nat) (reply : RestyResult HistoryResponse) (w : World) :
    Thrifty n w (Client.followUp j reply w) := by
  unfold Client.followUp
  cases hj : w.waits[j]? with
  | none => exact Thrifty.thrifty_refl n w
  | some frame =>
    dsimp only
    split
    · rename_i hguard
      have h0 : Thrifty n w
          ({ w with historyQueries := w.historyQueries ++ [frame.promptID] } : World) :=
        Thrifty.of_frame_eq rfl
      have hframe : ∀ F,
          ({ w with historyQueries := w.historyQueries ++ [frame.promptID] } : World).waits[j]?
            = some F → F = frame := by
        intro F hF
        dsimp only at hF
        rw [hj] at hF
        cases hF
        rfl
      split
      · rw [World.modifyWait_twice]
        apply Thrifty.thrifty_of_modifyWait _ _ h0
        intro F hF
        rw [hframe F hF]
        exact Spends.follow_up_send _ _ hguard (Or.inl ⟨_, rfl⟩)
      · split
        · rw [World.modifyWait_twice]
          apply Thrifty.thrifty_of_modifyWait _ _ h0
          intro F hF
          rw [hframe F hF]
          exact Spends.follow_up_send _ _ hguard (Or.inr ⟨_, rfl⟩)
        · rw [World.modifyWait_twice]
          apply Thrifty.thrifty_of_modifyWait _ _ h0
          intro F hF
          rw [hframe F hF]
          exact Spends.follow_up_send _ _ hguard (Or.inl ⟨_, rfl⟩)
    · exact Thrifty.thrifty_refl n w

theorem step_thrifty (n : Nat) (w : World) (e : Event) : Thrifty n w (step w e) := by
  cases e with
  | getWebSocketStatus ctx net =>
    apply Thrifty.of_frame_eq
    simp only [step, Client.GetWebSocketStatus_world, Client.ensureWebSocketConnected_waits]
  | getWebSocketClient ctx net =>
    apply Thrifty.of_frame_eq
    simp only [step, Client.GetWebSocketClient_world, Client.ensureWebSocketConnected_waits]
  | waitForCompletionWithWS ctx promptID timeout net =>
    intro F hF
    refine ⟨F, ?_, Spends.spends_refl F⟩
    show (Client.WaitForCompletionWithWS ctx promptID timeout net w).1.waits[n]? = some F
    rw [Client.WaitForCompletionWithWS_waits _ _ _ _ _ _ _ hF]
    exact hF
  | closeWebSocket closeErr =>
    apply Thrifty.of_frame_eq
    simp only [step, Client.CloseWebSocket]
    split
    · dsimp only
      rw [WSClient.Close_waits]
    · rfl
  | cancel id => exact Thrifty.of_frame_eq rfl
  | loopSelect a => exact (step_loop_acts n w (.loopSelect a) rfl).thrifty
  | loopRead a r => exact (step_loop_acts n w (.loopRead a r) rfl).thrifty
  | followUp wait reply => exact Client.followUp_thrifty n wait reply w
  | deadline wait =>
    simp only [step, Client.waitDeadline]
    apply Thrifty.thrifty_of_modifyWait _ _ (Thrifty.thrifty_refl n w)
    intro F _
    exact Spends.of_fields rfl rfl rfl rfl rfl
  | waitSelect wait pick => exact Client.waitSelect_thrifty n wait pick w

theorem run_thrifty (n : Nat) (events : List Event) :
    ∀ (w : World) (F : WaitFrame), w.waits[n]? = some F → Budget F →
      ∃ G, (run w events).waits[n]? = some G ∧ Budget G ∧
        sendsDuring n w events + G.pending ≤ F.pending := by
  induction events with
  | nil =>
    intro w F hF hB
    exact ⟨F, hF, hB, by simp [sendsDuring]⟩
  | cons e rest ih =>
    intro w F hF hB
    obtain ⟨G1, hG1, hsp⟩ := step_thrifty n w e F hF
    obtain ⟨hB1, hle1⟩ := hsp hB
    obtain ⟨G, hG, hBG, hle⟩ := ih (step w e) G1 hG1 hB1
    refine ⟨G, by simpa [run] using hG, hBG, ?_⟩
    simp only [sendsDuring, World.queued, hF, hG1]
    omega

/-- C30: after a wait begins on a stream client, whatever events follow (frames read,
follow-up replies, the timeout, cancellations, the `select` of this wait returning, other
calls on the client), the steps send at most one value in total on the result channel and
the error channel of the wait; in the state reached no sender is blocked on either
channel and the two buffers hold at most one value together. -/
theorem wait_channels_get_at_most_one_value
    (ctx : Context) (p : String) (timeout : Int) (a : Nat) (w : World) (ws : WSClient)
    (hws : w.heap[a]? = some ws) (events : List Event) :
    sendsDuring w.waits.length (Client.waitForCompletionWithExistingWS ctx p timeout a w) events
      ≤ 1 ∧
    ∃ F, (run (Client.waitForCompletionWithExistingWS ctx p timeout a w) events).waits[w.waits.length]?
        = some F ∧
      F.resultChan.blocked = [] ∧ F.errorChan.blocked = [] ∧
      F.resultChan.buffer.length + F.errorChan.buffer.length ≤ 1 := by
  obtain ⟨hF, _⟩ := Client.waitForCompletionWithExistingWS_fresh ctx p timeout a w ws hws
  have key : ∀ F0 : WaitFrame,
      (Client.waitForCompletionWithExistingWS ctx p timeout a w).waits[w.waits.length]? = some F0 →
      F0.resultChan = Chan.make → F0.errorChan = Chan.make → F0.completed = false →
      F0.followUpsStarted = 0 → F0.followUpsFinished = 0 →
      sendsDuring w.waits.length (Client.waitForCompletionWithExistingWS ctx p timeout a w) events
        ≤ 1 ∧
      ∃ F, (run (Client.waitForCompletionWithExistingWS ctx p timeout a w) events).waits[w.waits.length]?
          = some F ∧
        F.resultChan.blocked = [] ∧ F.errorChan.blocked = [] ∧
        F.resultChan.buffer.length + F.errorChan.buffer.length ≤ 1 := by
    intro F0 h0 hr he hc hs hf
    have hp : F0.pending = 1 := by
      simp only [WaitFrame.pending, hc, Bool.false_eq_true, if_false]
    have hq : F0.queued = 0 := by
      simp only [WaitFrame.queued, hr, he, Chan.make, List.length_nil]
    have hB : Budget F0 :=
      ⟨by omega, by rw [hr]; rfl, by rw [he]; rfl, by omega, fun _ => hs⟩
    obtain ⟨G, hG, hBG, hle⟩ := run_thrifty w.waits.length events _ F0 h0 hB
    refine ⟨by omega, G, hG, hBG.2.1, hBG.2.2.1, ?_⟩
    have := hBG.1
    simp only [WaitFrame.queued] at this
    omega
  exact key _ hF rfl rfl rfl rfl rfl

/-- Witness for C30: the demo client waits for `abc123` through `crowdedWait`; exactly one
value is sent, the error of the failed follow-up, after the wait has returned. -/
theorem wait_channels_get_at_most_one_value_witness :
    sendsDuring demoWorld.waits.length
      (Client.waitForCompletionWithExistingWS .background "abc123" timeSecond 0 demoWorld)
      crowdedWait ≤ 1 ∧
    ((run (Client.waitForCompletionWithExistingWS .background "abc123" timeSecond 0 demoWorld)
      crowdedWait).waits.map
        (fun F => (F.resultChan.buffer.length, F.errorChan.buffer, F.followUpsStarted)))
      = [(0, [.transport "connection reset"], 1)] :=
  ⟨(wait_channels_get_at_most_one_value .background "abc123" timeSecond 0 demoWorld demoStream
      rfl crowdedWait).1, rfl⟩

/-- C21 (what the code does): when the context of the receive loop is cancelled while the
loop is blocked in `conn.Read`, by `CloseWebSocket` or by the cancellation of the context
the connection was made under, and the read returns its error, the loop calls the error
handler with an empty id and `读取WebSocket消息失败: ` followed by that error before it
returns; only when the loop meets the cancelled context at its `select` does it return
without calling a handler. -/
theorem cancelled_read_reports_to_error_handler :
    (run demoWorld [.closeWebSocket none, .loopRead 0 (.error (.context .canceled))]).calls
      = [.error 2 "" (.errorf "读取WebSocket消息失败: context canceled")] ∧
    (∃ ws, cancellableWorld.heap[0]? = some ws ∧ ws.loop = .inRead ∧
      ws.ctxDone (run cancellableWorld [.cancel 1]).cancelled = true) ∧
    (run cancellableWorld [.cancel 1, .loopRead 0 (.error (.context .canceled))]).calls
      = [.error 2 "" (.errorf "读取WebSocket消息失败: context canceled")] ∧
    (run cancellableWorld [.cancel 1, .loopRead 0 (.error (.context .canceled))]).dispatched
      = [.error "" (.errorf "读取WebSocket消息失败: context canceled")] ∧
    (run cancellableWorld [.loopRead 0 (.ok unknownFrame), .cancel 1, .loopSelect 0]).calls = [] ∧
    (run cancellableWorld [.loopRead 0 (.ok unknownFrame), .cancel 1, .loopSelect 0]).dispatched
      = [] ∧
    Client.IsWebSocketConnected
      (run cancellableWorld [.loopRead 0 (.ok unknownFrame), .cancel 1, .loopSelect 0]) = false :=
  ⟨rfl, ⟨_, rfl, rfl, rfl⟩, rfl, rfl, rfl, rfl, rfl⟩

theorem Values.encode_clientId (id : String) :
    (({ entries := [] } : Values).Set "clientId" id).Encode = "clientId=" ++ QueryEscape id := by
  simp only [Values.Set, setEntry, Values.Encode, List.foldr, insertEntry, List.map, List.flatten,
    List.append_nil, String.intercalate, String.intercalate.go]
  rfl

theorem String.append_ne_empty_left (s t : String) (h : s ≠ "") : s ++ t ≠ "" := by
  intro hc
  apply h
  have h1 : (s ++ t).data = ("" : String).data := by rw [hc]
  have h2 : s.data ++ t.data = [] := by simpa [String.data_append] using h1
  exact String.ext (List.append_eq_nil.mp h2).1

theorem WSClient.buildWebSocketURL_query (net : NetEnv) (address id : String)
    (hparse : net.parse address = .ok (URL.plain address)) :
    (match net.parse address with
      | .error err => ("", some err)
      | .ok u => (URL.String { u with RawQuery := ((u.Query net).Set "clientId" id).Encode }, none))
    = (address ++ "?clientId=" ++ QueryEscape id, (none : Option GoError)) := by
  rw [hparse]
  simp only [URL.plain, URL.Query, if_true, Values.encode_clientId, URL.String, Bool.false_or]
  have hne : ("clientId=" ++ QueryEscape id) ≠ "" := String.append_ne_empty_left _ _ (by decide)
  simp only [hne, ne_eq, not_false_eq_true, decide_True, if_true, String.append_empty]
  congr 1
  rw [String.append_assoc, ← String.append_assoc "?" "clientId="]
  rfl

/-- C25: for a base address `http://H` or `https://H`, with or without one trailing slash,
where `H` is not empty and has no slash, and a client id that is not empty: when
`url.Parse` reads `ws://H/ws` (for https: `wss://H/ws`) as an address without query or
fragment that prints as it stands, `buildWebSocketURL` returns that address followed by
`?clientId=` and `url.QueryEscape` of the client id, with a nil error. -/
theorem stream_url_swaps_scheme_and_appends_ws_path
    (ws : WSClient) (net : NetEnv) (H : String) (slash : Bool)
    (hH : H.toList ≠ []) (hpath : '/' ∉ H.toList) (hid : ws.clientID ≠ "") :
    (ws.baseURL = "http://" ++ H ++ (if slash then "/" else "") →
      net.parse ("ws://" ++ H ++ "/ws") = .ok (URL.plain ("ws://" ++ H ++ "/ws")) →
      ws.buildWebSocketURL net =
        ("ws://" ++ H ++ "/ws" ++ "?clientId=" ++ QueryEscape ws.clientID, none)) ∧
    (ws.baseURL = "https://" ++ H ++ (if slash then "/" else "") →
      net.parse ("wss://" ++ H ++ "/ws") = .ok (URL.plain ("wss://" ++ H ++ "/ws")) →
      ws.buildWebSocketURL net =
        ("wss://" ++ H ++ "/ws" ++ "?clientId=" ++ QueryEscape ws.clientID, none)) := by
  have htrim : ∀ scheme : String, trimSuffix (scheme ++ H ++ (if slash then "/" else "")) "/"
      = scheme ++ H := by
    intro scheme
    cases slash with
    | true => exact trimSuffix_slash_append _
    | false =>
      simp only [Bool.false_eq_true, if_false, String.append_empty]
      apply trimSuffix_slash_none
      have h1 : (scheme ++ H).toList = scheme.toList ++ H.toList := by
        simp [String.toList, String.data_append]
      rw [h1, List.getLast?_append_of_ne_nil _ hH]
      intro hlast
      exact hpath (List.mem_of_getLast?_eq_some hlast)
  constructor
  · intro hbase hnet
    unfold WSClient.buildWebSocketURL
    rw [hbase, htrim "http://"]
    simp only [startsWith_append, if_true, replaceLeading_append, hid, ne_eq, not_false_eq_true]
    exact WSClient.buildWebSocketURL_query net _ _ hnet
  · intro hbase hnet
    unfold WSClient.buildWebSocketURL
    rw [hbase, htrim "https://"]
    simp only [startsWith_https_http, Bool.false_eq_true, if_false, startsWith_append, if_true,
      replaceLeading_append, hid, ne_eq, not_false_eq_true]
    exact WSClient.buildWebSocketURL_query net _ _ hnet

/-- Witness for C25: the base address of the tests, with its trailing slash, once with
the client id `demo`, which escaping leaves as it is, and once over https with a client
id that holds a space, a slash and a letter outside ASCII. -/
theorem stream_url_swaps_scheme_and_appends_ws_path_witness :
    demoStream.buildWebSocketURL demoNet = ("ws://127.0.0.1:8812/ws?clientId=demo", none) ∧
    WSClient.buildWebSocketURL
      { demoStream with baseURL := "https://comfy.example:8443", clientID := "my id/é" } demoNet
      = ("wss://comfy.example:8443/ws?clientId=my+id%2F%C3%A9", none) :=
  ⟨(stream_url_swaps_scheme_and_appends_ws_path demoStream demoNet "127.0.0.1:8812" true
      (by decide) (by decide) (by decide)).1 rfl rfl,
   (stream_url_swaps_scheme_and_appends_ws_path
      { demoStream with baseURL := "https://comfy.example:8443", clientID := "my id/é" } demoNet
      "comfy.example:8443" false (by decide) (by decide) (by decide)).2 rfl rfl⟩

/-- Counterexample to C27 as stated: the demo client reads an `execution_interrupted`
frame whose data is a string, so that there is no `prompt_id`, and one with the prompt
id `abc123` and a number beyond the float64 range; the envelope of neither decodes, and
the error handler is called with an empty id and the decode error, not with the
interruption error. -/
theorem interrupted_frame_with_bad_envelope_reports_decode_error :
    (demoStream.handleMessage interruptedStringFrame demoWorld).calls =
      [.error 2 "" (.errorf ("解析WebSocket消息失败: json: cannot unmarshal string into " ++
        "Go struct field WSMessage.data of type map[string]interface {}"))] ∧
    (demoStream.handleMessage interruptedHugeFrame demoWorld).calls =
      [.error 2 "" (.errorf ("解析WebSocket消息失败: json: cannot unmarshal number 1e400 into " ++
        "Go struct field WSMessage.data of type float64"))] :=
  ⟨rfl, rfl⟩

/-- Counterexample to C26 as stated: the demo client reads an `executing` frame with no
member `node` but a member `Node`, and the execution handler receives that node; one
whose node is a number, and no handler is called; and one with a number beyond the
float64 range, and the error handler is called instead of the execution handler. -/
theorem executing_frame_outside_the_payload_shape :
    (demoStream.handleMessage executingCapitalFrame demoWorld).calls =
      [.execution 1 "abc123" (some "7")] ∧
    (demoStream.handleMessage executingNumberFrame demoWorld).calls = [] ∧
    (demoStream.handleMessage executingHugeFrame demoWorld).calls =
      [.error 2 "" (.errorf ("解析WebSocket消息失败: json: cannot unmarshal number 1e400 into " ++
        "Go struct field WSMessage.data of type float64"))] :=
  ⟨rfl, rfl, rfl⟩

theorem OptionCall.option_wsClient (o : OptionCall) (c : Client) :
    (o.option c).wsClient = c.wsClient := by
  cases o <;> try rfl
  case withWebSocketCallbacks config =>
    simp only [OptionCall.option, WithWebSocketCallbacks]
    split_ifs <;> rfl

theorem foldl_options_wsClient (opts : List OptionCall) :
    ∀ c : Client, ((opts.map OptionCall.option).foldl (fun c o => o c) c).wsClient = c.wsClient := by
  induction opts with
  | nil => intro c; rfl
  | cons o rest ih =>
    intro c
    simp only [List.map_cons, List.foldl_cons]
    rw [ih (o.option c), OptionCall.option_wsClient]

theorem Client.ensureWebSocketConnected_disabled (ctx : Context) (net : NetEnv) (w : World)
    (hoff : w.client.wsEnabled = false) :
    Client.ensureWebSocketConnected ctx net w =
      (w, some (.errorf "WebSocket未启用，请使用 WithWebSocketEnabled(true) 或移除 WithoutWebSocket() 选项")) := by
  simp [Client.ensureWebSocketConnected, hoff]

theorem Client.WaitForCompletionWithWS_disabled (ctx : Context) (promptID : String)
    (timeout : Int) (net : NetEnv) (w : World) (hoff : w.client.wsEnabled = false) :
    Client.WaitForCompletionWithWS ctx promptID timeout net w =
      (w, some (none, some (.errorf ("获取WebSocket连接失败: " ++
        "WebSocket未启用，请使用 WithWebSocketEnabled(true) 或移除 WithoutWebSocket() 选项")))) := by
  simp [Client.WaitForCompletionWithWS, Client.GetWebSocketClient,
    Client.ensureWebSocketConnected_disabled ctx net w hoff, GoError.Error]

theorem step_idle (w : World) (e : Event) (h : Idle w) : Idle (step w e) := by
  obtain ⟨hoff, hcl, hheap, hdials, hwaits⟩ := h
  have hsame : ∀ w', w' = w → Idle w' := by
    intro w' hw'
    rw [hw']
    exact ⟨hoff, hcl, hheap, hdials, hwaits⟩
  cases e with
  | getWebSocketStatus ctx net =>
    apply hsame
    simp only [step, Client.GetWebSocketStatus,
      Client.ensureWebSocketConnected_disabled ctx net w hoff]
  | getWebSocketClient ctx net =>
    apply hsame
    simp only [step, Client.GetWebSocketClient,
      Client.ensureWebSocketConnected_disabled ctx net w hoff]
  | waitForCompletionWithWS ctx promptID timeout net =>
    apply hsame
    simp only [step, Client.WaitForCompletionWithWS_disabled ctx promptID timeout net w hoff]
  | closeWebSocket closeErr =>
    apply hsame
    simp only [step, Client.CloseWebSocket, hcl]
  | cancel id => exact ⟨hoff, hcl, hheap, hdials, hwaits⟩
  | loopSelect a =>
    apply hsame
    simp only [step, WSClient.loopSelect, hheap, List.getElem?_nil]
  | loopRead a r =>
    apply hsame
    simp only [step, WSClient.loopRead, hheap, List.getElem?_nil]
  | followUp wait reply =>
    apply hsame
    simp only [step, Client.followUp, hwaits, List.getElem?_nil]
  | deadline wait =>
    apply hsame
    simp only [step, Client.waitDeadline, World.modifyWait, hwaits, List.getElem?_nil]
  | waitSelect wait pick =>
    apply hsame
    simp only [step, Client.waitSelect, hwaits, List.getElem?_nil]

theorem run_idle (events : List Event) : ∀ w, Idle w → Idle (run w events) := by
  induction events with
  | nil => intro w h; exact h
  | cons e rest ih =>
    intro w h
    simp only [run, List.foldl_cons]
    exact ih (step w e) (step_idle w e h)

/-- C4: for a client built by `NewClientWithOptions` from options among which the last one
that sets streaming is `WithoutWebSocket()` or `WithWebSocketEnabled(false)`, wherever it
stands in the list, and after any events on that client: `WaitForCompletionWithWS`
returns at once a nil result with the error of the disabled feature, for every context,
prompt id, timeout and network behaviour, and leaves the state as it was; in that state
no dial has been attempted, no stream client has been allocated, `wsClient` is nil and
`IsWebSocketConnected` is false. -/
theorem disabled_stream_wait_fails_without_dial
    (clientID baseURL : String) (opts : List OptionCall)
    (hoff : lastWebSocketSetting opts = false) (events : List Event)
    (ctx : Context) (promptID : String) (timeout : Int) (net : NetEnv) :
    Client.WaitForCompletionWithWS ctx promptID timeout net
        (run (World.new (NewClientWithOptions clientID baseURL (opts.map OptionCall.option)))
          events) =
      (run (World.new (NewClientWithOptions clientID baseURL (opts.map OptionCall.option)))
          events,
        some (none, some (.errorf ("获取WebSocket连接失败: " ++
          "WebSocket未启用，请使用 WithWebSocketEnabled(true) 或移除 WithoutWebSocket() 选项")))) ∧
    (run (World.new (NewClientWithOptions clientID baseURL (opts.map OptionCall.option)))
      events).dials = [] ∧
    (run (World.new (NewClientWithOptions clientID baseURL (opts.map OptionCall.option)))
      events).heap = [] ∧
    (run (World.new (NewClientWithOptions clientID baseURL (opts.map OptionCall.option)))
      events).client.wsClient = none ∧
    Client.IsWebSocketConnected
      (run (World.new (NewClientWithOptions clientID baseURL (opts.map OptionCall.option)))
        events) = false := by
  have h0 : Idle (World.new (NewClientWithOptions clientID baseURL (opts.map OptionCall.option))) := by
    refine ⟨?_, ?_, rfl, rfl, rfl⟩
    · have h : (NewClientWithOptions clientID baseURL (opts.map OptionCall.option)).wsEnabled = lastWebSocketSetting opts := by
        simp only [NewClientWithOptions]
        rw [foldl_options_wsEnabled]
        rfl
      rw [hoff] at h
      exact h
    · simp only [World.new, NewClientWithOptions]
      rw [foldl_options_wsClient]
      rfl
  obtain ⟨h1, h2, h3, h4, _⟩ := run_idle events _ h0
  refine ⟨Client.WaitForCompletionWithWS_disabled ctx promptID timeout net _ h1, h4, h3, h2, ?_⟩
  simp only [Client.IsWebSocketConnected, h2]

/-- Witness for C4: the client of the unit test, built with basic auth, `WithoutWebSocket()`
and a later option, after a status query, a cancellation and an earlier wait. -/
theorem disabled_stream_wait_fails_without_dial_witness :
    lastWebSocketSetting [OptionCall.withBasicAuth "admin" "admin123456", .withoutWebSocket,
      .withTimeout (30 * timeSecond)] = false ∧
    (Client.WaitForCompletionWithWS .background "test-prompt" (30 * timeSecond) demoNet
      (run disabledWorld [.getWebSocketStatus .background demoNet, .cancel 1,
        .waitForCompletionWithWS .background "earlier" 0 demoNet])).2 =
      some (none, some (.errorf ("获取WebSocket连接失败: " ++
        "WebSocket未启用，请使用 WithWebSocketEnabled(true) 或移除 WithoutWebSocket() 选项"))) ∧
    (run disabledWorld [.getWebSocketStatus .background demoNet, .cancel 1,
        .waitForCompletionWithWS .background "earlier" 0 demoNet]).dials = [] := by
  have h := disabled_stream_wait_fails_without_dial "test-disabled" "http://localhost:8188"
    [.withBasicAuth "admin" "admin123456", .withoutWebSocket, .withTimeout (30 * timeSecond)]
    (by decide) [.getWebSocketStatus .background demoNet, .cancel 1,
      .waitForCompletionWithWS .background "earlier" 0 demoNet]
    .background "test-prompt" (30 * timeSecond) demoNet
  exact ⟨by decide, congrArg Prod.snd h.1, h.2.1⟩

theorem Bystander.by_refl (F : WaitFrame) : Bystander F F :=
  ⟨rfl, rfl, rfl, rfl, fun h => ⟨h, rfl, rfl⟩⟩

theorem Bystander.by_trans {F G H : WaitFrame} (h1 : Bystander F G) (h2 : Bystander G H) :
    Bystander F H := by
  obtain ⟨a1, a2, a3, a4, a5⟩ := h1
  obtain ⟨b1, b2, b3, b4, b5⟩ := h2
  refine ⟨b1.trans a1, b2.trans a2, b3.trans a3, b4.trans a4, fun hc => ?_⟩
  obtain ⟨c1, c2, c3⟩ := a5 hc
  obtain ⟨d1, d2, d3⟩ := b5 c1
  exact ⟨d1, d2.trans c2, d3.trans c3⟩

theorem ActsOnce.bystander {F G : WaitFrame} (h : ActsOnce F G) : Bystander F G := by
  rcases h with h | ⟨hc, h | ⟨e, h⟩⟩
  · rw [h]; exact Bystander.by_refl F
  · rw [h]
    exact ⟨rfl, rfl, rfl, rfl, fun hc' => by rw [hc] at hc'; cases hc'⟩
  · rw [h]
    exact ⟨rfl, rfl, rfl, rfl, fun hc' => by rw [hc] at hc'; cases hc'⟩

theorem WSClient.Connect_historyQueries (a : Nat) (ctx : Context) (net : NetEnv) (w : World) :
    (WSClient.Connect a ctx net w).1.historyQueries = w.historyQueries := by
  unfold WSClient.Connect
  split
  · rfl
  · split
    · rfl
    · split
      · rfl
      · dsimp only
        split
        · rfl
        · rw [(World.modifyWS_fields _ _ _).2.2.2.2.2.2.1]

theorem Client.ensureWebSocketConnected_historyQueries (ctx : Context) (net : NetEnv) (w : World) :
    (Client.ensureWebSocketConnected ctx net w).1.historyQueries = w.historyQueries := by
  unfold Client.ensureWebSocketConnected
  split
  · rfl
  · split
    · rfl
    · dsimp only
      rw [WSClient.Connect_historyQueries]

theorem WSClient.Close_historyQueries (a : Nat) (e : Option GoError) (w : World) :
    (WSClient.Close a e w).1.historyQueries = w.historyQueries := by
  unfold WSClient.Close
  split
  · rfl
  · split
    · rfl
    · dsimp only
      split <;> split <;>
        simp only [(World.modifyWS_fields _ _ _).2.2.2.2.2.2.1]

theorem Client.WaitForCompletionWithWS_historyQueries (ctx : Context) (promptID : String)
    (timeout : Int) (net : NetEnv) (w : World) :
    (Client.WaitForCompletionWithWS ctx promptID timeout net w).1.historyQueries
      = w.historyQueries := by
  have he := Client.ensureWebSocketConnected_historyQueries ctx net w
  rw [← Client.GetWebSocketClient_world] at he
  unfold Client.WaitForCompletionWithWS
  dsimp only
  generalize (if timeout ≤ 0 then 5 * timeMinute else timeout) = t
  split
  · rename_i heq; rw [heq] at he; exact he
  · rename_i heq; rw [heq] at he
    dsimp only at he ⊢
    unfold Client.waitForCompletionWithExistingWS
    split
    · exact he
    · dsimp only
      rw [(World.modifyWS_fields _ _ _).2.2.2.2.2.2.1]
      exact he
  · rename_i heq; rw [heq] at he; exact he

theorem Client.waitReturn_historyQueries (j : Nat) (ret : WaitReturn) (w : World) :
    (Client.waitReturn j ret w).historyQueries = w.historyQueries := by
  unfold Client.waitReturn
  split
  · rfl
  · dsimp only
    rw [(World.modifyWS_fields _ _ _).2.2.2.2.2.2.1, (World.modifyWait_fields _ _ _).2.2.2.2.2.2.1]

theorem Client.waitSelect_historyQueries (j : Nat) (pick : SelectCase) (w : World) :
    (Client.waitSelect j pick w).historyQueries = w.historyQueries := by
  unfold Client.waitSelect
  split
  · rfl
  · split
    · rfl
    · cases pick with
      | resultChan =>
        dsimp only
        split
        · rw [Client.waitReturn_historyQueries, (World.modifyWait_fields _ _ _).2.2.2.2.2.2.1]
        · rfl
      | errorChan =>
        dsimp only
        split
        · rw [Client.waitReturn_historyQueries, (World.modifyWait_fields _ _ _).2.2.2.2.2.2.1]
        · rfl
      | timeoutDone =>
        dsimp only
        split
        · rw [Client.waitReturn_historyQueries]
        · rfl

theorem step_historyQueries (w : World) (e : Event) (h : ∀ j r, e ≠ .followUp j r) :
    (step w e).historyQueries = w.historyQueries := by
  cases e with
  | getWebSocketStatus ctx net =>
    simp only [step, Client.GetWebSocketStatus_world, Client.ensureWebSocketConnected_historyQueries]
  | getWebSocketClient ctx net =>
    simp only [step, Client.GetWebSocketClient_world, Client.ensureWebSocketConnected_historyQueries]
  | waitForCompletionWithWS ctx promptID timeout net =>
    exact Client.WaitForCompletionWithWS_historyQueries ctx promptID timeout net w
  | closeWebSocket closeErr =>
    simp only [step, Client.CloseWebSocket]
    split
    · dsimp only
      rw [WSClient.Close_historyQueries]
    · rfl
  | cancel id => rfl
  | loopSelect a =>
    simp only [step, WSClient.loopSelect]
    split
    · rfl
    · split_ifs
      · exact (World.modifyWS_fields _ _ _).2.2.2.2.2.2.1
      · exact (World.modifyWS_fields _ _ _).2.2.2.2.2.2.1
      · rfl
  | loopRead a r =>
    simp only [step, WSClient.loopRead]
    split
    · rfl
    · rename_i ws hws
      by_cases hl : ws.loop = .inRead
      · rw [if_pos hl]
        cases r with
        | error err =>
          dsimp only
          rw [(World.modifyWS_fields _ _ _).2.2.2.2.2.2.1]
          by_cases hcb : ws.onError = .nil
          · rw [if_neg (not_not.mpr hcb)]
          · rw [if_pos hcb]
            exact (ErrorCallback.error_invoke_handled _ _ _ _).2.2.2.2.1
        | ok data =>
          dsimp only
          rw [(World.modifyWS_fields _ _ _).2.2.2.2.2.2.1]
          exact (WSClient.handleMessage_handled ws data w).2.2.2.2.1
      · rw [if_neg hl]
  | followUp wait reply => exact absurd rfl (h wait reply)
  | deadline wait =>
    simp only [step, Client.waitDeadline]
    exact (World.modifyWait_fields _ _ _).2.2.2.2.2.2.1
  | waitSelect wait pick => exact Client.waitSelect_historyQueries wait pick w

theorem Client.waitReturn_frame (n j : Nat) (ret : WaitReturn) (w : World) (hj : j ≠ n) :
    (Client.waitReturn j ret w).waits[n]? = w.waits[n]? := by
  unfold Client.waitReturn
  split
  · rfl
  · dsimp only
    rw [(World.modifyWS_fields _ _ _).2.1, World.waits_modifyWait, if_neg hj]

theorem Client.waitSelect_frame (n j : Nat) (pick : SelectCase) (w : World) (hj : j ≠ n) :
    (Client.waitSelect j pick w).waits[n]? = w.waits[n]? := by
  unfold Client.waitSelect
  split
  · rfl
  · split
    · rfl
    · cases pick with
      | resultChan =>
        dsimp only
        split
        · rw [Client.waitReturn_frame n j _ _ hj, World.waits_modifyWait, if_neg hj]
        · rfl
      | errorChan =>
        dsimp only
        split
        · rw [Client.waitReturn_frame n j _ _ hj, World.waits_modifyWait, if_neg hj]
        · rfl
      | timeoutDone =>
        dsimp only
        split
        · rw [Client.waitReturn_frame n j _ _ hj]
        · rfl

theorem Client.followUp_idle (n : Nat) (reply : RestyResult HistoryResponse) (w : World)
    (F : WaitFrame) (hF : w.waits[n]? = some F)
    (hdone : F.followUpsStarted ≤ F.followUpsFinished) : Client.followUp n reply w = w := by
  unfold Client.followUp
  rw [hF]
  dsimp only
  rw [if_neg (by omega)]

theorem step_beside (n : Nat) (w : World) (e : Event) (F : WaitFrame)
    (hF : w.waits[n]? = some F) (he : e.besideOrReply n = true)
    (hfu : F.followUpsStarted ≤ F.followUpsFinished ∨ e.beside n = true) :
    ∃ G, (step w e).waits[n]? = some G ∧ Bystander F G ∧
      (step w e).historyQueries = w.historyQueries := by
  have hsame : (∀ j r, e ≠ .followUp j r) → (step w e).waits[n]? = w.waits[n]? →
      ∃ G, (step w e).waits[n]? = some G ∧ Bystander F G ∧
        (step w e).historyQueries = w.historyQueries := by
    intro hne hw
    exact ⟨F, by rw [hw]; exact hF, Bystander.by_refl F, step_historyQueries w e hne⟩
  cases e with
  | getWebSocketStatus ctx net =>
    apply hsame (fun j r h => by cases h)
    simp only [step, Client.GetWebSocketStatus_world, Client.ensureWebSocketConnected_waits]
  | getWebSocketClient ctx net =>
    apply hsame (fun j r h => by cases h)
    simp only [step, Client.GetWebSocketClient_world, Client.ensureWebSocketConnected_waits]
  | waitForCompletionWithWS ctx promptID timeout net =>
    apply hsame (fun j r h => by cases h)
    exact Client.WaitForCompletionWithWS_waits _ _ _ _ _ _ _ hF
  | closeWebSocket closeErr =>
    apply hsame (fun j r h => by cases h)
    simp only [step, Client.CloseWebSocket]
    split
    · dsimp only
      rw [WSClient.Close_waits]
    · rfl
  | cancel id => exact hsame (fun j r h => by cases h) rfl
  | loopSelect a =>
    obtain ⟨G, hG, hact⟩ := step_loop_acts n w (.loopSelect a) rfl F hF
    exact ⟨G, hG, hact.bystander, step_historyQueries w _ (fun j r h => by cases h)⟩
  | loopRead a r =>
    obtain ⟨G, hG, hact⟩ := step_loop_acts n w (.loopRead a r) rfl F hF
    exact ⟨G, hG, hact.bystander, step_historyQueries w _ (fun j r h => by cases h)⟩
  | followUp wait reply =>
    have hwn : wait = n := by simpa [Event.besideOrReply] using he
    rcases hfu with hdone | hb
    · subst hwn
      have : step w (.followUp wait reply) = w := Client.followUp_idle wait reply w F hF hdone
      rw [this]
      exact ⟨F, hF, Bystander.by_refl F, rfl⟩
    · cases hb
  | deadline wait =>
    refine ⟨if wait = n then { F with deadlinePassed := true } else F, ?_, ?_,
      step_historyQueries w _ (fun j r h => by cases h)⟩
    · simp only [step, Client.waitDeadline]
      rw [World.waits_modifyWait]
      by_cases hj : wait = n
      · rw [if_pos hj, if_pos hj, hF]
        rfl
      · rw [if_neg hj, if_neg hj]
        exact hF
    · by_cases hj : wait = n
      · rw [if_pos hj]
        exact ⟨rfl, rfl, rfl, rfl, fun h => ⟨h, rfl, rfl⟩⟩
      · rw [if_neg hj]
        exact Bystander.by_refl F
  | waitSelect wait pick =>
    have hwn : wait ≠ n := by simpa [Event.besideOrReply] using he
    apply hsame (fun j r h => by cases h)
    exact Client.waitSelect_frame n wait pick w hwn

theorem run_beside (n : Nat) (events : List Event) :
    ∀ (w : World) (F : WaitFrame), w.waits[n]? = some F → F.completed = true →
      (∀ e ∈ events, e.besideOrReply n = true) →
      (F.followUpsStarted ≤ F.followUpsFinished ∨ ∀ e ∈ events, e.beside n = true) →
      ∃ G, (run w events).waits[n]? = some G ∧ Bystander F G ∧
        (run w events).historyQueries = w.historyQueries := by
  induction events with
  | nil =>
    intro w F hF _ _ _
    exact ⟨F, hF, Bystander.by_refl F, rfl⟩
  | cons e rest ih =>
    intro w F hF hc he hfu
    obtain ⟨G1, hG1, hb1, hq1⟩ := step_beside n w e F hF (he e (List.mem_cons_self _ _))
      (hfu.imp id (fun h => h e (List.mem_cons_self _ _)))
    obtain ⟨c1, c2, c3⟩ := hb1.2.2.2.2 hc
    obtain ⟨G, hG, hb, hq⟩ := ih (step w e) G1 hG1 c1
      (fun e' he' => he e' (List.mem_cons_of_mem _ he'))
      (hfu.imp (fun h => by rw [c2, hb1.2.2.2.1]; exact h)
        (fun h e' he' => h e' (List.mem_cons_of_mem _ he')))
    refine ⟨G, by simpa [run] using hG, hb1.by_trans hb, ?_⟩
    simp only [run, List.foldl_cons]
    have : (run (step w e) rest).historyQueries = (step w e).historyQueries := hq
    simp only [run] at this
    rw [this, hq1]

theorem ExecutionCallback.execution_wraps_spec (p : String) (n : Nat) (cb : ExecutionCallback)
    (h : cb.wraps p n = true) :
    ∃ orig, cb = .waitWrapper orig p n ∧ (orig = .nil ∨ ∃ id, orig = .user id) := by
  cases cb with
  | nil => cases h
  | user id => cases h
  | waitWrapper orig q m =>
    cases orig with
    | nil =>
      simp only [ExecutionCallback.wraps, Bool.and_eq_true, beq_iff_eq] at h
      exact ⟨.nil, by rw [h.1, h.2], Or.inl rfl⟩
    | user id =>
      simp only [ExecutionCallback.wraps, Bool.and_eq_true, beq_iff_eq] at h
      exact ⟨.user id, by rw [h.1, h.2], Or.inr ⟨id, rfl⟩⟩
    | waitWrapper o q' m' => cases h

theorem ErrorCallback.error_wraps_spec (p : String) (n : Nat) (cb : ErrorCallback)
    (h : cb.wraps p n = true) :
    ∃ orig, cb = .waitWrapper orig p n ∧ (orig = .nil ∨ ∃ id, orig = .user id) := by
  cases cb with
  | nil => cases h
  | user id => cases h
  | waitWrapper orig q m =>
    cases orig with
    | nil =>
      simp only [ErrorCallback.wraps, Bool.and_eq_true, beq_iff_eq] at h
      exact ⟨.nil, by rw [h.1, h.2], Or.inl rfl⟩
    | user id =>
      simp only [ErrorCallback.wraps, Bool.and_eq_true, beq_iff_eq] at h
      exact ⟨.user id, by rw [h.1, h.2], Or.inr ⟨id, rfl⟩⟩
    | waitWrapper o q' m' => cases h

theorem Chan.eq_make {α : Type} (ch : Chan α) (h1 : ch.buffer.isEmpty = true)
    (h2 : ch.blocked.isEmpty = true) : ch = Chan.make := by
  cases ch with
  | mk buffer blocked =>
    simp only [List.isEmpty_iff] at h1 h2
    subst h1 h2
    rfl

theorem Armed.spec {a n : Nat} {p : String} {v : World} (h : Armed a n p v = true) :
    ∃ (F : WaitFrame) (ws : WSClient) (onExecution : ExecutionCallback) (onError : ErrorCallback),
      v.waits[n]? = some F ∧ F.promptID = p ∧ F.completed = false ∧ F.ret = none ∧
      F.resultChan = Chan.make ∧ F.errorChan = Chan.make ∧
      F.followUpsStarted = 0 ∧ F.followUpsFinished = 0 ∧
      v.heap[a]? = some ws ∧ ws.loop = .inRead ∧
      ws.onExecution = .waitWrapper onExecution p n ∧ ws.onError = .waitWrapper onError p n ∧
      (onExecution = .nil ∨ ∃ id, onExecution = .user id) ∧
      (onError = .nil ∨ ∃ id, onError = .user id) := by
  unfold Armed at h
  split at h
  · rename_i F ws hF hws
    simp only [Bool.and_eq_true, beq_iff_eq, Bool.not_eq_true', Option.isNone_iff_eq_none] at h
    obtain ⟨⟨⟨⟨⟨⟨⟨⟨⟨⟨⟨h1, h2⟩, h3⟩, h4⟩, h5⟩, h6⟩, h7⟩, h8⟩, h9⟩, h10⟩, h11⟩, h12⟩ := h
    obtain ⟨cbX, hX, hXo⟩ := ExecutionCallback.execution_wraps_spec p n _ h11
    obtain ⟨cbE, hE, hEo⟩ := ErrorCallback.error_wraps_spec p n _ h12
    exact ⟨F, ws, cbX, cbE, hF, h1, h2, h3, Chan.eq_make _ h4 h5, Chan.eq_make _ h6 h7, h8, h9,
      hws, h10, hX, hE, hXo, hEo⟩
  · cases h

theorem run_append (w : World) (xs ys : List Event) : run w (xs ++ ys) = run (run w xs) ys := by
  simp only [run, List.foldl_append]

theorem run_cons (w : World) (e : Event) (rest : List Event) :
    run w (e :: rest) = run (step w e) rest := rfl

theorem Client.WaitForCompletionWithWS_armed (w : World) (a : Nat) (ws : WSClient)
    (ctx : Context) (p : String) (timeout : Int) (net : NetEnv)
    (hen : w.client.wsEnabled = true) (hcl : w.client.wsClient = some a)
    (hws : w.heap[a]? = some ws) (hconn : ws.IsConnected = true) (hloop : ws.loop = .inRead)
    (hexec : ws.onExecution = .nil ∨ ∃ id, ws.onExecution = .user id)
    (herr : ws.onError = .nil ∨ ∃ id, ws.onError = .user id) :
    (Client.WaitForCompletionWithWS ctx p timeout net w).2 = none ∧
    Armed a w.waits.length p (Client.WaitForCompletionWithWS ctx p timeout net w).1 = true := by
  rw [Client.WaitForCompletionWithWS_blocks w a ws ctx p timeout net hen hcl hws hconn]
  refine ⟨rfl, ?_⟩
  dsimp only
  obtain ⟨hF, hheap, _, _, _⟩ := Client.waitForCompletionWithExistingWS_fresh ctx p
    (if timeout ≤ 0 then 5 * timeMinute else timeout) a w ws hws
  unfold Armed
  rw [hF, hheap]
  have hX : ExecutionCallback.wraps p w.waits.length
      (.waitWrapper ws.onExecution p w.waits.length) = true := by
    rcases hexec with h | ⟨id, h⟩ <;> rw [h] <;> simp [ExecutionCallback.wraps]
  have hE : ErrorCallback.wraps p w.waits.length
      (.waitWrapper ws.onError p w.waits.length) = true := by
    rcases herr with h | ⟨id, h⟩ <;> rw [h] <;> simp [ErrorCallback.wraps]
  simp [hX, hE, hloop, Chan.make]

/-- C5 (as amended): a `WaitForCompletionWithWS` for `p` on a connected stream client
blocks.  Let any events `pre` follow that leave the wait as it began (flag `completed`
unset, wrappers in the slots, the loop reading).  When `handleMessage` then processes the
frame of type `executing` with a null node and prompt id `p`, one follow-up is started,
and no other, whatever events beside the wait follow, further end signals and error
frames for `p` included.  When the history response of that follow-up has an entry for
`p`, and after any further events beside the wait and any further replies addressed to
its follow-ups the `select` takes the result case, the wait returns that entry under `p`
with a nil error; history was queried for `p` exactly once since the frame arrived. -/
theorem stream_wait_returns_history_entry_after_end_signal
    (w : World) (a : Nat) (ws : WSClient) (ctx : Context) (p : String) (timeout : Int)
    (net : NetEnv)
    (hen : w.client.wsEnabled = true) (hcl : w.client.wsClient = some a)
    (hws : w.heap[a]? = some ws) (hconn : ws.IsConnected = true) (hloop : ws.loop = .inRead)
    (hexec : ws.onExecution = .nil ∨ ∃ id, ws.onExecution = .user id)
    (herr : ws.onError = .nil ∨ ∃ id, ws.onError = .user id) :
    (Client.WaitForCompletionWithWS ctx p timeout net w).2 = none ∧
    Armed a w.waits.length p (Client.WaitForCompletionWithWS ctx p timeout net w).1 = true ∧
    ∀ (pre mid1 mid2 : List Event) (status : Nat) (body : String) (h : HistoryResponse)
      (item : HistoryItem),
      Armed a w.waits.length p
        (run (Client.WaitForCompletionWithWS ctx p timeout net w).1 pre) = true →
      isSuccess status = true → h.lookup p = some item →
      (∀ e ∈ mid1, e.beside w.waits.length = true) →
      (∀ e ∈ mid2, e.besideOrReply w.waits.length = true) →
      (run (Client.WaitForCompletionWithWS ctx p timeout net w).1
        (pre ++ .loopRead a (.ok (executingDone p)) :: mid1 ++
          .followUp w.waits.length (.response status body h) :: mid2 ++
          [.waitSelect w.waits.length .resultChan])).returned w.waits.length
        = some (some { PromptID := p, Item := item }, none) ∧
      (run (Client.WaitForCompletionWithWS ctx p timeout net w).1
        (pre ++ .loopRead a (.ok (executingDone p)) :: mid1 ++
          .followUp w.waits.length (.response status body h) :: mid2 ++
          [.waitSelect w.waits.length .resultChan])).historyQueries
        = (run (Client.WaitForCompletionWithWS ctx p timeout net w).1 pre).historyQueries ++ [p] ∧
      ∃ G, (run (Client.WaitForCompletionWithWS ctx p timeout net w).1
        (pre ++ .loopRead a (.ok (executingDone p)) :: mid1 ++
          .followUp w.waits.length (.response status body h) :: mid2)).waits[w.waits.length]?
          = some G ∧ G.followUpsStarted = 1 ∧ G.followUpsFinished = 1 := by
  obtain ⟨hnone, harmed⟩ := Client.WaitForCompletionWithWS_armed w a ws ctx p timeout net
    hen hcl hws hconn hloop hexec herr
  refine ⟨hnone, harmed, ?_⟩
  intro pre mid1 mid2 status body h item hpre hok hitem hmid1 hmid2
  generalize (Client.WaitForCompletionWithWS ctx p timeout net w).1 = w1 at hpre ⊢
  generalize w.waits.length = n at hpre hmid1 hmid2 ⊢
  obtain ⟨F, ws1, cbX, cbE, hF, hFp, hFc, hFret, hFr, hFe, hFs, hFf, hws1, hloop1, hslotX, _,
    hcbX, _⟩ := Armed.spec hpre
  have hsplit : ∀ tail : List Event,
      run w1 (pre ++ .loopRead a (.ok (executingDone p)) :: mid1 ++
        .followUp n (.response status body h) :: mid2 ++ tail) =
      run (run (step (run (step (run w1 pre) (.loopRead a (.ok (executingDone p)))) mid1)
        (.followUp n (.response status body h))) mid2) tail := by
    intro tail
    simp only [List.append_assoc, List.cons_append, run_append, run_cons]
  generalize run w1 pre = v at hF hws1 hsplit ⊢
  obtain ⟨hF2, hq2, _⟩ := WSClient.loopRead_executingDone a n p v ws1 cbX F hws1 hloop1 hslotX
    hcbX hF hFc
  have hstep2 : step v (.loopRead a (.ok (executingDone p))) =
      WSClient.loopRead a (.ok (executingDone p)) v := rfl
  rw [← hstep2] at hF2 hq2
  generalize step v (.loopRead a (.ok (executingDone p))) = v2 at hF2 hq2 hsplit
  obtain ⟨G3, hG3, hb3, hq3⟩ := run_beside n mid1 v2 _ hF2 rfl
    (fun e he => by
      have := hmid1 e he
      cases e <;> first | rfl | exact this | cases this)
    (Or.inr hmid1)
  obtain ⟨b1, b2, b3, b4, b5⟩ := hb3
  obtain ⟨c1, c2, c3⟩ := b5 rfl
  dsimp only at b1 b2 b3 b4 c2 c3
  generalize run v2 mid1 = v3 at hG3 hq3 hsplit
  have hreply : GetHistory G3.promptID (.response status body h) = (some h, none) := by
    simp [GetHistory, hok]
  obtain ⟨hF4, hq4, _⟩ := Client.followUp_result n (.response status body h) v3 G3 h item hG3
    (by rw [b4, c2, hFs, hFf]; omega) hreply (by rw [b1, hFp]; exact hitem)
  have hstep4 : step v3 (.followUp n (.response status body h)) =
      Client.followUp n (.response status body h) v3 := rfl
  rw [← hstep4] at hF4 hq4
  generalize step v3 (.followUp n (.response status body h)) = v4 at hF4 hq4 hsplit
  obtain ⟨G5, hG5, hb5, hq5⟩ := run_beside n mid2 v4 _ hF4 c1 hmid2
    (Or.inl (by dsimp only; rw [b4, c2, hFs, hFf]))
  obtain ⟨d1, d2, d3, d4, d5⟩ := hb5
  obtain ⟨e1, e2, e3⟩ := d5 c1
  dsimp only at d1 d2 d3 d4 e2 e3
  have hv5 := hsplit []
  have hv6 := hsplit [.waitSelect n .resultChan]
  simp only [List.append_nil] at hv5
  rw [hv6]
  rw [show pre ++ Event.loopRead a (.ok (executingDone p)) :: mid1 ++
      Event.followUp n (.response status body h) :: mid2 = pre ++
      Event.loopRead a (.ok (executingDone p)) :: mid1 ++
      Event.followUp n (.response status body h) :: mid2 ++ [] by rw [List.append_nil]] 
  rw [hsplit []]
  simp only [run, List.foldl_cons, List.foldl_nil] at *
  generalize List.foldl step v4 mid2 = v5 at hG5 hq5 ⊢
  obtain ⟨hr6, hq6, _⟩ := Client.waitSelect_result n v5 G5 { PromptID := p, Item := item }
    { buffer := [], blocked := [] } hG5 (by rw [d3, b3, hFret])
    (by rw [d2, b2, hFr, b1, hFp]; rfl)
  refine ⟨hr6, ?_, G5, hG5, by rw [e2, c2, hFs], by rw [d4, b4, hFf]⟩
  show (Client.waitSelect n .resultChan v5).historyQueries = _
  rw [hq6, hq5, hq4, hq3, hq2, b1, hFp]

/-- Witness for C5 with the prompt id abc123: before the end signal the loop reads a frame
of unknown type; after it the loop reads the end signal again and an error frame for
`abc123`, and the timeout of the wait elapses; after the reply a second reply addressed
to the wait arrives. -/
theorem stream_wait_returns_history_entry_after_end_signal_witness :
    (run (Client.WaitForCompletionWithWS .background "abc123" 0 demoNet demoWorld).1
      ([.loopRead 0 (.ok unknownFrame), .loopSelect 0] ++
        .loopRead 0 (.ok (executingDone "abc123")) ::
        [.loopSelect 0, .loopRead 0 (.ok (executingDone "abc123")), .loopSelect 0,
          .loopRead 0 (.ok (executionErrorFrame "abc123")), .deadline 0] ++
        .followUp 0 (.response 200 "" [("abc123", completedItem)]) ::
        [.followUp 0 (.response 200 "" [("abc123", pendingItem)])] ++
        [.waitSelect 0 .resultChan])).returned 0
      = some (some { PromptID := "abc123", Item := completedItem }, none) ∧
    (run (Client.WaitForCompletionWithWS .background "abc123" 0 demoNet demoWorld).1
      ([.loopRead 0 (.ok unknownFrame), .loopSelect 0] ++
        .loopRead 0 (.ok (executingDone "abc123")) ::
        [.loopSelect 0, .loopRead 0 (.ok (executingDone "abc123")), .loopSelect 0,
          .loopRead 0 (.ok (executionErrorFrame "abc123")), .deadline 0] ++
        .followUp 0 (.response 200 "" [("abc123", completedItem)]) ::
        [.followUp 0 (.response 200 "" [("abc123", pendingItem)])] ++
        [.waitSelect 0 .resultChan])).historyQueries = ["abc123"] := by
  have h := (stream_wait_returns_history_entry_after_end_signal demoWorld 0 demoStream
    .background "abc123" 0 demoNet rfl rfl rfl rfl rfl (Or.inr ⟨1, rfl⟩) (Or.inr ⟨2, rfl⟩)).2.2
    [.loopRead 0 (.ok unknownFrame), .loopSelect 0]
    [.loopSelect 0, .loopRead 0 (.ok (executingDone "abc123")), .loopSelect 0,
      .loopRead 0 (.ok (executionErrorFrame "abc123")), .deadline 0]
    [.followUp 0 (.response 200 "" [("abc123", pendingItem)])]
    200 "" [("abc123", completedItem)] completedItem rfl rfl rfl (by decide) (by decide)
  exact ⟨h.1, h.2.1⟩

/-- Counterexample to C5 as stated: the demo client waits for `abc123`; an error frame for
`abc123` is handled before the frame with the null node, and the history response has an
entry for `abc123`.  The end signal starts no follow-up, history is never queried, the
result case of the `select` is not ready, and the wait returns the execution error. -/
theorem stream_wait_returns_error_when_error_frame_comes_first :
    (run (Client.WaitForCompletionWithWS .background "abc123" 0 demoNet demoWorld).1
      [.loopRead 0 (.ok (executionErrorFrame "abc123")), .loopSelect 0,
       .loopRead 0 (.ok (executingDone "abc123")),
       .followUp 0 (.response 200 "" [("abc123", completedItem)]),
       .waitSelect 0 .resultChan]).returned 0 = none ∧
    (run (Client.WaitForCompletionWithWS .background "abc123" 0 demoNet demoWorld).1
      [.loopRead 0 (.ok (executionErrorFrame "abc123")), .loopSelect 0,
       .loopRead 0 (.ok (executingDone "abc123")),
       .followUp 0 (.response 200 "" [("abc123", completedItem)]),
       .waitSelect 0 .resultChan, .waitSelect 0 .errorChan]).returned 0
      = some (none, some (.errorf "节点 7 (KSampler) 执行错误: out of memory")) ∧
    (run (Client.WaitForCompletionWithWS .background "abc123" 0 demoNet demoWorld).1
      [.loopRead 0 (.ok (executionErrorFrame "abc123")), .loopSelect 0,
       .loopRead 0 (.ok (executingDone "abc123")),
       .followUp 0 (.response 200 "" [("abc123", completedItem)]),
       .waitSelect 0 .resultChan, .waitSelect 0 .errorChan]).historyQueries = [] :=
  ⟨rfl, rfl, rfl⟩

/-- C15 (as amended): a `WaitForCompletionWithWS` for `p` on a connected stream client
blocks.  Let any events `pre` follow that leave the wait as it began (flag `completed`
unset, wrappers in the slots, the loop reading).  When the loop then reads a frame of
type `execution_error` whose payload decodes with prompt id `p`, one call goes through
the error slot with `p` and the error whose text is `节点 `, the node id, the node type
in brackets, ` 执行错误: ` and the exception message, and a caller callback under the
wrapper receives the same two arguments.  After any further events beside the wait and
any replies addressed to its follow-ups, the `select` of the wait, taking the error case,
returns a nil result with that very error; no follow-up was started and no history query
was made since the frame arrived.  A frame that arrives when the flag `completed` is
already set leaves the wait as it is. -/
theorem stream_wait_returns_execution_error_without_history_query
    (w : World) (a : Nat) (ws : WSClient) (ctx : Context) (p : String) (timeout : Int)
    (net : NetEnv)
    (hen : w.client.wsEnabled = true) (hcl : w.client.wsClient = some a)
    (hws : w.heap[a]? = some ws) (hconn : ws.IsConnected = true) (hloop : ws.loop = .inRead)
    (hexec : ws.onExecution = .nil ∨ ∃ id, ws.onExecution = .user id)
    (herr : ws.onError = .nil ∨ ∃ id, ws.onError = .user id) :
    (Client.WaitForCompletionWithWS ctx p timeout net w).2 = none ∧
    Armed a w.waits.length p (Client.WaitForCompletionWithWS ctx p timeout net w).1 = true ∧
    (∀ (pre mid : List Event) (data : FrameBytes) (msg : WSMessage)
      (errMsg : WSExecutionErrorMessage),
      Armed a w.waits.length p
        (run (Client.WaitForCompletionWithWS ctx p timeout net w).1 pre) = true →
      unmarshalWSMessage data = (msg, none) → msg.Type_ = "execution_error" →
      unmarshalStruct "Go value of type comfyui2go.WSExecutionErrorMessage"
        WSExecutionErrorMessage.setField
        { PromptID := "", NodeID := "", NodeType := "", Exception := "" } (jsonMarshal msg.Data).1
        = (errMsg, none) →
      errMsg.PromptID = p →
      (∀ e ∈ mid, e.besideOrReply w.waits.length = true) →
      (executionErrorOf errMsg).Error =
        "节点 " ++ errMsg.NodeID ++ " (" ++ errMsg.NodeType ++ ") 执行错误: " ++ errMsg.Exception ∧
      (run (Client.WaitForCompletionWithWS ctx p timeout net w).1
        (pre ++ [.loopRead a (.ok data)])).dispatched
        = (run (Client.WaitForCompletionWithWS ctx p timeout net w).1 pre).dispatched ++
            [.error p (executionErrorOf errMsg)] ∧
      (∀ (ws1 : WSClient) (id : Nat),
        (run (Client.WaitForCompletionWithWS ctx p timeout net w).1 pre).heap[a]? = some ws1 →
        ws1.onError = .waitWrapper (.user id) p w.waits.length →
        (run (Client.WaitForCompletionWithWS ctx p timeout net w).1
          (pre ++ [.loopRead a (.ok data)])).calls
          = (run (Client.WaitForCompletionWithWS ctx p timeout net w).1 pre).calls ++
              [.error id p (executionErrorOf errMsg)]) ∧
      (run (Client.WaitForCompletionWithWS ctx p timeout net w).1
        (pre ++ .loopRead a (.ok data) :: mid ++
          [.waitSelect w.waits.length .errorChan])).returned w.waits.length
        = some (none, some (executionErrorOf errMsg)) ∧
      (run (Client.WaitForCompletionWithWS ctx p timeout net w).1
        (pre ++ .loopRead a (.ok data) :: mid ++
          [.waitSelect w.waits.length .errorChan])).historyQueries
        = (run (Client.WaitForCompletionWithWS ctx p timeout net w).1 pre).historyQueries ∧
      ∃ G, (run (Client.WaitForCompletionWithWS ctx p timeout net w).1
        (pre ++ .loopRead a (.ok data) :: mid)).waits[w.waits.length]? = some G ∧
        G.followUpsStarted = 0) ∧
    (∀ (v : World) (F : WaitFrame) (b : Nat) (r : Except GoError FrameBytes),
      v.waits[w.waits.length]? = some F → F.completed = true →
      (step v (.loopRead b r)).waits[w.waits.length]? = some F) := by
  obtain ⟨hnone, harmed⟩ := Client.WaitForCompletionWithWS_armed w a ws ctx p timeout net
    hen hcl hws hconn hloop hexec herr
  refine ⟨hnone, harmed, ?_, ?_⟩
  · intro pre mid data msg errMsg hpre hdec htype hpay hid hmid
    generalize (Client.WaitForCompletionWithWS ctx p timeout net w).1 = w1 at hpre ⊢
    generalize w.waits.length = n at hpre hmid ⊢
    obtain ⟨F, ws1, cbX, cbE, hF, hFp, hFc, hFret, hFr, hFe, hFs, hFf, hws1, hloop1, _, hslotE,
      _, hcbE⟩ := Armed.spec hpre
    have hsplit : ∀ tail : List Event,
        run w1 (pre ++ .loopRead a (.ok data) :: mid ++ tail) =
        run (run (step (run w1 pre) (.loopRead a (.ok data))) mid) tail := by
      intro tail
      simp only [List.append_assoc, List.cons_append, run_append, run_cons]
    have hone : run w1 (pre ++ [.loopRead a (.ok data)]) =
        step (run w1 pre) (.loopRead a (.ok data)) := by
      simp only [run_append, run_cons]
      rfl
    rw [hone]
    generalize run w1 pre = v at hF hws1 hsplit ⊢
    obtain ⟨hF2, hq2, hd2, _, hc2⟩ := WSClient.loopRead_executionError a n p v ws1 cbE F data msg
      errMsg hws1 hloop1 hslotE hcbE hF hFc hdec htype hpay hid
    have hstep2 : step v (.loopRead a (.ok data)) = WSClient.loopRead a (.ok data) v := rfl
    rw [← hstep2] at hF2 hq2 hd2 hc2
    refine ⟨rfl, hd2, ?_, ?_⟩
    · intro ws' id hws' hslot'
      rw [hws1] at hws'
      cases hws'
      rw [hslotE] at hslot'
      cases hslot'
      exact hc2 id rfl
    generalize step v (.loopRead a (.ok data)) = v2 at hF2 hq2 hsplit
    obtain ⟨G3, hG3, hb3, hq3⟩ := run_beside n mid v2 _ hF2 rfl hmid
      (Or.inl (by dsimp only; rw [hFs, hFf]))
    obtain ⟨b1, b2, b3, b4, b5⟩ := hb3
    obtain ⟨c1, c2, c3⟩ := b5 rfl
    dsimp only at b1 b2 b3 b4 c2 c3
    have hv3 := hsplit []
    have hv4 := hsplit [.waitSelect n .errorChan]
    rw [hv4]
    rw [show pre ++ Event.loopRead a (.ok data) :: mid =
      pre ++ Event.loopRead a (.ok data) :: mid ++ [] by rw [List.append_nil], hsplit []]
    simp only [run, List.foldl_cons, List.foldl_nil] at *
    generalize List.foldl step v2 mid = v3 at hG3 hq3 ⊢
    obtain ⟨hr4, hq4, _, _⟩ := Client.waitSelect_error n v3 G3 (executionErrorOf errMsg)
      { buffer := [], blocked := [] } hG3 (by rw [b3, hFret])
      (by rw [c3, hFe]; rfl)
    refine ⟨hr4, ?_, G3, hG3, by rw [c2, hFs]⟩
    show (Client.waitSelect n .errorChan v3).historyQueries = _
    rw [hq4, hq3, hq2]
  · intro v F b r hF hc
    obtain ⟨G, hG, hact⟩ := step_loop_acts w.waits.length v (.loopRead b r) rfl F hF
    rw [hG, hact.of_completed hc]

/-- Witness for C15: the demo client waits for `abc123`; the loop reads a frame of unknown
type, then the error frame of node 7, then the end signal for `abc123`; the timeout
elapses and a reply addressed to the wait arrives before the `select` takes the error
case. -/
theorem stream_wait_returns_execution_error_without_history_query_witness :
    (run (Client.WaitForCompletionWithWS .background "abc123" 0 demoNet demoWorld).1
      ([.loopRead 0 (.ok unknownFrame), .loopSelect 0] ++
        .loopRead 0 (.ok (executionErrorFrame "abc123")) ::
        [.loopSelect 0, .loopRead 0 (.ok (executingDone "abc123")), .deadline 0,
          .followUp 0 (.response 200 "" [("abc123", completedItem)])] ++
        [.waitSelect 0 .errorChan])).returned 0
      = some (none, some (.errorf "节点 7 (KSampler) 执行错误: out of memory")) ∧
    (run (Client.WaitForCompletionWithWS .background "abc123" 0 demoNet demoWorld).1
      ([.loopRead 0 (.ok unknownFrame), .loopSelect 0] ++
        .loopRead 0 (.ok (executionErrorFrame "abc123")) ::
        [.loopSelect 0, .loopRead 0 (.ok (executingDone "abc123")), .deadline 0,
          .followUp 0 (.response 200 "" [("abc123", completedItem)])] ++
        [.waitSelect 0 .errorChan])).historyQueries = [] ∧
    (run (Client.WaitForCompletionWithWS .background "abc123" 0 demoNet demoWorld).1
      ([.loopRead 0 (.ok unknownFrame), .loopSelect 0] ++
        [.loopRead 0 (.ok (executionErrorFrame "abc123"))])).calls
      = [.error 2 "abc123" (.errorf "节点 7 (KSampler) 执行错误: out of memory")] := by
  have h := (stream_wait_returns_execution_error_without_history_query demoWorld 0 demoStream
    .background "abc123" 0 demoNet rfl rfl rfl rfl rfl (Or.inr ⟨1, rfl⟩) (Or.inr ⟨2, rfl⟩)).2.2.1
    [.loopRead 0 (.ok unknownFrame), .loopSelect 0]
    [.loopSelect 0, .loopRead 0 (.ok (executingDone "abc123")), .deadline 0,
      .followUp 0 (.response 200 "" [("abc123", completedItem)])]
    (executionErrorFrame "abc123")
    (unmarshalWSMessage (executionErrorFrame "abc123")).1
    { PromptID := "abc123", NodeID := "7", NodeType := "KSampler", Exception := "out of memory" }
    rfl rfl rfl rfl rfl (by decide)
  exact ⟨h.2.2.2.1, h.2.2.2.2.1, h.2.2.1 _ 2 rfl rfl⟩

/-- Counterexample to C15 as stated: the demo client waits for `abc123`; the end signal for
`abc123` is handled before the error frame of node 7.  The error handler of the caller
still receives the error, but the error case of the `select` is not ready; the follow-up
queries history, and the wait returns the history entry, not the error. -/
theorem stream_wait_ignores_error_frame_after_end_signal :
    (run (Client.WaitForCompletionWithWS .background "abc123" 0 demoNet demoWorld).1
      [.loopRead 0 (.ok (executingDone "abc123")), .loopSelect 0,
       .loopRead 0 (.ok (executionErrorFrame "abc123"))]).calls
      = [.execution 1 "abc123" none,
         .error 2 "abc123" (.errorf "节点 7 (KSampler) 执行错误: out of memory")] ∧
    (run (Client.WaitForCompletionWithWS .background "abc123" 0 demoNet demoWorld).1
      [.loopRead 0 (.ok (executingDone "abc123")), .loopSelect 0,
       .loopRead 0 (.ok (executionErrorFrame "abc123")),
       .followUp 0 (.response 200 "" [("abc123", completedItem)]),
       .waitSelect 0 .errorChan]).returned 0 = none ∧
    (run (Client.WaitForCompletionWithWS .background "abc123" 0 demoNet demoWorld).1
      [.loopRead 0 (.ok (executingDone "abc123")), .loopSelect 0,
       .loopRead 0 (.ok (executionErrorFrame "abc123")),
       .followUp 0 (.response 200 "" [("abc123", completedItem)]),
       .waitSelect 0 .errorChan, .waitSelect 0 .resultChan]).returned 0
      = some (some { PromptID := "abc123", Item := completedItem }, none) ∧
    (run (Client.WaitForCompletionWithWS .background "abc123" 0 demoNet demoWorld).1
      [.loopRead 0 (.ok (executingDone "abc123")), .loopSelect 0,
       .loopRead 0 (.ok (executionErrorFrame "abc123")),
       .followUp 0 (.response 200 "" [("abc123", completedItem)]),
       .waitSelect 0 .errorChan, .waitSelect 0 .resultChan]).historyQueries = ["abc123"] :=
  ⟨rfl, rfl, rfl, rfl⟩

theorem Client.ensureWebSocketConnected_alive (ctx : Context) (net : NetEnv) (w w' : World)
    (hdis : Client.IsWebSocketConnected w = false)
    (h : Client.ensureWebSocketConnected ctx net w = (w', none))
    (hctx : ctx.isDone w.cancelled = false) :
    Alive w.heap.length (some ctx) w'.dials w' := by
  unfold Client.ensureWebSocketConnected at h
  split at h
  · simp at h
  · rename_i hen
    rw [hdis] at h
    simp only [Bool.false_eq_true, if_false] at h
    unfold WSClient.Connect at h
    rw [List.getElem?_concat_length] at h
    simp only [NewWSClient, Bool.false_eq_true, if_false] at h
    split at h
    · simp at h
    · split at h
      · simp at h
      · simp only [Prod.mk.injEq, and_true] at h
        rw [← h]
        refine ⟨?_, ?_, rfl, ?_⟩
        · rw [(World.modifyWS_fields _ _ _).1]
          simpa using hen
        · rw [(World.modifyWS_fields _ _ _).1]
        · rw [World.heap_modifyWS]
          simp only [if_true, List.getElem?_concat_length, Option.map_some']
          refine ⟨_, rfl, ?_, rfl, ?_⟩
          · simp [WSClient.IsConnected]
          · rw [(World.modifyWS_fields _ _ _).2.2.1]
            simp [WSClient.ctxDone, hctx]

theorem WSClient.buildWebSocketURL_parsed (ws : WSClient) (net : NetEnv)
    (hparse : ∀ address, ∃ u, net.parse address = .ok u) :
    ∃ wsURL, ws.buildWebSocketURL net = (wsURL, none) := by
  unfold WSClient.buildWebSocketURL
  dsimp only
  split
  · obtain ⟨u, hu⟩ := hparse
      ((if startsWith (trimSuffix ws.baseURL "/") "http://" = true then
          replaceLeading (trimSuffix ws.baseURL "/") "http://" "ws://"
        else if startsWith (trimSuffix ws.baseURL "/") "https://" = true then
          replaceLeading (trimSuffix ws.baseURL "/") "https://" "wss://"
        else if (!startsWith (trimSuffix ws.baseURL "/") "ws://" &&
            !startsWith (trimSuffix ws.baseURL "/") "wss://") = true then
          "ws://" ++ trimSuffix ws.baseURL "/"
        else trimSuffix ws.baseURL "/") ++ "/ws")
    rw [hu]
    exact ⟨_, rfl⟩
  · exact ⟨_, rfl⟩

theorem Client.ensureWebSocketConnected_refused (ctx : Context) (net : NetEnv) (w : World)
    (hen : w.client.wsEnabled = true) (hdis : Client.IsWebSocketConnected w = false)
    (hnet : net.refuses) :
    (Client.ensureWebSocketConnected ctx net w).1.client.wsEnabled = true ∧
    Client.IsWebSocketConnected (Client.ensureWebSocketConnected ctx net w).1 = false ∧
    (Client.ensureWebSocketConnected ctx net w).1.dials.length = w.dials.length + 1 ∧
    (Client.ensureWebSocketConnected ctx net w).2 ≠ none := by
  unfold Client.ensureWebSocketConnected
  rw [hen, hdis]
  simp only [Bool.not_true, Bool.false_eq_true, if_false]
  unfold WSClient.Connect
  rw [List.getElem?_concat_length]
  simp only [NewWSClient, Bool.false_eq_true, if_false]
  obtain ⟨wsURL, hurl⟩ := WSClient.buildWebSocketURL_parsed
    { conn := none, baseURL := w.client.getBaseURL, clientID := w.client.clientID,
      username := w.client.getUsername, password := w.client.getPassword,
      onProgress := w.client.onProgress, onStatus := w.client.onStatus,
      onExecution := w.client.onExecution, onError := w.client.onError, running := false,
      ctx := none, cancelCalled := false, loop := .notStarted } net hnet.1
  rw [hurl]
  dsimp only
  obtain ⟨e, he⟩ := hnet.2 wsURL
    (if w.client.getUsername ≠ "" ∧ w.client.getPassword ≠ "" then
      some (w.client.getUsername ++ ":" ++ w.client.getPassword) else none)
  rw [he]
  dsimp only
  refine ⟨hen, ?_, ?_, by simp⟩
  · simp [Client.IsWebSocketConnected, WSClient.IsConnected]
  · simp

theorem run_refused (refused : List Event) : ∀ (w : World), w.client.wsEnabled = true →
    Client.IsWebSocketConnected w = false → (∀ e ∈ refused, e.isRefused) →
    (run w refused).dials.length = w.dials.length + refused.length ∧
    Client.IsWebSocketConnected (run w refused) = false := by
  induction refused with
  | nil => intro w _ hdis _; exact ⟨rfl, hdis⟩
  | cons e rest ih =>
    intro w hen hdis hall
    obtain ⟨ctx, net, he, hnet⟩ := hall e (List.mem_cons_self _ _)
    obtain ⟨h1, h2, h3, _⟩ := Client.ensureWebSocketConnected_refused ctx net w hen hdis hnet
    have hstep : step w e = (Client.ensureWebSocketConnected ctx net w).1 := by
      rcases he with rfl | rfl
      · simp only [step, Client.GetWebSocketStatus_world]
      · simp only [step, Client.GetWebSocketClient_world]
    obtain ⟨h4, h5⟩ := ih (step w e) (by rw [hstep]; exact h1) (by rw [hstep]; exact h2)
      (fun e' he' => hall e' (List.mem_cons_of_mem _ he'))
    rw [run_cons]
    refine ⟨?_, h5⟩
    rw [h4, hstep, h3, List.length_cons]
    omega

/-- C17 (as amended): `ensureWebSocketConnected` runs under `wsMu`, so concurrent callers
go one after the other.  On a client with no connection, when the call of the caller that
gets the lock first succeeds, that call has made exactly one dial, and any number of
callers after it, in any order, change nothing, dial included: each of them gets a nil
error, the same stream client from `GetWebSocketClient` and `true` from
`GetWebSocketStatus`.  With other events between the callers this stays so when the
context of the first caller was not done and none of the events is a `CloseWebSocket`, a
failed read on the new stream client or the cancellation of that context.  A failed dial
is not remembered: any number of callers whose dials are all refused make that number of
dials and leave the client without connection. -/
theorem concurrent_callers_share_first_successful_dial
    (w w1 : World) (ctx : Context) (net : NetEnv)
    (hdis : Client.IsWebSocketConnected w = false)
    (hfirst : Client.ensureWebSocketConnected ctx net w = (w1, none)) :
    step w (.getWebSocketStatus ctx net) = w1 ∧
    step w (.getWebSocketClient ctx net) = w1 ∧
    (∃ d, w1.dials = w.dials ++ [d]) ∧
    w1.client.wsClient = some w.heap.length ∧
    (∀ callers : List Event, (∀ e ∈ callers, e.isEnsure = true) → run w1 callers = w1) ∧
    (∀ ctx2 net2,
      Client.ensureWebSocketConnected ctx2 net2 w1 = (w1, none) ∧
      Client.GetWebSocketClient ctx2 net2 w1 = (w1, some w.heap.length, none) ∧
      Client.GetWebSocketStatus ctx2 net2 w1 = (w1, true, none)) ∧
    (ctx.isDone w.cancelled = false →
      ∀ events : List Event, (∀ e ∈ events, e.keepsAlive w.heap.length (some ctx) = true) →
        (run w1 events).dials = w1.dials ∧
        ∀ ctx2 net2,
          Client.ensureWebSocketConnected ctx2 net2 (run w1 events) = (run w1 events, none) ∧
          Client.GetWebSocketClient ctx2 net2 (run w1 events)
            = (run w1 events, some w.heap.length, none) ∧
          Client.GetWebSocketStatus ctx2 net2 (run w1 events) = (run w1 events, true, none)) ∧
    (∀ refused : List Event, (∀ e ∈ refused, e.isRefused) →
      (run w refused).dials.length = w.dials.length + refused.length ∧
      Client.IsWebSocketConnected (run w refused) = false) := by
  obtain ⟨hd, hconn, hcl, hen⟩ := Client.ensureWebSocketConnected_first ctx net w w1 hdis hfirst
  have hs1 : step w (.getWebSocketStatus ctx net) = w1 := by
    simp only [step, Client.GetWebSocketStatus, hfirst]
  have hs2 : step w (.getWebSocketClient ctx net) = w1 := by
    simp only [step, Client.GetWebSocketClient, hfirst]
  have hen0 : w.client.wsEnabled = true := by
    cases hw : w.client.wsEnabled with
    | true => rfl
    | false =>
      rw [Client.ensureWebSocketConnected_disabled ctx net w hw] at hfirst
      cases hfirst
  have key : ∀ v : World, v.client.wsEnabled = true → Client.IsWebSocketConnected v = true →
      v.client.wsClient = some w.heap.length → ∀ ctx2 net2,
      Client.ensureWebSocketConnected ctx2 net2 v = (v, none) ∧
      Client.GetWebSocketClient ctx2 net2 v = (v, some w.heap.length, none) ∧
      Client.GetWebSocketStatus ctx2 net2 v = (v, true, none) := by
    intro v hv1 hv2 hv3 ctx2 net2
    have h2 := Client.ensureWebSocketConnected_connected ctx2 net2 v hv1 hv2
    refine ⟨h2, ?_, ?_⟩
    · simp only [Client.GetWebSocketClient, h2, hv3]
    · simp only [Client.GetWebSocketStatus, h2, hv2]
  refine ⟨hs1, hs2, hd, hcl, fun callers hc => run_ensure_connected callers w1 hen hconn hc,
    key w1 hen hconn hcl, fun hctx events hquiet => ?_,
    fun refused hall => run_refused refused w hen0 hdis hall⟩
  have h0 := Client.ensureWebSocketConnected_alive ctx net w w1 hdis hfirst hctx
  have h1 := run_alive w.heap.length (some ctx) w1.dials events w1 h0 hquiet
  exact ⟨h1.2.2.1, key _ h1.1 h1.isConnected h1.2.1⟩

/-- Witness for C17: ten callers on a client just built, every dial succeeding: one dial,
also with a pass of the loop, an unknown frame and the cancellation of another context
between the callers; and ten callers every dial of which is refused: ten dials. -/
theorem concurrent_callers_share_first_successful_dial_witness :
    (run freshWorld (.getWebSocketStatus .background demoNet ::
      List.replicate 9 (.getWebSocketStatus .background demoNet))).dials.length = 1 ∧
    (run freshWorld (.getWebSocketStatus .background demoNet ::
      [.loopSelect 0, .getWebSocketClient .background demoNet, .loopRead 0 (.ok unknownFrame),
       .cancel 5, .getWebSocketStatus (.cancellable 5) demoNet])).dials.length = 1 ∧
    (run freshWorld
      (List.replicate 10 (.getWebSocketStatus .background refusingNet))).dials.length = 10 := by
  have h := concurrent_callers_share_first_successful_dial freshWorld
    (Client.ensureWebSocketConnected .background demoNet freshWorld).1 .background demoNet
    rfl rfl
  have hrefuses : refusingNet.refuses :=
    ⟨fun address => ⟨_, rfl⟩, fun _ _ => ⟨_, rfl⟩⟩
  refine ⟨?_, ?_, ?_⟩
  · rw [run_cons, h.1, h.2.2.2.2.1 _ (by decide)]
    rfl
  · rw [run_cons, h.1, (h.2.2.2.2.2.2.1 rfl _ (by decide)).1]
    rfl
  · rw [(h.2.2.2.2.2.2.2 (List.replicate 10 (.getWebSocketStatus .background refusingNet))
      (fun e he => ⟨.background, refusingNet,
        Or.inl (List.eq_of_mem_replicate he), hrefuses⟩)).1]
    rfl

theorem log2Bound_spec : ∀ (fuel j n : Nat), n < 2 ^ (2 ^ (j + fuel)) →
    n < 2 ^ (2 ^ (log2Bound fuel j n)) := by
  intro fuel
  induction fuel with
  | zero => intro j n h; simpa [log2Bound] using h
  | succ fuel ih =>
    intro j n h
    unfold log2Bound
    split
    · assumption
    · exact ih (j + 1) n (by rw [show j + 1 + fuel = j + (fuel + 1) by omega]; exact h)

theorem log2Search_spec : ∀ (j acc n : Nat), 2 ^ acc ≤ n → n < 2 ^ (acc + 2 ^ j) →
    2 ^ (log2Search j acc n) ≤ n ∧ n < 2 ^ (log2Search j acc n + 1) := by
  intro j
  induction j with
  | zero => intro acc n h1 h2; exact ⟨h1, by simpa [log2Search] using h2⟩
  | succ j ih =>
    intro acc n h1 h2
    unfold log2Search
    split
    · rename_i hle
      exact ih (acc + 2 ^ j) n hle (by
        rw [show acc + 2 ^ j + 2 ^ j = acc + 2 ^ (j + 1) by rw [pow_succ]; omega]
        exact h2)
    · rename_i hlt
      exact ih acc n h1 (by omega)

theorem floorLog2_spec (n : Nat) (h : 0 < n) :
    2 ^ floorLog2 n ≤ n ∧ n < 2 ^ (floorLog2 n + 1) := by
  unfold floorLog2
  have hb : n < 2 ^ (2 ^ (log2Bound n 0 n)) := by
    apply log2Bound_spec
    rw [Nat.zero_add]
    calc n < 2 ^ n := Nat.lt_two_pow n
      _ ≤ 2 ^ (2 ^ n) := Nat.pow_le_pow_right (by decide) (Nat.lt_two_pow n).le
  exact log2Search_spec _ 0 n (by simpa using h) (by rw [Nat.zero_add]; exact hb)

theorem decodeInt_reads_through_float64 :
    decodeInt "int" 0 (valueInterface "float64" (.number (.int 20))).1 = (20, none) ∧
    decodeInt "int" 0 (valueInterface "float64" (.number (.frac "1e2"))).1 = (100, none) ∧
    decodeInt "int" 0 (valueInterface "float64" (.number (.int 9007199254740993))).1
      = (9007199254740992, none) ∧
    decodeInt "int" 0 (valueInterface "float64" (.number (.int 4611686018427387904))).1
      = (4611686018427388000, none) ∧
    decodeInt "int" 0 (valueInterface "float64" (.number (.int 9223372036854775807))).1
      = (0, some (.unmarshalType "number" "int")) ∧
    decodeInt "int" 0 (valueInterface "float64" (.number (.frac "1.5"))).1
      = (0, some (.unmarshalType "number" "int")) ∧
    valueInterface "float64" (.number (.frac "1e400"))
      = (.null, some (.unmarshalType "number 1e400" "float64")) :=
  ⟨rfl, rfl, rfl, rfl, rfl, rfl, rfl⟩

theorem keyLess_irrefl : ∀ l : List Nat, keyLess l l = false
  | [] => rfl
  | a :: as => by
    simp only [keyLess, Nat.lt_irrefl, if_false]
    exact keyLess_irrefl as

theorem keyLess_trans : ∀ a b c : List Nat, keyLess a b = true → keyLess b c = true →
    keyLess a c = true
  | [], [], _, h, _ => by simp [keyLess] at h
  | [], _ :: _, [], _, h => by simp [keyLess] at h
  | [], _ :: _, _ :: _, _, _ => rfl
  | _ :: _, [], _, h, _ => by simp [keyLess] at h
  | _ :: _, _ :: _, [], _, h => by simp [keyLess] at h
  | x :: xs, y :: ys, z :: zs, h1, h2 => by
    simp only [keyLess] at h1 h2 ⊢
    by_cases hxy : x < y
    · by_cases hyz : y < z
      · rw [if_pos (by omega)]
      · rw [if_neg hyz] at h2
        by_cases hzy : z < y
        · rw [if_pos hzy] at h2; cases h2
        · rw [if_pos (by omega)]
    · rw [if_neg hxy] at h1
      by_cases hyx : y < x
      · rw [if_pos hyx] at h1; cases h1
      · rw [if_neg hyx] at h1
        have hxy' : x = y := by omega
        subst hxy'
        by_cases hyz : x < z
        · rw [if_pos hyz]
        · rw [if_neg hyz] at h2 ⊢
          by_cases hzy : z < x
          · rw [if_pos hzy] at h2; cases h2
          · rw [if_neg hzy] at h2 ⊢
            exact keyLess_trans xs ys zs h1 h2

theorem keyLess_total : ∀ a b : List Nat, a ≠ b → keyLess a b = false → keyLess b a = true
  | [], [], h, _ => absurd rfl h
  | [], _ :: _, _, h => by simp [keyLess] at h
  | _ :: _, [], _, _ => rfl
  | x :: xs, y :: ys, hne, h => by
    simp only [keyLess] at h ⊢
    by_cases hxy : x < y
    · rw [if_pos hxy] at h; cases h
    · rw [if_neg hxy] at h
      by_cases hyx : y < x
      · rw [if_pos hyx]
      · rw [if_neg hyx] at h ⊢
        have hxy' : x = y := by omega
        subst hxy'
        simp only [Nat.lt_irrefl, if_false]
        exact keyLess_total xs ys (fun hc => hne (by rw [hc])) h

theorem runes_injective {s t : String} (h : runes s = runes t) : s = t := by
  unfold runes at h
  have hinj : Function.Injective Char.toNat := by
    intro a b hab
    exact Char.ext (UInt32.ext (by simpa [Char.toNat, UInt32.toNat] using hab))
  exact String.ext (List.map_injective_iff.mpr hinj h)

theorem mapSet_keys (m : JSONMap) (k : String) (v : JSONValue) :
    ∀ x ∈ mapSet m k v, x.1 = k ∨ x ∈ m := by
  induction m with
  | nil =>
    intro x hx
    simp only [mapSet, List.mem_singleton] at hx
    exact Or.inl (by rw [hx])
  | cons kv rest ih =>
    intro x hx
    obtain ⟨k', v'⟩ := kv
    simp only [mapSet] at hx
    split_ifs at hx with h1 h2
    · rcases List.mem_cons.mp hx with h | h
      · exact Or.inl (by rw [h])
      · exact Or.inr (List.mem_cons_of_mem _ h)
    · rcases List.mem_cons.mp hx with h | h
      · exact Or.inl (by rw [h])
      · exact Or.inr h
    · rcases List.mem_cons.mp hx with h | h
      · exact Or.inr (by rw [h]; exact List.mem_cons_self _ _)
      · rcases ih x h with h' | h'
        · exact Or.inl h'
        · exact Or.inr (List.mem_cons_of_mem _ h')

theorem mapSet_sorted (m : JSONMap) (k : String) (v : JSONValue)
    (hm : m.Pairwise (fun x y => keyLess (runes x.1) (runes y.1) = true)) :
    (mapSet m k v).Pairwise (fun x y => keyLess (runes x.1) (runes y.1) = true) := by
  induction m with
  | nil => simp [mapSet]
  | cons kv rest ih =>
    obtain ⟨k', v'⟩ := kv
    obtain ⟨hhead, htail⟩ := List.pairwise_cons.mp hm
    simp only [mapSet]
    split_ifs with h1 h2
    · subst h1
      exact List.pairwise_cons.mpr ⟨hhead, htail⟩
    · refine List.pairwise_cons.mpr ⟨fun y hy => ?_, hm⟩
      rcases List.mem_cons.mp hy with h | h
      · rw [h]; exact h2
      · exact keyLess_trans _ _ _ h2 (hhead y h)
    · refine List.pairwise_cons.mpr ⟨fun y hy => ?_, ih htail⟩
      rcases mapSet_keys rest k v y hy with h | h
      · rw [h]
        exact keyLess_total _ _ (fun hc => h1 (runes_injective hc)) (by simpa using h2)
      · exact hhead y h

theorem objectInto_sorted (members : List (String × JSONValue)) :
    ∀ m : JSONMap, m.Pairwise (fun x y => keyLess (runes x.1) (runes y.1) = true) →
      (objectInto m members).Pairwise (fun x y => keyLess (runes x.1) (runes y.1) = true) := by
  induction members with
  | nil => intro m hm; exact hm
  | cons kv rest ih =>
    intro m hm
    simp only [objectInto, List.foldl_cons]
    exact ih _ (mapSet_sorted m kv.1 kv.2 hm)

theorem decodeMembers_keeps {α : Type} (P : α → Prop)
    (setField : α → String → JSONValue → α × Option GoError)
    (hset : ∀ a k v, P a → P (setField a k v).1) (members : List (String × JSONValue)) :
    ∀ cur : α × Option GoError, P cur.1 →
      P (members.foldl (fun acc kv => ((setField acc.1 kv.1 kv.2).1,
        saveError acc.2 (setField acc.1 kv.1 kv.2).2)) cur).1 := by
  induction members with
  | nil => intro cur h; exact h
  | cons kv rest ih =>
    intro cur h
    simp only [List.foldl_cons]
    exact ih _ (hset _ _ _ h)

theorem unmarshalWSMessage_sorted (data : FrameBytes) :
    ((unmarshalWSMessage data).1.Data.getD []).Pairwise
      (fun x y => keyLess (runes x.1) (runes y.1) = true) := by
  have hset : ∀ (a : WSMessage) (k : String) (v : JSONValue),
      (a.Data.getD []).Pairwise (fun x y => keyLess (runes x.1) (runes y.1) = true) →
      ((WSMessage.setField a k v).1.Data.getD []).Pairwise
        (fun x y => keyLess (runes x.1) (runes y.1) = true) := by
    intro a k v ha
    unfold WSMessage.setField
    split_ifs
    · exact ha
    · split
      · exact List.Pairwise.nil
      · exact objectInto_sorted _ _ ha
      · exact ha
    · exact ha
  cases data with
  | invalid text => exact List.Pairwise.nil
  | json doc =>
    have hkeep := fun members => decodeMembers_keeps
      (fun a : WSMessage => (a.Data.getD []).Pairwise
        (fun x y => keyLess (runes x.1) (runes y.1) = true))
      WSMessage.setField hset members ({ Type_ := "", Data := none }, none) List.Pairwise.nil
    cases doc with
    | object members => exact hkeep members
    | _ => exact List.Pairwise.nil

theorem unmarshalWSMessage_nodup (data : FrameBytes) :
    (((unmarshalWSMessage data).1.Data.getD []).map Prod.fst).Nodup := by
  have h := unmarshalWSMessage_sorted data
  rw [List.Nodup, List.pairwise_map]
  refine h.imp ?_
  intro x y hxy hc
  rw [hc, keyLess_irrefl] at hxy
  cases hxy

/-- C26 (as amended): for every frame whose envelope decodes (`json.Unmarshal` into
`WSMessage` returns nil) with the type `executing`, whose data has `node` null, absent or
a string, `prompt_id` null, absent or a string, and no other member whose name matches
`node` or `prompt_id` when case is ignored, read by a stream client with an execution
handler: exactly one call goes through the execution slot, with the prompt
id of the frame and with a nil node exactly when the node of the frame is null or absent,
otherwise with the node string of the frame; a caller callback found in the slot receives
the same two arguments, and no call goes through another slot. -/
theorem executing_frame_invokes_execution_handler_once
    (ws : WSClient) (data : FrameBytes) (msg : WSMessage) (w : World)
    (hdec : unmarshalWSMessage data = (msg, none)) (htype : msg.Type_ = "executing")
    (hcb : ws.onExecution ≠ .nil)
    (hmem : ∀ kv ∈ msg.Data.getD [], ExecutingMember kv) :
    ws.handleMessage data w =
      ws.onExecution.invoke (framePromptID (msg.Data.getD [])) (frameNode (msg.Data.getD []))
        (w.note (.execution (framePromptID (msg.Data.getD [])) (frameNode (msg.Data.getD [])))) ∧
    (ws.handleMessage data w).dispatched = w.dispatched ++
      [.execution (framePromptID (msg.Data.getD [])) (frameNode (msg.Data.getD []))] ∧
    (∀ id, ws.onExecution = .user id →
      (ws.handleMessage data w).calls = w.calls ++
        [.execution id (framePromptID (msg.Data.getD [])) (frameNode (msg.Data.getD []))]) ∧
    (frameNode (msg.Data.getD []) = none ↔
      (msg.Data.get "node" = none ∨ msg.Data.get "node" = some .null)) ∧
    (∀ s, msg.Data.get "node" = some (.string s) → frameNode (msg.Data.getD []) = some s) := by
  have hnodup : ((msg.Data.getD []).map Prod.fst).Nodup := by
    have h := unmarshalWSMessage_nodup data
    rw [hdec] at h
    exact h
  have hinv : ws.handleMessage data w =
      ws.onExecution.invoke (framePromptID (msg.Data.getD [])) (frameNode (msg.Data.getD []))
        (w.note (.execution (framePromptID (msg.Data.getD [])) (frameNode (msg.Data.getD [])))) := by
    unfold WSClient.handleMessage
    rw [hdec]
    dsimp only
    rw [htype]
    have h1 : ¬ ("executing" = "status") := by decide
    have h2 : ¬ ("executing" = "execution_start") := by decide
    simp only [h1, h2, if_false, if_true]
    unfold WSClient.handleExecutingMessage
    rw [if_neg hcb, jsonMarshal_ok]
    dsimp only
    rw [unmarshal_executing msg.Data hmem hnodup]
  have hget : ∀ k, msg.Data.get k = (msg.Data.getD []).lookup k := by
    intro k
    cases msg.Data <;> rfl
  refine ⟨hinv, ?_, fun id hid => ?_, ?_, fun s hs => ?_⟩
  · rw [hinv, ExecutionCallback.execution_invoke_dispatched]
    rfl
  · rw [hinv, hid]
    rfl
  · rw [hget]
    unfold frameNode
    cases h : List.lookup "node" (msg.Data.getD []) with
    | none => simp
    | some v =>
      have hm := hmem _ (List.mem_of_lookup_some "node" v _ h)
      rcases hm with ⟨_, hv | ⟨s, hv⟩⟩ | ⟨hk, _⟩ | ⟨hk, _⟩
      · dsimp only at hv
        subst hv
        simp
      · dsimp only at hv
        subst hv
        simp
      · dsimp only at hk
        exact absurd hk (by decide)
      · dsimp only at hk
        exact absurd hk (by decide)
  · rw [hget] at hs
    unfold frameNode
    rw [hs]

/-- Witness for C26: the demo client reads the frame for node 5 of `abc123` and the frame
with a null node. -/
theorem executing_frame_invokes_execution_handler_once_witness :
    (demoStream.handleMessage executingNodeFrame demoWorld).calls
      = [.execution 1 "abc123" (some "5")] ∧
    (demoStream.handleMessage executingNodeFrame demoWorld).dispatched
      = [.execution "abc123" (some "5")] ∧
    (demoStream.handleMessage (executingDone "abc123") demoWorld).calls
      = [.execution 1 "abc123" none] := by
  have h1 := executing_frame_invokes_execution_handler_once demoStream executingNodeFrame
    { Type_ := "executing", Data := some [("display_node", .string "5"), ("node", .string "5"),
        ("prompt_id", .string "abc123")] } demoWorld rfl rfl (by decide)
    (by
      intro kv hkv
      simp only [Option.getD_some, List.mem_cons, List.mem_singleton, List.not_mem_nil,
        or_false] at hkv
      rcases hkv with rfl | rfl | rfl
      · exact Or.inr (Or.inr ⟨by decide, by decide⟩)
      · exact Or.inl ⟨rfl, Or.inr ⟨_, rfl⟩⟩
      · exact Or.inr (Or.inl ⟨rfl, Or.inr ⟨_, rfl⟩⟩))
  have h2 := executing_frame_invokes_execution_handler_once demoStream (executingDone "abc123")
    { Type_ := "executing", Data := some [("node", .null), ("prompt_id", .string "abc123")] }
    demoWorld rfl rfl (by decide)
    (by
      intro kv hkv
      simp only [Option.getD_some, List.mem_cons, List.mem_singleton, List.not_mem_nil,
        or_false] at hkv
      rcases hkv with rfl | rfl
      · exact Or.inl ⟨rfl, Or.inl rfl⟩
      · exact Or.inr (Or.inl ⟨rfl, Or.inr ⟨_, rfl⟩⟩))
  exact ⟨h1.2.2.1 1 rfl, h1.2.1, h2.2.2.1 1 rfl⟩

end Comfyui2go
